import Mathlib

/-!
Cloud saves synchronisation (`backends/cloud/savessyncrequest.cpp`).

A shallow embedding of `Cloud::SavesSyncRequest`: the request object is a record,
every member function is a function on that record, and everything the request
does to its collaborators (storage, save-file manager, callbacks) is appended to
a log kept inside the record.

Conventions of the embedding.

* `Common::Array<T>` is a `List T`; `push_back` appends at the end and
  `back`/`pop_back` work on the last element.
* `Common::HashMap<Common::String, V>` is an association list.  `operator[]=`
  overwrites the entry of an existing key and appends a new key at the end, so
  keys stay unique; iteration visits the entries in list order (the source
  iterates in hash order; the properties below speak of membership and
  multiplicity only).
* The file counters are natural numbers (the source keeps them in `uint32`; the
  number of files is assumed to fit), the unsigned subtraction of `getProgress`
  wraps on underflow, and the byte counters are reduced modulo `2 ^ 32`
  (`2 ^ 64` for `totalSize`).
* Collaborators that are not part of the translated sources are fields of `Env`.

The file also embeds the JSON field tests of
`backends/networking/curl/curljsonrequest.cpp` (namespace `Networking`) and the item-ID
encoding of `engines/agos/saveload.cpp` (namespace `AGOS`).
-/

namespace Common

/-- The entries of a `Common::HashMap` keyed by strings. -/
abbrev HashMap (V : Type) := List (String × V)

namespace HashMap

/-- Lookup of a key (`find`). -/
def find {V : Type} (m : HashMap V) (k : String) : Option V :=
  match m with
  | [] => none
  | (k', v) :: rest => if k' = k then some v else find rest k

/-- Membership test `contains(key)`. -/
def contains {V : Type} (m : HashMap V) (k : String) : Bool :=
  (find m k).isSome

/-- Reading `m[key]` for a key; a missing key reads as the default value. -/
def getVal {V : Type} [Inhabited V] (m : HashMap V) (k : String) : V :=
  (find m k).getD default

/-- The assignment `m[key] = value`. -/
def assign {V : Type} (m : HashMap V) (k : String) (v : V) : HashMap V :=
  match m with
  | [] => [(k, v)]
  | (k', v') :: rest => if k' = k then (k, v) :: rest else (k', v') :: assign rest k v

/-- The keys in iteration order. -/
def keys {V : Type} (m : HashMap V) : List String := m.map Prod.fst

end HashMap

/-- Search of a pattern in a character sequence, as `strstr` does. -/
def strstr : List Char → List Char → Bool
  | [], pat => pat.isEmpty
  | c :: cs, pat => pat.isPrefixOf (c :: cs) || strstr cs pat

/-- The test `Common::String::contains(const char *)`. -/
def stringContains (s pat : String) : Bool := strstr s.data pat.data

/-- JSON values as produced by `Common::JSON::parse`. -/
inductive JSONValue where
  | null : JSONValue
  | string (s : String) : JSONValue
  | bool (b : Bool) : JSONValue
  | number (text : String) : JSONValue
  | integerNumber (n : Int) : JSONValue
  | array (items : List JSONValue) : JSONValue
  | object (fields : List (String × JSONValue)) : JSONValue

namespace JSONValue

def isString : JSONValue → Bool
  | string _ => true
  | _ => false

def isObject : JSONValue → Bool
  | object _ => true
  | _ => false

def isIntegerNumber : JSONValue → Bool
  | integerNumber _ => true
  | _ => false

def asString : JSONValue → String
  | string s => s
  | _ => ""

def asObject : JSONValue → HashMap JSONValue
  | object fields => fields
  | _ => []

end JSONValue

end Common

namespace Networking

/-- The states of a `Networking::Request`. -/
inductive RequestState where
  | PROCESSING
  | PAUSED
  | RETRY
  | FINISHED
deriving DecidableEq, Repr

/-- The payload `Networking::ErrorResponse`. -/
structure ErrorResponse where
  interrupted : Bool
  failed : Bool
  response : String
  httpResponseCode : Int
deriving DecidableEq, Repr

/-- Modelled from the spec: the constructor `ErrorResponse(request, message)` is not part
of the translated sources; an operation that could not be started is reported as a
failed, not interrupted error (status `-1`). -/
def ErrorResponse.ofMessage (message : String) : ErrorResponse :=
  { interrupted := false, failed := true, response := message, httpResponseCode := -1 }

end Networking

namespace Cloud

open Common Networking

/-- The descriptor `Cloud::StorageFile`. -/
structure StorageFile where
  id : String
  path : String
  name : String
  size : Nat
  timestamp : Nat
  isDirectory : Bool
deriving DecidableEq, Repr

/-- The default descriptor `StorageFile()`; `StorageFile("", 0, 0, false)` is the same. -/
def StorageFile.empty : StorageFile :=
  { id := "", path := "", name := "", size := 0, timestamp := 0, isDirectory := false }

/-- The response `Storage::ListDirectoryResponse`: the date of the answering request,
when there is one, and the listed files. -/
structure ListDirectoryResponse where
  request : Option String
  value : List StorageFile
deriving DecidableEq, Repr

/-- The response `Storage::BoolResponse`. -/
structure BoolResponse where
  request : Option String
  value : Bool
deriving DecidableEq, Repr

/-- The response `Storage::UploadResponse`. -/
structure UploadResponse where
  request : Option String
  value : StorageFile
deriving DecidableEq, Repr

/-- The operations the request asks of the storage. -/
inductive Operation where
  | listDirectory (dir : String)
  | createDirectory (dir : String)
  | downloadById (id : String) (dest : String)
  | uploadStream (path : String) (name : String)
  | uploadPath (path : String) (localPath : String)
deriving DecidableEq, Repr

/-- What the request does to its collaborators. -/
inductive Effect where
  | request (op : Operation)
  | finishWorking (op : Operation)
  | setStorageUsedSpace (totalSize : Nat)
  | saveTimestamps (timestamps : HashMap Nat)
  | removeSavefile (name : String)
  | setStorageLastSync (date : String)
  | errorCallback (error : ErrorResponse)
  | boolCallback (success : Bool)
deriving DecidableEq, Repr

/-- The collaborators of the request: constants of `DefaultSaveFileManager`, the
eligibility predicate of the cloud manager, the storage, and the JSON reader. -/
structure Env where
  TIMESTAMPS_FILENAME : String
  INVALID_TIMESTAMP : Nat
  canSyncFilename : String → Bool
  savesDirectoryPath : String
  uploadStreamSupported : Bool
  concatWithSavesPath : String → String
  parse : String → Option JSONValue
  hasBoolCallback : Bool

/-- The members of `Cloud::SavesSyncRequest`, and the log of its effects. -/
structure SavesSyncRequest where
  state : RequestState
  workingRequest : Option Operation
  ignoreCallback : Bool
  localFilesTimestamps : HashMap Nat
  filesToDownload : List StorageFile
  filesToUpload : List String
  currentDownloadingFile : StorageFile
  currentUploadingFile : String
  totalFilesToHandle : Nat
  bytesToDownload : Nat
  bytesDownloaded : Nat
  date : String
  log : List Effect

/-- The locals of the first loop of `directoryListedCallback`. -/
structure DiffLoop where
  filesToDownload : List StorageFile
  filesToUpload : List String
  localFileNotAvailableInCloud : HashMap Bool
  totalSize : Nat

/-- The loop of lines 87-89: every name of the index is marked as not seen remotely. -/
def markLocalFiles (timestamps : HashMap Nat) : HashMap Bool :=
  timestamps.foldl (fun m entry => HashMap.assign m entry.1 true) []

/-- One iteration of the loop over the remote files (lines 96-126). -/
def diffRemoteFile (env : Env) (timestamps : HashMap Nat) (st : DiffLoop)
    (file : StorageFile) : DiffLoop :=
  if file.isDirectory then st
  else
    let st := { st with totalSize := (st.totalSize + file.size) % 2 ^ 64 }
    if file.name = env.TIMESTAMPS_FILENAME || !env.canSyncFilename file.name then st
    else
      let name := file.name
      if !HashMap.contains timestamps name then
        { st with filesToDownload := st.filesToDownload ++ [file] }
      else
        let st := { st with
          localFileNotAvailableInCloud :=
            HashMap.assign st.localFileNotAvailableInCloud name false }
        if HashMap.getVal timestamps name = file.timestamp then st
        else if HashMap.getVal timestamps name > file.timestamp
            || HashMap.getVal timestamps name = env.INVALID_TIMESTAMP then
          { st with filesToUpload := st.filesToUpload ++ [file.name] }
        else
          { st with filesToDownload := st.filesToDownload ++ [file] }

/-- One iteration of the loop over the local names (lines 132-139). -/
def diffLocalFile (env : Env) (filesToUpload : List String) (localFile : String × Bool) :
    List String :=
  if localFile.1 = env.TIMESTAMPS_FILENAME || !env.canSyncFilename localFile.1 then
    filesToUpload
  else if localFile.2 then filesToUpload ++ [localFile.1]
  else filesToUpload

/-- The loop of lines 146-149: the sizes of the queued downloads, in `uint32`. -/
def sumDownloadSizes (files : List StorageFile) : Nat :=
  files.foldl (fun acc file => (acc + file.size) % 2 ^ 32) 0

/-- The diff of `directoryListedCallback` (lines 84-163): the request once
`_totalFilesToHandle` has been written, before the first transfer is started. -/
def diffPhase (env : Env) (s : SavesSyncRequest) (response : ListDirectoryResponse) :
    SavesSyncRequest :=
  let date := match response.request with
    | some d => d
    | none => s.date
  let st := response.value.foldl (diffRemoteFile env s.localFilesTimestamps)
    { filesToDownload := s.filesToDownload
      filesToUpload := s.filesToUpload
      localFileNotAvailableInCloud := markLocalFiles s.localFilesTimestamps
      totalSize := 0 }
  let filesToUpload := st.localFileNotAvailableInCloud.foldl (diffLocalFile env) st.filesToUpload
  { s with
    date := date
    filesToDownload := st.filesToDownload
    filesToUpload := filesToUpload
    bytesToDownload := sumDownloadSizes st.filesToDownload
    bytesDownloaded := 0
    totalFilesToHandle := st.filesToDownload.length + filesToUpload.length
    log := s.log ++ [Effect.setStorageUsedSpace st.totalSize] }

/-- Modelled from the spec: `Request::finishError` of the base class is not part of
the translated sources; by the spec's transition 9 (Failed) the request becomes
terminal and the completion callback receives the originating error. -/
def requestFinishError (s : SavesSyncRequest) (error : ErrorResponse) : SavesSyncRequest :=
  { s with state := RequestState.FINISHED, log := s.log ++ [Effect.errorCallback error] }

/-- Modelled from the spec: `Request::finishSuccess` of the base class is not part of
the translated sources; by the spec's transition 8 (Succeeded) the request becomes
terminal. -/
def requestFinishSuccess (s : SavesSyncRequest) : SavesSyncRequest :=
  { s with state := RequestState.FINISHED }

/-- The member `finishError` (lines 449-467). -/
def finishError (s : SavesSyncRequest) (error : ErrorResponse) : SavesSyncRequest :=
  let name := s.currentDownloadingFile.name
  let s := match s.workingRequest with
    | some op =>
      { s with
        workingRequest := none
        ignoreCallback := false
        log := s.log ++ [Effect.finishWorking op] }
    | none => s
  let s := { s with currentDownloadingFile := StorageFile.empty, filesToDownload := [] }
  let s := if name ≠ "" then { s with log := s.log ++ [Effect.removeSavefile name] } else s
  requestFinishError s error

/-- The member `finishSync` (lines 469-477). -/
def finishSync (env : Env) (s : SavesSyncRequest) (success : Bool) : SavesSyncRequest :=
  let s := requestFinishSuccess s
  let s := { s with log := s.log ++ [Effect.setStorageLastSync s.date] }
  if env.hasBoolCallback then { s with log := s.log ++ [Effect.boolCallback success] } else s

/-- The saves directory with a trailing separator removed (lines 68-70 and 236-238). -/
def savesDirectory (env : Env) : String :=
  let dir := env.savesDirectoryPath
  if dir.data.getLast? = some '/' then String.mk dir.data.dropLast else dir

/-- The member `uploadNextFile` (lines 326-352); `accept` tells whether the storage
creates the request it is asked for. -/
def uploadNextFile (env : Env) (s : SavesSyncRequest) (accept : Bool) : SavesSyncRequest :=
  match s.filesToUpload.getLast? with
  | none => finishSync env s true
  | some name =>
    let s := { s with currentUploadingFile := name, filesToUpload := s.filesToUpload.dropLast }
    let op :=
      if env.uploadStreamSupported then
        Operation.uploadStream (env.savesDirectoryPath ++ name) name
      else
        Operation.uploadPath (env.savesDirectoryPath ++ name) (env.concatWithSavesPath name)
    let s := { s with
      log := s.log ++ [Effect.request op]
      workingRequest := if accept then some op else none }
    if accept then s
    else finishError s (ErrorResponse.ofMessage
      "SavesSyncRequest::uploadNextFile: Storage couldn't create Request to upload a file")

/-- The member `downloadNextFile` (lines 274-293). -/
def downloadNextFile (env : Env) (s : SavesSyncRequest) (accept : Bool) : SavesSyncRequest :=
  match s.filesToDownload.getLast? with
  | none => uploadNextFile env { s with currentDownloadingFile := StorageFile.empty } accept
  | some file =>
    let s := { s with
      currentDownloadingFile := file
      filesToDownload := s.filesToDownload.dropLast }
    let op := Operation.downloadById file.id (env.concatWithSavesPath file.name)
    let s := { s with
      log := s.log ++ [Effect.request op]
      workingRequest := if accept then some op else none }
    if accept then s
    else finishError s (ErrorResponse.ofMessage
      "SavesSyncRequest::downloadNextFile: Storage couldn't create Request to download a file")

/-- The member `start` (lines 51-77); `loaded` is what `loadTimestamps` returns. -/
def start (env : Env) (s : SavesSyncRequest) (loaded : HashMap Nat) (accept : Bool) :
    SavesSyncRequest :=
  let s := match s.workingRequest with
    | some op => { s with log := s.log ++ [Effect.finishWorking op] }
    | none => s
  let s := { s with
    currentDownloadingFile := StorageFile.empty
    currentUploadingFile := ""
    filesToDownload := []
    filesToUpload := []
    totalFilesToHandle := 0
    ignoreCallback := false
    localFilesTimestamps := loaded }
  let op := Operation.listDirectory (savesDirectory env)
  let s := { s with
    log := s.log ++ [Effect.request op]
    workingRequest := if accept then some op else none }
  if accept then s
  else finishError s (ErrorResponse.ofMessage
    "SavesSyncRequest::start: Storage couldn't create Request to list directory")

/-- The constructor (lines 38-42): the initialised members, then `start`. -/
def SavesSyncRequest.create (env : Env) (loaded : HashMap Nat) (accept : Bool) :
    SavesSyncRequest :=
  start env
    { state := RequestState.PROCESSING
      workingRequest := none
      ignoreCallback := false
      localFilesTimestamps := []
      filesToDownload := []
      filesToUpload := []
      currentDownloadingFile := StorageFile.empty
      currentUploadingFile := ""
      totalFilesToHandle := 0
      bytesToDownload := 0
      bytesDownloaded := 0
      date := ""
      log := [] }
    loaded accept

/-- The member `directoryListedCallback` (lines 79-171). -/
def directoryListedCallback (env : Env) (s : SavesSyncRequest)
    (response : ListDirectoryResponse) (accept : Bool) : SavesSyncRequest :=
  let s := { s with workingRequest := none }
  if s.ignoreCallback then s
  else
    let s := diffPhase env s response
    if !s.filesToDownload.isEmpty then downloadNextFile env s accept
    else uploadNextFile env s accept

end Cloud

namespace Networking

open Common

/-- The helper `CurlJsonRequest::jsonContainsString` (lines 112-127); the warning
prefix only feeds the log output. -/
def jsonContainsString (item : HashMap JSONValue) (key : String) (isOptional : Bool) : Bool :=
  if !HashMap.contains item key then
    if isOptional then true else false
  else if ((HashMap.find item key).getD JSONValue.null).isString then true
  else false

/-- The helper `CurlJsonRequest::jsonContainsIntegerNumber` (lines 129-144). -/
def jsonContainsIntegerNumber (item : HashMap JSONValue) (key : String) (isOptional : Bool) :
    Bool :=
  if !HashMap.contains item key then
    if isOptional then true else false
  else if ((HashMap.find item key).getD JSONValue.null).isIntegerNumber then true
  else false

/-- The helper `CurlJsonRequest::jsonContainsStringOrIntegerNumber` (lines 163-178). -/
def jsonContainsStringOrIntegerNumber (item : HashMap JSONValue) (key : String)
    (isOptional : Bool) : Bool :=
  if !HashMap.contains item key then
    if isOptional then true else false
  else if ((HashMap.find item key).getD JSONValue.null).isString
      || ((HashMap.find item key).getD JSONValue.null).isIntegerNumber then true
  else false

end Networking

namespace Cloud

open Common Networking

/-- The value `object.getVal(key)`. -/
def getVal (object : HashMap JSONValue) (key : String) : JSONValue :=
  (HashMap.find object key).getD JSONValue.null

/-- The repair of lines 186-190: every period of the body becomes a space. -/
def fixedResponse (response : String) : String :=
  String.mk (response.data.map (fun c => if c = '.' then ' ' else c))

/-- The inspection of a parsed object (lines 196-215); the result is the new value
of `irrecoverable`. -/
def inspectObject (object : HashMap JSONValue) (irrecoverable : Bool) : Bool :=
  let irrecoverable :=
    if HashMap.contains object "error_summary" && (getVal object "error_summary").isString then
      let summary := (getVal object "error_summary").asString
      if stringContains summary "not_found" then false else irrecoverable
    else irrecoverable
  if HashMap.contains object "error" && (getVal object "error").isObject then
    let errorNode := (getVal object "error").asObject
    if jsonContainsString errorNode "code" false then
      let code := (getVal errorNode "code").asString
      if code = "itemNotFound" then false else irrecoverable
    else irrecoverable
  else irrecoverable

/-- The classification of a listing error (lines 180-228): the value of
`irrecoverable` when line 230 is reached. -/
def listingErrorIrrecoverable (env : Env) (error : ErrorResponse) : Bool :=
  let irrecoverable := error.interrupted || error.failed
  if error.failed then
    let value := match env.parse error.response with
      | some v => some v
      | none => env.parse (fixedResponse error.response)
    let irrecoverable := match value with
      | some v => if v.isObject then inspectObject v.asObject irrecoverable else irrecoverable
      | none => irrecoverable
    if stringContains error.response "subdirectory not found" then false
    else if stringContains error.response "no such file found in its parent directory" then false
    else if stringContains error.response "itemNotFound"
        && stringContains error.response "Item does not exist" then false
    else irrecoverable
  else irrecoverable

/-- The member `directoryListedErrorCallback` (lines 173-247). -/
def directoryListedErrorCallback (env : Env) (s : SavesSyncRequest) (error : ErrorResponse)
    (accept : Bool) : SavesSyncRequest :=
  let s := { s with workingRequest := none }
  if s.ignoreCallback then s
  else if listingErrorIrrecoverable env error then finishError s error
  else
    let op := Operation.createDirectory (savesDirectory env)
    let s := { s with
      log := s.log ++ [Effect.request op]
      workingRequest := if accept then some op else none }
    if accept then s
    else finishError s (ErrorResponse.ofMessage
      "SavesSyncRequest::directoryListedErrorCallback: Storage couldn't create Request to create remote directory")

/-- The member `directoryCreatedCallback` (lines 249-263). -/
def directoryCreatedCallback (env : Env) (s : SavesSyncRequest) (response : BoolResponse)
    (accept : Bool) : SavesSyncRequest :=
  let s := { s with workingRequest := none }
  if s.ignoreCallback then s
  else if !response.value then
    finishError s
      { interrupted := false, failed := true,
        response := "SavesSyncRequest::directoryCreatedCallback: failed to create remote directory",
        httpResponseCode := -1 }
  else
    directoryListedCallback env s { request := response.request, value := [] } accept

/-- The member `directoryCreatedErrorCallback` (lines 265-272). -/
def directoryCreatedErrorCallback (s : SavesSyncRequest) (error : ErrorResponse) :
    SavesSyncRequest :=
  let s := { s with workingRequest := none }
  if s.ignoreCallback then s else finishError s error

/-- The member `fileDownloadedCallback` (lines 295-315). -/
def fileDownloadedCallback (env : Env) (s : SavesSyncRequest) (response : BoolResponse)
    (accept : Bool) : SavesSyncRequest :=
  let s := { s with workingRequest := none }
  if s.ignoreCallback then s
  else if !response.value then
    let s := { s with log := s.log ++ [Effect.removeSavefile s.currentDownloadingFile.name] }
    finishError s
      { interrupted := false, failed := true,
        response := "SavesSyncRequest::fileDownloadedCallback: failed to download a file",
        httpResponseCode := -1 }
  else
    let timestamps := HashMap.assign s.localFilesTimestamps s.currentDownloadingFile.name
      s.currentDownloadingFile.timestamp
    let s := { s with
      localFilesTimestamps := timestamps
      log := s.log ++ [Effect.saveTimestamps timestamps]
      bytesDownloaded := (s.bytesDownloaded + s.currentDownloadingFile.size) % 2 ^ 32 }
    downloadNextFile env s accept

/-- The member `fileDownloadedErrorCallback` (lines 317-324). -/
def fileDownloadedErrorCallback (s : SavesSyncRequest) (error : ErrorResponse) :
    SavesSyncRequest :=
  let s := { s with workingRequest := none }
  if s.ignoreCallback then s else finishError s error

/-- The member `fileUploadedCallback` (lines 354-365). -/
def fileUploadedCallback (env : Env) (s : SavesSyncRequest) (response : UploadResponse)
    (accept : Bool) : SavesSyncRequest :=
  let s := { s with workingRequest := none }
  if s.ignoreCallback then s
  else
    let timestamps := HashMap.assign s.localFilesTimestamps s.currentUploadingFile
      response.value.timestamp
    let s := { s with
      localFilesTimestamps := timestamps
      log := s.log ++ [Effect.saveTimestamps timestamps] }
    uploadNextFile env s accept

/-- The member `fileUploadedErrorCallback` (lines 367-374). -/
def fileUploadedErrorCallback (s : SavesSyncRequest) (error : ErrorResponse) :
    SavesSyncRequest :=
  let s := { s with workingRequest := none }
  if s.ignoreCallback then s else finishError s error

/-- Subtraction of two `uint32` counters: it wraps around on underflow. -/
def sub32 (a b : Nat) : Nat := if b ≤ a then a - b else a + 2 ^ 32 - b

/-- The member `getProgress` (lines 416-424), the quotient taken exactly. -/
def getProgress (s : SavesSyncRequest) : ℚ :=
  if s.totalFilesToHandle = 0 then
    if s.state = RequestState.FINISHED then 1 else 0
  else
    (sub32 (sub32 s.totalFilesToHandle s.filesToDownload.length) s.filesToUpload.length : ℚ)
      / (s.totalFilesToHandle : ℚ)

/-- The completions the storage can deliver to the request. -/
inductive Event where
  | directoryListed (response : ListDirectoryResponse)
  | directoryListedError (error : ErrorResponse)
  | directoryCreated (response : BoolResponse)
  | directoryCreatedError (error : ErrorResponse)
  | fileDownloaded (response : BoolResponse)
  | fileDownloadedError (error : ErrorResponse)
  | fileUploaded (response : UploadResponse)
  | fileUploadedError (error : ErrorResponse)
deriving DecidableEq, Repr

/-- Delivery of a completion: only the callbacks of the operation in flight can be
delivered; `accept` tells whether the storage creates the next request. -/
def deliver (env : Env) (s : SavesSyncRequest) (ev : Event) (accept : Bool) :
    Option SavesSyncRequest :=
  match s.workingRequest, ev with
  | some (Operation.listDirectory _), Event.directoryListed r =>
    some (directoryListedCallback env s r accept)
  | some (Operation.listDirectory _), Event.directoryListedError e =>
    some (directoryListedErrorCallback env s e accept)
  | some (Operation.createDirectory _), Event.directoryCreated r =>
    some (directoryCreatedCallback env s r accept)
  | some (Operation.createDirectory _), Event.directoryCreatedError e =>
    some (directoryCreatedErrorCallback s e)
  | some (Operation.downloadById _ _), Event.fileDownloaded r =>
    some (fileDownloadedCallback env s r accept)
  | some (Operation.downloadById _ _), Event.fileDownloadedError e =>
    some (fileDownloadedErrorCallback s e)
  | some (Operation.uploadStream _ _), Event.fileUploaded r =>
    some (fileUploadedCallback env s r accept)
  | some (Operation.uploadStream _ _), Event.fileUploadedError e =>
    some (fileUploadedErrorCallback s e)
  | some (Operation.uploadPath _ _), Event.fileUploaded r =>
    some (fileUploadedCallback env s r accept)
  | some (Operation.uploadPath _ _), Event.fileUploadedError e =>
    some (fileUploadedErrorCallback s e)
  | _, _ => none

/-- A run: the completions delivered one after the other. -/
def run (env : Env) (s : SavesSyncRequest) : List (Event × Bool) → Option SavesSyncRequest
  | [] => some s
  | (ev, accept) :: rest =>
    match deliver env s ev accept with
    | some s' => run env s' rest
    | none => none

/-- A name that may be queued: neither the index file nor rejected by the cloud manager
(the tests of lines 100 and 133, negated). -/
def syncable (env : Env) (name : String) : Bool :=
  !(name = env.TIMESTAMPS_FILENAME || !env.canSyncFilename name)

/-- The remote file reaches line 108: its name is marked as seen remotely. -/
def seenRemotely (env : Env) (timestamps : HashMap Nat) (file : StorageFile) : Bool :=
  !file.isDirectory && syncable env file.name && HashMap.contains timestamps file.name

/-- The test of line 115: the local timestamp is newer or invalid. -/
def localWins (env : Env) (timestamps : HashMap Nat) (file : StorageFile) : Bool :=
  decide (HashMap.getVal timestamps file.name > file.timestamp)
    || decide (HashMap.getVal timestamps file.name = env.INVALID_TIMESTAMP)

/-- The remote file reaches line 105 or line 118: it is queued for download. -/
def remoteDownload (env : Env) (timestamps : HashMap Nat) (file : StorageFile) : Bool :=
  !file.isDirectory && syncable env file.name &&
    (!HashMap.contains timestamps file.name ||
      (!decide (HashMap.getVal timestamps file.name = file.timestamp)
        && !localWins env timestamps file))

/-- The remote file reaches line 116: its name is queued for upload. -/
def remoteUpload (env : Env) (timestamps : HashMap Nat) (file : StorageFile) : Bool :=
  seenRemotely env timestamps file
    && !decide (HashMap.getVal timestamps file.name = file.timestamp)
    && localWins env timestamps file

/-- The names marked as seen remotely, in the order of the listing. -/
def markSeen (m : HashMap Bool) (files : List StorageFile) : HashMap Bool :=
  files.foldl (fun m file => HashMap.assign m file.name false) m

/-- The names queued by the loop over the local names. -/
def localOnly (env : Env) (ts : HashMap Nat) (files : List StorageFile) : List String :=
  ((markSeen (markLocalFiles ts) (files.filter (seenRemotely env ts))).filter
    (fun e => syncable env e.1 && e.2)).map Prod.fst

/-- A listing or a directory creation is in flight: the diff has not run yet. -/
def listingPhase (s : SavesSyncRequest) : Bool :=
  match s.workingRequest with
  | some (Operation.listDirectory _) => true
  | some (Operation.createDirectory _) => true
  | _ => false

/-- An upload is in flight. -/
def uploadPhase (s : SavesSyncRequest) : Bool :=
  match s.workingRequest with
  | some (Operation.uploadStream _ _) => true
  | some (Operation.uploadPath _ _) => true
  | _ => false

/-- The run has reached `finishSync`: the sync date has been stored. -/
def succeeded (s : SavesSyncRequest) : Prop :=
  ∃ date, Effect.setStorageLastSync date ∈ s.log

/-- What one handler call can do to the queues and counters once the diff has run. -/
structure Shrinks (s s' : SavesSyncRequest) : Prop where
  total : s'.totalFilesToHandle = s.totalFilesToHandle
  download : s'.filesToDownload.Sublist s.filesToDownload
  upload : s'.filesToUpload.Sublist s.filesToUpload
  finished : s.state = RequestState.FINISHED → s'.state = RequestState.FINISHED
  phase : listingPhase s = false → listingPhase s' = false

/-- The facts that hold in every state of a run. -/
structure Inv (s : SavesSyncRequest) : Prop where
  ignore : s.ignoreCallback = false
  fresh : listingPhase s = true →
    s.filesToDownload = [] ∧ s.filesToUpload = [] ∧ s.totalFilesToHandle = 0
      ∧ s.state ≠ RequestState.FINISHED
  bound : s.filesToDownload.length + s.filesToUpload.length ≤ s.totalFilesToHandle
  uploading : uploadPhase s = true → s.filesToDownload = []
  done : succeeded s →
    s.workingRequest = none ∧ s.filesToDownload = [] ∧ s.filesToUpload = []
      ∧ s.state = RequestState.FINISHED

/-- No filename is in both queues. -/
def NoClash (s : SavesSyncRequest) : Prop :=
  ∀ d ∈ s.filesToDownload, d.name ∉ s.filesToUpload

/-- The structured reading of an error body in the reference definition: the first
parse, or the parse of the period-repaired body when the first parse fails. -/
def structuredParse (env : Env) (body : String) : Option JSONValue :=
  match env.parse body with
  | some v => some v
  | none => env.parse (fixedResponse body)

/-- The object has a string field `error_summary` whose value contains `not_found`. -/
def hasNotFoundSummary (fields : HashMap JSONValue) : Bool :=
  match HashMap.find fields "error_summary" with
  | some (JSONValue.string summary) => stringContains summary "not_found"
  | _ => false

/-- The object has an object field `error` whose string field `code` is `itemNotFound`. -/
def hasItemNotFoundCode (fields : HashMap JSONValue) : Bool :=
  match HashMap.find fields "error" with
  | some (JSONValue.object node) =>
    match HashMap.find node "code" with
    | some (JSONValue.string code) => decide (code = "itemNotFound")
    | _ => false
  | _ => false

/-- The condition `M` of the reference definition: a not-found shape in the structured
reading, or a not-found phrase in the raw body. -/
def matchesNotFound (env : Env) (body : String) : Bool :=
  (match structuredParse env body with
    | some (JSONValue.object fields) => hasNotFoundSummary fields || hasItemNotFoundCode fields
    | _ => false)
  || stringContains body "subdirectory not found"
  || stringContains body "no such file found in its parent directory"
  || (stringContains body "itemNotFound" && stringContains body "Item does not exist")

/-- The reference definition of the classifier. -/
def referenceIrrecoverable (env : Env) (error : ErrorResponse) : Bool :=
  (error.interrupted || error.failed) && !(error.failed && matchesNotFound env error.response)

/-- The claim's "contains": the characters of `pat` occur consecutively in `body`. -/
def specContains (body pat : String) : Prop := pat.data <:+: body.data

/-- The claim's period-repaired body: `fixed` has the characters of `body`, one for one,
a space where `body` has a period and the same character elsewhere. -/
def specPeriodRepair (body fixed : String) : Prop :=
  List.Forall₂ (fun c d => (c = '.' → d = ' ') ∧ (c ≠ '.' → d = c)) body.data fixed.data

/-- The claim's structured parse of a body yields `value`: the first parse does, or the
first parse fails and the parse of the period-repaired body does. -/
def specStructuredParse (env : Env) (body : String) (value : JSONValue) : Prop :=
  env.parse body = some value ∨
    (env.parse body = none ∧ ∃ fixed, specPeriodRepair body fixed ∧ env.parse fixed = some value)

/-- The claim's not-found shapes of an object: a string field `error_summary` whose value
contains `not_found`, or an object field `error` whose string field `code` equals
`itemNotFound`. -/
def specNotFoundShape (fields : HashMap JSONValue) : Prop :=
  (∃ summary, HashMap.find fields "error_summary" = some (JSONValue.string summary) ∧
    specContains summary "not_found") ∨
  (∃ node, HashMap.find fields "error" = some (JSONValue.object node) ∧
    HashMap.find node "code" = some (JSONValue.string "itemNotFound"))

/-- The claim's condition `M` on a body. -/
def specMatchesNotFound (env : Env) (body : String) : Prop :=
  (∃ fields, specStructuredParse env body (JSONValue.object fields) ∧
    specNotFoundShape fields) ∨
  specContains body "subdirectory not found" ∨
  specContains body "no such file found in its parent directory" ∨
  (specContains body "itemNotFound" ∧ specContains body "Item does not exist")

/-- The effect is a request made to the storage. -/
def Effect.isRequest : Effect → Bool
  | Effect.request _ => true
  | _ => false

/-- The effect is a call of the error callback. -/
def Effect.isErrorCallback : Effect → Bool
  | Effect.errorCallback _ => true
  | _ => false

/-- The effect is a call of the completion callback. -/
def Effect.isBoolCallback : Effect → Bool
  | Effect.boolCallback _ => true
  | _ => false

/-- The effect stores the date of the last successful sync. -/
def Effect.isSetStorageLastSync : Effect → Bool
  | Effect.setStorageLastSync _ => true
  | _ => false

/-- The effect is a download request. -/
def Effect.isDownloadRequest : Effect → Bool
  | Effect.request (Operation.downloadById _ _) => true
  | _ => false

/-- The effect is an upload request. -/
def Effect.isUploadRequest : Effect → Bool
  | Effect.request (Operation.uploadStream _ _) => true
  | Effect.request (Operation.uploadPath _ _) => true
  | _ => false

/-- The effect hands the index to `saveTimestamps`. -/
def Effect.isSaveTimestamps : Effect → Bool
  | Effect.saveTimestamps _ => true
  | _ => false

/-- A download is in flight. -/
def downloadInFlight (s : SavesSyncRequest) : Bool :=
  match s.workingRequest with
  | some (Operation.downloadById _ _) => true
  | _ => false

/-- The destructor (lines 44-49). -/
def destructor (s : SavesSyncRequest) : SavesSyncRequest :=
  let s := { s with ignoreCallback := true }
  match s.workingRequest with
  | some op => { s with log := s.log ++ [Effect.finishWorking op] }
  | none => s

/-- The request asked `op` of the storage, was refused, and failed on the spot: since
`s` the only request is `op`, the error callback was called once, with a failed error,
the completion callback was not called, and nothing is in flight any more. -/
def FailsImmediately (env : Env) (s s' : SavesSyncRequest) (op : Operation) : Prop :=
  ∃ (ext : List Effect) (error : ErrorResponse),
    s'.log = s.log ++ ext ∧
    ext.filter Effect.isRequest = [Effect.request op] ∧
    ext.filter Effect.isErrorCallback = [Effect.errorCallback error] ∧
    error.failed = true ∧
    ext.filter Effect.isBoolCallback = [] ∧
    ext.filter Effect.isSetStorageLastSync = [] ∧
    s'.workingRequest = none ∧
    s'.state = RequestState.FINISHED ∧
    ∀ (ev : Event) (accept : Bool), deliver env s' ev accept = none

/-- The request after a start and a recoverable listing error: the create-directory
operation is in flight. -/
def awaitingDirectory (env : Env) (s : SavesSyncRequest) (loaded : HashMap Nat)
    (error : ErrorResponse) : SavesSyncRequest :=
  directoryListedErrorCallback env (start env s loaded true) error true

/-- The upload operation asked of the storage for a name (lines 336-350). -/
def uploadOperation (env : Env) (name : String) : Operation :=
  if env.uploadStreamSupported then
    Operation.uploadStream (env.savesDirectoryPath ++ name) name
  else
    Operation.uploadPath (env.savesDirectoryPath ++ name) (env.concatWithSavesPath name)

/-- The download operation asked of the storage for a descriptor (lines 285-290). -/
def downloadOperation (env : Env) (file : StorageFile) : Operation :=
  Operation.downloadById file.id (env.concatWithSavesPath file.name)

/-- The error built at line 304. -/
def downloadFailedError : ErrorResponse :=
  { interrupted := false, failed := true,
    response := "SavesSyncRequest::fileDownloadedCallback: failed to download a file",
    httpResponseCode := -1 }

/-- The error built at line 256. -/
def directoryNotCreatedError : ErrorResponse :=
  { interrupted := false, failed := true,
    response := "SavesSyncRequest::directoryCreatedCallback: failed to create remote directory",
    httpResponseCode := -1 }

/-- No terminal effect is in the log: neither callback was called and no sync date stored. -/
def Quiet (log : List Effect) : Prop :=
  log.filter Effect.isErrorCallback = [] ∧
    log.filter Effect.isSetStorageLastSync = [] ∧
    log.filter Effect.isBoolCallback = []

/-- How a run stands: still running and quiet, or ended in failure (one error callback,
no sync date stored, no completion callback), or ended in success (no error callback, the
recorded date stored once, the completion callback, when there is one, called once with
`true`, both queues empty). -/
structure Outcome (env : Env) (s : SavesSyncRequest) : Prop where
  running : s.workingRequest ≠ none → Quiet s.log
  ended : s.workingRequest = none →
    ((∃ error, s.log.filter Effect.isErrorCallback = [Effect.errorCallback error]) ∧
      s.log.filter Effect.isSetStorageLastSync = [] ∧
      s.log.filter Effect.isBoolCallback = []) ∨
    (s.log.filter Effect.isErrorCallback = [] ∧
      s.log.filter Effect.isSetStorageLastSync = [Effect.setStorageLastSync s.date] ∧
      s.log.filter Effect.isBoolCallback
        = (if env.hasBoolCallback then [Effect.boolCallback true] else []) ∧
      s.filesToDownload = [] ∧ s.filesToUpload = [] ∧ s.state = RequestState.FINISHED)

/-- The log entries before the first upload request. -/
def beforeFirstUpload (log : List Effect) : List Effect :=
  log.takeWhile (fun e => !e.isUploadRequest)

/-- The log entries from the first upload request on. -/
def fromFirstUpload (log : List Effect) : List Effect :=
  log.dropWhile (fun e => !e.isUploadRequest)

/-- When an upload has been requested: before the first upload request there are
`downloads` download requests and as many successful completions (`saveTimestamps`),
and no download request comes after it. -/
def UploadsFollowDownloads (downloads : Nat) (ext : List Effect) : Prop :=
  ext.any Effect.isUploadRequest = true →
    (beforeFirstUpload ext).countP Effect.isDownloadRequest = downloads ∧
    (beforeFirstUpload ext).countP Effect.isSaveTimestamps = downloads ∧
    (fromFirstUpload ext).all (fun e => !e.isDownloadRequest) = true

/-- The state of the transfers, `ext` being what the request has done since the listing
arrived and `downloads` the number of downloads the diff queued. -/
structure Drains (downloads : Nat) (ext : List Effect) (s : SavesSyncRequest) : Prop where
  ignore : s.ignoreCallback = false
  phase : listingPhase s = false
  downloading : downloadInFlight s = true →
    ext.any Effect.isUploadRequest = false ∧
    ext.countP Effect.isDownloadRequest + s.filesToDownload.length = downloads ∧
    ext.countP Effect.isSaveTimestamps + 1 = ext.countP Effect.isDownloadRequest
  uploading : uploadPhase s = true → ext.any Effect.isUploadRequest = true
  drained : ext.any Effect.isUploadRequest = true →
    s.filesToDownload = [] ∧ downloadInFlight s = false
  ordered : UploadsFollowDownloads downloads ext

/-- The member `getFilesToDownload` (lines 426-433). -/
def getFilesToDownload (s : SavesSyncRequest) : List String :=
  let result := s.filesToDownload.map StorageFile.name
  if s.currentDownloadingFile.name ≠ "" then result ++ [s.currentDownloadingFile.name]
  else result

/-- The member `getDownloadedBytes` (lines 435-443). `progress` is what `getProgress` of
the working request returns when one of the two casts to a download request succeeds;
with no download in flight both casts fail and the progress of the current file is `0`.
The sum is converted back to `uint32`. -/
def getDownloadedBytes (s : SavesSyncRequest) (progress : ℚ) : Nat :=
  let currentFileProgress : ℚ := if downloadInFlight s then progress else 0
  (Rat.floor ((s.bytesDownloaded : ℚ)
    + currentFileProgress * (s.currentDownloadingFile.size : ℚ))).toNat % 2 ^ 32

/-- The member `getBytesToDownload` (lines 445-447). -/
def getBytesToDownload (s : SavesSyncRequest) : Nat := s.bytesToDownload

/-- The member `getDownloadingProgress` (lines 380-400), the quotients taken exactly. -/
def getDownloadingProgress (s : SavesSyncRequest) (progress : ℚ) : ℚ :=
  if s.totalFilesToHandle = 0 then
    if s.state = RequestState.FINISHED then 1 else 0
  else if s.totalFilesToHandle = s.filesToUpload.length then 1
  else if s.bytesToDownload > 0 then
    (getDownloadedBytes s progress : ℚ) / (s.bytesToDownload : ℚ)
  else
    let totalFilesToDownload := sub32 s.totalFilesToHandle s.filesToUpload.length
    let filesLeftToDownload :=
      s.filesToDownload.length + (if s.currentDownloadingFile.name ≠ "" then 1 else 0)
    let filesLeftToDownload :=
      if filesLeftToDownload > totalFilesToDownload then totalFilesToDownload
      else filesLeftToDownload
    (sub32 totalFilesToDownload filesLeftToDownload : ℚ) / (totalFilesToDownload : ℚ)

/-- The record `Storage::SyncDownloadingInfo`. -/
structure SyncDownloadingInfo where
  bytesDownloaded : Nat
  bytesToDownload : Nat
  filesDownloaded : Nat
  filesToDownload : Nat
  inProgress : Bool
deriving DecidableEq, Repr

/-- The member `getDownloadingInfo` (lines 402-414). -/
def getDownloadingInfo (s : SavesSyncRequest) (progress : ℚ) : SyncDownloadingInfo :=
  let totalFilesToDownload := sub32 s.totalFilesToHandle s.filesToUpload.length
  let filesLeftToDownload :=
    s.filesToDownload.length + (if s.currentDownloadingFile.name ≠ "" then 1 else 0)
  let filesLeftToDownload :=
    if filesLeftToDownload > totalFilesToDownload then totalFilesToDownload
    else filesLeftToDownload
  { bytesDownloaded := getDownloadedBytes s progress
    bytesToDownload := getBytesToDownload s
    filesDownloaded := sub32 totalFilesToDownload filesLeftToDownload
    filesToDownload := totalFilesToDownload
    inProgress := decide (totalFilesToDownload > 0) && decide (filesLeftToDownload > 0) }

/-- The sizes of the non-directory files of a listing, added up in `uint64`: what the
loop of lines 95-127 leaves in `totalSize`. -/
def listedSize (files : List StorageFile) : Nat :=
  files.foldl (fun acc file => if file.isDirectory then acc else (acc + file.size) % 2 ^ 64) 0

/-- The total as the specification describes it: the sizes of the non-directory remote
files that are eligible and not the index file. -/
def eligibleSize (env : Env) (files : List StorageFile) : Nat :=
  ((files.filter (fun file => !file.isDirectory && syncable env file.name)).map
    StorageFile.size).sum

/-- The listing with its directory entries removed. -/
def withoutDirectories (response : ListDirectoryResponse) : ListDirectoryResponse :=
  { response with value := response.value.filter (fun file => !file.isDirectory) }

/-- The effect is the forced termination of the working request. -/
def Effect.isFinishWorking : Effect → Bool
  | Effect.finishWorking _ => true
  | _ => false

/-- Lines 53-55 of `start` and 455-456 of `finishError`: the flag is raised, then the
working request `op` is finished. `fired` is the completion the finishing request
delivers to its callback meanwhile, when it delivers one. -/
def finishWorkingRequest (env : Env) (s : SavesSyncRequest) (op : Operation)
    (fired : Option (Event × Bool)) : SavesSyncRequest :=
  let s := { s with ignoreCallback := true }
  let s := { s with log := s.log ++ [Effect.finishWorking op] }
  match fired with
  | some (ev, accept) => (deliver env s ev accept).getD s
  | none => s

/-- The member `start` (lines 51-77), the cancellation written statement by statement. -/
def startStepwise (env : Env) (s : SavesSyncRequest) (loaded : HashMap Nat) (accept : Bool)
    (fired : Option (Event × Bool)) : SavesSyncRequest :=
  let s := match s.workingRequest with
    | some op => finishWorkingRequest env s op fired
    | none => { s with ignoreCallback := true }
  let s := { s with
    currentDownloadingFile := StorageFile.empty
    currentUploadingFile := ""
    filesToDownload := []
    filesToUpload := []
    localFilesTimestamps := []
    totalFilesToHandle := 0
    ignoreCallback := false }
  let s := { s with localFilesTimestamps := loaded }
  let op := Operation.listDirectory (savesDirectory env)
  let s := { s with
    log := s.log ++ [Effect.request op]
    workingRequest := if accept then some op else none }
  if accept then s
  else finishError s (ErrorResponse.ofMessage
    "SavesSyncRequest::start: Storage couldn't create Request to list directory")

/-- The member `finishError` (lines 449-467), the cancellation written statement by
statement. -/
def finishErrorStepwise (env : Env) (s : SavesSyncRequest) (error : ErrorResponse)
    (fired : Option (Event × Bool)) : SavesSyncRequest :=
  let name := s.currentDownloadingFile.name
  let s := match s.workingRequest with
    | some op =>
      let s := finishWorkingRequest env s op fired
      { s with workingRequest := none, ignoreCallback := false }
    | none => s
  let s := { s with currentDownloadingFile := StorageFile.empty, filesToDownload := [] }
  let s := if name ≠ "" then { s with log := s.log ++ [Effect.removeSavefile name] } else s
  requestFinishError s error

/-- The upload requests of a log, in order. -/
def uploadRequests (log : List Effect) : List Effect := log.filter Effect.isUploadRequest

/-- What the upload marker holds: the empty name as long as no upload has been requested,
and from then on the name of the upload requested last. -/
def UploadMarked (env : Env) (log : List Effect) (name : String) : Prop :=
  (uploadRequests log = [] ∧ name = "") ∨
    (uploadRequests log).getLast? = some (Effect.request (uploadOperation env name))

/-- Facts on the markers and the byte counters that hold in every state of a run. -/
structure Tidy (env : Env) (s : SavesSyncRequest) : Prop where
  idle : downloadInFlight s = false →
    s.currentDownloadingFile = StorageFile.empty ∧ s.filesToDownload = []
  flight : downloadInFlight s = true →
    s.workingRequest = some (downloadOperation env s.currentDownloadingFile)
  bytes : s.bytesDownloaded < 2 ^ 32
  nothing : s.bytesToDownload = 0 ∨ s.filesToUpload.length < s.totalFilesToHandle
  marker : UploadMarked env s.log s.currentUploadingFile
  uploading : uploadPhase s = true →
    s.workingRequest = some (uploadOperation env s.currentUploadingFile)

/-- The completion reports the failure of a transfer: the error callback of a download
or of an upload, or a download completed with `ok = false`. -/
def Event.isTransferFailure : Event → Bool
  | Event.fileDownloaded response => !response.value
  | Event.fileDownloadedError _ => true
  | Event.fileUploadedError _ => true
  | _ => false

/-- The handler ended the run in failure: since `s` it deleted local files at most, then
called the error callback; it requested nothing, left the upload queue as it was, and
nothing is in flight or deliverable any more. -/
def Aborts (env : Env) (s s' : SavesSyncRequest) : Prop :=
  ∃ (ext : List Effect) (error : ErrorResponse),
    s'.log = s.log ++ ext ++ [Effect.errorCallback error] ∧
    (∀ e ∈ ext, ∃ name, e = Effect.removeSavefile name) ∧
    s'.filesToUpload = s.filesToUpload ∧
    s'.workingRequest = none ∧
    s'.state = RequestState.FINISHED ∧
    ∀ (ev : Event) (accept : Bool), deliver env s' ev accept = none

/-- What a handler did after the log `base`: it requested at most one operation, finished
none by force, and an operation in flight afterwards is the one it requested. -/
def IssuesAtMostOne (base : List Effect) (s' : SavesSyncRequest) : Prop :=
  ∃ ext : List Effect,
    s'.log = base ++ ext ∧
    ext.countP Effect.isRequest ≤ 1 ∧
    ext.countP Effect.isFinishWorking = 0 ∧
    ∀ op, s'.workingRequest = some op → ext.filter Effect.isRequest = [Effect.request op]

/-- After `completions` delivered completions: at most `completions + 1` operations were
requested, and when one is in flight all of them were and it is the last one. -/
structure Counted (completions : Nat) (s : SavesSyncRequest) : Prop where
  issued : s.log.countP Effect.isRequest ≤ completions + 1
  flying : ∀ op, s.workingRequest = some op →
    s.log.countP Effect.isRequest = completions + 1 ∧
      (s.log.filter Effect.isRequest).getLast? = some (Effect.request op)
  unforced : s.log.countP Effect.isFinishWorking = 0

/-- The effect is the deletion of a local file. -/
def Effect.isRemoveSavefile : Effect → Bool
  | Effect.removeSavefile _ => true
  | _ => false

/-- The completion reports the failure of the listing or of the directory creation: one
of their error callbacks, or a directory creation completed with `ok = false`. -/
def Event.isListingFailure : Event → Bool
  | Event.directoryListedError _ => true
  | Event.directoryCreatedError _ => true
  | Event.directoryCreated response => !response.value
  | _ => false

/-- None of the effects is the deletion of a local file. -/
def DeletesNothing (ext : List Effect) : Prop :=
  ∀ e ∈ ext, e.isRemoveSavefile = false

/-- The error built at line 292. -/
def downloadRefusedError : ErrorResponse :=
  ErrorResponse.ofMessage
    "SavesSyncRequest::downloadNextFile: Storage couldn't create Request to download a file"

/-- The bytes still to download: the sizes of the queued descriptors and of the marked
file. -/
def pendingBytes (s : SavesSyncRequest) : Nat :=
  (s.filesToDownload.map StorageFile.size).sum + s.currentDownloadingFile.size

/-- The byte counters in a state of a run: as long as the error callback has not been
called, the bytes downloaded and the bytes pending add up to `bytesToDownload` in 32-bit
arithmetic; and while an upload is in flight a name has left the upload queue. -/
structure Accounted (s : SavesSyncRequest) : Prop where
  pending : s.log.filter Effect.isErrorCallback = [] →
    (s.bytesDownloaded + pendingBytes s) % 2 ^ 32 = s.bytesToDownload
  popped : uploadPhase s = true → s.filesToUpload.length < s.totalFilesToHandle

/-- The request of the download of a descriptor, as it appears in the log. -/
def downloadRequest (env : Env) (file : StorageFile) : Effect :=
  Effect.request (downloadOperation env file)

/-- The request of the upload of a name, as it appears in the log. -/
def uploadRequest (env : Env) (name : String) : Effect :=
  Effect.request (uploadOperation env name)

/-- The index entry a completed download writes (line 309). -/
def indexEntry (file : StorageFile) : String × Nat := (file.name, file.timestamp)

/-- One write to the index. -/
def writeIndex (index : HashMap Nat) (entry : String × Nat) : HashMap Nat :=
  HashMap.assign index entry.1 entry.2

/-- The books of a run since the listing arrived: the effects, the descriptors whose
download was requested and the names whose upload was requested, both in the order of
the requests, the descriptors whose download has completed, and the names whose upload
has completed, each with the timestamp its upload returned. -/
structure Books where
  requested : List Effect
  downloaded : List StorageFile
  uploaded : List String
  completed : List StorageFile
  results : List (String × Nat)

/-- The error callback has not been called since the listing arrived. -/
def Books.unfailed (b : Books) : Prop := b.requested.filter Effect.isErrorCallback = []

/-- How the books relate to the queues `downloads` and `uploads` the diff computed and to
the queues as they are now: the download and upload requests of the log are those of
the books, there is no other request, a name of the upload queue has been requested or
is still queued, and so is a descriptor of the download queue as long as the run has not
failed (a failure empties the download queue). -/
structure LedgerCore (env : Env) (downloads : List StorageFile) (uploads : List String)
    (b : Books) (filesToDownload : List StorageFile) (filesToUpload : List String) : Prop where
  downloadRequests :
    b.requested.filter Effect.isDownloadRequest = b.downloaded.map (downloadRequest env)
  uploadRequests :
    b.requested.filter Effect.isUploadRequest = b.uploaded.map (uploadRequest env)
  requests : b.requested.countP Effect.isRequest = b.downloaded.length + b.uploaded.length
  queuedUploads : uploads = filesToUpload ++ b.uploaded.reverse
  queuedDownloads : (filesToDownload ++ b.downloaded.reverse).Sublist downloads
  drained : b.unfailed → downloads = filesToDownload ++ b.downloaded.reverse

/-- The books in a state of a run, `index` being the index the diff read: besides
`LedgerCore`, the transfer in flight is the one requested last, and as long as the run has
not failed the completed transfers are the requested ones but the one in flight and the
index is the index the diff read with the entries of the completed transfers written to
it, downloads first. -/
structure Ledger (env : Env) (index : HashMap Nat) (downloads : List StorageFile)
    (uploads : List String) (b : Books) (s : SavesSyncRequest) : Prop where
  ignore : s.ignoreCallback = false
  phase : listingPhase s = false
  core : LedgerCore env downloads uploads b s.filesToDownload s.filesToUpload
  downloading : downloadInFlight s = true →
    b.downloaded.getLast? = some s.currentDownloadingFile
  uploading : uploadPhase s = true → b.uploaded.getLast? = some s.currentUploadingFile
  written : b.unfailed →
    s.localFilesTimestamps = (b.completed.map indexEntry ++ b.results).foldl writeIndex index
  completedDownloads : b.unfailed →
    b.downloaded = b.completed ++ (if downloadInFlight s then [s.currentDownloadingFile] else [])
  completedUploads : b.unfailed →
    b.uploaded = b.results.map Prod.fst
      ++ (if uploadPhase s then [s.currentUploadingFile] else [])
  downloadsFirst : downloadInFlight s = true → b.results = [] ∧ b.uploaded = []

/-- What the delivery of a completion adds to the completed uploads: for an upload
completion, the name that was being uploaded and the timestamp of the response. -/
def completedUpload (s : SavesSyncRequest) : Event → List (String × Nat)
  | Event.fileUploaded response => [(s.currentUploadingFile, response.value.timestamp)]
  | _ => []

/-- The uploads that complete in a run: for every delivered upload completion, the name
that was being uploaded and the timestamp of the response. -/
def uploadResults (env : Env) : SavesSyncRequest → List (Event × Bool) → List (String × Nat)
  | _, [] => []
  | s, (ev, accept) :: rest =>
    match deliver env s ev accept with
    | some s' => completedUpload s ev ++ uploadResults env s' rest
    | none => []

/-- The descriptor of an uploaded file that the listing did not have. -/
def uploadedFile (entry : String × Nat) : StorageFile :=
  { id := "", path := "", name := entry.1, size := 0, timestamp := entry.2,
    isDirectory := false }

/-- The descriptor of a listed file after the uploads `results`: a non-directory file
whose name was uploaded gets the timestamp its upload returned. -/
def updatedFile (results : HashMap Nat) (file : StorageFile) : StorageFile :=
  if file.isDirectory then file
  else
    match HashMap.find results file.name with
    | some timestamp => { file with timestamp := timestamp }
    | none => file

/-- The remote listing after the uploads `results`: a non-directory file whose name was
uploaded gets the timestamp its upload returned, and an uploaded name the listing had
no non-directory file of is added to it. -/
def updatedListing (files : List StorageFile) (results : HashMap Nat) : List StorageFile :=
  files.map (updatedFile results)
    ++ (results.filter (fun entry =>
          !(files.any (fun file => !file.isDirectory && decide (file.name = entry.1))))).map
        uploadedFile

/-- The listings delivered in a run. -/
def listedResponses (evs : List (Event × Bool)) : List ListDirectoryResponse :=
  evs.filterMap (fun e =>
    match e.1 with
    | Event.directoryListed response => some response
    | _ => none)

/-- No listing has been diffed yet: both queues are empty, no transfer is in flight, none
has been requested, and the run has not succeeded. -/
structure BeforeDiff (s : SavesSyncRequest) : Prop where
  queued : s.filesToDownload = [] ∧ s.filesToUpload = []
  flight : downloadInFlight s = false ∧ uploadPhase s = false
  requested : s.log.filter Effect.isDownloadRequest = [] ∧
    s.log.filter Effect.isUploadRequest = []
  running : ¬ succeeded s

/-- The JSON reader of the examples: it knows the two error bodies of the examples. -/
def exampleParse (body : String) : Option JSONValue :=
  if body = "\x7b\"error_summary\":\"path/not_found/...\"\x7d" then
    some (JSONValue.object [("error_summary", JSONValue.string "path/not_found/...")])
  else if body = "\x7b\"error\":\x7b\"code\":\"quotaExceeded\"\x7d\x7d" then
    some (JSONValue.object
      [("error", JSONValue.object [("code", JSONValue.string "quotaExceeded")])])
  else none

/-- A concrete environment for the examples: the index file is `timestamps`, the
invalid timestamp is the largest `uint32`, every name may be synced, and the JSON
reader is `exampleParse`. -/
def exampleEnv : Env :=
  { TIMESTAMPS_FILENAME := "timestamps"
    INVALID_TIMESTAMP := 4294967295
    canSyncFilename := fun _ => true
    savesDirectoryPath := "saves/"
    uploadStreamSupported := true
    concatWithSavesPath := fun name => "/saves/" ++ name
    parse := exampleParse
    hasBoolCallback := true }

/-- A remote file descriptor of the examples. -/
def exampleFile (name : String) (timestamp : Nat) : StorageFile :=
  { id := name, path := "saves/" ++ name, name := name, size := 10, timestamp := timestamp,
    isDirectory := false }

/-- A JSON reader that knows one body only, the repaired form of the stray-period body
of the examples. -/
def repairedParse (body : String) : Option JSONValue :=
  if body = "\x7b\"error\": \x7b\"code\":\"itemNotFound\"\x7d\x7d" then
    some (JSONValue.object
      [("error", JSONValue.object [("code", JSONValue.string "itemNotFound")])])
  else none

/-- The environment of the examples with the reader `repairedParse`. -/
def repairedEnv : Env := { exampleEnv with parse := repairedParse }

end Cloud

namespace AGOS

/-- Modelled from the spec: `Common::WriteStream::writeUint32BE` is not part of the
translated sources; the stream is its list of bytes and the 32-bit word is appended as
four bytes, the most significant first. -/
def writeUint32BE (f : List Nat) (value : Nat) : List Nat :=
  f ++ [value / 2 ^ 24 % 256, value / 2 ^ 16 % 256, value / 2 ^ 8 % 256, value % 256]

/-- Modelled from the spec: `Common::ReadStream::readUint32BE` is not part of the
translated sources; it takes four bytes from the stream, the most significant first, and
there is no word to read when fewer than four bytes are left. -/
def readUint32BE : List Nat → Option (Nat × List Nat)
  | b3 :: b2 :: b1 :: b0 :: rest =>
    some (b3 % 256 * 2 ^ 24 + b2 % 256 * 2 ^ 16 + b1 % 256 * 2 ^ 8 + b0 % 256, rest)
  | _ => none

/-- The function `readItemID` (lines 1033-1038): the item ID read and the rest of the
stream; the sum is computed in `uint32` and returned as `uint16`. -/
def readItemID (f : List Nat) : Option (Nat × List Nat) :=
  match readUint32BE f with
  | some (val, rest) =>
    if val = 0xFFFFFFFF then some (0, rest)
    else some ((val + 1) % 2 ^ 32 % 2 ^ 16, rest)
  | none => none

/-- The function `writeItemID` (lines 1040-1045); `val` is a `uint16`. -/
def writeItemID (f : List Nat) (val : Nat) : List Nat :=
  if val = 0 then writeUint32BE f 0xFFFFFFFF
  else writeUint32BE f ((val - 1) % 2 ^ 32)

end AGOS

/-! ## Lemmas on the hash map model -/

namespace Common.HashMap

theorem find_assign {V : Type} (m : HashMap V) (k k' : String) (v : V) :
    find (assign m k v) k' = if k = k' then some v else find m k' := by
  induction m with
  | nil => simp [assign, find]
  | cons e rest ih =>
    obtain ⟨k0, v0⟩ := e
    by_cases h0 : k0 = k
    · subst h0
      by_cases h1 : k0 = k' <;> simp [assign, find, h1]
    · by_cases h1 : k0 = k'
      · subst h1
        simp [assign, find, h0, Ne.symm h0]
      · simp [assign, find, h0, h1, ih]

theorem contains_iff_mem_keys {V : Type} (m : HashMap V) (k : String) :
    contains m k = true ↔ k ∈ keys m := by
  induction m with
  | nil => simp [contains, find, keys]
  | cons e rest ih =>
    obtain ⟨k0, v0⟩ := e
    by_cases h0 : k0 = k
    · simp [contains, find, keys, h0]
    · have h1 : ¬ k = k0 := fun h => h0 h.symm
      simp only [contains, keys] at ih
      simp [contains, find, keys, h0, h1, ih]

theorem mem_keys_assign {V : Type} (m : HashMap V) (k k' : String) (v : V) :
    k' ∈ keys (assign m k v) ↔ k' = k ∨ k' ∈ keys m := by
  rw [← contains_iff_mem_keys, ← contains_iff_mem_keys]
  simp only [contains, find_assign]
  by_cases h : k = k'
  · simp [h]
  · have h1 : ¬ k' = k := fun e => h e.symm
    simp [h, h1]

theorem nodup_keys_assign {V : Type} (m : HashMap V) (k : String) (v : V)
    (h : (keys m).Nodup) : (keys (assign m k v)).Nodup := by
  induction m with
  | nil => simp [assign, keys]
  | cons e rest ih =>
    obtain ⟨k0, v0⟩ := e
    simp only [keys, List.map_cons, List.nodup_cons] at h
    by_cases h0 : k0 = k
    · subst h0
      simp only [assign, if_true, keys, List.map_cons, List.nodup_cons]
      exact h
    · simp only [assign, h0, if_false, keys, List.map_cons, List.nodup_cons]
      refine ⟨?_, ih h.2⟩
      intro hm
      have := (mem_keys_assign rest k k0 v).1 hm
      rcases this with h2 | h2
      · exact h0 h2
      · exact h.1 h2

theorem mem_iff_find_of_nodup {V : Type} (m : HashMap V) (k : String) (v : V)
    (h : (keys m).Nodup) : (k, v) ∈ m ↔ find m k = some v := by
  induction m with
  | nil => simp [find]
  | cons e rest ih =>
    obtain ⟨k0, v0⟩ := e
    simp only [keys, List.map_cons, List.nodup_cons] at h
    by_cases h0 : k0 = k
    · subst h0
      simp only [find, if_true, List.mem_cons, Prod.mk.injEq, true_and, Option.some.injEq]
      constructor
      · rintro (h1 | h1)
        · exact h1.symm
        · exact absurd (List.mem_map_of_mem Prod.fst h1) h.1
      · intro h1
        exact Or.inl h1.symm
    · have h1 : ¬ k = k0 := fun e => h0 e.symm
      simp [find, h0, h1, ih h.2]

end Common.HashMap

/-! ## The two loops of the diff in closed form -/

namespace Cloud

open Common Networking

theorem diffRemoteFile_download (env : Env) (ts : HashMap Nat) (st : DiffLoop)
    (file : StorageFile) :
    (diffRemoteFile env ts st file).filesToDownload =
      st.filesToDownload ++ (if remoteDownload env ts file then [file] else []) := by
  unfold diffRemoteFile remoteDownload localWins syncable
  cases hd : file.isDirectory <;> simp
  split_ifs <;> simp_all
  omega

theorem diffRemoteFile_upload (env : Env) (ts : HashMap Nat) (st : DiffLoop)
    (file : StorageFile) :
    (diffRemoteFile env ts st file).filesToUpload =
      st.filesToUpload ++ (if remoteUpload env ts file then [file.name] else []) := by
  unfold diffRemoteFile remoteUpload seenRemotely localWins syncable
  cases hd : file.isDirectory <;> simp
  split_ifs <;> simp_all

theorem diffRemoteFile_seen (env : Env) (ts : HashMap Nat) (st : DiffLoop)
    (file : StorageFile) :
    (diffRemoteFile env ts st file).localFileNotAvailableInCloud =
      if seenRemotely env ts file then
        HashMap.assign st.localFileNotAvailableInCloud file.name false
      else st.localFileNotAvailableInCloud := by
  unfold diffRemoteFile seenRemotely syncable
  cases hd : file.isDirectory <;> simp
  split_ifs <;> simp_all


theorem foldl_diffRemoteFile_download (env : Env) (ts : HashMap Nat) (files : List StorageFile)
    (st : DiffLoop) :
    (files.foldl (diffRemoteFile env ts) st).filesToDownload =
      st.filesToDownload ++ files.filter (remoteDownload env ts) := by
  induction files generalizing st with
  | nil => simp
  | cons f fs ih =>
    simp only [List.foldl_cons, ih, diffRemoteFile_download, List.filter_cons]
    split_ifs <;> simp

theorem foldl_diffRemoteFile_upload (env : Env) (ts : HashMap Nat) (files : List StorageFile)
    (st : DiffLoop) :
    (files.foldl (diffRemoteFile env ts) st).filesToUpload =
      st.filesToUpload ++ (files.filter (remoteUpload env ts)).map StorageFile.name := by
  induction files generalizing st with
  | nil => simp
  | cons f fs ih =>
    simp only [List.foldl_cons, ih, diffRemoteFile_upload, List.filter_cons]
    split_ifs <;> simp

theorem foldl_diffRemoteFile_seen (env : Env) (ts : HashMap Nat) (files : List StorageFile)
    (st : DiffLoop) :
    (files.foldl (diffRemoteFile env ts) st).localFileNotAvailableInCloud =
      markSeen st.localFileNotAvailableInCloud (files.filter (seenRemotely env ts)) := by
  induction files generalizing st with
  | nil => simp [markSeen]
  | cons f fs ih =>
    simp only [List.foldl_cons, ih, diffRemoteFile_seen, List.filter_cons]
    split_ifs <;> simp [markSeen]

theorem find_markSeen (files : List StorageFile) (m : HashMap Bool) (k : String) :
    HashMap.find (markSeen m files) k =
      if k ∈ files.map StorageFile.name then some false else HashMap.find m k := by
  induction files generalizing m with
  | nil => simp [markSeen]
  | cons f fs ih =>
    have h := ih (HashMap.assign m f.name false)
    simp only [markSeen, List.foldl_cons] at h ⊢
    rw [h, HashMap.find_assign]
    by_cases h1 : k ∈ fs.map StorageFile.name
    · have h1' : ∃ a ∈ fs, a.name = k := by simpa using h1
      simp [h1']
    · have h1' : ¬ ∃ a ∈ fs, a.name = k := by simpa using h1
      by_cases h2 : f.name = k
      · simp [h2]
      · have h3 : ¬ k = f.name := fun e => h2 e.symm
        simp [h1', h2, h3]

theorem nodup_keys_markSeen (files : List StorageFile) (m : HashMap Bool)
    (h : (HashMap.keys m).Nodup) : (HashMap.keys (markSeen m files)).Nodup := by
  induction files generalizing m with
  | nil => simpa [markSeen] using h
  | cons f fs ih =>
    simp only [markSeen, List.foldl_cons]
    exact ih _ (HashMap.nodup_keys_assign m f.name false h)

theorem find_foldl_mark (ts : HashMap Nat) (m : HashMap Bool) (k : String) :
    HashMap.find (ts.foldl (fun m entry => HashMap.assign m entry.1 true) m) k =
      if HashMap.contains ts k then some true else HashMap.find m k := by
  induction ts generalizing m with
  | nil => simp [HashMap.contains, HashMap.find]
  | cons e rest ih =>
    obtain ⟨k0, v0⟩ := e
    simp only [List.foldl_cons]
    rw [ih, HashMap.find_assign]
    by_cases h0 : k0 = k
    · subst h0
      simp [HashMap.contains, HashMap.find]
    · simp [HashMap.contains, HashMap.find, h0]

theorem find_markLocalFiles (ts : HashMap Nat) (k : String) :
    HashMap.find (markLocalFiles ts) k = if HashMap.contains ts k then some true else none := by
  unfold markLocalFiles
  rw [find_foldl_mark]
  simp [HashMap.find]

theorem nodup_keys_foldl_mark (ts : HashMap Nat) (m : HashMap Bool)
    (h : (HashMap.keys m).Nodup) :
    (HashMap.keys (ts.foldl (fun m entry => HashMap.assign m entry.1 true) m)).Nodup := by
  induction ts generalizing m with
  | nil => simpa using h
  | cons e rest ih =>
    simp only [List.foldl_cons]
    exact ih _ (HashMap.nodup_keys_assign m e.1 true h)

theorem nodup_keys_markLocalFiles (ts : HashMap Nat) :
    (HashMap.keys (markLocalFiles ts)).Nodup :=
  nodup_keys_foldl_mark ts [] (by simp [HashMap.keys])

theorem foldl_diffLocalFile (env : Env) (m : HashMap Bool) (uq : List String) :
    m.foldl (diffLocalFile env) uq =
      uq ++ (m.filter (fun e => syncable env e.1 && e.2)).map Prod.fst := by
  induction m generalizing uq with
  | nil => simp
  | cons e rest ih =>
    simp only [List.foldl_cons, ih, List.filter_cons]
    unfold diffLocalFile syncable
    split_ifs <;> simp_all

theorem nodup_localOnly (env : Env) (ts : HashMap Nat) (files : List StorageFile) :
    (localOnly env ts files).Nodup := by
  have h := nodup_keys_markSeen (files.filter (seenRemotely env ts)) _
    (nodup_keys_markLocalFiles ts)
  exact List.Nodup.sublist (List.Sublist.map _ (List.filter_sublist _)) h

theorem mem_localOnly (env : Env) (ts : HashMap Nat) (files : List StorageFile) (k : String) :
    k ∈ localOnly env ts files ↔
      syncable env k = true ∧ HashMap.contains ts k = true ∧
        ∀ f ∈ files, seenRemotely env ts f = true → f.name ≠ k := by
  have hn := nodup_keys_markSeen (files.filter (seenRemotely env ts)) _
    (nodup_keys_markLocalFiles ts)
  unfold localOnly
  simp only [List.mem_map, List.mem_filter, Prod.exists, Bool.and_eq_true]
  constructor
  · rintro ⟨a, b, ⟨hmem, hs, hb⟩, rfl⟩
    subst hb
    rw [HashMap.mem_iff_find_of_nodup _ _ _ hn, find_markSeen, find_markLocalFiles] at hmem
    refine ⟨hs, ?_, ?_⟩
    · by_contra hc
      split_ifs at hmem
      simp at hmem
    · intro f hf hseen hname
      have : a ∈ (files.filter (seenRemotely env ts)).map StorageFile.name :=
        List.mem_map.2 ⟨f, List.mem_filter.2 ⟨hf, hseen⟩, hname⟩
      simp [this] at hmem
  · rintro ⟨hs, hc, hno⟩
    refine ⟨k, true, ⟨?_, hs, rfl⟩, rfl⟩
    rw [HashMap.mem_iff_find_of_nodup _ _ _ hn, find_markSeen, find_markLocalFiles]
    have : ¬ k ∈ (files.filter (seenRemotely env ts)).map StorageFile.name := by
      intro hm
      obtain ⟨f, hf, hname⟩ := List.mem_map.1 hm
      obtain ⟨hf1, hf2⟩ := List.mem_filter.1 hf
      exact hno f hf1 hf2 hname
    simp [this, hc]

theorem diffPhase_filesToDownload (env : Env) (s : SavesSyncRequest)
    (response : ListDirectoryResponse) :
    (diffPhase env s response).filesToDownload =
      s.filesToDownload ++ response.value.filter (remoteDownload env s.localFilesTimestamps) := by
  simp [diffPhase, foldl_diffRemoteFile_download]

theorem diffPhase_filesToUpload (env : Env) (s : SavesSyncRequest)
    (response : ListDirectoryResponse) :
    (diffPhase env s response).filesToUpload =
      s.filesToUpload
        ++ (response.value.filter (remoteUpload env s.localFilesTimestamps)).map StorageFile.name
        ++ localOnly env s.localFilesTimestamps response.value := by
  simp [diffPhase, foldl_diffRemoteFile_upload, foldl_diffRemoteFile_seen, foldl_diffLocalFile,
    localOnly]

theorem diffPhase_totalFilesToHandle (env : Env) (s : SavesSyncRequest)
    (response : ListDirectoryResponse) :
    (diffPhase env s response).totalFilesToHandle =
      (diffPhase env s response).filesToDownload.length
        + (diffPhase env s response).filesToUpload.length := by
  simp [diffPhase]

/-! ## The state machine: what the handlers preserve -/

theorem Shrinks.refl (s : SavesSyncRequest) : Shrinks s s :=
  ⟨rfl, List.Sublist.refl _, List.Sublist.refl _, id, id⟩

theorem Shrinks.trans {a b c : SavesSyncRequest} (h1 : Shrinks a b) (h2 : Shrinks b c) :
    Shrinks a c :=
  ⟨h2.total.trans h1.total, h2.download.trans h1.download, h2.upload.trans h1.upload,
    fun h => h2.finished (h1.finished h), fun h => h2.phase (h1.phase h)⟩

theorem finishError_shrinks (s : SavesSyncRequest) (error : ErrorResponse) :
    Shrinks s (finishError s error) := by
  unfold finishError requestFinishError
  constructor <;> cases h : s.workingRequest <;> simp [listingPhase, h] <;> split_ifs <;> simp [h]

theorem finishSync_shrinks (env : Env) (s : SavesSyncRequest) (success : Bool) :
    Shrinks s (finishSync env s success) := by
  unfold finishSync requestFinishSuccess
  constructor <;> simp [listingPhase] <;> split_ifs <;> simp

theorem uploadNextFile_shrinks (env : Env) (s : SavesSyncRequest) (accept : Bool) :
    Shrinks s (uploadNextFile env s accept) := by
  unfold uploadNextFile
  cases h : s.filesToUpload.getLast? with
  | none => exact finishSync_shrinks env s true
  | some name =>
    cases accept
    · refine Shrinks.trans ?_ (finishError_shrinks _ _)
      constructor <;> simp [listingPhase, List.dropLast_sublist]
    · constructor <;> simp [listingPhase, List.dropLast_sublist]
      split_ifs <;> simp

theorem downloadNextFile_shrinks (env : Env) (s : SavesSyncRequest) (accept : Bool) :
    Shrinks s (downloadNextFile env s accept) := by
  unfold downloadNextFile
  cases h : s.filesToDownload.getLast? with
  | none =>
    refine Shrinks.trans ?_ (uploadNextFile_shrinks env _ accept)
    constructor <;> simp [listingPhase]
  | some file =>
    cases accept
    · refine Shrinks.trans ?_ (finishError_shrinks _ _)
      constructor <;> simp [listingPhase, List.dropLast_sublist]
    · constructor <;> simp [listingPhase, List.dropLast_sublist]

/-- Forgetting the working request, as every callback does first. -/
theorem clear_shrinks (s : SavesSyncRequest) :
    Shrinks s { s with workingRequest := none } := by
  constructor <;> simp [listingPhase]

theorem fileDownloadedCallback_shrinks (env : Env) (s : SavesSyncRequest)
    (response : BoolResponse) (accept : Bool) :
    Shrinks s (fileDownloadedCallback env s response accept) := by
  unfold fileDownloadedCallback
  refine Shrinks.trans (clear_shrinks s) ?_
  dsimp only
  split_ifs
  · exact Shrinks.refl _
  · refine Shrinks.trans ?_ (finishError_shrinks _ _)
    constructor <;> simp [listingPhase]
  · refine Shrinks.trans ?_ (downloadNextFile_shrinks _ _ _)
    constructor <;> simp [listingPhase]

theorem fileUploadedCallback_shrinks (env : Env) (s : SavesSyncRequest)
    (response : UploadResponse) (accept : Bool) :
    Shrinks s (fileUploadedCallback env s response accept) := by
  unfold fileUploadedCallback
  refine Shrinks.trans (clear_shrinks s) ?_
  dsimp only
  split_ifs
  · exact Shrinks.refl _
  · refine Shrinks.trans ?_ (uploadNextFile_shrinks _ _ _)
    constructor <;> simp [listingPhase]

theorem fileDownloadedErrorCallback_shrinks (s : SavesSyncRequest) (error : ErrorResponse) :
    Shrinks s (fileDownloadedErrorCallback s error) := by
  unfold fileDownloadedErrorCallback
  refine Shrinks.trans (clear_shrinks s) ?_
  dsimp only
  split_ifs
  · exact Shrinks.refl _
  · exact finishError_shrinks _ _

theorem fileUploadedErrorCallback_shrinks (s : SavesSyncRequest) (error : ErrorResponse) :
    Shrinks s (fileUploadedErrorCallback s error) := by
  unfold fileUploadedErrorCallback
  refine Shrinks.trans (clear_shrinks s) ?_
  dsimp only
  split_ifs
  · exact Shrinks.refl _
  · exact finishError_shrinks _ _

/-- Once the diff has run, a delivered completion leaves the total alone and can
only shorten the queues. -/
theorem deliver_shrinks (env : Env) (s s' : SavesSyncRequest) (ev : Event) (accept : Bool)
    (hphase : listingPhase s = false) (h : deliver env s ev accept = some s') :
    Shrinks s s' := by
  unfold deliver at h
  split at h <;> simp [listingPhase] at hphase h <;> subst h
  all_goals first
    | (simp_all [listingPhase]; done)
    | exact fileDownloadedCallback_shrinks _ _ _ _
    | exact fileDownloadedErrorCallback_shrinks _ _
    | exact fileUploadedCallback_shrinks _ _ _ _

theorem run_shrinks (env : Env) (evs : List (Event × Bool)) (s s' : SavesSyncRequest)
    (hphase : listingPhase s = false) (h : run env s evs = some s') :
    Shrinks s s' := by
  induction evs generalizing s with
  | nil =>
    simp only [run, Option.some.injEq] at h
    subst h
    exact Shrinks.refl _
  | cons e rest ih =>
    obtain ⟨ev, accept⟩ := e
    simp only [run] at h
    cases hd : deliver env s ev accept with
    | none => simp [hd] at h
    | some s1 =>
      simp only [hd] at h
      have h1 := deliver_shrinks env s s1 ev accept hphase hd
      exact Shrinks.trans h1 (ih s1 (h1.phase hphase) h)


theorem finishError_state (s : SavesSyncRequest) (error : ErrorResponse) :
    (finishError s error).state = RequestState.FINISHED := by
  unfold finishError requestFinishError
  rfl

theorem finishError_workingRequest (s : SavesSyncRequest) (error : ErrorResponse) :
    (finishError s error).workingRequest = none := by
  unfold finishError requestFinishError
  cases h : s.workingRequest <;> dsimp only <;> split_ifs <;> simp [h]

theorem finishError_ignoreCallback (s : SavesSyncRequest) (error : ErrorResponse)
    (hi : s.ignoreCallback = false) : (finishError s error).ignoreCallback = false := by
  unfold finishError requestFinishError
  cases h : s.workingRequest <;> dsimp only <;> split_ifs <;> simp [hi]

theorem finishError_filesToDownload (s : SavesSyncRequest) (error : ErrorResponse) :
    (finishError s error).filesToDownload = [] := by
  unfold finishError requestFinishError
  cases h : s.workingRequest <;> dsimp only <;> split_ifs <;> rfl

theorem finishError_filesToUpload (s : SavesSyncRequest) (error : ErrorResponse) :
    (finishError s error).filesToUpload = s.filesToUpload := by
  unfold finishError requestFinishError
  cases h : s.workingRequest <;> dsimp only <;> split_ifs <;> rfl

theorem finishError_totalFilesToHandle (s : SavesSyncRequest) (error : ErrorResponse) :
    (finishError s error).totalFilesToHandle = s.totalFilesToHandle := by
  unfold finishError requestFinishError
  cases h : s.workingRequest <;> dsimp only <;> split_ifs <;> rfl

theorem finishError_log (s : SavesSyncRequest) (error : ErrorResponse) :
    (finishError s error).log =
      s.log
        ++ (match s.workingRequest with
            | some op => [Effect.finishWorking op]
            | none => [])
        ++ (if s.currentDownloadingFile.name ≠ "" then
              [Effect.removeSavefile s.currentDownloadingFile.name] else [])
        ++ [Effect.errorCallback error] := by
  unfold finishError requestFinishError
  cases h : s.workingRequest <;> dsimp only <;> split_ifs <;> simp

theorem finishError_not_succeeded (s : SavesSyncRequest) (error : ErrorResponse)
    (hns : ¬ succeeded s) : ¬ succeeded (finishError s error) := by
  simp only [succeeded, not_exists] at hns ⊢
  intro d
  rw [finishError_log]
  cases h : s.workingRequest <;> simp [hns d]

theorem finishError_inv (s : SavesSyncRequest) (error : ErrorResponse)
    (hi : s.ignoreCallback = false)
    (hb : s.filesToDownload.length + s.filesToUpload.length ≤ s.totalFilesToHandle)
    (hns : ¬ succeeded s) : Inv (finishError s error) where
  ignore := finishError_ignoreCallback s error hi
  fresh := by simp [listingPhase, finishError_workingRequest]
  bound := by
    rw [finishError_filesToDownload, finishError_filesToUpload, finishError_totalFilesToHandle]
    simp only [List.length_nil]
    omega
  uploading := by simp [uploadPhase, finishError_workingRequest]
  done := fun h => absurd h (finishError_not_succeeded s error hns)

theorem finishSync_inv (env : Env) (s : SavesSyncRequest) (success : Bool)
    (hi : s.ignoreCallback = false) (hdq : s.filesToDownload = [])
    (hu : s.filesToUpload = []) (hwr : s.workingRequest = none) :
    Inv (finishSync env s success) := by
  unfold finishSync requestFinishSuccess
  constructor <;> dsimp only <;> split_ifs <;>
    simp [listingPhase, uploadPhase, hwr, hi, hdq, hu]

theorem uploadNextFile_inv (env : Env) (s : SavesSyncRequest) (accept : Bool)
    (hi : s.ignoreCallback = false)
    (hb : s.filesToDownload.length + s.filesToUpload.length ≤ s.totalFilesToHandle)
    (hdq : s.filesToDownload = []) (hwr : s.workingRequest = none)
    (hns : ¬ succeeded s) : Inv (uploadNextFile env s accept) := by
  unfold uploadNextFile
  cases h : s.filesToUpload.getLast? with
  | none => exact finishSync_inv env s true hi hdq (List.getLast?_eq_none_iff.1 h) hwr
  | some name =>
    simp only [succeeded, not_exists] at hns
    cases accept
    · apply finishError_inv
      · simpa using hi
      · simp only [List.length_dropLast]
        omega
      · simp [succeeded, hns]
    · refine ⟨by simpa using hi, by cases env.uploadStreamSupported <;> simp [listingPhase], ?_,
        by simp [hdq], ?_⟩
      · simp only [if_true, List.length_dropLast]
        omega
      · intro hs
        simp [succeeded, hns] at hs

theorem downloadNextFile_inv (env : Env) (s : SavesSyncRequest) (accept : Bool)
    (hi : s.ignoreCallback = false)
    (hb : s.filesToDownload.length + s.filesToUpload.length ≤ s.totalFilesToHandle)
    (hwr : s.workingRequest = none)
    (hns : ¬ succeeded s) : Inv (downloadNextFile env s accept) := by
  unfold downloadNextFile
  cases h : s.filesToDownload.getLast? with
  | none =>
    exact uploadNextFile_inv env _ accept hi hb (List.getLast?_eq_none_iff.1 h) hwr hns
  | some file =>
    simp only [succeeded, not_exists] at hns
    cases accept
    · apply finishError_inv
      · simpa using hi
      · simp only [List.length_dropLast]
        omega
      · simp [succeeded, hns]
    · refine ⟨by simpa using hi, by simp [listingPhase], ?_, by simp [uploadPhase], ?_⟩
      · simp only [if_true, List.length_dropLast]
        omega
      · intro hs
        simp [succeeded, hns] at hs

theorem diffPhase_not_succeeded (env : Env) (s : SavesSyncRequest)
    (response : ListDirectoryResponse) (hns : ¬ succeeded s) :
    ¬ succeeded (diffPhase env s response) := by
  simp only [succeeded, not_exists] at hns ⊢
  intro d
  simp [diffPhase, hns d]

theorem directoryListedCallback_inv (env : Env) (s : SavesSyncRequest)
    (response : ListDirectoryResponse) (accept : Bool) (hinv : Inv s)
    (hphase : listingPhase s = true) : Inv (directoryListedCallback env s response accept) := by
  have hns : ¬ succeeded s := by
    intro h
    have := (hinv.done h).1
    simp [listingPhase, this] at hphase
  have hns' : ¬ succeeded (diffPhase env { s with workingRequest := none } response) :=
    diffPhase_not_succeeded env _ response hns
  have hi := hinv.ignore
  unfold directoryListedCallback
  dsimp only
  rw [if_neg (by simp [hi])]
  have hb := diffPhase_totalFilesToHandle env { s with workingRequest := none } response
  split_ifs with hempty
  · exact downloadNextFile_inv env _ accept (by simpa [diffPhase] using hi) (by omega)
      (by simp [diffPhase]) hns'
  · have hdq : (diffPhase env { s with workingRequest := none } response).filesToDownload = [] := by
      simpa using hempty
    exact uploadNextFile_inv env _ accept (by simpa [diffPhase] using hi) (by omega) hdq
      (by simp [diffPhase]) hns'

theorem directoryListedErrorCallback_inv (env : Env) (s : SavesSyncRequest)
    (error : ErrorResponse) (accept : Bool) (hinv : Inv s)
    (hphase : listingPhase s = true) :
    Inv (directoryListedErrorCallback env s error accept) := by
  have hns : ¬ succeeded s := by
    intro h
    have := (hinv.done h).1
    simp [listingPhase, this] at hphase
  have hi := hinv.ignore
  obtain ⟨hd, hu, ht, hst⟩ := hinv.fresh hphase
  have hns0 := hns
  simp only [succeeded, not_exists] at hns
  unfold directoryListedErrorCallback
  dsimp only
  rw [if_neg (by simp [hi])]
  by_cases hirr : listingErrorIrrecoverable env error = true
  · rw [if_pos hirr]
    exact finishError_inv _ _ hi hinv.bound hns0
  · rw [if_neg hirr]
    cases accept
    · simp only [Bool.false_eq_true, if_false]
      apply finishError_inv
      · exact hi
      · exact hinv.bound
      · simp [succeeded, hns]
    · simp only [if_true]
      refine ⟨hi, fun _ => ⟨hd, hu, ht, hst⟩, hinv.bound, fun _ => hd, ?_⟩
      intro hs
      simp [succeeded, hns] at hs

theorem directoryCreatedCallback_inv (env : Env) (s : SavesSyncRequest)
    (response : BoolResponse) (accept : Bool) (hinv : Inv s)
    (hphase : listingPhase s = true) :
    Inv (directoryCreatedCallback env s response accept) := by
  have hns : ¬ succeeded s := by
    intro h
    have := (hinv.done h).1
    simp [listingPhase, this] at hphase
  have hi := hinv.ignore
  unfold directoryCreatedCallback
  dsimp only
  rw [if_neg (by simp [hi])]
  split_ifs with hval
  · exact finishError_inv _ _ hi hinv.bound hns
  · -- the listing callback forgets the working request itself
    have hrun := directoryListedCallback_inv env s { request := response.request, value := [] }
      accept hinv hphase
    exact hrun

theorem errorCallback_inv (s : SavesSyncRequest) (error : ErrorResponse) (hinv : Inv s)
    (hwr : s.workingRequest ≠ none) :
    Inv (fileDownloadedErrorCallback s error) := by
  have hns : ¬ succeeded s := fun h => hwr (hinv.done h).1
  unfold fileDownloadedErrorCallback
  dsimp only
  rw [if_neg (by simp [hinv.ignore])]
  exact finishError_inv _ _ hinv.ignore hinv.bound hns

theorem fileDownloadedCallback_inv (env : Env) (s : SavesSyncRequest)
    (response : BoolResponse) (accept : Bool) (hinv : Inv s)
    (hwr : s.workingRequest ≠ none) :
    Inv (fileDownloadedCallback env s response accept) := by
  have hns : ¬ succeeded s := fun h => hwr (hinv.done h).1
  have hns0 := hns
  simp only [succeeded, not_exists] at hns
  have hi := hinv.ignore
  unfold fileDownloadedCallback
  dsimp only
  rw [if_neg (by simp [hi])]
  split_ifs with hval
  · apply finishError_inv
    · exact hi
    · exact hinv.bound
    · simp [succeeded, hns]
  · apply downloadNextFile_inv
    · exact hi
    · exact hinv.bound
    · rfl
    · simp [succeeded, hns]

theorem fileUploadedCallback_inv (env : Env) (s : SavesSyncRequest)
    (response : UploadResponse) (accept : Bool) (hinv : Inv s)
    (hphase : uploadPhase s = true) :
    Inv (fileUploadedCallback env s response accept) := by
  have hwr : s.workingRequest ≠ none := by
    intro h
    simp [uploadPhase, h] at hphase
  have hns : ¬ succeeded s := fun h => hwr (hinv.done h).1
  simp only [succeeded, not_exists] at hns
  have hi := hinv.ignore
  unfold fileUploadedCallback
  dsimp only
  rw [if_neg (by simp [hi])]
  apply uploadNextFile_inv
  · exact hi
  · exact hinv.bound
  · exact hinv.uploading hphase
  · rfl
  · simp [succeeded, hns]

/-- Every delivered completion keeps the invariant. -/
theorem deliver_inv (env : Env) (s s' : SavesSyncRequest) (ev : Event) (accept : Bool)
    (hinv : Inv s) (h : deliver env s ev accept = some s') : Inv s' := by
  unfold deliver at h
  split at h <;> simp at h <;> subst h
  · exact directoryListedCallback_inv _ _ _ _ hinv (by simp [listingPhase, *])
  · exact directoryListedErrorCallback_inv _ _ _ _ hinv (by simp [listingPhase, *])
  · exact directoryCreatedCallback_inv _ _ _ _ hinv (by simp [listingPhase, *])
  · exact errorCallback_inv _ _ hinv (by simp [*])
  · exact fileDownloadedCallback_inv _ _ _ _ hinv (by simp [*])
  · exact errorCallback_inv _ _ hinv (by simp [*])
  · exact fileUploadedCallback_inv _ _ _ _ hinv (by simp [uploadPhase, *])
  · exact errorCallback_inv _ _ hinv (by simp [*])
  · exact fileUploadedCallback_inv _ _ _ _ hinv (by simp [uploadPhase, *])
  · exact errorCallback_inv _ _ hinv (by simp [*])

theorem run_inv (env : Env) (evs : List (Event × Bool)) (s s' : SavesSyncRequest)
    (hinv : Inv s) (h : run env s evs = some s') : Inv s' := by
  induction evs generalizing s with
  | nil =>
    simp only [run, Option.some.injEq] at h
    subst h
    exact hinv
  | cons e rest ih =>
    obtain ⟨ev, accept⟩ := e
    simp only [run] at h
    cases hd : deliver env s ev accept with
    | none => simp [hd] at h
    | some s1 =>
      simp only [hd] at h
      exact ih s1 (deliver_inv env s s1 ev accept hinv hd) h

/-- The constructor establishes the invariant. -/
theorem create_inv (env : Env) (loaded : HashMap Nat) (accept : Bool) :
    Inv (SavesSyncRequest.create env loaded accept) := by
  unfold SavesSyncRequest.create start
  cases accept
  · apply finishError_inv <;> simp [succeeded]
  · refine ⟨rfl, by simp, by simp, by simp, ?_⟩
    intro hs
    simp [succeeded] at hs

/-! ## Auxiliary lemmas for the claims -/

theorem eq_of_name_eq_of_nodup (files : List StorageFile)
    (h : (files.map StorageFile.name).Nodup) (f g : StorageFile) (hf : f ∈ files)
    (hg : g ∈ files) (hname : f.name = g.name) : f = g :=
  List.inj_on_of_nodup_map h hf hg hname

theorem getVal_of_find (ts : HashMap Nat) (k : String) (L : Nat)
    (h : HashMap.find ts k = some L) :
    HashMap.getVal ts k = L ∧ HashMap.contains ts k = true := by
  simp [HashMap.getVal, HashMap.contains, h]

theorem NoClash_of_shrinks {s s' : SavesSyncRequest} (h : Shrinks s s') (hs : NoClash s) :
    NoClash s' := fun d hd hu =>
  hs d (h.download.subset hd) (h.upload.subset hu)

theorem diffPhase_clear (env : Env) (s : SavesSyncRequest) (response : ListDirectoryResponse) :
    diffPhase env { s with workingRequest := none } response =
      { diffPhase env s response with workingRequest := none } := rfl

theorem directoryListedCallback_shrinks (env : Env) (s : SavesSyncRequest)
    (response : ListDirectoryResponse) (accept : Bool) (hi : s.ignoreCallback = false) :
    Shrinks { diffPhase env s response with workingRequest := none }
      (directoryListedCallback env s response accept) := by
  unfold directoryListedCallback
  dsimp only
  rw [if_neg (by simp [hi]), diffPhase_clear]
  split_ifs
  · exact downloadNextFile_shrinks _ _ _
  · exact uploadNextFile_shrinks _ _ _

theorem diffPhase_noClash (env : Env) (s : SavesSyncRequest) (response : ListDirectoryResponse)
    (hd : s.filesToDownload = []) (hu : s.filesToUpload = [])
    (hnodup : ((response.value.filter (fun f => !f.isDirectory)).map StorageFile.name).Nodup) :
    NoClash (diffPhase env s response) := by
  intro d hdmem hm
  rw [diffPhase_filesToDownload, hd, List.nil_append] at hdmem
  rw [diffPhase_filesToUpload, hu, List.nil_append, List.mem_append] at hm
  obtain ⟨hd1, hd2⟩ := List.mem_filter.1 hdmem
  have hd3 := hd2
  simp only [remoteDownload, Bool.and_eq_true, Bool.not_eq_true', Bool.or_eq_true] at hd3
  obtain ⟨⟨hdir, hsync⟩, hdec⟩ := hd3
  rcases hm with hm | hm
  · obtain ⟨g, hg, hname⟩ := List.mem_map.1 hm
    obtain ⟨hg1, hg2⟩ := List.mem_filter.1 hg
    have hg3 := hg2
    simp only [remoteUpload, seenRemotely, Bool.and_eq_true, Bool.not_eq_true'] at hg3
    have hgd : g = d := by
      apply List.inj_on_of_nodup_map hnodup
      · exact List.mem_filter.2 ⟨hg1, by simp [hg3.1.1.1.1]⟩
      · exact List.mem_filter.2 ⟨hd1, by simp [hdir]⟩
      · exact hname
    subst hgd
    rcases hdec with hc | hc
    · rw [hg3.1.1.2] at hc
      simp at hc
    · rw [hg3.2] at hc
      simp at hc
  · obtain ⟨_, hcont, hnot⟩ := (mem_localOnly _ _ _ _).1 hm
    rcases hdec with hc | hc
    · rw [hcont] at hc
      simp at hc
    · exact hnot d hd1 (by simp [seenRemotely, hdir, hsync, hcont]) rfl

theorem sub32_of_le (a b : Nat) (h : b ≤ a) : sub32 a b = a - b := by
  simp [sub32, h]

/-- Without wrap-around the numerator of `getProgress` is the number of handled files. -/
theorem getProgress_of_bound (s : SavesSyncRequest)
    (hb : s.filesToDownload.length + s.filesToUpload.length ≤ s.totalFilesToHandle)
    (ht : s.totalFilesToHandle ≠ 0) :
    getProgress s =
      ((s.totalFilesToHandle : ℚ) - s.filesToDownload.length - s.filesToUpload.length)
        / s.totalFilesToHandle := by
  unfold getProgress
  have h1 : sub32 s.totalFilesToHandle s.filesToDownload.length
      = s.totalFilesToHandle - s.filesToDownload.length := sub32_of_le _ _ (by omega)
  rw [if_neg ht, h1, sub32_of_le _ _ (by omega)]
  congr 1
  rw [Nat.cast_sub (by omega), Nat.cast_sub (by omega)]

theorem getProgress_nonneg (s : SavesSyncRequest) : 0 ≤ getProgress s := by
  unfold getProgress
  split_ifs
  · exact zero_le_one
  · exact le_refl _
  · exact div_nonneg (Nat.cast_nonneg _) (Nat.cast_nonneg _)

theorem getProgress_mono_of_shrinks (s s' : SavesSyncRequest) (h : Shrinks s s')
    (hb : s.filesToDownload.length + s.filesToUpload.length ≤ s.totalFilesToHandle) :
    getProgress s ≤ getProgress s' := by
  have hd := h.download.length_le
  have hu := h.upload.length_le
  have ht := h.total
  by_cases h0 : s.totalFilesToHandle = 0
  · have h0' : s'.totalFilesToHandle = 0 := by omega
    simp only [getProgress, h0, h0', if_true]
    by_cases hf : s.state = RequestState.FINISHED
    · simp [hf, h.finished hf]
    · simp only [hf, if_false]
      split_ifs
      · exact zero_le_one
      · exact le_refl _
  · have h0' : s'.totalFilesToHandle ≠ 0 := by omega
    rw [getProgress_of_bound s hb h0, getProgress_of_bound s' (by omega) h0', ht]
    apply div_le_div_of_nonneg_right _ (Nat.cast_nonneg _)
    have hd' : (s'.filesToDownload.length : ℚ) ≤ s.filesToDownload.length := by exact_mod_cast hd
    have hu' : (s'.filesToUpload.length : ℚ) ≤ s.filesToUpload.length := by exact_mod_cast hu
    linarith

theorem inspectObject_true (fields : HashMap JSONValue) :
    inspectObject fields true = !(hasNotFoundSummary fields || hasItemNotFoundCode fields) := by
  unfold inspectObject hasNotFoundSummary hasItemNotFoundCode jsonContainsString getVal
    HashMap.contains
  cases h1 : HashMap.find fields "error_summary" with
  | none =>
    cases h2 : HashMap.find fields "error" with
    | none => simp
    | some e =>
      cases e <;> simp [JSONValue.isObject, JSONValue.asObject]
      rename_i node
      cases h3 : HashMap.find node "code" with
      | none => simp
      | some c => cases c <;> simp [JSONValue.isString, JSONValue.asString]
  | some v =>
    cases h2 : HashMap.find fields "error" with
    | none => cases v <;> simp [JSONValue.isString, JSONValue.asString]
    | some e =>
      cases v <;> cases e <;>
        simp [JSONValue.isObject, JSONValue.asObject, JSONValue.isString, JSONValue.asString]
      all_goals
        rename_i node
        cases h3 : HashMap.find node "code" with
        | none => simp
        | some c => cases c <;> simp [JSONValue.isString, JSONValue.asString, Bool.and_comm]


theorem listingError_recoverable_of_phrase (env : Env) (error : ErrorResponse)
    (hflags : error.failed = true ∨ error.interrupted = false)
    (hbody : stringContains error.response "subdirectory not found" = true) :
    listingErrorIrrecoverable env error = false := by
  unfold listingErrorIrrecoverable
  cases hf : error.failed
  · rcases hflags with h | h
    · rw [hf] at h
      simp at h
    · simp [h]
  · simp [hbody]

/-- What the listing-error callback does with a recoverable error. -/
theorem directoryListedErrorCallback_recoverable (env : Env) (s : SavesSyncRequest)
    (error : ErrorResponse) (hi : s.ignoreCallback = false)
    (hrec : listingErrorIrrecoverable env error = false) :
    directoryListedErrorCallback env s error true =
      { s with
        workingRequest := some (Operation.createDirectory (savesDirectory env))
        log := s.log ++ [Effect.request (Operation.createDirectory (savesDirectory env))] } := by
  unfold directoryListedErrorCallback
  dsimp only
  rw [if_neg (by simp [hi]), if_neg (by simp [hrec])]
  simp

theorem directoryListedErrorCallback_requests (env : Env) (s : SavesSyncRequest)
    (error : ErrorResponse) (accept : Bool) (hi : s.ignoreCallback = false)
    (hrec : listingErrorIrrecoverable env error = false) :
    Effect.request (Operation.createDirectory (savesDirectory env)) ∈
      (directoryListedErrorCallback env s error accept).log := by
  unfold directoryListedErrorCallback
  dsimp only
  rw [if_neg (by simp [hi]), if_neg (by simp [hrec])]
  cases accept
  · simp [finishError_log]
  · simp

theorem directoryCreatedCallback_ok (env : Env) (s : SavesSyncRequest)
    (response : BoolResponse) (accept : Bool) (hi : s.ignoreCallback = false)
    (hok : response.value = true) :
    directoryCreatedCallback env s response accept =
      directoryListedCallback env s { request := response.request, value := [] } accept := by
  unfold directoryCreatedCallback directoryListedCallback
  dsimp only
  rw [if_neg (by simp [hi]), if_neg (by simp [hok]), if_neg (by simp [hi])]

/-- The diff of an empty listing: nothing to download, and the syncable names of the
index to upload, each once. -/
theorem diffPhase_empty_listing (env : Env) (s : SavesSyncRequest) (request : Option String)
    (hd : s.filesToDownload = []) (hu : s.filesToUpload = []) :
    (diffPhase env s { request := request, value := [] }).filesToDownload = [] ∧
      (diffPhase env s { request := request, value := [] }).filesToUpload.Nodup ∧
      ∀ name : String,
        name ∈ (diffPhase env s { request := request, value := [] }).filesToUpload ↔
          (HashMap.contains s.localFilesTimestamps name = true
            ∧ name ≠ env.TIMESTAMPS_FILENAME ∧ env.canSyncFilename name = true) := by
  rw [diffPhase_filesToDownload, diffPhase_filesToUpload, hd, hu]
  refine ⟨by simp, by simpa using nodup_localOnly env s.localFilesTimestamps [], ?_⟩
  intro name
  simp only [List.filter_nil, List.map_nil, List.append_nil, List.nil_append, mem_localOnly,
    List.not_mem_nil, false_implies, implies_true, and_true, syncable]
  constructor
  · rintro ⟨h1, h2⟩
    simp at h1
    exact ⟨h2, h1.1, h1.2⟩
  · rintro ⟨h1, h2, h3⟩
    exact ⟨by simp [h2, h3], h1⟩

theorem listingErrorIrrecoverable_eq_reference (env : Env) (error : ErrorResponse) :
    listingErrorIrrecoverable env error = referenceIrrecoverable env error := by
  unfold listingErrorIrrecoverable referenceIrrecoverable matchesNotFound structuredParse
  cases hf : error.failed
  · simp
  · simp only [if_true, Bool.or_true, Bool.true_and]
    cases h1 : stringContains error.response "subdirectory not found"
    · cases h2 : stringContains error.response "no such file found in its parent directory"
      · cases h3 : (stringContains error.response "itemNotFound"
            && stringContains error.response "Item does not exist")
        · simp only [Bool.false_eq_true, if_false, Bool.or_false]
          cases hp : env.parse error.response with
          | none =>
            dsimp only
            cases hp2 : env.parse (fixedResponse error.response) with
            | none => simp
            | some v => cases v <;> simp [JSONValue.isObject, JSONValue.asObject, inspectObject_true]
          | some v => cases v <;> simp [JSONValue.isObject, JSONValue.asObject, inspectObject_true]
        · simp
      · simp
    · simp

theorem strstr_iff_infix (s pat : List Char) : strstr s pat = true ↔ pat <:+: s := by
  induction s with
  | nil =>
    cases pat <;> simp [strstr]
  | cons c cs ih =>
    rw [strstr, Bool.or_eq_true, ih, List.infix_cons_iff, List.isPrefixOf_iff_prefix]

theorem stringContains_iff (body pat : String) :
    stringContains body pat = true ↔ specContains body pat :=
  strstr_iff_infix body.data pat.data

theorem specPeriodRepair_iff (body fixed : String) :
    specPeriodRepair body fixed ↔ fixed = fixedResponse body := by
  unfold specPeriodRepair fixedResponse
  constructor
  · intro h
    have key : ∀ (l l' : List Char),
        List.Forall₂ (fun c d => (c = '.' → d = ' ') ∧ (c ≠ '.' → d = c)) l l' →
        l' = l.map (fun c => if c = '.' then ' ' else c) := by
      intro l l' hl
      induction hl with
      | nil => rfl
      | @cons c d cs ds hcd _ ih =>
        rw [List.map_cons, ← ih]
        by_cases hc : c = '.'
        · rw [if_pos hc, hcd.1 hc]
        · rw [if_neg hc, hcd.2 hc]
    cases fixed with
    | mk data =>
      have := key _ _ h
      simp only at this
      rw [this]
  · intro h
    rw [h]
    show List.Forall₂ _ body.data (body.data.map _)
    induction body.data with
    | nil => exact List.Forall₂.nil
    | cons c cs ih =>
      rw [List.map_cons]
      refine List.Forall₂.cons ⟨fun hc => by rw [if_pos hc], fun hc => by rw [if_neg hc]⟩ ih

theorem specStructuredParse_iff (env : Env) (body : String) (value : JSONValue) :
    specStructuredParse env body value ↔ structuredParse env body = some value := by
  unfold specStructuredParse structuredParse
  cases hp : env.parse body with
  | some v => simp
  | none =>
    simp only [false_or, true_and, reduceCtorEq]
    constructor
    · rintro ⟨fixed, hf, hv⟩
      rw [← (specPeriodRepair_iff body fixed).1 hf]
      exact hv
    · intro hv
      exact ⟨fixedResponse body, (specPeriodRepair_iff body _).2 rfl, hv⟩

theorem specNotFoundShape_iff (fields : HashMap JSONValue) :
    specNotFoundShape fields ↔
      (hasNotFoundSummary fields || hasItemNotFoundCode fields) = true := by
  unfold specNotFoundShape hasNotFoundSummary hasItemNotFoundCode
  rw [Bool.or_eq_true]
  apply or_congr
  · cases h1 : HashMap.find fields "error_summary" with
    | none => simp
    | some v => cases v <;> simp [stringContains_iff]
  · cases h2 : HashMap.find fields "error" with
    | none => simp
    | some e =>
      cases e <;> simp
      rename_i node
      cases h3 : HashMap.find node "code" with
      | none => simp
      | some c => cases c <;> simp

theorem specMatchesNotFound_iff (env : Env) (body : String) :
    specMatchesNotFound env body ↔ matchesNotFound env body = true := by
  unfold specMatchesNotFound matchesNotFound
  simp only [Bool.or_eq_true, Bool.and_eq_true, stringContains_iff, or_assoc]
  apply or_congr _ Iff.rfl
  constructor
  · rintro ⟨fields, hs, hn⟩
    rw [(specStructuredParse_iff env body _).1 hs]
    exact (specNotFoundShape_iff fields).1 hn
  · intro h
    cases hp : structuredParse env body with
    | none => simp [hp] at h
    | some v =>
      cases v <;> simp [hp] at h
      rename_i fields
      exact ⟨fields, (specStructuredParse_iff env body _).2 hp,
        (specNotFoundShape_iff fields).2 (by simpa using h)⟩

theorem listingErrorIrrecoverable_iff_spec (env : Env) (error : ErrorResponse) :
    listingErrorIrrecoverable env error = true ↔
      (error.interrupted = true ∨ error.failed = true) ∧
        ¬ (error.failed = true ∧ specMatchesNotFound env error.response) := by
  rw [listingErrorIrrecoverable_eq_reference]
  unfold referenceIrrecoverable
  rw [specMatchesNotFound_iff]
  simp only [Bool.and_eq_true, Bool.or_eq_true, Bool.not_eq_true', Bool.and_eq_false_imp,
    not_and, Bool.not_eq_true]

/-! ## The claims -/

/-- C1: diff table. For every local timestamp index and every remote listing with pairwise
distinct file names, take a non-directory, eligible, non-sentinel remote file whose name
is in the index with local timestamp `L`, its remote timestamp being `file.timestamp`.
The diff (run on the empty queues `start` leaves) takes exactly one decision: if `L` is
the remote timestamp, the name is in neither queue; if they differ and `L` is invalid or
newer, the name is in the upload queue (once) and no descriptor of that name is in the
download queue; otherwise the descriptor is in the download queue (once) and the name is
not in the upload queue. -/
theorem diff_decision_table (env : Env) (s : SavesSyncRequest)
    (response : ListDirectoryResponse) (file : StorageFile) (L : Nat)
    (hd : s.filesToDownload = []) (hu : s.filesToUpload = [])
    (hnodup : (response.value.map StorageFile.name).Nodup)
    (hmem : file ∈ response.value)
    (hdir : file.isDirectory = false)
    (hsent : file.name ≠ env.TIMESTAMPS_FILENAME)
    (helig : env.canSyncFilename file.name = true)
    (hL : HashMap.find s.localFilesTimestamps file.name = some L) :
    (L = file.timestamp →
      file.name ∉ (diffPhase env s response).filesToUpload ∧
      ∀ d ∈ (diffPhase env s response).filesToDownload, d.name ≠ file.name) ∧
    (L ≠ file.timestamp → (L = env.INVALID_TIMESTAMP ∨ L > file.timestamp) →
      List.count file.name (diffPhase env s response).filesToUpload = 1 ∧
      ∀ d ∈ (diffPhase env s response).filesToDownload, d.name ≠ file.name) ∧
    (L ≠ file.timestamp → ¬ (L = env.INVALID_TIMESTAMP ∨ L > file.timestamp) →
      List.count file (diffPhase env s response).filesToDownload = 1 ∧
      file.name ∉ (diffPhase env s response).filesToUpload) := by
  obtain ⟨hval, hcont⟩ := getVal_of_find _ _ _ hL
  have huniq : ∀ g ∈ response.value, g.name = file.name → g = file := fun g hg hn =>
    eq_of_name_eq_of_nodup _ hnodup g file hg hmem hn
  have hsync : syncable env file.name = true := by simp [syncable, hsent, helig]
  have hseen : seenRemotely env s.localFilesTimestamps file = true := by
    simp [seenRemotely, hdir, hsync, hcont]
  have hlocal : file.name ∉ localOnly env s.localFilesTimestamps response.value := by
    intro h
    exact ((mem_localOnly _ _ _ _).1 h).2.2 file hmem hseen rfl
  have hfiles : response.value.Nodup := List.Nodup.of_map _ hnodup
  -- membership in the two queues, reduced to the decision taken for `file`
  have hdq : ∀ d ∈ (diffPhase env s response).filesToDownload, d.name = file.name →
      remoteDownload env s.localFilesTimestamps file = true := by
    intro d hdmem hname
    rw [diffPhase_filesToDownload, hd, List.nil_append, List.mem_filter] at hdmem
    have := huniq d hdmem.1 hname
    rw [← this]
    exact hdmem.2
  have huq : file.name ∈ (diffPhase env s response).filesToUpload →
      remoteUpload env s.localFilesTimestamps file = true := by
    intro hm
    rw [diffPhase_filesToUpload, hu, List.nil_append, List.mem_append] at hm
    rcases hm with hm | hm
    · obtain ⟨g, hg, hname⟩ := List.mem_map.1 hm
      obtain ⟨hg1, hg2⟩ := List.mem_filter.1 hg
      rw [← huniq g hg1 hname]
      exact hg2
    · exact absurd hm hlocal
  refine ⟨?_, ?_, ?_⟩
  · intro hLR
    constructor
    · intro hm
      have := huq hm
      simp [remoteUpload, hval, hLR] at this
    · intro d hdmem hname
      have := hdq d hdmem hname
      simp [remoteDownload, hval, hLR, hcont] at this
  · intro hLR hwin
    have hwins : localWins env s.localFilesTimestamps file = true := by
      simp only [localWins, hval, Bool.or_eq_true, decide_eq_true_eq]
      tauto
    constructor
    · rw [diffPhase_filesToUpload, hu, List.nil_append, List.count_append,
        List.count_eq_zero_of_not_mem hlocal, Nat.add_zero]
      apply List.count_eq_one_of_mem
      · exact List.Nodup.sublist (List.Sublist.map _ (List.filter_sublist _)) hnodup
      · refine List.mem_map.2 ⟨file, List.mem_filter.2 ⟨hmem, ?_⟩, rfl⟩
        simp [remoteUpload, hseen, hval, hLR, hwins]
    · intro d hdmem hname
      have := hdq d hdmem hname
      simp [remoteDownload, hval, hLR, hcont, hwins] at this
  · intro hLR hwin
    have hwins : localWins env s.localFilesTimestamps file = false := by
      simp only [localWins, hval, Bool.or_eq_false_iff, decide_eq_false_iff_not]
      constructor
      · intro h; exact hwin (Or.inr h)
      · intro h; exact hwin (Or.inl h)
    constructor
    · rw [diffPhase_filesToDownload, hd, List.nil_append]
      apply List.count_eq_one_of_mem (List.Nodup.filter _ hfiles)
      refine List.mem_filter.2 ⟨hmem, ?_⟩
      simp [remoteDownload, hdir, hsync, hval, hLR, hcont, hwins]
    · intro hm
      have := huq hm
      simp [remoteUpload, hval, hLR, hwins] at this

/-- The spec scenario for C1: index `a.sav ↦ 200`, listing `a.sav` at 100, so `a.sav` is
uploaded and not downloaded. -/
theorem diff_decision_table_witness :
    List.count "a.sav"
        (diffPhase exampleEnv (SavesSyncRequest.create exampleEnv [("a.sav", 200)] true)
          { request := some "d", value := [exampleFile "a.sav" 100] }).filesToUpload = 1 ∧
      ∀ d ∈ (diffPhase exampleEnv (SavesSyncRequest.create exampleEnv [("a.sav", 200)] true)
          { request := some "d", value := [exampleFile "a.sav" 100] }).filesToDownload,
        d.name ≠ "a.sav" :=
  (diff_decision_table exampleEnv (SavesSyncRequest.create exampleEnv [("a.sav", 200)] true)
    { request := some "d", value := [exampleFile "a.sav" 100] } (exampleFile "a.sav" 100) 200
    (by decide) (by decide) (by decide) (by decide) (by decide) (by decide) (by decide)
    (by decide)).2.1 (by decide) (by decide)

/-- C2: for every local timestamp index and every remote listing, a non-directory,
eligible, non-sentinel remote file whose name is absent from the index is placed in the
download queue by the diff, and its name is not placed in the upload queue. -/
theorem diff_absent_locally_downloads (env : Env) (s : SavesSyncRequest)
    (response : ListDirectoryResponse) (file : StorageFile)
    (hu : s.filesToUpload = [])
    (hmem : file ∈ response.value)
    (hdir : file.isDirectory = false)
    (hsent : file.name ≠ env.TIMESTAMPS_FILENAME)
    (helig : env.canSyncFilename file.name = true)
    (habsent : HashMap.contains s.localFilesTimestamps file.name = false) :
    file ∈ (diffPhase env s response).filesToDownload ∧
      file.name ∉ (diffPhase env s response).filesToUpload := by
  have hsync : syncable env file.name = true := by simp [syncable, hsent, helig]
  constructor
  · rw [diffPhase_filesToDownload]
    apply List.mem_append_right
    refine List.mem_filter.2 ⟨hmem, ?_⟩
    simp [remoteDownload, hdir, hsync, habsent]
  · rw [diffPhase_filesToUpload, hu, List.nil_append, List.mem_append]
    rintro (hm | hm)
    · obtain ⟨g, hg, hname⟩ := List.mem_map.1 hm
      have hg2 := (List.mem_filter.1 hg).2
      simp only [remoteUpload, seenRemotely, Bool.and_eq_true] at hg2
      rw [hname, habsent] at hg2
      simp at hg2
    · have := ((mem_localOnly _ _ _ _).1 hm).2.1
      rw [habsent] at this
      simp at this

/-- The spec scenario for C2: index `a.sav ↦ 100`, listing `a.sav` at 100 and `b.sav` at 50;
the download queue is `[b.sav]` and the upload queue is empty. -/
theorem diff_absent_locally_downloads_witness :
    (exampleFile "b.sav" 50 ∈
        (diffPhase exampleEnv (SavesSyncRequest.create exampleEnv [("a.sav", 100)] true)
          { request := some "d",
            value := [exampleFile "a.sav" 100, exampleFile "b.sav" 50] }).filesToDownload ∧
      "b.sav" ∉
        (diffPhase exampleEnv (SavesSyncRequest.create exampleEnv [("a.sav", 100)] true)
          { request := some "d",
            value := [exampleFile "a.sav" 100, exampleFile "b.sav" 50] }).filesToUpload) ∧
    (diffPhase exampleEnv (SavesSyncRequest.create exampleEnv [("a.sav", 100)] true)
        { request := some "d",
          value := [exampleFile "a.sav" 100, exampleFile "b.sav" 50] }).filesToDownload
      = [exampleFile "b.sav" 50] ∧
    (diffPhase exampleEnv (SavesSyncRequest.create exampleEnv [("a.sav", 100)] true)
        { request := some "d",
          value := [exampleFile "a.sav" 100, exampleFile "b.sav" 50] }).filesToUpload = [] :=
  ⟨diff_absent_locally_downloads exampleEnv
    (SavesSyncRequest.create exampleEnv [("a.sav", 100)] true)
    { request := some "d", value := [exampleFile "a.sav" 100, exampleFile "b.sav" 50] }
    (exampleFile "b.sav" 50) (by decide) (by decide) (by decide) (by decide) (by decide)
    (by decide), by decide, by decide⟩

/-- C3: for every local timestamp index and every remote listing, an eligible,
non-sentinel name of the index for which the listing has no non-directory file of that
name occurs exactly once in the upload queue after the diff, and no descriptor with that
name occurs in the download queue. -/
theorem diff_local_only_uploads (env : Env) (s : SavesSyncRequest)
    (response : ListDirectoryResponse) (name : String)
    (hd : s.filesToDownload = []) (hu : s.filesToUpload = [])
    (hin : HashMap.contains s.localFilesTimestamps name = true)
    (hsent : name ≠ env.TIMESTAMPS_FILENAME)
    (helig : env.canSyncFilename name = true)
    (hno : ∀ f ∈ response.value, f.isDirectory = false → f.name ≠ name) :
    List.count name (diffPhase env s response).filesToUpload = 1 ∧
      ∀ d ∈ (diffPhase env s response).filesToDownload, d.name ≠ name := by
  have hsync : syncable env name = true := by simp [syncable, hsent, helig]
  constructor
  · have h1 : name ∉ (response.value.filter
        (remoteUpload env s.localFilesTimestamps)).map StorageFile.name := by
      intro hm
      obtain ⟨g, hg, hname⟩ := List.mem_map.1 hm
      obtain ⟨hg1, hg2⟩ := List.mem_filter.1 hg
      simp only [remoteUpload, seenRemotely, Bool.and_eq_true, Bool.not_eq_true'] at hg2
      exact hno g hg1 hg2.1.1.1.1 hname
    have h2 : name ∈ localOnly env s.localFilesTimestamps response.value := by
      refine (mem_localOnly _ _ _ _).2 ⟨hsync, hin, ?_⟩
      intro f hf hseen
      simp only [seenRemotely, Bool.and_eq_true, Bool.not_eq_true'] at hseen
      exact hno f hf hseen.1.1
    rw [diffPhase_filesToUpload, hu, List.nil_append, List.count_append,
      List.count_eq_zero_of_not_mem h1, Nat.zero_add]
    exact List.count_eq_one_of_mem (nodup_localOnly _ _ _) h2
  · intro d hdmem
    rw [diffPhase_filesToDownload, hd, List.nil_append] at hdmem
    obtain ⟨hd1, hd2⟩ := List.mem_filter.1 hdmem
    simp only [remoteDownload, Bool.and_eq_true, Bool.not_eq_true'] at hd2
    exact hno d hd1 hd2.1.1

/-- An instance of C3: `c.sav` is in the index and not in the listing. -/
theorem diff_local_only_uploads_witness :
    List.count "c.sav"
        (diffPhase exampleEnv
          (SavesSyncRequest.create exampleEnv [("a.sav", 100), ("c.sav", 7)] true)
          { request := some "d", value := [exampleFile "a.sav" 100] }).filesToUpload = 1 ∧
      ∀ d ∈ (diffPhase exampleEnv
          (SavesSyncRequest.create exampleEnv [("a.sav", 100), ("c.sav", 7)] true)
          { request := some "d", value := [exampleFile "a.sav" 100] }).filesToDownload,
        d.name ≠ "c.sav" :=
  diff_local_only_uploads exampleEnv
    (SavesSyncRequest.create exampleEnv [("a.sav", 100), ("c.sav", 7)] true)
    { request := some "d", value := [exampleFile "a.sav" 100] } "c.sav"
    (by decide) (by decide) (by decide) (by decide) (by decide) (by decide)
/-- C4, as stated, fails: with the index `a.sav ↦ 100` and a listing that has two files
named `a.sav`, one older (50) and one newer (200) than the local copy, the diff puts
`a.sav` in the upload queue and the newer descriptor in the download queue. -/
theorem queues_clash_on_duplicate_names :
    ∃ d ∈ (diffPhase exampleEnv (SavesSyncRequest.create exampleEnv [("a.sav", 100)] true)
        { request := some "d",
          value := [exampleFile "a.sav" 50, exampleFile "a.sav" 200] }).filesToDownload,
      d.name ∈ (diffPhase exampleEnv (SavesSyncRequest.create exampleEnv [("a.sav", 100)] true)
        { request := some "d",
          value := [exampleFile "a.sav" 50, exampleFile "a.sav" 200] }).filesToUpload :=
  ⟨exampleFile "a.sav" 200, by decide, by decide⟩

/-- C4, amended: when the non-directory files of the listing have pairwise distinct names,
no filename occurs both as the name of a descriptor in the download queue and as an
entry of the upload queue after the diff, and this stays true in every later state of
the run. -/
theorem queues_never_clash (env : Env) (s s' : SavesSyncRequest)
    (response : ListDirectoryResponse) (accept : Bool) (evs : List (Event × Bool))
    (hi : s.ignoreCallback = false)
    (hd : s.filesToDownload = []) (hu : s.filesToUpload = [])
    (hnodup : ((response.value.filter (fun f => !f.isDirectory)).map StorageFile.name).Nodup)
    (hrun : run env (directoryListedCallback env s response accept) evs = some s') :
    (∀ d ∈ (diffPhase env s response).filesToDownload,
        d.name ∉ (diffPhase env s response).filesToUpload) ∧
      ∀ d ∈ s'.filesToDownload, d.name ∉ s'.filesToUpload := by
  have h0 : NoClash (diffPhase env s response) := diffPhase_noClash env s response hd hu hnodup
  refine ⟨h0, ?_⟩
  have h1 := directoryListedCallback_shrinks env s response accept hi
  have h2 := run_shrinks env evs _ s' (h1.phase (by simp [listingPhase])) hrun
  exact NoClash_of_shrinks (Shrinks.trans h1 h2) h0

/-- An instance of C4 (amended): the state after the diff and one completed download. -/
theorem queues_never_clash_witness :
    ∃ s' : SavesSyncRequest,
      run exampleEnv
          (directoryListedCallback exampleEnv
            (SavesSyncRequest.create exampleEnv [("a.sav", 100), ("c.sav", 7)] true)
            { request := some "d", value := [exampleFile "a.sav" 200, exampleFile "b.sav" 50] }
            true)
          [(Event.fileDownloaded { request := none, value := true }, true)] = some s' ∧
        ∀ d ∈ s'.filesToDownload, d.name ∉ s'.filesToUpload :=
  ⟨_, rfl,
    (queues_never_clash exampleEnv
      (SavesSyncRequest.create exampleEnv [("a.sav", 100), ("c.sav", 7)] true) _
      { request := some "d", value := [exampleFile "a.sav" 200, exampleFile "b.sav" 50] }
      true [(Event.fileDownloaded { request := none, value := true }, true)]
      (by decide) (by decide) (by decide) (by decide) rfl).2⟩

/-- C5: at the end of the diff `totalFilesToHandle` is the number of queued downloads plus
the number of queued uploads; in every later state of the same run its value is still
the one the diff wrote; a completion delivered once the diff has run never changes it;
and none of `finishError`, `finishSync`, `downloadNextFile`, `uploadNextFile`, the error
callbacks of the listing phase and a failed directory creation writes it. -/
theorem totalFilesToHandle_frozen (env : Env) (s : SavesSyncRequest)
    (response : ListDirectoryResponse) (accept : Bool) :
    (diffPhase env s response).totalFilesToHandle =
        (diffPhase env s response).filesToDownload.length
          + (diffPhase env s response).filesToUpload.length ∧
      (∀ (evs : List (Event × Bool)) (s' : SavesSyncRequest), s.ignoreCallback = false →
        run env (directoryListedCallback env s response accept) evs = some s' →
        s'.totalFilesToHandle = (diffPhase env s response).totalFilesToHandle) ∧
      (∀ (t t' : SavesSyncRequest) (ev : Event) (a : Bool), listingPhase t = false →
        deliver env t ev a = some t' → t'.totalFilesToHandle = t.totalFilesToHandle) ∧
      (∀ (t : SavesSyncRequest) (error : ErrorResponse) (a : Bool) (date : Option String),
        (finishError t error).totalFilesToHandle = t.totalFilesToHandle ∧
        (finishSync env t a).totalFilesToHandle = t.totalFilesToHandle ∧
        (downloadNextFile env t a).totalFilesToHandle = t.totalFilesToHandle ∧
        (uploadNextFile env t a).totalFilesToHandle = t.totalFilesToHandle ∧
        (directoryListedErrorCallback env t error a).totalFilesToHandle = t.totalFilesToHandle ∧
        (directoryCreatedErrorCallback t error).totalFilesToHandle = t.totalFilesToHandle ∧
        (directoryCreatedCallback env t { request := date, value := false } a).totalFilesToHandle
          = t.totalFilesToHandle) := by
  refine ⟨diffPhase_totalFilesToHandle env s response, ?_, ?_, ?_⟩
  · intro evs s' hi hrun
    have h1 := directoryListedCallback_shrinks env s response accept hi
    have h2 := run_shrinks env evs _ s' (h1.phase (by simp [listingPhase])) hrun
    exact (Shrinks.trans h1 h2).total
  · intro t t' ev a hphase hdel
    exact (deliver_shrinks env t t' ev a hphase hdel).total
  · intro t error a date
    refine ⟨(finishError_shrinks t error).total, (finishSync_shrinks env t a).total,
      (downloadNextFile_shrinks env t a).total, (uploadNextFile_shrinks env t a).total, ?_, ?_,
      ?_⟩
    · unfold directoryListedErrorCallback
      dsimp only
      split_ifs <;> simp [finishError_totalFilesToHandle]
    · unfold directoryCreatedErrorCallback
      dsimp only
      split_ifs <;> simp [finishError_totalFilesToHandle]
    · unfold directoryCreatedCallback
      dsimp only
      split_ifs <;> simp_all [finishError_totalFilesToHandle]

/-- An instance of C5: three files to handle; after one download has succeeded and the
next has failed the total is still three. -/
theorem totalFilesToHandle_frozen_witness :
    ∃ s' : SavesSyncRequest,
      run exampleEnv
          (directoryListedCallback exampleEnv
            (SavesSyncRequest.create exampleEnv [("a.sav", 100), ("c.sav", 7)] true)
            { request := some "d", value := [exampleFile "a.sav" 200, exampleFile "b.sav" 50] }
            true)
          [(Event.fileDownloaded { request := none, value := true }, true),
           (Event.fileDownloaded { request := none, value := false }, true)] = some s' ∧
        s'.totalFilesToHandle = 3 ∧ s'.filesToDownload = [] ∧ s'.filesToUpload = ["c.sav"] :=
  ⟨_, rfl,
    ((totalFilesToHandle_frozen exampleEnv
      (SavesSyncRequest.create exampleEnv [("a.sav", 100), ("c.sav", 7)] true)
      { request := some "d", value := [exampleFile "a.sav" 200, exampleFile "b.sav" 50] }
      true).2.1
        [(Event.fileDownloaded { request := none, value := true }, true),
         (Event.fileDownloaded { request := none, value := false }, true)] _
        (by decide) rfl).trans (by decide), by decide, by decide⟩

/-- C7: in every state of a run `getProgress` is determined by the total, the two queue
lengths and the request state: when `totalFilesToHandle > 0` it is the exact ratio
`(totalFilesToHandle - |downloadQueue| - |uploadQueue|) / totalFilesToHandle`, and when
`totalFilesToHandle = 0` it is `1` if the request is finished and `0` otherwise. -/
theorem getProgress_formula (env : Env) (loaded : HashMap Nat) (accept : Bool)
    (evs : List (Event × Bool)) (s : SavesSyncRequest)
    (hrun : run env (SavesSyncRequest.create env loaded accept) evs = some s) :
    (0 < s.totalFilesToHandle →
      getProgress s =
        ((s.totalFilesToHandle : ℚ) - s.filesToDownload.length - s.filesToUpload.length)
          / s.totalFilesToHandle) ∧
    (s.totalFilesToHandle = 0 →
      getProgress s = if s.state = RequestState.FINISHED then 1 else 0) ∧
    (∀ t : SavesSyncRequest, t.totalFilesToHandle = s.totalFilesToHandle →
      t.filesToDownload.length = s.filesToDownload.length →
      t.filesToUpload.length = s.filesToUpload.length → t.state = s.state →
      getProgress t = getProgress s) := by
  have hinv := run_inv env evs _ s (create_inv env loaded accept) hrun
  refine ⟨fun ht => getProgress_of_bound s hinv.bound (by omega), ?_, ?_⟩
  · intro ht
    simp [getProgress, ht]
  · intro t h1 h2 h3 h4
    simp [getProgress, h1, h2, h3, h4]

/-- An instance of C7: three files to handle, one upload still queued. -/
theorem getProgress_formula_witness :
    ∃ s : SavesSyncRequest,
      run exampleEnv (SavesSyncRequest.create exampleEnv [("a.sav", 100), ("c.sav", 7)] true)
          [(Event.directoryListed
              { request := some "d",
                value := [exampleFile "a.sav" 200, exampleFile "b.sav" 50] }, true),
           (Event.fileDownloaded { request := none, value := true }, true)] = some s ∧
        getProgress s = ((3 : ℚ) - 0 - 1) / 3 :=
  ⟨_, rfl,
    (getProgress_formula exampleEnv [("a.sav", 100), ("c.sav", 7)] true
      [(Event.directoryListed
          { request := some "d",
            value := [exampleFile "a.sav" 200, exampleFile "b.sav" 50] }, true),
       (Event.fileDownloaded { request := none, value := true }, true)] _ rfl).1 (by decide)⟩

/-- C6: along every run from the construction of the request (no restart), the coarse
progress, taken as an exact ratio, does not decrease when a completion is delivered, and
in a state where the run has succeeded it is exactly `1`. -/
theorem getProgress_monotone (env : Env) (loaded : HashMap Nat) (accept : Bool)
    (evs : List (Event × Bool)) (s : SavesSyncRequest)
    (hrun : run env (SavesSyncRequest.create env loaded accept) evs = some s) :
    (∀ (ev : Event) (a : Bool) (s' : SavesSyncRequest), deliver env s ev a = some s' →
      getProgress s ≤ getProgress s') ∧
    (succeeded s → getProgress s = 1) := by
  have hinv := run_inv env evs _ s (create_inv env loaded accept) hrun
  constructor
  · intro ev a s' hdel
    cases hphase : listingPhase s
    · exact getProgress_mono_of_shrinks s s' (deliver_shrinks env s s' ev a hphase hdel)
        hinv.bound
    · obtain ⟨_, _, ht, hst⟩ := hinv.fresh hphase
      have : getProgress s = 0 := by simp [getProgress, ht, hst]
      rw [this]
      exact getProgress_nonneg s'
  · intro hs
    obtain ⟨_, hd, hu, hst⟩ := hinv.done hs
    by_cases h0 : s.totalFilesToHandle = 0
    · simp [getProgress, h0, hst]
    · rw [getProgress_of_bound s hinv.bound h0, hd, hu]
      simp only [List.length_nil, Nat.cast_zero, sub_zero]
      exact div_self (by exact_mod_cast h0)

/-- An instance of C6: the progress before and after the first completed download. -/
theorem getProgress_monotone_witness :
    ∃ s s' : SavesSyncRequest,
      run exampleEnv (SavesSyncRequest.create exampleEnv [("a.sav", 100), ("c.sav", 7)] true)
          [(Event.directoryListed
              { request := some "d",
                value := [exampleFile "a.sav" 200, exampleFile "b.sav" 50] }, true)] = some s ∧
        deliver exampleEnv s (Event.fileDownloaded { request := none, value := true }) true
          = some s' ∧
        getProgress s ≤ getProgress s' :=
  ⟨_, _, rfl, rfl,
    (getProgress_monotone exampleEnv [("a.sav", 100), ("c.sav", 7)] true
      [(Event.directoryListed
          { request := some "d",
            value := [exampleFile "a.sav" 200, exampleFile "b.sav" 50] }, true)] _ rfl).1
      (Event.fileDownloaded { request := none, value := true }) true _ rfl⟩

/-- C8: for every error payload the listing-error classifier returns irrecoverable exactly
when `(interrupted or failed) and not (failed and M)`, where `M` (`specMatchesNotFound`,
written from the claim with its own notions of containment and of period repair) holds
iff the structured parse of the body (the first parse, or the parse of the period-repaired
body when the first parse fails) is an object with a string field `error_summary` whose
value contains `not_found` or with an object field `error` whose string field `code` is
`itemNotFound`, or the raw body contains `subdirectory not found`, or
`no such file found in its parent directory`, or both `itemNotFound` and
`Item does not exist`; and the result does not depend on the numeric status. -/
theorem classifier_matches_reference (env : Env) (error : ErrorResponse) :
    (listingErrorIrrecoverable env error = true ↔
      (error.interrupted = true ∨ error.failed = true) ∧
        ¬ (error.failed = true ∧ specMatchesNotFound env error.response)) ∧
      ∀ status : Int,
        listingErrorIrrecoverable env { error with httpResponseCode := status } =
          listingErrorIrrecoverable env error :=
  ⟨listingErrorIrrecoverable_iff_spec env error, fun _ => rfl⟩

/-- An instance of C8: a failed and interrupted error whose body parses only after the
stray period has been replaced, to an object with `error.code = "itemNotFound"`, is
recoverable; an interrupted error that has not failed is irrecoverable. -/
theorem classifier_matches_reference_witness :
    listingErrorIrrecoverable repairedEnv
        { interrupted := true, failed := true,
          response := "\x7b\"error\":.\x7b\"code\":\"itemNotFound\"\x7d\x7d",
          httpResponseCode := 500 } = false ∧
    listingErrorIrrecoverable repairedEnv
        { interrupted := true, failed := false,
          response := "\x7b\"error\":.\x7b\"code\":\"itemNotFound\"\x7d\x7d",
          httpResponseCode := 500 } = true :=
  ⟨Bool.eq_false_iff.2 (fun h =>
      ((classifier_matches_reference repairedEnv
        { interrupted := true, failed := true,
          response := "\x7b\"error\":.\x7b\"code\":\"itemNotFound\"\x7d\x7d",
          httpResponseCode := 500 }).1.1 h).2
        ⟨rfl, Or.inl
          ⟨[("error", JSONValue.object [("code", JSONValue.string "itemNotFound")])],
            Or.inr ⟨rfl, "\x7b\"error\": \x7b\"code\":\"itemNotFound\"\x7d\x7d",
              (specPeriodRepair_iff _ _).2 (by decide), rfl⟩,
            Or.inr ⟨[("code", JSONValue.string "itemNotFound")], rfl, rfl⟩⟩⟩),
    (classifier_matches_reference repairedEnv
      { interrupted := true, failed := false,
        response := "\x7b\"error\":.\x7b\"code\":\"itemNotFound\"\x7d\x7d",
        httpResponseCode := 500 }).1.2
      ⟨Or.inl rfl, fun h => absurd h.1 (by decide)⟩⟩

/-- C9, as stated, fails: for an error that is interrupted and not failed, with the body
`subdirectory not found`, the error callback receives the error and no create-directory
operation is requested. -/
theorem interrupted_listing_error_aborts :
    Effect.errorCallback
        { interrupted := true, failed := false, response := "subdirectory not found",
          httpResponseCode := -1 } ∈
      (directoryListedErrorCallback exampleEnv (SavesSyncRequest.create exampleEnv [] true)
        { interrupted := true, failed := false, response := "subdirectory not found",
          httpResponseCode := -1 } true).log ∧
    Effect.request (Operation.createDirectory "saves") ∉
      (directoryListedErrorCallback exampleEnv (SavesSyncRequest.create exampleEnv [] true)
        { interrupted := true, failed := false, response := "subdirectory not found",
          httpResponseCode := -1 } true).log := by
  decide

/-- C9, amended: for every listing error whose body contains `subdirectory not found` and
whose failed flag is set or whose interrupted flag is clear (whatever its status), a
create-directory operation for the saves directory is requested; when the storage
creates it nothing else happens (no error callback, the run goes on with that operation
in flight); and when the operation completes with `ok = true` the listing callback runs
on an empty listing, whose diff leaves the download queue empty and puts in the upload
queue exactly the eligible, non-sentinel names of the index, each once. -/
theorem subdirectory_not_found_recovers (env : Env) (s : SavesSyncRequest)
    (error : ErrorResponse) (response : BoolResponse) (accept : Bool)
    (hi : s.ignoreCallback = false)
    (hd : s.filesToDownload = []) (hu : s.filesToUpload = [])
    (hflags : error.failed = true ∨ error.interrupted = false)
    (hbody : stringContains error.response "subdirectory not found" = true)
    (hok : response.value = true) :
    Effect.request (Operation.createDirectory (savesDirectory env)) ∈
        (directoryListedErrorCallback env s error accept).log ∧
      directoryListedErrorCallback env s error true =
        { s with
          workingRequest := some (Operation.createDirectory (savesDirectory env))
          log := s.log ++ [Effect.request (Operation.createDirectory (savesDirectory env))] } ∧
      directoryCreatedCallback env (directoryListedErrorCallback env s error true) response accept =
        directoryListedCallback env (directoryListedErrorCallback env s error true)
          { request := response.request, value := [] } accept ∧
      (diffPhase env (directoryListedErrorCallback env s error true)
        { request := response.request, value := [] }).filesToDownload = [] ∧
      (diffPhase env (directoryListedErrorCallback env s error true)
        { request := response.request, value := [] }).filesToUpload.Nodup ∧
      ∀ name : String,
        name ∈ (diffPhase env (directoryListedErrorCallback env s error true)
            { request := response.request, value := [] }).filesToUpload ↔
          (HashMap.contains s.localFilesTimestamps name = true
            ∧ name ≠ env.TIMESTAMPS_FILENAME ∧ env.canSyncFilename name = true) := by
  have hrec := listingError_recoverable_of_phrase env error hflags hbody
  have hcb := directoryListedErrorCallback_recoverable env s error hi hrec
  refine ⟨directoryListedErrorCallback_requests env s error accept hi hrec, hcb, ?_, ?_⟩
  · exact directoryCreatedCallback_ok env _ response accept (by rw [hcb]; exact hi) hok
  · rw [hcb]
    exact diffPhase_empty_listing env _ response.request hd hu

/-- An instance of C9 (amended): a failed error with status 404. -/
theorem subdirectory_not_found_recovers_witness :
    (diffPhase exampleEnv
        (directoryListedErrorCallback exampleEnv
          (SavesSyncRequest.create exampleEnv [("a.sav", 100), ("timestamps", 1)] true)
          { interrupted := false, failed := true,
            response := "base subdirectory not found", httpResponseCode := 404 } true)
        { request := some "d", value := [] }).filesToDownload = [] :=
  (subdirectory_not_found_recovers exampleEnv
    (SavesSyncRequest.create exampleEnv [("a.sav", 100), ("timestamps", 1)] true)
    { interrupted := false, failed := true,
      response := "base subdirectory not found", httpResponseCode := 404 }
    { request := some "d", value := true } true
    (by decide) (by decide) (by decide) (by decide) (by decide) (by decide)).2.2.2.1

/-- C10: a failed listing error whose body parses to an object with a string field
`error_summary` containing `not_found` is classified recoverable: the classifier returns
`false`, a create-directory operation is requested and, the storage creating it, no
error is reported.  The body `{"error_summary":"path/not_found/..."}` is the instance
checked by the witness. -/
theorem error_summary_not_found_recoverable (env : Env) (s : SavesSyncRequest)
    (error : ErrorResponse) (fields : HashMap JSONValue) (summary : String) (accept : Bool)
    (hi : s.ignoreCallback = false)
    (hfailed : error.failed = true)
    (hparse : env.parse error.response = some (JSONValue.object fields))
    (hfield : HashMap.find fields "error_summary" = some (JSONValue.string summary))
    (hsummary : stringContains summary "not_found" = true) :
    listingErrorIrrecoverable env error = false ∧
      Effect.request (Operation.createDirectory (savesDirectory env)) ∈
        (directoryListedErrorCallback env s error accept).log ∧
      directoryListedErrorCallback env s error true =
        { s with
          workingRequest := some (Operation.createDirectory (savesDirectory env))
          log := s.log ++ [Effect.request (Operation.createDirectory (savesDirectory env))] } := by
  have hrec : listingErrorIrrecoverable env error = false := by
    rw [listingErrorIrrecoverable_eq_reference env error]
    simp [referenceIrrecoverable, matchesNotFound, structuredParse, hparse, hasNotFoundSummary,
      hfield, hsummary, hfailed]
  exact ⟨hrec, directoryListedErrorCallback_requests env s error accept hi hrec,
    directoryListedErrorCallback_recoverable env s error hi hrec⟩

/-- The instance of C10 with the body `{"error_summary":"path/not_found/..."}`. -/
theorem error_summary_not_found_recoverable_witness :
    listingErrorIrrecoverable exampleEnv
        { interrupted := false, failed := true,
          response := "\x7b\"error_summary\":\"path/not_found/...\"\x7d",
          httpResponseCode := 409 } = false :=
  (error_summary_not_found_recoverable exampleEnv
    (SavesSyncRequest.create exampleEnv [] true)
    { interrupted := false, failed := true,
      response := "\x7b\"error_summary\":\"path/not_found/...\"\x7d",
      httpResponseCode := 409 }
    [("error_summary", JSONValue.string "path/not_found/...")] "path/not_found/..." true
    (by decide) (by decide) rfl rfl (by decide)).1

/-! ## The handlers in explicit form, outcomes and the order of the transfers -/

theorem finishError_eq (s : SavesSyncRequest) (error : ErrorResponse)
    (hwr : s.workingRequest = none) :
    finishError s error =
      { s with
        state := RequestState.FINISHED
        currentDownloadingFile := StorageFile.empty
        filesToDownload := []
        log := s.log
          ++ (if s.currentDownloadingFile.name ≠ "" then
                [Effect.removeSavefile s.currentDownloadingFile.name] else [])
          ++ [Effect.errorCallback error] } := by
  unfold finishError requestFinishError
  rw [hwr]
  dsimp only
  split_ifs <;> simp [hwr]

theorem finishSync_eq (env : Env) (s : SavesSyncRequest) (success : Bool) :
    finishSync env s success =
      { s with
        state := RequestState.FINISHED
        log := s.log ++ [Effect.setStorageLastSync s.date]
          ++ (if env.hasBoolCallback then [Effect.boolCallback success] else []) } := by
  unfold finishSync requestFinishSuccess
  dsimp only
  split_ifs <;> simp

theorem uploadNextFile_nil (env : Env) (s : SavesSyncRequest) (accept : Bool)
    (h : s.filesToUpload = []) : uploadNextFile env s accept = finishSync env s true := by
  unfold uploadNextFile
  rw [h]
  rfl

theorem uploadNextFile_accept (env : Env) (s : SavesSyncRequest) (rest : List String)
    (name : String) (h : s.filesToUpload = rest ++ [name]) :
    uploadNextFile env s true =
      { s with
        currentUploadingFile := name
        filesToUpload := rest
        log := s.log ++ [Effect.request (uploadOperation env name)]
        workingRequest := some (uploadOperation env name) } := by
  unfold uploadNextFile uploadOperation
  rw [h]
  simp

theorem uploadNextFile_refuse (env : Env) (s : SavesSyncRequest) (rest : List String)
    (name : String) (h : s.filesToUpload = rest ++ [name]) :
    uploadNextFile env s false =
      finishError
        { s with
          currentUploadingFile := name
          filesToUpload := rest
          log := s.log ++ [Effect.request (uploadOperation env name)]
          workingRequest := none }
        (ErrorResponse.ofMessage
          "SavesSyncRequest::uploadNextFile: Storage couldn't create Request to upload a file") := by
  unfold uploadNextFile uploadOperation
  rw [h]
  simp

theorem downloadNextFile_nil (env : Env) (s : SavesSyncRequest) (accept : Bool)
    (h : s.filesToDownload = []) :
    downloadNextFile env s accept =
      uploadNextFile env { s with currentDownloadingFile := StorageFile.empty } accept := by
  unfold downloadNextFile
  rw [h]
  rfl

theorem downloadNextFile_accept (env : Env) (s : SavesSyncRequest) (rest : List StorageFile)
    (file : StorageFile) (h : s.filesToDownload = rest ++ [file]) :
    downloadNextFile env s true =
      { s with
        currentDownloadingFile := file
        filesToDownload := rest
        log := s.log ++ [Effect.request (downloadOperation env file)]
        workingRequest := some (downloadOperation env file) } := by
  unfold downloadNextFile downloadOperation
  rw [h]
  simp

theorem downloadNextFile_refuse (env : Env) (s : SavesSyncRequest) (rest : List StorageFile)
    (file : StorageFile) (h : s.filesToDownload = rest ++ [file]) :
    downloadNextFile env s false =
      finishError
        { s with
          currentDownloadingFile := file
          filesToDownload := rest
          log := s.log ++ [Effect.request (downloadOperation env file)]
          workingRequest := none }
        (ErrorResponse.ofMessage
          "SavesSyncRequest::downloadNextFile: Storage couldn't create Request to download a file") := by
  unfold downloadNextFile downloadOperation
  rw [h]
  simp

theorem fileDownloadedErrorCallback_eq (s : SavesSyncRequest) (error : ErrorResponse)
    (hi : s.ignoreCallback = false) :
    fileDownloadedErrorCallback s error = finishError { s with workingRequest := none } error := by
  unfold fileDownloadedErrorCallback
  dsimp only
  rw [if_neg (by simp [hi])]

theorem fileUploadedErrorCallback_eq (s : SavesSyncRequest) (error : ErrorResponse)
    (hi : s.ignoreCallback = false) :
    fileUploadedErrorCallback s error = finishError { s with workingRequest := none } error :=
  fileDownloadedErrorCallback_eq s error hi

theorem directoryCreatedErrorCallback_eq (s : SavesSyncRequest) (error : ErrorResponse)
    (hi : s.ignoreCallback = false) :
    directoryCreatedErrorCallback s error = finishError { s with workingRequest := none } error :=
  fileDownloadedErrorCallback_eq s error hi

theorem fileDownloadedCallback_fail (env : Env) (s : SavesSyncRequest) (response : BoolResponse)
    (accept : Bool) (hi : s.ignoreCallback = false) (hval : response.value = false) :
    fileDownloadedCallback env s response accept =
      finishError
        { s with
          workingRequest := none
          log := s.log ++ [Effect.removeSavefile s.currentDownloadingFile.name] }
        downloadFailedError := by
  unfold fileDownloadedCallback downloadFailedError
  dsimp only
  rw [if_neg (by simp [hi]), if_pos (by simp [hval])]

theorem fileDownloadedCallback_ok (env : Env) (s : SavesSyncRequest) (response : BoolResponse)
    (accept : Bool) (hi : s.ignoreCallback = false) (hval : response.value = true) :
    fileDownloadedCallback env s response accept =
      downloadNextFile env
        { s with
          workingRequest := none
          localFilesTimestamps :=
            HashMap.assign s.localFilesTimestamps s.currentDownloadingFile.name
              s.currentDownloadingFile.timestamp
          log := s.log ++ [Effect.saveTimestamps
            (HashMap.assign s.localFilesTimestamps s.currentDownloadingFile.name
              s.currentDownloadingFile.timestamp)]
          bytesDownloaded := (s.bytesDownloaded + s.currentDownloadingFile.size) % 2 ^ 32 }
        accept := by
  unfold fileDownloadedCallback
  dsimp only
  rw [if_neg (by simp [hi]), if_neg (by simp [hval])]

theorem fileUploadedCallback_eq (env : Env) (s : SavesSyncRequest) (response : UploadResponse)
    (accept : Bool) (hi : s.ignoreCallback = false) :
    fileUploadedCallback env s response accept =
      uploadNextFile env
        { s with
          workingRequest := none
          localFilesTimestamps :=
            HashMap.assign s.localFilesTimestamps s.currentUploadingFile response.value.timestamp
          log := s.log ++ [Effect.saveTimestamps
            (HashMap.assign s.localFilesTimestamps s.currentUploadingFile
              response.value.timestamp)] }
        accept := by
  unfold fileUploadedCallback
  dsimp only
  rw [if_neg (by simp [hi])]

theorem directoryListedCallback_eq (env : Env) (s : SavesSyncRequest)
    (response : ListDirectoryResponse) (accept : Bool) (hi : s.ignoreCallback = false) :
    directoryListedCallback env s response accept =
      if (diffPhase env s response).filesToDownload = [] then
        uploadNextFile env { diffPhase env s response with workingRequest := none } accept
      else
        downloadNextFile env { diffPhase env s response with workingRequest := none } accept := by
  unfold directoryListedCallback
  dsimp only
  rw [if_neg (by simp [hi]), diffPhase_clear]
  by_cases h : (diffPhase env s response).filesToDownload = [] <;> simp [h]

theorem directoryCreatedCallback_fail (env : Env) (s : SavesSyncRequest)
    (response : BoolResponse) (accept : Bool) (hi : s.ignoreCallback = false)
    (hval : response.value = false) :
    directoryCreatedCallback env s response accept =
      finishError { s with workingRequest := none } directoryNotCreatedError := by
  unfold directoryCreatedCallback directoryNotCreatedError
  dsimp only
  rw [if_neg (by simp [hi]), if_pos (by simp [hval])]

theorem directoryListedErrorCallback_irrecoverable (env : Env) (s : SavesSyncRequest)
    (error : ErrorResponse) (accept : Bool) (hi : s.ignoreCallback = false)
    (hirr : listingErrorIrrecoverable env error = true) :
    directoryListedErrorCallback env s error accept =
      finishError { s with workingRequest := none } error := by
  unfold directoryListedErrorCallback
  dsimp only
  rw [if_neg (by simp [hi]), if_pos hirr]

theorem directoryListedErrorCallback_refuse (env : Env) (s : SavesSyncRequest)
    (error : ErrorResponse) (hi : s.ignoreCallback = false)
    (hrec : listingErrorIrrecoverable env error = false) :
    directoryListedErrorCallback env s error false =
      finishError
        { s with
          workingRequest := none
          log := s.log ++ [Effect.request (Operation.createDirectory (savesDirectory env))] }
        (ErrorResponse.ofMessage
          "SavesSyncRequest::directoryListedErrorCallback: Storage couldn't create Request to create remote directory") := by
  unfold directoryListedErrorCallback
  dsimp only
  rw [if_neg (by simp [hi]), if_neg (by simp [hrec])]
  simp

/-- Nothing can be delivered to a request that has no operation in flight. -/
theorem deliver_none_of_idle (env : Env) (s : SavesSyncRequest) (ev : Event) (accept : Bool)
    (h : s.workingRequest = none) : deliver env s ev accept = none := by
  unfold deliver
  rw [h]

theorem finishError_frame (s : SavesSyncRequest) (error : ErrorResponse) :
    (finishError s error).localFilesTimestamps = s.localFilesTimestamps ∧
      (finishError s error).bytesDownloaded = s.bytesDownloaded ∧
      (finishError s error).date = s.date ∧
      ∃ ext, (finishError s error).log = s.log ++ ext := by
  unfold finishError requestFinishError
  cases h : s.workingRequest <;> dsimp only <;> split_ifs <;>
    exact ⟨rfl, rfl, rfl, ⟨_, by simp only [List.append_assoc]; rfl⟩⟩

theorem finishSync_frame (env : Env) (s : SavesSyncRequest) (success : Bool) :
    (finishSync env s success).localFilesTimestamps = s.localFilesTimestamps ∧
      (finishSync env s success).bytesDownloaded = s.bytesDownloaded ∧
      (finishSync env s success).date = s.date ∧
      ∃ ext, (finishSync env s success).log = s.log ++ ext := by
  rw [finishSync_eq]
  exact ⟨rfl, rfl, rfl, ⟨_, by simp only [List.append_assoc]; rfl⟩⟩

theorem uploadNextFile_frame (env : Env) (s : SavesSyncRequest) (accept : Bool) :
    (uploadNextFile env s accept).localFilesTimestamps = s.localFilesTimestamps ∧
      (uploadNextFile env s accept).bytesDownloaded = s.bytesDownloaded ∧
      (uploadNextFile env s accept).date = s.date ∧
      ∃ ext, (uploadNextFile env s accept).log = s.log ++ ext := by
  rcases List.eq_nil_or_concat s.filesToUpload with h | ⟨rest, name, h⟩
  · rw [uploadNextFile_nil env s accept h]
    exact finishSync_frame env s true
  · rw [List.concat_eq_append] at h
    cases accept
    · rw [uploadNextFile_refuse env s rest name h]
      obtain ⟨h1, h2, h3, ext, h4⟩ := finishError_frame
        { s with
          currentUploadingFile := name
          filesToUpload := rest
          log := s.log ++ [Effect.request (uploadOperation env name)]
          workingRequest := none }
        (ErrorResponse.ofMessage
          "SavesSyncRequest::uploadNextFile: Storage couldn't create Request to upload a file")
      exact ⟨h1, h2, h3, ⟨_, by rw [h4, List.append_assoc]⟩⟩
    · rw [uploadNextFile_accept env s rest name h]
      exact ⟨rfl, rfl, rfl, ⟨_, rfl⟩⟩

theorem downloadNextFile_frame (env : Env) (s : SavesSyncRequest) (accept : Bool) :
    (downloadNextFile env s accept).localFilesTimestamps = s.localFilesTimestamps ∧
      (downloadNextFile env s accept).bytesDownloaded = s.bytesDownloaded ∧
      (downloadNextFile env s accept).date = s.date ∧
      ∃ ext, (downloadNextFile env s accept).log = s.log ++ ext := by
  rcases List.eq_nil_or_concat s.filesToDownload with h | ⟨rest, file, h⟩
  · rw [downloadNextFile_nil env s accept h]
    exact uploadNextFile_frame env _ accept
  · rw [List.concat_eq_append] at h
    cases accept
    · rw [downloadNextFile_refuse env s rest file h]
      obtain ⟨h1, h2, h3, ext, h4⟩ := finishError_frame
        { s with
          currentDownloadingFile := file
          filesToDownload := rest
          log := s.log ++ [Effect.request (downloadOperation env file)]
          workingRequest := none }
        (ErrorResponse.ofMessage
          "SavesSyncRequest::downloadNextFile: Storage couldn't create Request to download a file")
      exact ⟨h1, h2, h3, ⟨_, by rw [h4, List.append_assoc]⟩⟩
    · rw [downloadNextFile_accept env s rest file h]
      exact ⟨rfl, rfl, rfl, ⟨_, rfl⟩⟩

theorem start_accept (env : Env) (s : SavesSyncRequest) (loaded : HashMap Nat) :
    start env s loaded true =
      { s with
        currentDownloadingFile := StorageFile.empty
        currentUploadingFile := ""
        filesToDownload := []
        filesToUpload := []
        totalFilesToHandle := 0
        ignoreCallback := false
        localFilesTimestamps := loaded
        log := s.log
          ++ (match s.workingRequest with
              | some op => [Effect.finishWorking op]
              | none => [])
          ++ [Effect.request (Operation.listDirectory (savesDirectory env))]
        workingRequest := some (Operation.listDirectory (savesDirectory env)) } := by
  unfold start
  cases h : s.workingRequest <;> simp

theorem start_refuse (env : Env) (s : SavesSyncRequest) (loaded : HashMap Nat) :
    start env s loaded false =
      finishError
        { s with
          currentDownloadingFile := StorageFile.empty
          currentUploadingFile := ""
          filesToDownload := []
          filesToUpload := []
          totalFilesToHandle := 0
          ignoreCallback := false
          localFilesTimestamps := loaded
          log := s.log
            ++ (match s.workingRequest with
                | some op => [Effect.finishWorking op]
                | none => [])
            ++ [Effect.request (Operation.listDirectory (savesDirectory env))]
          workingRequest := none }
        (ErrorResponse.ofMessage
          "SavesSyncRequest::start: Storage couldn't create Request to list directory") := by
  unfold start
  cases h : s.workingRequest <;> simp

/-- A refused request followed by `finishError` is an immediate failure. -/
theorem failsImmediately_of_finishError (env : Env) (s t : SavesSyncRequest) (op : Operation)
    (message : String) (pre : List Effect)
    (hlog : t.log = s.log ++ pre ++ [Effect.request op])
    (hpre : ∀ e ∈ pre, ∃ op', e = Effect.finishWorking op')
    (hwr : t.workingRequest = none) :
    FailsImmediately env s (finishError t (ErrorResponse.ofMessage message)) op := by
  have hfilter : ∀ p : Effect → Bool, (∀ op', p (Effect.finishWorking op') = false) →
      pre.filter p = [] := by
    intro p hp
    rw [List.filter_eq_nil_iff]
    intro e he
    obtain ⟨op', rfl⟩ := hpre e he
    simp [hp op']
  rw [finishError_eq _ _ hwr]
  refine ⟨pre ++ [Effect.request op]
      ++ (if t.currentDownloadingFile.name ≠ "" then
            [Effect.removeSavefile t.currentDownloadingFile.name] else [])
      ++ [Effect.errorCallback (ErrorResponse.ofMessage message)],
    ErrorResponse.ofMessage message, by simp [hlog], ?_, ?_, rfl, ?_, ?_, hwr, rfl,
    fun ev a => deliver_none_of_idle _ _ _ _ hwr⟩
  · simp only [List.filter_append, hfilter Effect.isRequest (fun _ => rfl)]
    split_ifs <;> simp [Effect.isRequest]
  · simp only [List.filter_append, hfilter Effect.isErrorCallback (fun _ => rfl)]
    split_ifs <;> simp [Effect.isErrorCallback]
  · simp only [List.filter_append, hfilter Effect.isBoolCallback (fun _ => rfl)]
    split_ifs <;> simp [Effect.isBoolCallback]
  · simp only [List.filter_append, hfilter Effect.isSetStorageLastSync (fun _ => rfl)]
    split_ifs <;> simp [Effect.isSetStorageLastSync]

theorem awaitingDirectory_eq (env : Env) (s : SavesSyncRequest) (loaded : HashMap Nat)
    (error : ErrorResponse) (hrec : listingErrorIrrecoverable env error = false) :
    awaitingDirectory env s loaded error =
      { start env s loaded true with
        workingRequest := some (Operation.createDirectory (savesDirectory env))
        log := (start env s loaded true).log
          ++ [Effect.request (Operation.createDirectory (savesDirectory env))] } := by
  unfold awaitingDirectory
  rw [directoryListedErrorCallback_recoverable env _ error (by rw [start_accept]) hrec]

theorem diffPhase_nothing (env : Env) (s : SavesSyncRequest) (request : Option String)
    (hd : s.filesToDownload = []) (hu : s.filesToUpload = [])
    (hidx : s.localFilesTimestamps = []) :
    diffPhase env s { request := request, value := [] } =
      { s with
        date := (match request with
          | some d => d
          | none => s.date)
        filesToDownload := []
        filesToUpload := []
        bytesToDownload := 0
        bytesDownloaded := 0
        totalFilesToHandle := 0
        log := s.log ++ [Effect.setStorageUsedSpace 0] } := by
  unfold diffPhase
  cases request <;> simp [hd, hu, hidx, markLocalFiles, sumDownloadSizes]

theorem Quiet.append {log tail : List Effect} (h : Quiet log)
    (ht : ∀ e ∈ tail, e.isErrorCallback = false ∧ e.isSetStorageLastSync = false
      ∧ e.isBoolCallback = false) : Quiet (log ++ tail) := by
  obtain ⟨h1, h2, h3⟩ := h
  refine ⟨?_, ?_, ?_⟩ <;> rw [List.filter_append] <;>
    simp only [h1, h2, h3, List.nil_append, List.filter_eq_nil_iff]
  · intro e he; simp [(ht e he).1]
  · intro e he; simp [(ht e he).2.1]
  · intro e he; simp [(ht e he).2.2]

theorem finishError_outcome (env : Env) (t : SavesSyncRequest) (error : ErrorResponse)
    (hwr : t.workingRequest = none) (hq : Quiet t.log) : Outcome env (finishError t error) := by
  obtain ⟨h1, h2, h3⟩ := hq
  rw [finishError_eq t error hwr]
  refine ⟨fun h => absurd hwr h, fun _ => Or.inl ⟨⟨error, ?_⟩, ?_, ?_⟩⟩ <;>
    simp only [List.filter_append, h1, h2, h3] <;> split_ifs <;>
    simp [Effect.isErrorCallback, Effect.isSetStorageLastSync, Effect.isBoolCallback]

theorem finishSync_outcome (env : Env) (t : SavesSyncRequest)
    (hwr : t.workingRequest = none) (hq : Quiet t.log)
    (hd : t.filesToDownload = []) (hu : t.filesToUpload = []) :
    Outcome env (finishSync env t true) := by
  obtain ⟨h1, h2, h3⟩ := hq
  rw [finishSync_eq]
  refine ⟨fun h => absurd hwr h, fun _ => Or.inr ⟨?_, ?_, ?_, hd, hu, rfl⟩⟩ <;>
    simp only [List.filter_append, h1, h2, h3] <;> split_ifs <;>
    simp [Effect.isErrorCallback, Effect.isSetStorageLastSync, Effect.isBoolCallback]

theorem uploadNextFile_outcome (env : Env) (t : SavesSyncRequest) (accept : Bool)
    (hwr : t.workingRequest = none) (hq : Quiet t.log) (hd : t.filesToDownload = []) :
    Outcome env (uploadNextFile env t accept) := by
  rcases List.eq_nil_or_concat t.filesToUpload with h | ⟨rest, name, h⟩
  · rw [uploadNextFile_nil env t accept h]
    exact finishSync_outcome env t hwr hq hd h
  · rw [List.concat_eq_append] at h
    have hq' : Quiet (t.log ++ [Effect.request (uploadOperation env name)]) :=
      hq.append (by simp [Effect.isErrorCallback, Effect.isSetStorageLastSync,
        Effect.isBoolCallback])
    cases accept
    · rw [uploadNextFile_refuse env t rest name h]
      exact finishError_outcome env _ _ rfl hq'
    · rw [uploadNextFile_accept env t rest name h]
      exact ⟨fun _ => hq', fun h0 => by simp at h0⟩

theorem downloadNextFile_outcome (env : Env) (t : SavesSyncRequest) (accept : Bool)
    (hwr : t.workingRequest = none) (hq : Quiet t.log) :
    Outcome env (downloadNextFile env t accept) := by
  rcases List.eq_nil_or_concat t.filesToDownload with h | ⟨rest, file, h⟩
  · rw [downloadNextFile_nil env t accept h]
    exact uploadNextFile_outcome env _ accept hwr hq h
  · rw [List.concat_eq_append] at h
    have hq' : Quiet (t.log ++ [Effect.request (downloadOperation env file)]) :=
      hq.append (by simp [Effect.isErrorCallback, Effect.isSetStorageLastSync,
        Effect.isBoolCallback])
    cases accept
    · rw [downloadNextFile_refuse env t rest file h]
      exact finishError_outcome env _ _ rfl hq'
    · rw [downloadNextFile_accept env t rest file h]
      exact ⟨fun _ => hq', fun h0 => by simp at h0⟩

theorem diffPhase_log (env : Env) (s : SavesSyncRequest) (response : ListDirectoryResponse) :
    ∃ totalSize, (diffPhase env s response).log = s.log ++ [Effect.setStorageUsedSpace totalSize] :=
  ⟨_, rfl⟩

theorem directoryListedCallback_outcome (env : Env) (s : SavesSyncRequest)
    (response : ListDirectoryResponse) (accept : Bool) (hi : s.ignoreCallback = false)
    (hq : Quiet s.log) : Outcome env (directoryListedCallback env s response accept) := by
  obtain ⟨n, hn⟩ := diffPhase_log env s response
  have hq' : Quiet (diffPhase env s response).log := by
    rw [hn]
    exact hq.append (by simp [Effect.isErrorCallback, Effect.isSetStorageLastSync,
      Effect.isBoolCallback])
  rw [directoryListedCallback_eq env s response accept hi]
  split_ifs with h
  · exact uploadNextFile_outcome env _ accept rfl hq' h
  · exact downloadNextFile_outcome env _ accept rfl hq'

theorem directoryListedErrorCallback_outcome (env : Env) (s : SavesSyncRequest)
    (error : ErrorResponse) (accept : Bool) (hi : s.ignoreCallback = false)
    (hq : Quiet s.log) : Outcome env (directoryListedErrorCallback env s error accept) := by
  cases hirr : listingErrorIrrecoverable env error
  · have hq' : Quiet (s.log ++ [Effect.request (Operation.createDirectory (savesDirectory env))]) :=
      hq.append (by simp [Effect.isErrorCallback, Effect.isSetStorageLastSync,
        Effect.isBoolCallback])
    cases accept
    · rw [directoryListedErrorCallback_refuse env s error hi hirr]
      exact finishError_outcome env _ _ rfl hq'
    · rw [directoryListedErrorCallback_recoverable env s error hi hirr]
      exact ⟨fun _ => hq', fun h0 => by simp at h0⟩
  · rw [directoryListedErrorCallback_irrecoverable env s error accept hi hirr]
    exact finishError_outcome env _ _ rfl hq

theorem directoryCreatedCallback_outcome (env : Env) (s : SavesSyncRequest)
    (response : BoolResponse) (accept : Bool) (hi : s.ignoreCallback = false)
    (hq : Quiet s.log) : Outcome env (directoryCreatedCallback env s response accept) := by
  cases hval : response.value
  · rw [directoryCreatedCallback_fail env s response accept hi hval]
    exact finishError_outcome env _ _ rfl hq
  · rw [directoryCreatedCallback_ok env s response accept hi hval]
    exact directoryListedCallback_outcome env s _ accept hi hq

theorem errorCallback_outcome (env : Env) (s : SavesSyncRequest) (error : ErrorResponse)
    (hi : s.ignoreCallback = false) (hq : Quiet s.log) :
    Outcome env (fileDownloadedErrorCallback s error) := by
  rw [fileDownloadedErrorCallback_eq s error hi]
  exact finishError_outcome env _ _ rfl hq

theorem fileDownloadedCallback_outcome (env : Env) (s : SavesSyncRequest)
    (response : BoolResponse) (accept : Bool) (hi : s.ignoreCallback = false)
    (hq : Quiet s.log) : Outcome env (fileDownloadedCallback env s response accept) := by
  cases hval : response.value
  · rw [fileDownloadedCallback_fail env s response accept hi hval]
    exact finishError_outcome env _ _ rfl
      (hq.append (by simp [Effect.isErrorCallback, Effect.isSetStorageLastSync,
        Effect.isBoolCallback]))
  · rw [fileDownloadedCallback_ok env s response accept hi hval]
    exact downloadNextFile_outcome env _ accept rfl
      (hq.append (by simp [Effect.isErrorCallback, Effect.isSetStorageLastSync,
        Effect.isBoolCallback]))

theorem fileUploadedCallback_outcome (env : Env) (s : SavesSyncRequest)
    (response : UploadResponse) (accept : Bool) (hi : s.ignoreCallback = false)
    (hq : Quiet s.log) (hd : s.filesToDownload = []) :
    Outcome env (fileUploadedCallback env s response accept) := by
  rw [fileUploadedCallback_eq env s response accept hi]
  exact uploadNextFile_outcome env _ accept rfl
    (hq.append (by simp [Effect.isErrorCallback, Effect.isSetStorageLastSync,
      Effect.isBoolCallback])) hd

/-- Every delivered completion keeps the outcome invariant. -/
theorem deliver_outcome (env : Env) (s s' : SavesSyncRequest) (ev : Event) (accept : Bool)
    (hinv : Inv s) (hout : Outcome env s) (h : deliver env s ev accept = some s') :
    Outcome env s' := by
  have hi := hinv.ignore
  have hq : Quiet s.log := by
    apply hout.running
    intro hwr
    rw [deliver_none_of_idle env s ev accept hwr] at h
    exact absurd h (by simp)
  unfold deliver at h
  split at h <;> simp at h <;> subst h
  · exact directoryListedCallback_outcome _ _ _ _ hi hq
  · exact directoryListedErrorCallback_outcome _ _ _ _ hi hq
  · exact directoryCreatedCallback_outcome _ _ _ _ hi hq
  · exact errorCallback_outcome _ _ _ hi hq
  · exact fileDownloadedCallback_outcome _ _ _ _ hi hq
  · exact errorCallback_outcome _ _ _ hi hq
  · exact fileUploadedCallback_outcome _ _ _ _ hi hq (hinv.uploading (by simp [uploadPhase, *]))
  · exact errorCallback_outcome _ _ _ hi hq
  · exact fileUploadedCallback_outcome _ _ _ _ hi hq (hinv.uploading (by simp [uploadPhase, *]))
  · exact errorCallback_outcome _ _ _ hi hq

theorem create_outcome (env : Env) (loaded : HashMap Nat) (accept : Bool) :
    Outcome env (SavesSyncRequest.create env loaded accept) := by
  unfold SavesSyncRequest.create
  cases accept
  · rw [start_refuse]
    exact finishError_outcome env _ _ rfl (by simp [Quiet, Effect.isErrorCallback,
      Effect.isSetStorageLastSync, Effect.isBoolCallback])
  · rw [start_accept]
    exact ⟨fun _ => by simp [Quiet, Effect.isErrorCallback, Effect.isSetStorageLastSync,
      Effect.isBoolCallback], fun h0 => by simp at h0⟩

theorem run_outcome (env : Env) (evs : List (Event × Bool)) (s s' : SavesSyncRequest)
    (hinv : Inv s) (hout : Outcome env s) (h : run env s evs = some s') : Outcome env s' := by
  induction evs generalizing s with
  | nil =>
    simp only [run, Option.some.injEq] at h
    subst h
    exact hout
  | cons e rest ih =>
    obtain ⟨ev, accept⟩ := e
    simp only [run] at h
    cases hd : deliver env s ev accept with
    | none => simp [hd] at h
    | some s1 =>
      simp only [hd] at h
      exact ih s1 (deliver_inv env s s1 ev accept hinv hd)
        (deliver_outcome env s s1 ev accept hinv hout hd) h

theorem fileDownloadedCallback_date (env : Env) (s : SavesSyncRequest)
    (response : BoolResponse) (accept : Bool) :
    (fileDownloadedCallback env s response accept).date = s.date := by
  unfold fileDownloadedCallback
  dsimp only
  split_ifs
  · rfl
  · exact (finishError_frame _ _).2.2.1
  · exact (downloadNextFile_frame env _ accept).2.2.1

theorem fileUploadedCallback_date (env : Env) (s : SavesSyncRequest)
    (response : UploadResponse) (accept : Bool) :
    (fileUploadedCallback env s response accept).date = s.date := by
  unfold fileUploadedCallback
  dsimp only
  split_ifs
  · rfl
  · exact (uploadNextFile_frame env _ accept).2.2.1

theorem fileDownloadedErrorCallback_date (s : SavesSyncRequest) (error : ErrorResponse) :
    (fileDownloadedErrorCallback s error).date = s.date := by
  unfold fileDownloadedErrorCallback
  dsimp only
  split_ifs
  · rfl
  · exact (finishError_frame _ _).2.2.1

/-- Once the diff has run, a delivered completion leaves the recorded date alone. -/
theorem deliver_date (env : Env) (s s' : SavesSyncRequest) (ev : Event) (accept : Bool)
    (hphase : listingPhase s = false) (h : deliver env s ev accept = some s') :
    s'.date = s.date := by
  unfold deliver at h
  split at h <;> simp [listingPhase] at hphase h <;> subst h
  all_goals first
    | (simp_all [listingPhase]; done)
    | exact fileDownloadedCallback_date _ _ _ _
    | exact fileDownloadedErrorCallback_date _ _
    | exact fileUploadedCallback_date _ _ _ _

theorem run_date (env : Env) (evs : List (Event × Bool)) (s s' : SavesSyncRequest)
    (hphase : listingPhase s = false) (h : run env s evs = some s') : s'.date = s.date := by
  induction evs generalizing s with
  | nil =>
    simp only [run, Option.some.injEq] at h
    subst h
    rfl
  | cons e rest ih =>
    obtain ⟨ev, accept⟩ := e
    simp only [run] at h
    cases hd : deliver env s ev accept with
    | none => simp [hd] at h
    | some s1 =>
      simp only [hd] at h
      rw [ih s1 ((deliver_shrinks env s s1 ev accept hphase hd).phase hphase) h,
        deliver_date env s s1 ev accept hphase hd]

theorem directoryListedCallback_date (env : Env) (s : SavesSyncRequest)
    (response : ListDirectoryResponse) (accept : Bool) (hi : s.ignoreCallback = false) :
    (directoryListedCallback env s response accept).date =
      (match response.request with
        | some d => d
        | none => s.date) := by
  rw [directoryListedCallback_eq env s response accept hi]
  split_ifs
  · rw [(uploadNextFile_frame env _ accept).2.2.1]
    rfl
  · rw [(downloadNextFile_frame env _ accept).2.2.1]
    rfl

theorem mem_of_filter_eq_singleton {p : Effect → Bool} {log : List Effect} {a e : Effect}
    (h : log.filter p = [a]) (he : e ∈ log) (hp : p e = true) : e = a := by
  have : e ∈ log.filter p := List.mem_filter.2 ⟨he, hp⟩
  rw [h] at this
  simpa using this

theorem not_mem_of_filter_eq_nil {p : Effect → Bool} {log : List Effect} {e : Effect}
    (h : log.filter p = []) (hp : p e = true) : e ∉ log := by
  intro he
  have : e ∈ log.filter p := List.mem_filter.2 ⟨he, hp⟩
  rw [h] at this
  simp at this

theorem takeWhile_append_of_any {α : Type} (q : α → Bool) (l x : List α)
    (h : l.any q = true) :
    (l ++ x).takeWhile (fun e => !q e) = l.takeWhile (fun e => !q e) := by
  induction l with
  | nil => simp at h
  | cons a l ih =>
    cases ha : q a
    · simp only [List.any_cons, ha, Bool.false_or] at h
      simp [List.takeWhile_cons, ha, ih h]
    · simp [List.takeWhile_cons, ha]

theorem dropWhile_append_of_any {α : Type} (q : α → Bool) (l x : List α)
    (h : l.any q = true) :
    (l ++ x).dropWhile (fun e => !q e) = l.dropWhile (fun e => !q e) ++ x := by
  induction l with
  | nil => simp at h
  | cons a l ih =>
    cases ha : q a
    · simp only [List.any_cons, ha, Bool.false_or] at h
      simp [List.dropWhile_cons, ha, ih h]
    · simp [List.dropWhile_cons, ha]

theorem takeWhile_append_of_not_any {α : Type} (q : α → Bool) (l x : List α)
    (h : l.any q = false) :
    (l ++ x).takeWhile (fun e => !q e) = l ++ x.takeWhile (fun e => !q e) := by
  induction l with
  | nil => simp
  | cons a l ih =>
    simp only [List.any_cons, Bool.or_eq_false_iff] at h
    simp [List.takeWhile_cons, h.1, ih h.2]

theorem dropWhile_append_of_not_any {α : Type} (q : α → Bool) (l x : List α)
    (h : l.any q = false) :
    (l ++ x).dropWhile (fun e => !q e) = x.dropWhile (fun e => !q e) := by
  induction l with
  | nil => simp
  | cons a l ih =>
    simp only [List.any_cons, Bool.or_eq_false_iff] at h
    simp [List.dropWhile_cons, h.1, ih h.2]

theorem isDownloadRequest_of_isUploadRequest (e : Effect) (h : e.isUploadRequest = true) :
    e.isDownloadRequest = false := by
  cases e with
  | request op => cases op <;> simp [Effect.isUploadRequest, Effect.isDownloadRequest] at h ⊢
  | _ => simp [Effect.isUploadRequest] at h

theorem isUploadRequest_uploadOperation (env : Env) (name : String) :
    (Effect.request (uploadOperation env name)).isUploadRequest = true := by
  unfold uploadOperation
  split_ifs <;> rfl

/-- Entries that are neither upload nor download requests keep the order. -/
theorem UploadsFollowDownloads.append_quiet {downloads : Nat} {ext tail : List Effect}
    (h : UploadsFollowDownloads downloads ext)
    (ht : ∀ e ∈ tail, e.isUploadRequest = false ∧ e.isDownloadRequest = false) :
    UploadsFollowDownloads downloads (ext ++ tail) := by
  intro hany
  have htail : tail.any Effect.isUploadRequest = false := by
    rw [List.any_eq_false]
    intro e he
    simp [(ht e he).1]
  have hext : ext.any Effect.isUploadRequest = true := by
    simpa [List.any_append, htail] using hany
  obtain ⟨h1, h2, h3⟩ := h hext
  simp only [beforeFirstUpload, fromFirstUpload] at h1 h2 h3 ⊢
  rw [takeWhile_append_of_any _ _ _ hext, dropWhile_append_of_any _ _ _ hext]
  refine ⟨h1, h2, ?_⟩
  rw [List.all_append, h3, Bool.true_and, List.all_eq_true]
  intro e he
  simp [(ht e he).2]

/-- Later uploads keep the order. -/
theorem UploadsFollowDownloads.append_upload {downloads : Nat} {ext tail : List Effect}
    (h : UploadsFollowDownloads downloads ext) (hext : ext.any Effect.isUploadRequest = true)
    (ht : ∀ e ∈ tail, e.isDownloadRequest = false) :
    UploadsFollowDownloads downloads (ext ++ tail) := by
  intro _
  obtain ⟨h1, h2, h3⟩ := h hext
  simp only [beforeFirstUpload, fromFirstUpload] at h1 h2 h3 ⊢
  rw [takeWhile_append_of_any _ _ _ hext, dropWhile_append_of_any _ _ _ hext]
  refine ⟨h1, h2, ?_⟩
  rw [List.all_append, h3, Bool.true_and, List.all_eq_true]
  intro e he
  simp [ht e he]

/-- The first upload, requested when every queued download has completed. -/
theorem UploadsFollowDownloads.first_upload {downloads : Nat} {ext : List Effect}
    (a : Effect) (hext : ext.any Effect.isUploadRequest = false)
    (hdl : ext.countP Effect.isDownloadRequest = downloads)
    (hsave : ext.countP Effect.isSaveTimestamps = downloads)
    (ha : a.isUploadRequest = true) :
    UploadsFollowDownloads downloads (ext ++ [a]) := by
  intro _
  simp only [beforeFirstUpload, fromFirstUpload]
  rw [takeWhile_append_of_not_any _ _ _ hext, dropWhile_append_of_not_any _ _ _ hext]
  simp [List.takeWhile_cons, List.dropWhile_cons, ha, hdl, hsave,
    isDownloadRequest_of_isUploadRequest a ha]

theorem UploadsFollowDownloads.of_not_any {downloads : Nat} {ext : List Effect}
    (hext : ext.any Effect.isUploadRequest = false) : UploadsFollowDownloads downloads ext := by
  intro h
  rw [hext] at h
  exact absurd h (by simp)

theorem finishError_tail_quiet (name : String) (error : ErrorResponse) :
    ∀ e ∈ (if name ≠ "" then [Effect.removeSavefile name] else [])
        ++ [Effect.errorCallback error],
      e.isUploadRequest = false ∧ e.isDownloadRequest = false := by
  intro e he
  by_cases h : name = ""
  · simp [h] at he
    subst he
    exact ⟨rfl, rfl⟩
  · simp [h] at he
    rcases he with rfl | rfl <;> exact ⟨rfl, rfl⟩

theorem finishSync_tail_quiet (date : String) (hasCallback success : Bool) :
    ∀ e ∈ [Effect.setStorageLastSync date]
        ++ (if hasCallback then [Effect.boolCallback success] else []),
      e.isUploadRequest = false ∧ e.isDownloadRequest = false := by
  intro e he
  cases hasCallback
  · simp at he
    subst he
    exact ⟨rfl, rfl⟩
  · simp at he
    rcases he with rfl | rfl <;> exact ⟨rfl, rfl⟩

theorem finishError_drains (downloads : Nat) (base ext : List Effect) (t : SavesSyncRequest)
    (error : ErrorResponse) (hig : t.ignoreCallback = false) (hwr : t.workingRequest = none)
    (hlog : t.log = base ++ ext) (hord : UploadsFollowDownloads downloads ext) :
    ∃ ext', (finishError t error).log = base ++ ext' ∧
      Drains downloads ext' (finishError t error) := by
  rw [finishError_eq t error hwr]
  refine ⟨ext ++ ((if t.currentDownloadingFile.name ≠ "" then
      [Effect.removeSavefile t.currentDownloadingFile.name] else [])
      ++ [Effect.errorCallback error]), by simp [hlog], ?_⟩
  exact ⟨hig, by simp [listingPhase, hwr], by simp [downloadInFlight, hwr],
    by simp [uploadPhase, hwr], fun _ => ⟨rfl, by simp [downloadInFlight, hwr]⟩,
    hord.append_quiet (finishError_tail_quiet _ _)⟩

theorem finishSync_drains (env : Env) (downloads : Nat) (base ext : List Effect)
    (t : SavesSyncRequest) (hig : t.ignoreCallback = false) (hwr : t.workingRequest = none)
    (hd : t.filesToDownload = [])
    (hlog : t.log = base ++ ext) (hord : UploadsFollowDownloads downloads ext) :
    ∃ ext', (finishSync env t true).log = base ++ ext' ∧
      Drains downloads ext' (finishSync env t true) := by
  rw [finishSync_eq]
  refine ⟨ext ++ ([Effect.setStorageLastSync t.date]
      ++ (if env.hasBoolCallback then [Effect.boolCallback true] else [])),
    by simp [hlog], ?_⟩
  exact ⟨hig, by simp [listingPhase, hwr], by simp [downloadInFlight, hwr],
    by simp [uploadPhase, hwr], fun _ => ⟨hd, by simp [downloadInFlight, hwr]⟩,
    hord.append_quiet (finishSync_tail_quiet _ _ _)⟩

theorem uploadPhase_uploadOperation (env : Env) (name : String) (t : SavesSyncRequest)
    (h : t.workingRequest = some (uploadOperation env name)) :
    uploadPhase t = true ∧ downloadInFlight t = false ∧ listingPhase t = false := by
  unfold uploadPhase downloadInFlight listingPhase
  rw [h]
  unfold uploadOperation
  split_ifs <;> simp

theorem uploadNextFile_drains (env : Env) (downloads : Nat) (base ext : List Effect)
    (t : SavesSyncRequest) (accept : Bool)
    (hig : t.ignoreCallback = false) (hwr : t.workingRequest = none)
    (hd : t.filesToDownload = []) (hlog : t.log = base ++ ext)
    (hpre : (ext.any Effect.isUploadRequest = true ∧ UploadsFollowDownloads downloads ext) ∨
      (ext.any Effect.isUploadRequest = false ∧
        ext.countP Effect.isDownloadRequest = downloads ∧
        ext.countP Effect.isSaveTimestamps = downloads)) :
    ∃ ext', (uploadNextFile env t accept).log = base ++ ext' ∧
      Drains downloads ext' (uploadNextFile env t accept) := by
  have hord : UploadsFollowDownloads downloads ext := by
    rcases hpre with ⟨_, h⟩ | ⟨h, _⟩
    · exact h
    · exact UploadsFollowDownloads.of_not_any h
  rcases List.eq_nil_or_concat t.filesToUpload with h | ⟨rest, name, h⟩
  · rw [uploadNextFile_nil env t accept h]
    exact finishSync_drains env downloads base ext t hig hwr hd hlog hord
  · rw [List.concat_eq_append] at h
    have hup := isUploadRequest_uploadOperation env name
    have hord' : UploadsFollowDownloads downloads
        (ext ++ [Effect.request (uploadOperation env name)]) := by
      rcases hpre with ⟨h1, h2⟩ | ⟨h1, h2, h3⟩
      · apply h2.append_upload h1
        intro e he
        simp only [List.mem_singleton] at he
        subst he
        exact isDownloadRequest_of_isUploadRequest _ hup
      · exact UploadsFollowDownloads.first_upload _ h1 h2 h3 hup
    have hany : (ext ++ [Effect.request (uploadOperation env name)]).any
        Effect.isUploadRequest = true := by
      simp [List.any_append, hup]
    cases accept
    · rw [uploadNextFile_refuse env t rest name h]
      exact finishError_drains downloads base _ _ _ hig rfl
        (by simp [hlog]) hord'
    · rw [uploadNextFile_accept env t rest name h]
      obtain ⟨h1, h2, h3⟩ := uploadPhase_uploadOperation env name
        { t with
          currentUploadingFile := name
          filesToUpload := rest
          log := t.log ++ [Effect.request (uploadOperation env name)]
          workingRequest := some (uploadOperation env name) } rfl
      refine ⟨ext ++ [Effect.request (uploadOperation env name)], by simp [hlog], ?_⟩
      exact ⟨hig, h3, fun hc => by rw [h2] at hc; exact absurd hc (by simp),
        fun _ => hany, fun _ => ⟨hd, h2⟩, hord'⟩

theorem downloadNextFile_drains (env : Env) (downloads : Nat) (base ext : List Effect)
    (t : SavesSyncRequest) (accept : Bool)
    (hig : t.ignoreCallback = false) (hwr : t.workingRequest = none)
    (hlog : t.log = base ++ ext)
    (hany : ext.any Effect.isUploadRequest = false)
    (hcount : ext.countP Effect.isDownloadRequest + t.filesToDownload.length = downloads)
    (hsave : ext.countP Effect.isSaveTimestamps = ext.countP Effect.isDownloadRequest) :
    ∃ ext', (downloadNextFile env t accept).log = base ++ ext' ∧
      Drains downloads ext' (downloadNextFile env t accept) := by
  rcases List.eq_nil_or_concat t.filesToDownload with h | ⟨rest, file, h⟩
  · rw [downloadNextFile_nil env t accept h]
    rw [h] at hcount
    exact uploadNextFile_drains env downloads base ext _ accept hig hwr h hlog
      (Or.inr ⟨hany, by simpa using hcount, by rw [hsave]; simpa using hcount⟩)
  · rw [List.concat_eq_append] at h
    have hany' : (ext ++ [Effect.request (downloadOperation env file)]).any
        Effect.isUploadRequest = false := by
      simp [List.any_append, hany, downloadOperation, Effect.isUploadRequest]
    cases accept
    · rw [downloadNextFile_refuse env t rest file h]
      exact finishError_drains downloads base _ _ _ hig rfl
        (by simp [hlog]) (UploadsFollowDownloads.of_not_any hany')
    · rw [downloadNextFile_accept env t rest file h]
      refine ⟨ext ++ [Effect.request (downloadOperation env file)], by simp [hlog], ?_⟩
      refine ⟨hig, by simp [listingPhase, downloadOperation], ?_,
        by simp [uploadPhase, downloadOperation], ?_, UploadsFollowDownloads.of_not_any hany'⟩
      · intro _
        rw [h] at hcount
        refine ⟨hany', ?_, ?_⟩
        · simp [List.countP_append, downloadOperation, Effect.isDownloadRequest] at hcount ⊢
          omega
        · simp [List.countP_append, downloadOperation, Effect.isDownloadRequest,
            Effect.isSaveTimestamps, hsave]
      · intro hc
        rw [hany'] at hc
        exact absurd hc (by simp)

theorem fileDownloadedCallback_drains (env : Env) (downloads : Nat) (base ext : List Effect)
    (s : SavesSyncRequest) (response : BoolResponse) (accept : Bool)
    (hlog : s.log = base ++ ext) (h : Drains downloads ext s)
    (hfl : downloadInFlight s = true) :
    ∃ ext', (fileDownloadedCallback env s response accept).log = base ++ ext' ∧
      Drains downloads ext' (fileDownloadedCallback env s response accept) := by
  obtain ⟨hany, hcount, hsave⟩ := h.downloading hfl
  cases hval : response.value
  · rw [fileDownloadedCallback_fail env s response accept h.ignore hval]
    apply finishError_drains downloads base
      (ext ++ [Effect.removeSavefile s.currentDownloadingFile.name]) _ _ (by exact h.ignore) rfl
      (by simp [hlog])
    apply UploadsFollowDownloads.of_not_any
    simp [List.any_append, hany, Effect.isUploadRequest]
  · rw [fileDownloadedCallback_ok env s response accept h.ignore hval]
    apply downloadNextFile_drains env downloads base
      (ext ++ [Effect.saveTimestamps
        (HashMap.assign s.localFilesTimestamps s.currentDownloadingFile.name
          s.currentDownloadingFile.timestamp)]) _ accept (by exact h.ignore) rfl (by simp [hlog])
    · simp [List.any_append, hany, Effect.isUploadRequest]
    · simpa [List.countP_append, Effect.isDownloadRequest] using hcount
    · simpa [List.countP_append, Effect.isDownloadRequest, Effect.isSaveTimestamps] using hsave

theorem errorCallback_drains (downloads : Nat) (base ext : List Effect)
    (s : SavesSyncRequest) (error : ErrorResponse)
    (hlog : s.log = base ++ ext) (h : Drains downloads ext s) :
    ∃ ext', (fileDownloadedErrorCallback s error).log = base ++ ext' ∧
      Drains downloads ext' (fileDownloadedErrorCallback s error) := by
  rw [fileDownloadedErrorCallback_eq s error h.ignore]
  exact finishError_drains downloads base ext _ _ (by exact h.ignore) rfl hlog h.ordered

theorem fileUploadedCallback_drains (env : Env) (downloads : Nat) (base ext : List Effect)
    (s : SavesSyncRequest) (response : UploadResponse) (accept : Bool)
    (hlog : s.log = base ++ ext) (h : Drains downloads ext s)
    (hup : uploadPhase s = true) :
    ∃ ext', (fileUploadedCallback env s response accept).log = base ++ ext' ∧
      Drains downloads ext' (fileUploadedCallback env s response accept) := by
  have hany := h.uploading hup
  rw [fileUploadedCallback_eq env s response accept h.ignore]
  apply uploadNextFile_drains env downloads base
    (ext ++ [Effect.saveTimestamps
      (HashMap.assign s.localFilesTimestamps s.currentUploadingFile
        response.value.timestamp)]) _ accept (by exact h.ignore) rfl
    (by exact (h.drained hany).1)
    (by simp [hlog])
  refine Or.inl ⟨by simp [List.any_append, hany], h.ordered.append_upload hany ?_⟩
  intro e he
  simp only [List.mem_singleton] at he
  subst he
  rfl

/-- Every completion delivered once the diff has run keeps the order of the transfers. -/
theorem deliver_drains (env : Env) (downloads : Nat) (base ext : List Effect)
    (s s' : SavesSyncRequest) (ev : Event) (accept : Bool)
    (hlog : s.log = base ++ ext) (h : Drains downloads ext s)
    (hdel : deliver env s ev accept = some s') :
    ∃ ext', s'.log = base ++ ext' ∧ Drains downloads ext' s' := by
  have hphase := h.phase
  unfold deliver at hdel
  split at hdel <;> simp at hdel <;> subst hdel
  · simp [listingPhase, *] at hphase
  · simp [listingPhase, *] at hphase
  · simp [listingPhase, *] at hphase
  · simp [listingPhase, *] at hphase
  · exact fileDownloadedCallback_drains env downloads base ext s _ accept hlog h
      (by simp [downloadInFlight, *])
  · exact errorCallback_drains downloads base ext s _ hlog h
  · exact fileUploadedCallback_drains env downloads base ext s _ accept hlog h
      (by simp [uploadPhase, *])
  · exact errorCallback_drains downloads base ext s _ hlog h
  · exact fileUploadedCallback_drains env downloads base ext s _ accept hlog h
      (by simp [uploadPhase, *])
  · exact errorCallback_drains downloads base ext s _ hlog h

theorem run_drains (env : Env) (downloads : Nat) (base : List Effect)
    (evs : List (Event × Bool)) (ext : List Effect) (s s' : SavesSyncRequest)
    (hlog : s.log = base ++ ext) (h : Drains downloads ext s)
    (hrun : run env s evs = some s') :
    ∃ ext', s'.log = base ++ ext' ∧ Drains downloads ext' s' := by
  induction evs generalizing s ext with
  | nil =>
    simp only [run, Option.some.injEq] at hrun
    subst hrun
    exact ⟨ext, hlog, h⟩
  | cons e rest ih =>
    obtain ⟨ev, accept⟩ := e
    simp only [run] at hrun
    cases hd : deliver env s ev accept with
    | none => simp [hd] at hrun
    | some s1 =>
      simp only [hd] at hrun
      obtain ⟨ext1, hlog1, h1⟩ := deliver_drains env downloads base ext s s1 ev accept hlog h hd
      exact ih ext1 s1 hlog1 h1 hrun

theorem directoryListedCallback_drains (env : Env) (s : SavesSyncRequest)
    (response : ListDirectoryResponse) (accept : Bool) (hi : s.ignoreCallback = false) :
    ∃ ext, (directoryListedCallback env s response accept).log = s.log ++ ext ∧
      Drains (diffPhase env s response).filesToDownload.length ext
        (directoryListedCallback env s response accept) := by
  obtain ⟨n, hn⟩ := diffPhase_log env s response
  have hig : (diffPhase env s response).ignoreCallback = false := hi
  rw [directoryListedCallback_eq env s response accept hi]
  split_ifs with h
  · apply uploadNextFile_drains env _ s.log [Effect.setStorageUsedSpace n] _ accept (by exact hig) rfl
      (by exact h) (by exact hn)
    exact Or.inr ⟨rfl, by simp [h, Effect.isDownloadRequest],
      by simp [h, Effect.isSaveTimestamps]⟩
  · apply downloadNextFile_drains env _ s.log [Effect.setStorageUsedSpace n] _ accept (by exact hig) rfl
      (by exact hn) rfl
    · simp [Effect.isDownloadRequest]
    · simp [Effect.isDownloadRequest, Effect.isSaveTimestamps]

/-! ## The claims on errors, transfers and outcomes -/

/-- C11: a failed listing error whose body matches none of the not-found shapes or phrases
is classified irrecoverable and handling it aborts the run: the error callback receives
that same payload (after the delete of the marked download, when there is one), no
create-directory operation or other operation is requested, nothing stays in flight and
no completion can be delivered any more.  The body `{"error":{"code":"quotaExceeded"}}`
is the instance of the witness. -/
theorem unmatched_listing_error_aborts (env : Env) (s : SavesSyncRequest)
    (error : ErrorResponse) (accept : Bool)
    (hi : s.ignoreCallback = false)
    (hfailed : error.failed = true)
    (hnone : matchesNotFound env error.response = false) :
    listingErrorIrrecoverable env error = true ∧
      (directoryListedErrorCallback env s error accept).log =
        s.log
          ++ (if s.currentDownloadingFile.name ≠ "" then
                [Effect.removeSavefile s.currentDownloadingFile.name] else [])
          ++ [Effect.errorCallback error] ∧
      (directoryListedErrorCallback env s error accept).state = RequestState.FINISHED ∧
      (directoryListedErrorCallback env s error accept).workingRequest = none ∧
      ∀ (ev : Event) (a : Bool),
        deliver env (directoryListedErrorCallback env s error accept) ev a = none := by
  have hirr : listingErrorIrrecoverable env error = true := by
    rw [listingErrorIrrecoverable_eq_reference]
    simp [referenceIrrecoverable, hfailed, hnone]
  rw [directoryListedErrorCallback_irrecoverable env s error accept hi hirr,
    finishError_eq _ _ rfl]
  exact ⟨hirr, rfl, rfl, rfl, fun ev a => deliver_none_of_idle _ _ _ _ rfl⟩

theorem unmatched_listing_error_aborts_witness :
    listingErrorIrrecoverable exampleEnv
        { interrupted := false, failed := true,
          response := "\x7b\"error\":\x7b\"code\":\"quotaExceeded\"\x7d\x7d",
          httpResponseCode := 403 } = true ∧
      (directoryListedErrorCallback exampleEnv (SavesSyncRequest.create exampleEnv [] true)
        { interrupted := false, failed := true,
          response := "\x7b\"error\":\x7b\"code\":\"quotaExceeded\"\x7d\x7d",
          httpResponseCode := 403 } true).log =
        [Effect.request (Operation.listDirectory "saves"),
          Effect.errorCallback
            { interrupted := false, failed := true,
              response := "\x7b\"error\":\x7b\"code\":\"quotaExceeded\"\x7d\x7d",
              httpResponseCode := 403 }] :=
  ⟨(unmatched_listing_error_aborts exampleEnv (SavesSyncRequest.create exampleEnv [] true)
      { interrupted := false, failed := true,
        response := "\x7b\"error\":\x7b\"code\":\"quotaExceeded\"\x7d\x7d",
        httpResponseCode := 403 } true (by decide) (by decide) (by decide)).1,
    (unmatched_listing_error_aborts exampleEnv (SavesSyncRequest.create exampleEnv [] true)
      { interrupted := false, failed := true,
        response := "\x7b\"error\":\x7b\"code\":\"quotaExceeded\"\x7d\x7d",
        httpResponseCode := 403 } true (by decide) (by decide) (by decide)).2.1⟩

/-- C12, evaluated on the code: with the download of `b.sav` in flight, neither `start`
(whether or not the storage then creates the listing operation) nor the destructor
issues a delete of `b.sav`. -/
theorem restart_keeps_partial_download :
    ∃ s : SavesSyncRequest,
      run exampleEnv (SavesSyncRequest.create exampleEnv [("a.sav", 100)] true)
        [(Event.directoryListed
            { request := some "d", value := [exampleFile "b.sav" 50] }, true)] = some s ∧
      downloadInFlight s = true ∧
      s.currentDownloadingFile = exampleFile "b.sav" 50 ∧
      (∀ accept : Bool,
        Effect.removeSavefile "b.sav" ∉ (start exampleEnv s [("a.sav", 100)] accept).log) ∧
      Effect.removeSavefile "b.sav" ∉ (destructor s).log :=
  ⟨_, rfl, by decide, by decide, by decide, by decide⟩

/-- C13: in every run, `ext` being what the request has done since the listing arrived:
while the download queue is not empty or a download is in flight no upload has been
requested; and once an upload has been requested the download queue is empty, no
download is in flight, before the first upload request there are as many download
requests and as many successful completions (`saveTimestamps`) as the diff queued
downloads, and no download request follows the first upload request. -/
theorem downloads_drain_before_uploads (env : Env) (s s' : SavesSyncRequest)
    (response : ListDirectoryResponse) (accept : Bool) (evs : List (Event × Bool))
    (hi : s.ignoreCallback = false)
    (hrun : run env (directoryListedCallback env s response accept) evs = some s') :
    ∃ ext, s'.log = s.log ++ ext ∧
      (s'.filesToDownload ≠ [] ∨ downloadInFlight s' = true →
        ext.any Effect.isUploadRequest = false) ∧
      (ext.any Effect.isUploadRequest = true →
        s'.filesToDownload = [] ∧ downloadInFlight s' = false ∧
        (beforeFirstUpload ext).countP Effect.isDownloadRequest
          = (diffPhase env s response).filesToDownload.length ∧
        (beforeFirstUpload ext).countP Effect.isSaveTimestamps
          = (diffPhase env s response).filesToDownload.length ∧
        (fromFirstUpload ext).all (fun e => !e.isDownloadRequest) = true) := by
  obtain ⟨ext0, hlog0, h0⟩ := directoryListedCallback_drains env s response accept hi
  obtain ⟨ext, hlog, h⟩ := run_drains env _ s.log evs ext0 _ s' hlog0 h0 hrun
  refine ⟨ext, hlog, ?_, ?_⟩
  · intro hbusy
    cases hany : ext.any Effect.isUploadRequest
    · rfl
    · obtain ⟨h1, h2⟩ := h.drained hany
      rcases hbusy with hq | hfl
      · exact absurd h1 hq
      · rw [h2] at hfl
        exact absurd hfl (by simp)
  · intro hany
    obtain ⟨h1, h2⟩ := h.drained hany
    obtain ⟨h3, h4, h5⟩ := h.ordered hany
    exact ⟨h1, h2, h3, h4, h5⟩

/-- An instance of C13: two downloads complete, then the upload of `c.sav` is requested. -/
theorem downloads_drain_before_uploads_witness :
    ∃ s' : SavesSyncRequest,
      run exampleEnv
          (directoryListedCallback exampleEnv
            (SavesSyncRequest.create exampleEnv [("a.sav", 100), ("c.sav", 7)] true)
            { request := some "d", value := [exampleFile "a.sav" 200, exampleFile "b.sav" 50] }
            true)
          [(Event.fileDownloaded { request := none, value := true }, true),
           (Event.fileDownloaded { request := none, value := true }, true)] = some s' ∧
        ∃ ext,
          s'.log = (SavesSyncRequest.create exampleEnv [("a.sav", 100), ("c.sav", 7)] true).log
            ++ ext ∧
          (s'.filesToDownload ≠ [] ∨ downloadInFlight s' = true →
            ext.any Effect.isUploadRequest = false) ∧
          (ext.any Effect.isUploadRequest = true →
            s'.filesToDownload = [] ∧ downloadInFlight s' = false ∧
            (beforeFirstUpload ext).countP Effect.isDownloadRequest = 2 ∧
            (beforeFirstUpload ext).countP Effect.isSaveTimestamps = 2 ∧
            (fromFirstUpload ext).all (fun e => !e.isDownloadRequest) = true) :=
  ⟨_, rfl,
    downloads_drain_before_uploads exampleEnv
      (SavesSyncRequest.create exampleEnv [("a.sav", 100), ("c.sav", 7)] true) _
      { request := some "d", value := [exampleFile "a.sav" 200, exampleFile "b.sav" 50] }
      true
      [(Event.fileDownloaded { request := none, value := true }, true),
       (Event.fileDownloaded { request := none, value := true }, true)]
      (by decide) rfl⟩

/-- C14: when the download in flight (the marked file `currentDownloadingFile`, its name
not empty) fails, by its error callback or by completing with `ok = false`, the request
deletes the local file of that name (twice in the second case) before it calls the
error callback, then calls the error callback, clears the download queue and the
marker, requests no operation, and no completion can be delivered any more. -/
theorem failed_download_is_deleted (env : Env) (s : SavesSyncRequest) (error : ErrorResponse)
    (response : BoolResponse) (accept : Bool)
    (hi : s.ignoreCallback = false)
    (hname : s.currentDownloadingFile.name ≠ "")
    (hfail : response.value = false) :
    ((fileDownloadedErrorCallback s error).log =
        s.log ++ [Effect.removeSavefile s.currentDownloadingFile.name,
          Effect.errorCallback error] ∧
      (fileDownloadedErrorCallback s error).filesToDownload = [] ∧
      (fileDownloadedErrorCallback s error).currentDownloadingFile = StorageFile.empty ∧
      (fileDownloadedErrorCallback s error).workingRequest = none ∧
      ∀ (ev : Event) (a : Bool), deliver env (fileDownloadedErrorCallback s error) ev a = none) ∧
    ((fileDownloadedCallback env s response accept).log =
        s.log ++ [Effect.removeSavefile s.currentDownloadingFile.name,
          Effect.removeSavefile s.currentDownloadingFile.name,
          Effect.errorCallback downloadFailedError] ∧
      (fileDownloadedCallback env s response accept).filesToDownload = [] ∧
      (fileDownloadedCallback env s response accept).currentDownloadingFile
        = StorageFile.empty ∧
      (fileDownloadedCallback env s response accept).workingRequest = none ∧
      ∀ (ev : Event) (a : Bool),
        deliver env (fileDownloadedCallback env s response accept) ev a = none) := by
  constructor
  · rw [fileDownloadedErrorCallback_eq s error hi, finishError_eq _ _ rfl]
    refine ⟨by simp [hname], rfl, rfl, rfl, fun ev a => deliver_none_of_idle _ _ _ _ rfl⟩
  · rw [fileDownloadedCallback_fail env s response accept hi hfail, finishError_eq _ _ rfl]
    refine ⟨by simp [hname], rfl, rfl, rfl, fun ev a => deliver_none_of_idle _ _ _ _ rfl⟩

/-- An instance of C14: the download of `b.sav` fails by its error callback. -/
theorem failed_download_is_deleted_witness :
    (fileDownloadedErrorCallback
        (directoryListedCallback exampleEnv
          (SavesSyncRequest.create exampleEnv [("a.sav", 100)] true)
          { request := some "d", value := [exampleFile "b.sav" 50] } true)
        { interrupted := false, failed := true, response := "timeout",
          httpResponseCode := 500 }).log =
      (directoryListedCallback exampleEnv
          (SavesSyncRequest.create exampleEnv [("a.sav", 100)] true)
          { request := some "d", value := [exampleFile "b.sav" 50] } true).log
        ++ [Effect.removeSavefile "b.sav",
            Effect.errorCallback
              { interrupted := false, failed := true, response := "timeout",
                httpResponseCode := 500 }] :=
  (failed_download_is_deleted exampleEnv
    (directoryListedCallback exampleEnv
      (SavesSyncRequest.create exampleEnv [("a.sav", 100)] true)
      { request := some "d", value := [exampleFile "b.sav" 50] } true)
    { interrupted := false, failed := true, response := "timeout", httpResponseCode := 500 }
    { request := none, value := false } true (by decide) (by decide) (by decide)).1.1

/-- C15: when the download in flight of the marked file `f` completes with `ok = true` and
the ignore flag is down, afterwards the index maps `f.name` to `f.timestamp`, every other
entry reads as before, the index handed to `saveTimestamps` is the index in memory, and
`bytesDownloaded` has grown by `f.size` modulo `2 ^ 32`. -/
theorem download_success_updates_index (env : Env) (s : SavesSyncRequest)
    (response : BoolResponse) (accept : Bool)
    (hi : s.ignoreCallback = false) (hok : response.value = true) :
    HashMap.find (fileDownloadedCallback env s response accept).localFilesTimestamps
        s.currentDownloadingFile.name = some s.currentDownloadingFile.timestamp ∧
      (∀ name : String, name ≠ s.currentDownloadingFile.name →
        HashMap.find (fileDownloadedCallback env s response accept).localFilesTimestamps name
          = HashMap.find s.localFilesTimestamps name) ∧
      (∃ ext, (fileDownloadedCallback env s response accept).log =
        s.log
          ++ [Effect.saveTimestamps
                (fileDownloadedCallback env s response accept).localFilesTimestamps]
          ++ ext) ∧
      (fileDownloadedCallback env s response accept).bytesDownloaded =
        (s.bytesDownloaded + s.currentDownloadingFile.size) % 2 ^ 32 := by
  rw [fileDownloadedCallback_ok env s response accept hi hok]
  obtain ⟨h1, h2, _, ext, h4⟩ := downloadNextFile_frame env
    { s with
      workingRequest := none
      localFilesTimestamps :=
        HashMap.assign s.localFilesTimestamps s.currentDownloadingFile.name
          s.currentDownloadingFile.timestamp
      log := s.log ++ [Effect.saveTimestamps
        (HashMap.assign s.localFilesTimestamps s.currentDownloadingFile.name
          s.currentDownloadingFile.timestamp)]
      bytesDownloaded := (s.bytesDownloaded + s.currentDownloadingFile.size) % 2 ^ 32 }
    accept
  rw [h1, h2]
  refine ⟨by simp [HashMap.find_assign], ?_, ⟨ext, h4⟩, rfl⟩
  intro name hne
  simp [HashMap.find_assign, Ne.symm hne]

/-- An instance of C15: the download of `b.sav` (timestamp 50) completes. -/
theorem download_success_updates_index_witness :
    HashMap.find
        (fileDownloadedCallback exampleEnv
          (directoryListedCallback exampleEnv
            (SavesSyncRequest.create exampleEnv [("a.sav", 100)] true)
            { request := some "d", value := [exampleFile "b.sav" 50] } true)
          { request := none, value := true } true).localFilesTimestamps "b.sav" = some 50 :=
  (download_success_updates_index exampleEnv
    (directoryListedCallback exampleEnv
      (SavesSyncRequest.create exampleEnv [("a.sav", 100)] true)
      { request := some "d", value := [exampleFile "b.sav" 50] } true)
    { request := none, value := true } true (by decide) (by decide)).1

/-- C16: when the upload in flight of the name `n` (`currentUploadingFile`) completes with a
response of timestamp `t` and the ignore flag is down, afterwards the index maps `n` to
`t`, every other entry reads as before, the index handed to `saveTimestamps` is the index
in memory; with an empty upload queue the run succeeds (the date is stored and the
completion callback, when there is one, gets `true`), and otherwise the upload of the
last queued name is requested and, the storage creating it, is in flight. -/
theorem upload_success_updates_index (env : Env) (s : SavesSyncRequest)
    (response : UploadResponse) (accept : Bool) (hi : s.ignoreCallback = false) :
    HashMap.find (fileUploadedCallback env s response accept).localFilesTimestamps
        s.currentUploadingFile = some response.value.timestamp ∧
      (∀ name : String, name ≠ s.currentUploadingFile →
        HashMap.find (fileUploadedCallback env s response accept).localFilesTimestamps name
          = HashMap.find s.localFilesTimestamps name) ∧
      (s.filesToUpload = [] →
        (fileUploadedCallback env s response accept).log =
          s.log
            ++ [Effect.saveTimestamps
                  (fileUploadedCallback env s response accept).localFilesTimestamps,
                Effect.setStorageLastSync s.date]
            ++ (if env.hasBoolCallback then [Effect.boolCallback true] else []) ∧
        (fileUploadedCallback env s response accept).state = RequestState.FINISHED ∧
        (fileUploadedCallback env s response accept).workingRequest = none) ∧
      (∀ (rest : List String) (name : String), s.filesToUpload = rest ++ [name] →
        (∃ ext, (fileUploadedCallback env s response accept).log =
          s.log
            ++ [Effect.saveTimestamps
                  (fileUploadedCallback env s response accept).localFilesTimestamps,
                Effect.request (uploadOperation env name)]
            ++ ext ∧ (accept = true → ext = [])) ∧
        (fileUploadedCallback env s response accept).currentUploadingFile = name ∧
        (fileUploadedCallback env s response accept).filesToUpload = rest ∧
        (accept = true → (fileUploadedCallback env s response accept).workingRequest
          = some (uploadOperation env name))) := by
  have key : ∀ t : SavesSyncRequest, t.filesToUpload = s.filesToUpload →
      t.log = s.log ++ [Effect.saveTimestamps t.localFilesTimestamps] → t.date = s.date →
      t.workingRequest = none →
      t.localFilesTimestamps =
        HashMap.assign s.localFilesTimestamps s.currentUploadingFile response.value.timestamp →
      HashMap.find (uploadNextFile env t accept).localFilesTimestamps
          s.currentUploadingFile = some response.value.timestamp ∧
        (∀ name : String, name ≠ s.currentUploadingFile →
          HashMap.find (uploadNextFile env t accept).localFilesTimestamps name
            = HashMap.find s.localFilesTimestamps name) ∧
        (s.filesToUpload = [] →
          (uploadNextFile env t accept).log =
            s.log
              ++ [Effect.saveTimestamps (uploadNextFile env t accept).localFilesTimestamps,
                  Effect.setStorageLastSync s.date]
              ++ (if env.hasBoolCallback then [Effect.boolCallback true] else []) ∧
          (uploadNextFile env t accept).state = RequestState.FINISHED ∧
          (uploadNextFile env t accept).workingRequest = none) ∧
        (∀ (rest : List String) (name : String), s.filesToUpload = rest ++ [name] →
          (∃ ext, (uploadNextFile env t accept).log =
            s.log
              ++ [Effect.saveTimestamps (uploadNextFile env t accept).localFilesTimestamps,
                  Effect.request (uploadOperation env name)]
              ++ ext ∧ (accept = true → ext = [])) ∧
          (uploadNextFile env t accept).currentUploadingFile = name ∧
          (uploadNextFile env t accept).filesToUpload = rest ∧
          (accept = true → (uploadNextFile env t accept).workingRequest
            = some (uploadOperation env name))) := by
    intro t hq hlog hdate hwr hidx
    obtain ⟨h1, _, _, _⟩ := uploadNextFile_frame env t accept
    rw [h1]
    refine ⟨by simp [hidx, HashMap.find_assign], ?_, ?_, ?_⟩
    · intro name hne
      simp [hidx, HashMap.find_assign, Ne.symm hne]
    · intro hnil
      rw [uploadNextFile_nil env t accept (hq.trans hnil), finishSync_eq]
      exact ⟨by simp [hlog, hdate], rfl, hwr⟩
    · intro rest name hq'
      cases accept
      · rw [uploadNextFile_refuse env t rest name (hq.trans hq'), finishError_eq _ _ rfl]
        exact ⟨⟨_, by simp only [hlog, List.append_assoc, List.singleton_append]; rfl, by simp⟩,
          rfl, rfl, by simp⟩
      · rw [uploadNextFile_accept env t rest name (hq.trans hq')]
        exact ⟨⟨[], by simp [hlog], fun _ => rfl⟩, rfl, rfl, fun _ => rfl⟩
  rw [fileUploadedCallback_eq env s response accept hi]
  exact key _ rfl rfl rfl rfl rfl

/-- An instance of C16: the upload of `c.sav` completes with timestamp 99. -/
theorem upload_success_updates_index_witness :
    HashMap.find
        (fileUploadedCallback exampleEnv
          (directoryListedCallback exampleEnv
            (SavesSyncRequest.create exampleEnv [("c.sav", 7)] true)
            { request := some "d", value := [] } true)
          { request := none, value := exampleFile "c.sav" 99 } true).localFilesTimestamps
        "c.sav" = some 99 :=
  (upload_success_updates_index exampleEnv
    (directoryListedCallback exampleEnv
      (SavesSyncRequest.create exampleEnv [("c.sav", 7)] true)
      { request := some "d", value := [] } true)
    { request := none, value := exampleFile "c.sav" 99 } true (by decide)).1

/-- C17: in every state of a run from the construction of the request: if the error
callback has been called, no sync date has been stored and the completion callback has
not been called; if the run has ended without an error, both queues are empty, the
recorded date has been stored exactly once and the completion callback, when there is
one, has been called exactly once, with `true`; a stored date means the run has ended
without an error with both queues empty; and the recorded date is the date of the
request that answered the listing, unchanged by the transfers. -/
theorem sync_date_stored_iff_success (env : Env) (loaded : HashMap Nat) (accept : Bool)
    (evs : List (Event × Bool)) (s : SavesSyncRequest)
    (hrun : run env (SavesSyncRequest.create env loaded accept) evs = some s) :
    ((∃ error, Effect.errorCallback error ∈ s.log) →
      (∀ date, Effect.setStorageLastSync date ∉ s.log) ∧
      (∀ success, Effect.boolCallback success ∉ s.log)) ∧
    (s.workingRequest = none → (∀ error, Effect.errorCallback error ∉ s.log) →
      s.filesToDownload = [] ∧ s.filesToUpload = [] ∧
      s.log.filter Effect.isSetStorageLastSync = [Effect.setStorageLastSync s.date] ∧
      s.log.filter Effect.isBoolCallback
        = (if env.hasBoolCallback then [Effect.boolCallback true] else [])) ∧
    ((∃ date, Effect.setStorageLastSync date ∈ s.log) →
      s.workingRequest = none ∧ (∀ error, Effect.errorCallback error ∉ s.log) ∧
      s.filesToDownload = [] ∧ s.filesToUpload = []) ∧
    (∀ (t t' : SavesSyncRequest) (response : ListDirectoryResponse) (a : Bool)
      (later : List (Event × Bool)), t.ignoreCallback = false →
      run env (directoryListedCallback env t response a) later = some t' →
      t'.date = (match response.request with
        | some d => d
        | none => t.date)) := by
  have hinv := create_inv env loaded accept
  have hout := run_outcome env evs _ s hinv (create_outcome env loaded accept) hrun
  refine ⟨?_, ?_, ?_, ?_⟩
  · rintro ⟨error, herr⟩
    by_cases hwr : s.workingRequest = none
    · rcases hout.ended hwr with ⟨_, h2, h3⟩ | ⟨h1, _⟩
      · exact ⟨fun d => not_mem_of_filter_eq_nil h2 rfl,
          fun b => not_mem_of_filter_eq_nil h3 rfl⟩
      · exact absurd herr (not_mem_of_filter_eq_nil h1 rfl)
    · exact absurd herr (not_mem_of_filter_eq_nil (hout.running hwr).1 rfl)
  · intro hwr hne
    rcases hout.ended hwr with ⟨⟨error, h1⟩, _⟩ | ⟨_, h2, h3, h4, h5, _⟩
    · exfalso
      have : Effect.errorCallback error ∈ s.log.filter Effect.isErrorCallback := by
        rw [h1]
        simp
      exact hne error (List.mem_filter.1 this).1
    · exact ⟨h4, h5, h2, h3⟩
  · rintro ⟨date, hdate⟩
    by_cases hwr : s.workingRequest = none
    · rcases hout.ended hwr with ⟨_, h2, _⟩ | ⟨h1, _, _, h4, h5, _⟩
      · exact absurd hdate (not_mem_of_filter_eq_nil h2 rfl)
      · exact ⟨hwr, fun e => not_mem_of_filter_eq_nil h1 rfl, h4, h5⟩
    · exact absurd hdate (not_mem_of_filter_eq_nil (hout.running hwr).2.1 rfl)
  · intro t t' response a later hi hlater
    have h1 := directoryListedCallback_shrinks env t response a hi
    rw [run_date env later _ t' (h1.phase (by simp [listingPhase])) hlater,
      directoryListedCallback_date env t response a hi]

/-- An instance of C17: a run that uploads `c.sav` and succeeds. -/
theorem sync_date_stored_iff_success_witness :
    ∃ s : SavesSyncRequest,
      run exampleEnv (SavesSyncRequest.create exampleEnv [("c.sav", 7)] true)
          [(Event.directoryListed { request := some "d", value := [] }, true),
           (Event.fileUploaded { request := none, value := exampleFile "c.sav" 99 }, true)]
        = some s ∧
      Effect.setStorageLastSync "d" ∈ s.log ∧
      s.workingRequest = none ∧ (∀ error, Effect.errorCallback error ∉ s.log) ∧
      s.filesToDownload = [] ∧ s.filesToUpload = [] :=
  ⟨_, rfl, by decide,
    (sync_date_stored_iff_success exampleEnv [("c.sav", 7)] true
      [(Event.directoryListed { request := some "d", value := [] }, true),
       (Event.fileUploaded { request := none, value := exampleFile "c.sav" 99 }, true)]
      _ rfl).2.2.1 ⟨"d", by decide⟩⟩

/-- C18: with an empty index, a recoverable listing error and a create-directory operation
that is created and completes with `ok = true`, the run is deliverable and ends with
both queues empty, `totalFilesToHandle = 0`, no download or upload requested, the date
stored, the completion callback (when there is one) called with `true`, the request
finished and `getProgress = 1`. -/
theorem nothing_to_do_succeeds (env : Env) (s : SavesSyncRequest)
    (listingError : ErrorResponse) (response : BoolResponse) (accept : Bool)
    (hrec : listingErrorIrrecoverable env listingError = false)
    (hok : response.value = true) :
    ∃ s' : SavesSyncRequest,
      run env (start env s [] true)
        [(Event.directoryListedError listingError, true),
         (Event.directoryCreated response, accept)] = some s' ∧
      s'.filesToDownload = [] ∧ s'.filesToUpload = [] ∧ s'.totalFilesToHandle = 0 ∧
      s'.log = (start env s [] true).log
        ++ [Effect.request (Operation.createDirectory (savesDirectory env)),
            Effect.setStorageUsedSpace 0,
            Effect.setStorageLastSync s'.date]
        ++ (if env.hasBoolCallback then [Effect.boolCallback true] else []) ∧
      s'.date = (match response.request with
        | some d => d
        | none => s.date) ∧
      s'.state = RequestState.FINISHED ∧ s'.workingRequest = none ∧
      getProgress s' = 1 := by
  have h1 : deliver env (start env s [] true) (Event.directoryListedError listingError) true
      = some (awaitingDirectory env s [] listingError) := by
    unfold awaitingDirectory deliver
    rw [show (start env s [] true).workingRequest
      = some (Operation.listDirectory (savesDirectory env)) by rw [start_accept]]
  have h2 : deliver env (awaitingDirectory env s [] listingError)
      (Event.directoryCreated response) accept
      = some (directoryCreatedCallback env (awaitingDirectory env s [] listingError)
          response accept) := by
    rw [awaitingDirectory_eq env s [] listingError hrec]
    rfl
  refine ⟨directoryCreatedCallback env (awaitingDirectory env s [] listingError)
    response accept, by simp [run, h1, h2], ?_⟩
  rw [awaitingDirectory_eq env s [] listingError hrec, start_accept,
    directoryCreatedCallback_ok env _ response accept rfl hok,
    directoryListedCallback_eq env _ _ accept rfl,
    diffPhase_nothing env _ response.request rfl rfl rfl]
  simp only [if_true]
  rw [uploadNextFile_nil env _ accept rfl, finishSync_eq]
  refine ⟨rfl, rfl, rfl, by simp, rfl, rfl, rfl, by simp [getProgress]⟩

/-- An instance of C18, with the error body `subdirectory not found`. -/
theorem nothing_to_do_succeeds_witness :
    ∃ s' : SavesSyncRequest,
      run exampleEnv (start exampleEnv (SavesSyncRequest.create exampleEnv [] false) [] true)
        [(Event.directoryListedError
            { interrupted := false, failed := true, response := "subdirectory not found",
              httpResponseCode := 404 }, true),
         (Event.directoryCreated { request := some "d", value := true }, true)] = some s' ∧
      s'.filesToDownload = [] ∧ s'.filesToUpload = [] ∧ s'.totalFilesToHandle = 0 ∧
      s'.log = (start exampleEnv (SavesSyncRequest.create exampleEnv [] false) [] true).log
        ++ [Effect.request (Operation.createDirectory (savesDirectory exampleEnv)),
            Effect.setStorageUsedSpace 0,
            Effect.setStorageLastSync s'.date]
        ++ (if exampleEnv.hasBoolCallback then [Effect.boolCallback true] else []) ∧
      s'.date = "d" ∧
      s'.state = RequestState.FINISHED ∧ s'.workingRequest = none ∧
      getProgress s' = 1 :=
  nothing_to_do_succeeds exampleEnv (SavesSyncRequest.create exampleEnv [] false)
    { interrupted := false, failed := true, response := "subdirectory not found",
      httpResponseCode := 404 }
    { request := some "d", value := true } true (by decide) (by decide)

/-- C19: for each of the four operations (listing at `start`, directory creation after a
recoverable listing error, download, upload), when the storage refuses to create the
operation the run fails on the spot (`FailsImmediately`): the refused request is the only
one made, the error callback is called once, with a failed error, neither the date is
stored nor the completion callback called, and nothing is in flight or deliverable. -/
theorem refused_operation_fails_run (env : Env) (s : SavesSyncRequest) :
    (∀ loaded : HashMap Nat,
      FailsImmediately env s (start env s loaded false)
        (Operation.listDirectory (savesDirectory env))) ∧
    (∀ error : ErrorResponse, s.ignoreCallback = false →
      listingErrorIrrecoverable env error = false →
      FailsImmediately env s (directoryListedErrorCallback env s error false)
        (Operation.createDirectory (savesDirectory env))) ∧
    (∀ (rest : List StorageFile) (file : StorageFile), s.filesToDownload = rest ++ [file] →
      FailsImmediately env s (downloadNextFile env s false) (downloadOperation env file)) ∧
    (∀ (rest : List String) (name : String), s.filesToUpload = rest ++ [name] →
      FailsImmediately env s (uploadNextFile env s false) (uploadOperation env name)) := by
  refine ⟨?_, ?_, ?_, ?_⟩
  · intro loaded
    rw [start_refuse]
    apply failsImmediately_of_finishError env s _ _ _
      (match s.workingRequest with
        | some op => [Effect.finishWorking op]
        | none => []) rfl _ rfl
    intro e he
    cases h : s.workingRequest with
    | none => simp [h] at he
    | some op => exact ⟨op, by simpa [h] using he⟩
  · intro error hi hrec
    rw [directoryListedErrorCallback_refuse env s error hi hrec]
    exact failsImmediately_of_finishError env s _ _ _ [] (by simp) (by simp) rfl
  · intro rest file hq
    rw [downloadNextFile_refuse env s rest file hq]
    exact failsImmediately_of_finishError env s _ _ _ [] (by simp) (by simp) rfl
  · intro rest name hq
    rw [uploadNextFile_refuse env s rest name hq]
    exact failsImmediately_of_finishError env s _ _ _ [] (by simp) (by simp) rfl

/-- An instance of C19: the storage refuses the download of `b.sav`. -/
theorem refused_operation_fails_run_witness :
    FailsImmediately exampleEnv
      (diffPhase exampleEnv (SavesSyncRequest.create exampleEnv [("a.sav", 100)] true)
        { request := some "d", value := [exampleFile "b.sav" 50] })
      (downloadNextFile exampleEnv
        (diffPhase exampleEnv (SavesSyncRequest.create exampleEnv [("a.sav", 100)] true)
          { request := some "d", value := [exampleFile "b.sav" 50] }) false)
      (downloadOperation exampleEnv (exampleFile "b.sav" 50)) :=
  (refused_operation_fails_run exampleEnv
    (diffPhase exampleEnv (SavesSyncRequest.create exampleEnv [("a.sav", 100)] true)
      { request := some "d", value := [exampleFile "b.sav" 50] })).2.2.1
    [] (exampleFile "b.sav" 50) (by decide)

/-- C20: after a recoverable listing error, with the create-directory operation in flight,
its failure (its error callback, or its completion with `ok = false`) is deliverable and
fails the run: the error callback is the only thing the request does, the diff does
not run (`totalFilesToHandle` stays `0`), both queues stay empty, no download or upload is
requested and nothing is in flight or deliverable any more. -/
theorem create_directory_failure_aborts (env : Env) (s : SavesSyncRequest)
    (loaded : HashMap Nat) (listingError error : ErrorResponse) (response : BoolResponse)
    (accept : Bool)
    (hrec : listingErrorIrrecoverable env listingError = false)
    (hfail : response.value = false) :
    (∃ s' : SavesSyncRequest,
      deliver env (awaitingDirectory env s loaded listingError)
        (Event.directoryCreatedError error) accept = some s' ∧
      s'.log = (awaitingDirectory env s loaded listingError).log
        ++ [Effect.errorCallback error] ∧
      s'.filesToDownload = [] ∧ s'.filesToUpload = [] ∧ s'.totalFilesToHandle = 0 ∧
      s'.state = RequestState.FINISHED ∧ s'.workingRequest = none ∧
      ∀ (ev : Event) (a : Bool), deliver env s' ev a = none) ∧
    (∃ s' : SavesSyncRequest,
      deliver env (awaitingDirectory env s loaded listingError)
        (Event.directoryCreated response) accept = some s' ∧
      s'.log = (awaitingDirectory env s loaded listingError).log
        ++ [Effect.errorCallback directoryNotCreatedError] ∧
      s'.filesToDownload = [] ∧ s'.filesToUpload = [] ∧ s'.totalFilesToHandle = 0 ∧
      s'.state = RequestState.FINISHED ∧ s'.workingRequest = none ∧
      ∀ (ev : Event) (a : Bool), deliver env s' ev a = none) := by
  rw [awaitingDirectory_eq env s loaded listingError hrec, start_accept]
  constructor
  · refine ⟨_, rfl, ?_⟩
    rw [directoryCreatedErrorCallback_eq _ _ rfl, finishError_eq _ _ rfl]
    exact ⟨by simp [StorageFile.empty], rfl, rfl, rfl, rfl, rfl,
      fun ev a => deliver_none_of_idle _ _ _ _ rfl⟩
  · refine ⟨_, rfl, ?_⟩
    rw [directoryCreatedCallback_fail env _ response accept rfl hfail, finishError_eq _ _ rfl]
    exact ⟨by simp [StorageFile.empty], rfl, rfl, rfl, rfl, rfl,
      fun ev a => deliver_none_of_idle _ _ _ _ rfl⟩

/-- An instance of C20: the directory creation fails with an error of status 507. -/
theorem create_directory_failure_aborts_witness :
    ∃ s' : SavesSyncRequest,
      deliver exampleEnv
        (awaitingDirectory exampleEnv (SavesSyncRequest.create exampleEnv [("a.sav", 100)] true)
          [("a.sav", 100)]
          { interrupted := false, failed := true, response := "subdirectory not found",
            httpResponseCode := 404 })
        (Event.directoryCreatedError
          { interrupted := false, failed := true, response := "full", httpResponseCode := 507 })
        true = some s' ∧
      s'.log = (awaitingDirectory exampleEnv
          (SavesSyncRequest.create exampleEnv [("a.sav", 100)] true) [("a.sav", 100)]
          { interrupted := false, failed := true, response := "subdirectory not found",
            httpResponseCode := 404 }).log
        ++ [Effect.errorCallback
              { interrupted := false, failed := true, response := "full",
                httpResponseCode := 507 }] ∧
      s'.filesToDownload = [] ∧ s'.filesToUpload = [] ∧ s'.totalFilesToHandle = 0 ∧
      s'.state = RequestState.FINISHED ∧ s'.workingRequest = none ∧
      ∀ (ev : Event) (a : Bool), deliver exampleEnv s' ev a = none :=
  (create_directory_failure_aborts exampleEnv
    (SavesSyncRequest.create exampleEnv [("a.sav", 100)] true) [("a.sav", 100)]
    { interrupted := false, failed := true, response := "subdirectory not found",
      httpResponseCode := 404 }
    { interrupted := false, failed := true, response := "full", httpResponseCode := 507 }
    { request := none, value := false } true (by decide) (by decide)).1

/-! ## Lemmas on the diff, the markers, the progress and the requests -/

theorem getDownloadedBytes_idle (s : SavesSyncRequest) (progress : ℚ)
    (hflight : downloadInFlight s = false) :
    getDownloadedBytes s progress = s.bytesDownloaded % 2 ^ 32 := by
  unfold getDownloadedBytes
  simp only [hflight, Bool.false_eq_true, if_false, zero_mul, add_zero]
  rw [show (Rat.floor (s.bytesDownloaded : ℚ)) = ⌊(s.bytesDownloaded : ℚ)⌋ from rfl,
    Int.floor_natCast, Int.toNat_ofNat]

theorem foldl_diffRemoteFile_filter (env : Env) (ts : HashMap Nat) (files : List StorageFile)
    (st : DiffLoop) :
    files.foldl (diffRemoteFile env ts) st =
      (files.filter (fun file => !file.isDirectory)).foldl (diffRemoteFile env ts) st := by
  induction files generalizing st with
  | nil => rfl
  | cons f fs ih =>
    cases hd : f.isDirectory
    · simp [List.filter_cons, hd, ih]
    · simp only [List.foldl_cons, List.filter_cons, hd, Bool.not_true]
      rw [show diffRemoteFile env ts st f = st by simp [diffRemoteFile, hd]]
      simpa using ih st

theorem diffPhase_withoutDirectories (env : Env) (s : SavesSyncRequest)
    (response : ListDirectoryResponse) :
    diffPhase env s response = diffPhase env s (withoutDirectories response) := by
  unfold diffPhase withoutDirectories
  simp only
  rw [← foldl_diffRemoteFile_filter]

theorem diffRemoteFile_totalSize (env : Env) (ts : HashMap Nat) (st : DiffLoop)
    (file : StorageFile) :
    (diffRemoteFile env ts st file).totalSize =
      if file.isDirectory then st.totalSize else (st.totalSize + file.size) % 2 ^ 64 := by
  unfold diffRemoteFile
  cases hd : file.isDirectory <;> simp
  split_ifs <;> rfl

theorem foldl_diffRemoteFile_totalSize (env : Env) (ts : HashMap Nat)
    (files : List StorageFile) (st : DiffLoop) :
    (files.foldl (diffRemoteFile env ts) st).totalSize =
      files.foldl
        (fun acc file => if file.isDirectory then acc else (acc + file.size) % 2 ^ 64)
        st.totalSize := by
  induction files generalizing st with
  | nil => rfl
  | cons f fs ih => simp only [List.foldl_cons, ih, diffRemoteFile_totalSize]

theorem diffPhase_log_listedSize (env : Env) (s : SavesSyncRequest)
    (response : ListDirectoryResponse) :
    (diffPhase env s response).log
      = s.log ++ [Effect.setStorageUsedSpace (listedSize response.value)] := by
  simp [diffPhase, listedSize, foldl_diffRemoteFile_totalSize]

theorem foldl_listedSize_mod (files : List StorageFile) (acc : Nat) :
    (files.foldl
        (fun acc file => if file.isDirectory then acc else (acc + file.size) % 2 ^ 64) acc)
        % 2 ^ 64 =
      (acc + ((files.filter (fun file => !file.isDirectory)).map StorageFile.size).sum)
        % 2 ^ 64 := by
  induction files generalizing acc with
  | nil => simp
  | cons f fs ih =>
    cases hd : f.isDirectory
    · simp only [List.foldl_cons, hd, Bool.false_eq_true, if_false, ih, List.filter_cons,
        Bool.not_false, if_true, List.map_cons, List.sum_cons]
      rw [Nat.add_mod, Nat.mod_mod, ← Nat.add_mod, Nat.add_assoc]
    · simp only [List.foldl_cons, hd, if_true, ih, List.filter_cons, Bool.not_true,
        Bool.false_eq_true, if_false]

theorem foldl_listedSize_lt (files : List StorageFile) (acc : Nat) (h : acc < 2 ^ 64) :
    files.foldl
        (fun acc file => if file.isDirectory then acc else (acc + file.size) % 2 ^ 64) acc
      < 2 ^ 64 := by
  induction files generalizing acc with
  | nil => exact h
  | cons f fs ih =>
    simp only [List.foldl_cons]
    apply ih
    split_ifs
    · exact h
    · exact Nat.mod_lt _ (by norm_num)

theorem listedSize_eq_sum (files : List StorageFile) :
    listedSize files =
      ((files.filter (fun file => !file.isDirectory)).map StorageFile.size).sum % 2 ^ 64 := by
  have h1 := foldl_listedSize_mod files 0
  have h2 := foldl_listedSize_lt files 0 (by norm_num)
  rw [Nat.mod_eq_of_lt h2, Nat.zero_add] at h1
  exact h1

theorem syncable_iff (env : Env) (name : String) :
    syncable env name = true ↔ name ≠ env.TIMESTAMPS_FILENAME ∧ env.canSyncFilename name = true := by
  simp [syncable]

theorem diffPhase_eligible (env : Env) (s : SavesSyncRequest) (response : ListDirectoryResponse)
    (hd : s.filesToDownload = []) (hu : s.filesToUpload = []) :
    (∀ d ∈ (diffPhase env s response).filesToDownload, syncable env d.name = true) ∧
      ∀ n ∈ (diffPhase env s response).filesToUpload, syncable env n = true := by
  constructor
  · intro d hdmem
    rw [diffPhase_filesToDownload, hd, List.nil_append] at hdmem
    obtain ⟨_, h2⟩ := List.mem_filter.1 hdmem
    simp only [remoteDownload, Bool.and_eq_true] at h2
    exact h2.1.2
  · intro n hn
    rw [diffPhase_filesToUpload, hu, List.nil_append, List.mem_append] at hn
    rcases hn with hn | hn
    · obtain ⟨g, hg, rfl⟩ := List.mem_map.1 hn
      obtain ⟨_, h2⟩ := List.mem_filter.1 hg
      simp only [remoteUpload, seenRemotely, Bool.and_eq_true] at h2
      exact h2.1.1.1.2
    · exact ((mem_localOnly _ _ _ _).1 hn).1

theorem aborts_of_finishError (env : Env) (s t : SavesSyncRequest) (error : ErrorResponse)
    (pre : List Effect) (hwr : t.workingRequest = none) (hlog : t.log = s.log ++ pre)
    (hpre : ∀ e ∈ pre, ∃ name, e = Effect.removeSavefile name)
    (hu : t.filesToUpload = s.filesToUpload) : Aborts env s (finishError t error) := by
  rw [finishError_eq t error hwr]
  refine ⟨pre ++ (if t.currentDownloadingFile.name ≠ "" then
      [Effect.removeSavefile t.currentDownloadingFile.name] else []), error, ?_, ?_, hu, hwr,
    rfl, fun ev a => deliver_none_of_idle _ _ _ _ hwr⟩
  · simp only [hlog, List.append_assoc]
  · intro e he
    rcases List.mem_append.1 he with h | h
    · exact hpre e h
    · split_ifs at h
      · exact ⟨_, List.mem_singleton.1 h⟩
      · simp at h

theorem deliver_transfer_failure (env : Env) (s s' : SavesSyncRequest) (ev : Event)
    (accept : Bool) (hi : s.ignoreCallback = false) (hev : ev.isTransferFailure = true)
    (h : deliver env s ev accept = some s') : Aborts env s s' := by
  unfold deliver at h
  split at h <;> simp [Event.isTransferFailure] at hev h <;> subst h
  · rw [fileDownloadedCallback_fail env s _ accept hi hev]
    exact aborts_of_finishError env s _ _ [Effect.removeSavefile s.currentDownloadingFile.name]
      rfl rfl (by simp) rfl
  · rw [fileDownloadedErrorCallback_eq s _ hi]
    exact aborts_of_finishError env s _ _ [] rfl (by simp) (by simp) rfl
  · rw [fileUploadedErrorCallback_eq s _ hi]
    exact aborts_of_finishError env s _ _ [] rfl (by simp) (by simp) rfl
  · rw [fileUploadedErrorCallback_eq s _ hi]
    exact aborts_of_finishError env s _ _ [] rfl (by simp) (by simp) rfl

theorem deliver_isSome_download (env : Env) (s : SavesSyncRequest) (accept : Bool)
    (h : downloadInFlight s = true) (error : ErrorResponse) (response : BoolResponse) :
    (deliver env s (Event.fileDownloadedError error) accept).isSome = true ∧
      (deliver env s (Event.fileDownloaded response) accept).isSome = true := by
  unfold downloadInFlight at h
  unfold deliver
  split at h <;> simp_all

theorem deliver_isSome_upload (env : Env) (s : SavesSyncRequest) (accept : Bool)
    (h : uploadPhase s = true) (error : ErrorResponse) :
    (deliver env s (Event.fileUploadedError error) accept).isSome = true := by
  unfold uploadPhase at h
  unfold deliver
  split at h <;> simp_all

theorem uploadRequests_append_of_not (log tail : List Effect)
    (h : ∀ e ∈ tail, e.isUploadRequest = false) :
    uploadRequests (log ++ tail) = uploadRequests log := by
  unfold uploadRequests
  rw [List.filter_append]
  have : tail.filter Effect.isUploadRequest = [] := by
    rw [List.filter_eq_nil_iff]
    intro e he
    simp [h e he]
  rw [this, List.append_nil]

theorem UploadMarked.append_other {env : Env} {log : List Effect} {name : String}
    (h : UploadMarked env log name) (tail : List Effect)
    (ht : ∀ e ∈ tail, e.isUploadRequest = false) : UploadMarked env (log ++ tail) name := by
  unfold UploadMarked
  rw [uploadRequests_append_of_not log tail ht]
  exact h

theorem UploadMarked.of_request (env : Env) (log : List Effect) (name : String) :
    UploadMarked env (log ++ [Effect.request (uploadOperation env name)]) name := by
  right
  unfold uploadRequests
  rw [List.filter_append]
  simp [isUploadRequest_uploadOperation]

theorem downloadInFlight_uploadOperation (env : Env) (name : String) (t : SavesSyncRequest)
    (h : t.workingRequest = some (uploadOperation env name)) : downloadInFlight t = false := by
  unfold downloadInFlight
  rw [h]
  unfold uploadOperation
  split_ifs <;> rfl

theorem finishError_tidy (env : Env) (t : SavesSyncRequest) (error : ErrorResponse)
    (hwr : t.workingRequest = none) (hb : t.bytesDownloaded < 2 ^ 32)
    (hn : t.bytesToDownload = 0 ∨ t.filesToUpload.length < t.totalFilesToHandle)
    (hm : UploadMarked env t.log t.currentUploadingFile) :
    Tidy env (finishError t error) := by
  rw [finishError_eq t error hwr]
  refine ⟨fun _ => ⟨rfl, rfl⟩, ?_, hb, hn, ?_, ?_⟩
  · intro h
    simp [downloadInFlight, hwr] at h
  · dsimp only
    rw [List.append_assoc]
    apply hm.append_other
    intro e he
    rcases List.mem_append.1 he with h | h
    · split_ifs at h
      · rw [List.mem_singleton.1 h]; rfl
      · simp at h
    · rw [List.mem_singleton.1 h]; rfl
  · intro h
    simp [uploadPhase, hwr] at h

theorem finishSync_tidy (env : Env) (t : SavesSyncRequest)
    (hwr : t.workingRequest = none)
    (hidle : t.currentDownloadingFile = StorageFile.empty ∧ t.filesToDownload = [])
    (hb : t.bytesDownloaded < 2 ^ 32)
    (hn : t.bytesToDownload = 0 ∨ t.filesToUpload.length < t.totalFilesToHandle)
    (hm : UploadMarked env t.log t.currentUploadingFile) :
    Tidy env (finishSync env t true) := by
  rw [finishSync_eq]
  refine ⟨fun _ => hidle, ?_, hb, hn, ?_, ?_⟩
  · intro h
    simp [downloadInFlight, hwr] at h
  · dsimp only
    rw [List.append_assoc]
    apply hm.append_other
    intro e he
    rcases List.mem_append.1 he with h | h
    · rw [List.mem_singleton.1 h]; rfl
    · split_ifs at h
      · rw [List.mem_singleton.1 h]; rfl
      · simp at h
  · intro h
    simp [uploadPhase, hwr] at h

theorem uploadNextFile_tidy (env : Env) (t : SavesSyncRequest) (accept : Bool)
    (hwr : t.workingRequest = none)
    (hidle : t.currentDownloadingFile = StorageFile.empty ∧ t.filesToDownload = [])
    (hb : t.bytesDownloaded < 2 ^ 32)
    (hn : t.bytesToDownload = 0 ∨ t.filesToUpload.length < t.totalFilesToHandle)
    (hm : UploadMarked env t.log t.currentUploadingFile) :
    Tidy env (uploadNextFile env t accept) := by
  rcases List.eq_nil_or_concat t.filesToUpload with h | ⟨rest, name, h⟩
  · rw [uploadNextFile_nil env t accept h]
    exact finishSync_tidy env t hwr hidle hb hn hm
  · rw [List.concat_eq_append] at h
    have hn' : t.bytesToDownload = 0 ∨ rest.length < t.totalFilesToHandle := by
      rcases hn with hn | hn
      · exact Or.inl hn
      · right
        rw [h, List.length_append] at hn
        omega
    cases accept
    · rw [uploadNextFile_refuse env t rest name h]
      exact finishError_tidy env _ _ rfl hb hn' (UploadMarked.of_request env t.log name)
    · rw [uploadNextFile_accept env t rest name h]
      refine ⟨fun _ => hidle, ?_, hb, hn', UploadMarked.of_request env t.log name, fun _ => rfl⟩
      intro hf
      rw [downloadInFlight_uploadOperation env name _ rfl] at hf
      exact absurd hf (by simp)

theorem downloadNextFile_tidy (env : Env) (t : SavesSyncRequest) (accept : Bool)
    (hwr : t.workingRequest = none)
    (hb : t.bytesDownloaded < 2 ^ 32)
    (hn : t.bytesToDownload = 0 ∨ t.filesToUpload.length < t.totalFilesToHandle)
    (hm : UploadMarked env t.log t.currentUploadingFile) :
    Tidy env (downloadNextFile env t accept) := by
  rcases List.eq_nil_or_concat t.filesToDownload with h | ⟨rest, file, h⟩
  · rw [downloadNextFile_nil env t accept h]
    exact uploadNextFile_tidy env _ accept hwr ⟨rfl, h⟩ hb hn hm
  · rw [List.concat_eq_append] at h
    have hm' : UploadMarked env (t.log ++ [Effect.request (downloadOperation env file)])
        t.currentUploadingFile :=
      hm.append_other _ (by simp [downloadOperation, Effect.isUploadRequest])
    cases accept
    · rw [downloadNextFile_refuse env t rest file h]
      exact finishError_tidy env _ _ rfl hb hn hm'
    · rw [downloadNextFile_accept env t rest file h]
      refine ⟨?_, fun _ => rfl, hb, hn, hm', ?_⟩
      · intro hf
        simp [downloadInFlight, downloadOperation] at hf
      · intro hf
        simp [uploadPhase, downloadOperation] at hf

theorem sumDownloadSizes_nil : sumDownloadSizes [] = 0 := rfl

theorem directoryListedCallback_tidy (env : Env) (s : SavesSyncRequest)
    (response : ListDirectoryResponse) (accept : Bool) (hi : s.ignoreCallback = false)
    (hidle : s.currentDownloadingFile = StorageFile.empty)
    (hm : UploadMarked env s.log s.currentUploadingFile) :
    Tidy env (directoryListedCallback env s response accept) := by
  obtain ⟨n, hlog⟩ := diffPhase_log env s response
  have hm' : UploadMarked env (diffPhase env s response).log
      (diffPhase env s response).currentUploadingFile := by
    rw [hlog]
    exact hm.append_other _ (by simp [Effect.isUploadRequest])
  have hb : (diffPhase env s response).bytesDownloaded < 2 ^ 32 := by
    show 0 < 2 ^ 32
    norm_num
  have hn : (diffPhase env s response).bytesToDownload = 0 ∨
      (diffPhase env s response).filesToUpload.length
        < (diffPhase env s response).totalFilesToHandle := by
    rw [diffPhase_totalFilesToHandle]
    by_cases h : (diffPhase env s response).filesToDownload = []
    · left
      show sumDownloadSizes (diffPhase env s response).filesToDownload = 0
      rw [h]
      rfl
    · right
      have := List.length_pos.2 h
      omega
  rw [directoryListedCallback_eq env s response accept hi]
  split_ifs with h
  · exact uploadNextFile_tidy env _ accept rfl ⟨hidle, h⟩ hb hn hm'
  · exact downloadNextFile_tidy env _ accept rfl hb hn hm'

theorem directoryListedErrorCallback_tidy (env : Env) (s : SavesSyncRequest)
    (error : ErrorResponse) (accept : Bool) (hi : s.ignoreCallback = false)
    (ht : Tidy env s) (hf : downloadInFlight s = false) :
    Tidy env (directoryListedErrorCallback env s error accept) := by
  cases hirr : listingErrorIrrecoverable env error
  · have hm' : UploadMarked env
        (s.log ++ [Effect.request (Operation.createDirectory (savesDirectory env))])
        s.currentUploadingFile :=
      ht.marker.append_other _ (by simp [Effect.isUploadRequest])
    cases accept
    · rw [directoryListedErrorCallback_refuse env s error hi hirr]
      exact finishError_tidy env _ _ rfl ht.bytes ht.nothing hm'
    · rw [directoryListedErrorCallback_recoverable env s error hi hirr]
      refine ⟨fun _ => ht.idle hf, ?_, ht.bytes, ht.nothing, hm', ?_⟩
      · intro h
        simp [downloadInFlight] at h
      · intro h
        simp [uploadPhase] at h
  · rw [directoryListedErrorCallback_irrecoverable env s error accept hi hirr]
    exact finishError_tidy env _ _ rfl ht.bytes ht.nothing ht.marker

theorem directoryCreatedCallback_tidy (env : Env) (s : SavesSyncRequest)
    (response : BoolResponse) (accept : Bool) (hi : s.ignoreCallback = false)
    (ht : Tidy env s) (hf : downloadInFlight s = false) :
    Tidy env (directoryCreatedCallback env s response accept) := by
  cases hval : response.value
  · rw [directoryCreatedCallback_fail env s response accept hi hval]
    exact finishError_tidy env _ _ rfl ht.bytes ht.nothing ht.marker
  · rw [directoryCreatedCallback_ok env s response accept hi hval]
    exact directoryListedCallback_tidy env s _ accept hi (ht.idle hf).1 ht.marker

theorem errorCallback_tidy (env : Env) (s : SavesSyncRequest) (error : ErrorResponse)
    (hi : s.ignoreCallback = false) (ht : Tidy env s) :
    Tidy env (fileDownloadedErrorCallback s error) := by
  rw [fileDownloadedErrorCallback_eq s error hi]
  exact finishError_tidy env _ _ rfl ht.bytes ht.nothing ht.marker

theorem fileDownloadedCallback_tidy (env : Env) (s : SavesSyncRequest)
    (response : BoolResponse) (accept : Bool) (hi : s.ignoreCallback = false)
    (ht : Tidy env s) : Tidy env (fileDownloadedCallback env s response accept) := by
  cases hval : response.value
  · rw [fileDownloadedCallback_fail env s response accept hi hval]
    exact finishError_tidy env _ _ rfl ht.bytes ht.nothing
      (ht.marker.append_other _ (by simp [Effect.isUploadRequest]))
  · rw [fileDownloadedCallback_ok env s response accept hi hval]
    exact downloadNextFile_tidy env _ accept rfl (Nat.mod_lt _ (by norm_num)) ht.nothing
      (ht.marker.append_other _ (by simp [Effect.isUploadRequest]))

theorem fileUploadedCallback_tidy (env : Env) (s : SavesSyncRequest)
    (response : UploadResponse) (accept : Bool) (hi : s.ignoreCallback = false)
    (ht : Tidy env s) (hf : downloadInFlight s = false) :
    Tidy env (fileUploadedCallback env s response accept) := by
  rw [fileUploadedCallback_eq env s response accept hi]
  exact uploadNextFile_tidy env _ accept rfl (ht.idle hf) ht.bytes ht.nothing
    (ht.marker.append_other _ (by simp [Effect.isUploadRequest]))

/-- Every delivered completion keeps the facts on the markers and the byte counters. -/
theorem deliver_tidy (env : Env) (s s' : SavesSyncRequest) (ev : Event) (accept : Bool)
    (hinv : Inv s) (ht : Tidy env s) (h : deliver env s ev accept = some s') :
    Tidy env s' := by
  have hi := hinv.ignore
  unfold deliver at h
  split at h <;> simp at h <;> subst h
  · exact directoryListedCallback_tidy _ _ _ _ hi
      (ht.idle (by simp [downloadInFlight, *])).1 ht.marker
  · exact directoryListedErrorCallback_tidy _ _ _ _ hi ht (by simp [downloadInFlight, *])
  · exact directoryCreatedCallback_tidy _ _ _ _ hi ht (by simp [downloadInFlight, *])
  · exact errorCallback_tidy _ _ _ hi ht
  · exact fileDownloadedCallback_tidy _ _ _ _ hi ht
  · exact errorCallback_tidy _ _ _ hi ht
  · exact fileUploadedCallback_tidy _ _ _ _ hi ht (by simp [downloadInFlight, *])
  · exact errorCallback_tidy _ _ _ hi ht
  · exact fileUploadedCallback_tidy _ _ _ _ hi ht (by simp [downloadInFlight, *])
  · exact errorCallback_tidy _ _ _ hi ht

theorem create_tidy (env : Env) (loaded : HashMap Nat) (accept : Bool) :
    Tidy env (SavesSyncRequest.create env loaded accept) := by
  unfold SavesSyncRequest.create
  have hm : UploadMarked env [Effect.request (Operation.listDirectory (savesDirectory env))] "" :=
    Or.inl ⟨by simp [uploadRequests, Effect.isUploadRequest], rfl⟩
  cases accept
  · rw [start_refuse]
    exact finishError_tidy env _ _ rfl (by show 0 < 2 ^ 32; norm_num) (Or.inl rfl) hm
  · rw [start_accept]
    refine ⟨fun _ => ⟨rfl, rfl⟩, ?_, by show 0 < 2 ^ 32; norm_num, Or.inl rfl, hm, ?_⟩
    · intro h
      simp [downloadInFlight] at h
    · intro h
      simp [uploadPhase] at h

theorem run_tidy (env : Env) (evs : List (Event × Bool)) (s s' : SavesSyncRequest)
    (hinv : Inv s) (ht : Tidy env s) (h : run env s evs = some s') : Tidy env s' := by
  induction evs generalizing s with
  | nil =>
    simp only [run, Option.some.injEq] at h
    subst h
    exact ht
  | cons e rest ih =>
    obtain ⟨ev, accept⟩ := e
    simp only [run] at h
    cases hd : deliver env s ev accept with
    | none => simp [hd] at h
    | some s1 =>
      simp only [hd] at h
      exact ih s1 (deliver_inv env s s1 ev accept hinv hd)
        (deliver_tidy env s s1 ev accept hinv ht hd) h

theorem getFilesToDownload_eq (s : SavesSyncRequest) :
    getFilesToDownload s =
      s.filesToDownload.map StorageFile.name
        ++ (if s.currentDownloadingFile.name ≠ "" then [s.currentDownloadingFile.name]
            else []) := by
  unfold getFilesToDownload
  dsimp only
  split_ifs <;> simp

theorem getFilesToDownload_idle (env : Env) (s : SavesSyncRequest) (ht : Tidy env s)
    (h : downloadInFlight s = false) : getFilesToDownload s = [] := by
  obtain ⟨h1, h2⟩ := ht.idle h
  rw [getFilesToDownload_eq, h1, h2]
  rfl

theorem downloadInFlight_of_idle (s : SavesSyncRequest) (h : s.workingRequest = none) :
    downloadInFlight s = false := by
  simp [downloadInFlight, h]

theorem downloadInFlight_of_uploadPhase (s : SavesSyncRequest) (h : uploadPhase s = true) :
    downloadInFlight s = false := by
  unfold uploadPhase at h
  unfold downloadInFlight
  split at h <;> simp_all

theorem getDownloadingProgress_zero (s : SavesSyncRequest) (progress : ℚ)
    (h : s.totalFilesToHandle = 0) :
    getDownloadingProgress s progress = if s.state = RequestState.FINISHED then 1 else 0 := by
  unfold getDownloadingProgress
  rw [if_pos h]

theorem getDownloadingProgress_bytes (s : SavesSyncRequest) (progress : ℚ)
    (h0 : 0 < s.totalFilesToHandle) (hu : s.filesToUpload.length < s.totalFilesToHandle)
    (hb : 0 < s.bytesToDownload) :
    getDownloadingProgress s progress
      = (getDownloadedBytes s progress : ℚ) / (s.bytesToDownload : ℚ) := by
  unfold getDownloadingProgress
  rw [if_neg (by omega), if_neg (by omega), if_pos hb]

theorem getDownloadingProgress_count (s : SavesSyncRequest) (progress : ℚ)
    (h0 : 0 < s.totalFilesToHandle) (hu : s.filesToUpload.length ≤ s.totalFilesToHandle)
    (hb : s.bytesToDownload = 0) :
    getDownloadingProgress s progress =
      if s.totalFilesToHandle - s.filesToUpload.length = 0 then 1
      else
        ((s.totalFilesToHandle - s.filesToUpload.length
            - min (s.totalFilesToHandle - s.filesToUpload.length)
                (s.filesToDownload.length
                  + (if s.currentDownloadingFile.name ≠ "" then 1 else 0)) : ℕ) : ℚ)
          / ((s.totalFilesToHandle - s.filesToUpload.length : ℕ) : ℚ) := by
  unfold getDownloadingProgress
  rw [if_neg (by omega)]
  by_cases he : s.totalFilesToHandle = s.filesToUpload.length
  · rw [if_pos he, if_pos (by omega)]
  · rw [if_neg he, if_neg (show ¬ s.bytesToDownload > 0 by omega),
      if_neg (show ¬ s.totalFilesToHandle - s.filesToUpload.length = 0 by omega)]
    dsimp only
    rw [sub32_of_le _ _ hu]
    generalize s.filesToDownload.length
      + (if s.currentDownloadingFile.name ≠ "" then 1 else 0) = left
    congr 2
    split_ifs with h1
    · rw [sub32_of_le _ _ (le_refl _), Nat.min_eq_left (by omega)]
    · rw [sub32_of_le _ _ (by omega), Nat.min_eq_right (by omega)]

theorem finishError_issues (base pre : List Effect) (t : SavesSyncRequest)
    (error : ErrorResponse) (hwr : t.workingRequest = none) (hlog : t.log = base ++ pre)
    (h1 : pre.countP Effect.isRequest ≤ 1) (h2 : pre.countP Effect.isFinishWorking = 0) :
    IssuesAtMostOne base (finishError t error) := by
  rw [finishError_eq t error hwr]
  refine ⟨pre ++ ((if t.currentDownloadingFile.name ≠ "" then
      [Effect.removeSavefile t.currentDownloadingFile.name] else [])
      ++ [Effect.errorCallback error]), ?_, ?_, ?_, ?_⟩
  · simp only [hlog, List.append_assoc]
  · rw [List.countP_append, List.countP_append]
    split_ifs <;> simp [Effect.isRequest, h1]
  · rw [List.countP_append, List.countP_append, h2]
    split_ifs <;> simp [Effect.isFinishWorking]
  · intro op h
    simp [hwr] at h

theorem finishSync_issues (env : Env) (base pre : List Effect) (t : SavesSyncRequest)
    (hwr : t.workingRequest = none) (hlog : t.log = base ++ pre)
    (h1 : pre.countP Effect.isRequest = 0) (h2 : pre.countP Effect.isFinishWorking = 0) :
    IssuesAtMostOne base (finishSync env t true) := by
  rw [finishSync_eq]
  refine ⟨pre ++ ([Effect.setStorageLastSync t.date]
      ++ (if env.hasBoolCallback then [Effect.boolCallback true] else [])), ?_, ?_, ?_, ?_⟩
  · simp only [hlog, List.append_assoc]
  · rw [List.countP_append, List.countP_append, h1]
    split_ifs <;> simp [Effect.isRequest]
  · rw [List.countP_append, List.countP_append, h2]
    split_ifs <;> simp [Effect.isFinishWorking]
  · intro op h
    simp [hwr] at h

theorem filter_isRequest_of_countP {pre : List Effect}
    (h : pre.countP Effect.isRequest = 0) : pre.filter Effect.isRequest = [] := by
  rw [List.countP_eq_length_filter] at h
  exact List.length_eq_zero.1 h

theorem issues_of_request (base pre : List Effect) (t : SavesSyncRequest) (op : Operation)
    (hwr : t.workingRequest = some op) (hlog : t.log = base ++ pre ++ [Effect.request op])
    (h1 : pre.countP Effect.isRequest = 0) (h2 : pre.countP Effect.isFinishWorking = 0) :
    IssuesAtMostOne base t := by
  refine ⟨pre ++ [Effect.request op], ?_, ?_, ?_, ?_⟩
  · rw [hlog, List.append_assoc]
  · rw [List.countP_append, h1]
    simp [Effect.isRequest]
  · rw [List.countP_append, h2]
    simp [Effect.isFinishWorking]
  · intro op' h
    rw [hwr] at h
    cases h
    rw [List.filter_append, filter_isRequest_of_countP h1]
    simp [Effect.isRequest]

theorem uploadNextFile_issues (env : Env) (base pre : List Effect) (t : SavesSyncRequest)
    (accept : Bool) (hwr : t.workingRequest = none) (hlog : t.log = base ++ pre)
    (h1 : pre.countP Effect.isRequest = 0) (h2 : pre.countP Effect.isFinishWorking = 0) :
    IssuesAtMostOne base (uploadNextFile env t accept) := by
  rcases List.eq_nil_or_concat t.filesToUpload with h | ⟨rest, name, h⟩
  · rw [uploadNextFile_nil env t accept h]
    exact finishSync_issues env base pre t hwr hlog h1 h2
  · rw [List.concat_eq_append] at h
    cases accept
    · rw [uploadNextFile_refuse env t rest name h]
      apply finishError_issues base (pre ++ [Effect.request (uploadOperation env name)]) _ _ rfl
      · simp only [hlog, List.append_assoc]
      · rw [List.countP_append, h1]
        simp [Effect.isRequest]
      · rw [List.countP_append, h2]
        simp [Effect.isFinishWorking]
    · rw [uploadNextFile_accept env t rest name h]
      exact issues_of_request base pre _ _ rfl (by simp only [hlog]) h1 h2

theorem downloadNextFile_issues (env : Env) (base pre : List Effect) (t : SavesSyncRequest)
    (accept : Bool) (hwr : t.workingRequest = none) (hlog : t.log = base ++ pre)
    (h1 : pre.countP Effect.isRequest = 0) (h2 : pre.countP Effect.isFinishWorking = 0) :
    IssuesAtMostOne base (downloadNextFile env t accept) := by
  rcases List.eq_nil_or_concat t.filesToDownload with h | ⟨rest, file, h⟩
  · rw [downloadNextFile_nil env t accept h]
    exact uploadNextFile_issues env base pre _ accept hwr hlog h1 h2
  · rw [List.concat_eq_append] at h
    cases accept
    · rw [downloadNextFile_refuse env t rest file h]
      apply finishError_issues base (pre ++ [Effect.request (downloadOperation env file)])
        _ _ rfl
      · simp only [hlog, List.append_assoc]
      · rw [List.countP_append, h1]
        simp [Effect.isRequest]
      · rw [List.countP_append, h2]
        simp [Effect.isFinishWorking]
    · rw [downloadNextFile_accept env t rest file h]
      exact issues_of_request base pre _ _ rfl (by simp only [hlog]) h1 h2

theorem directoryListedCallback_issues (env : Env) (s : SavesSyncRequest)
    (response : ListDirectoryResponse) (accept : Bool) (hi : s.ignoreCallback = false) :
    IssuesAtMostOne s.log (directoryListedCallback env s response accept) := by
  obtain ⟨n, hn⟩ := diffPhase_log env s response
  rw [directoryListedCallback_eq env s response accept hi]
  split_ifs with h
  · exact uploadNextFile_issues env s.log [Effect.setStorageUsedSpace n] _ accept rfl hn
      (by simp [Effect.isRequest]) (by simp [Effect.isFinishWorking])
  · exact downloadNextFile_issues env s.log [Effect.setStorageUsedSpace n] _ accept rfl hn
      (by simp [Effect.isRequest]) (by simp [Effect.isFinishWorking])

theorem directoryListedErrorCallback_issues (env : Env) (s : SavesSyncRequest)
    (error : ErrorResponse) (accept : Bool) (hi : s.ignoreCallback = false) :
    IssuesAtMostOne s.log (directoryListedErrorCallback env s error accept) := by
  cases hirr : listingErrorIrrecoverable env error
  · cases accept
    · rw [directoryListedErrorCallback_refuse env s error hi hirr]
      exact finishError_issues s.log
        [Effect.request (Operation.createDirectory (savesDirectory env))] _ _ rfl rfl
        (by simp [Effect.isRequest]) (by simp [Effect.isFinishWorking])
    · rw [directoryListedErrorCallback_recoverable env s error hi hirr]
      exact issues_of_request s.log [] _ _ rfl (by simp) (by simp) (by simp)
  · rw [directoryListedErrorCallback_irrecoverable env s error accept hi hirr]
    exact finishError_issues s.log [] _ _ rfl (by simp) (by simp) (by simp)

theorem directoryCreatedCallback_issues (env : Env) (s : SavesSyncRequest)
    (response : BoolResponse) (accept : Bool) (hi : s.ignoreCallback = false) :
    IssuesAtMostOne s.log (directoryCreatedCallback env s response accept) := by
  cases hval : response.value
  · rw [directoryCreatedCallback_fail env s response accept hi hval]
    exact finishError_issues s.log [] _ _ rfl (by simp) (by simp) (by simp)
  · rw [directoryCreatedCallback_ok env s response accept hi hval]
    exact directoryListedCallback_issues env s _ accept hi

theorem errorCallback_issues (s : SavesSyncRequest) (error : ErrorResponse)
    (hi : s.ignoreCallback = false) :
    IssuesAtMostOne s.log (fileDownloadedErrorCallback s error) := by
  rw [fileDownloadedErrorCallback_eq s error hi]
  exact finishError_issues s.log [] _ _ rfl (by simp) (by simp) (by simp)

theorem fileDownloadedCallback_issues (env : Env) (s : SavesSyncRequest)
    (response : BoolResponse) (accept : Bool) (hi : s.ignoreCallback = false) :
    IssuesAtMostOne s.log (fileDownloadedCallback env s response accept) := by
  cases hval : response.value
  · rw [fileDownloadedCallback_fail env s response accept hi hval]
    exact finishError_issues s.log [Effect.removeSavefile s.currentDownloadingFile.name] _ _
      rfl rfl (by simp [Effect.isRequest]) (by simp [Effect.isFinishWorking])
  · rw [fileDownloadedCallback_ok env s response accept hi hval]
    exact downloadNextFile_issues env s.log [_] _ accept rfl rfl
      (by simp [Effect.isRequest]) (by simp [Effect.isFinishWorking])

theorem fileUploadedCallback_issues (env : Env) (s : SavesSyncRequest)
    (response : UploadResponse) (accept : Bool) (hi : s.ignoreCallback = false) :
    IssuesAtMostOne s.log (fileUploadedCallback env s response accept) := by
  rw [fileUploadedCallback_eq env s response accept hi]
  exact uploadNextFile_issues env s.log [_] _ accept rfl rfl
    (by simp [Effect.isRequest]) (by simp [Effect.isFinishWorking])

/-- Every delivered completion is the completion of the operation in flight, and its
handler requests at most one operation. -/
theorem deliver_issues (env : Env) (s s' : SavesSyncRequest) (ev : Event) (accept : Bool)
    (hi : s.ignoreCallback = false) (h : deliver env s ev accept = some s') :
    s.workingRequest ≠ none ∧ IssuesAtMostOne s.log s' := by
  constructor
  · intro hwr
    rw [deliver_none_of_idle env s ev accept hwr] at h
    exact absurd h (by simp)
  · unfold deliver at h
    split at h <;> simp at h <;> subst h
    · exact directoryListedCallback_issues _ _ _ _ hi
    · exact directoryListedErrorCallback_issues _ _ _ _ hi
    · exact directoryCreatedCallback_issues _ _ _ _ hi
    · exact errorCallback_issues _ _ hi
    · exact fileDownloadedCallback_issues _ _ _ _ hi
    · exact errorCallback_issues _ _ hi
    · exact fileUploadedCallback_issues _ _ _ _ hi
    · exact errorCallback_issues _ _ hi
    · exact fileUploadedCallback_issues _ _ _ _ hi
    · exact errorCallback_issues _ _ hi

theorem deliver_counted (env : Env) (n : Nat) (s s' : SavesSyncRequest) (ev : Event)
    (accept : Bool) (hi : s.ignoreCallback = false) (hc : Counted n s)
    (h : deliver env s ev accept = some s') : Counted (n + 1) s' := by
  obtain ⟨hwr, ext, hlog, h1, h2, h3⟩ := deliver_issues env s s' ev accept hi h
  obtain ⟨op, hop⟩ := Option.ne_none_iff_exists'.1 hwr
  obtain ⟨hcount, _⟩ := hc.flying op hop
  refine ⟨?_, ?_, ?_⟩
  · rw [hlog, List.countP_append, hcount]
    omega
  · intro op' hop'
    have hf := h3 op' hop'
    have hlen : ext.countP Effect.isRequest = 1 := by
      rw [List.countP_eq_length_filter, hf]
      rfl
    constructor
    · rw [hlog, List.countP_append, hcount, hlen]
    · rw [hlog, List.filter_append, hf]
      simp
  · rw [hlog, List.countP_append, hc.unforced, h2]

theorem create_counted (env : Env) (loaded : HashMap Nat) (accept : Bool) :
    Counted 0 (SavesSyncRequest.create env loaded accept) := by
  unfold SavesSyncRequest.create
  cases accept
  · rw [start_refuse, finishError_eq _ _ rfl]
    refine ⟨by simp [Effect.isRequest, StorageFile.empty], ?_,
      by simp [Effect.isFinishWorking, StorageFile.empty]⟩
    intro op hop
    simp at hop
  · rw [start_accept]
    refine ⟨by simp [Effect.isRequest], ?_, by simp [Effect.isFinishWorking]⟩
    intro op hop
    simp at hop
    subst hop
    simp [Effect.isRequest]

theorem run_counted (env : Env) (evs : List (Event × Bool)) (n : Nat)
    (s s' : SavesSyncRequest) (hinv : Inv s) (hc : Counted n s)
    (h : run env s evs = some s') : Counted (n + evs.length) s' := by
  induction evs generalizing s n with
  | nil =>
    simp only [run, Option.some.injEq] at h
    subst h
    exact hc
  | cons e rest ih =>
    obtain ⟨ev, accept⟩ := e
    simp only [run] at h
    cases hd : deliver env s ev accept with
    | none => simp [hd] at h
    | some s1 =>
      simp only [hd] at h
      have := ih (n + 1) s1 (deliver_inv env s s1 ev accept hinv hd)
        (deliver_counted env n s s1 ev accept hinv.ignore hc hd) h
      rw [List.length_cons]
      rw [show n + (rest.length + 1) = n + 1 + rest.length by omega]
      exact this

theorem not_downloading_and_uploading (s : SavesSyncRequest) :
    (downloadInFlight s && uploadPhase s) = false := by
  unfold downloadInFlight uploadPhase
  cases s.workingRequest with
  | none => rfl
  | some op => cases op <;> rfl

theorem start_log (env : Env) (s : SavesSyncRequest) (loaded : HashMap Nat) (accept : Bool) :
    ∃ ext : List Effect,
      (start env s loaded accept).log =
        s.log
          ++ (match s.workingRequest with
              | some op => [Effect.finishWorking op]
              | none => [])
          ++ [Effect.request (Operation.listDirectory (savesDirectory env))] ++ ext ∧
      ext.countP Effect.isRequest = 0 ∧ ext.countP Effect.isFinishWorking = 0 := by
  cases accept
  · rw [start_refuse, finishError_eq _ _ rfl]
    exact ⟨[Effect.errorCallback (ErrorResponse.ofMessage
      "SavesSyncRequest::start: Storage couldn't create Request to list directory")],
      by cases s.workingRequest <;> simp [StorageFile.empty], by simp [Effect.isRequest],
      by simp [Effect.isFinishWorking]⟩
  · rw [start_accept]
    exact ⟨[], by cases s.workingRequest <;> simp, rfl, rfl⟩

theorem ignored_callbacks (env : Env) (s : SavesSyncRequest) (hi : s.ignoreCallback = true) :
    (∀ (response : ListDirectoryResponse) (accept : Bool),
      directoryListedCallback env s response accept = { s with workingRequest := none }) ∧
    (∀ (error : ErrorResponse) (accept : Bool),
      directoryListedErrorCallback env s error accept = { s with workingRequest := none }) ∧
    (∀ (response : BoolResponse) (accept : Bool),
      directoryCreatedCallback env s response accept = { s with workingRequest := none }) ∧
    (∀ error : ErrorResponse,
      directoryCreatedErrorCallback s error = { s with workingRequest := none }) ∧
    (∀ (response : BoolResponse) (accept : Bool),
      fileDownloadedCallback env s response accept = { s with workingRequest := none }) ∧
    (∀ error : ErrorResponse,
      fileDownloadedErrorCallback s error = { s with workingRequest := none }) ∧
    (∀ (response : UploadResponse) (accept : Bool),
      fileUploadedCallback env s response accept = { s with workingRequest := none }) ∧
    (∀ error : ErrorResponse,
      fileUploadedErrorCallback s error = { s with workingRequest := none }) := by
  refine ⟨?_, ?_, ?_, ?_, ?_, ?_, ?_, ?_⟩ <;> intros
  · unfold directoryListedCallback; dsimp only; rw [if_pos hi]
  · unfold directoryListedErrorCallback; dsimp only; rw [if_pos hi]
  · unfold directoryCreatedCallback; dsimp only; rw [if_pos hi]
  · unfold directoryCreatedErrorCallback; dsimp only; rw [if_pos hi]
  · unfold fileDownloadedCallback; dsimp only; rw [if_pos hi]
  · unfold fileDownloadedErrorCallback; dsimp only; rw [if_pos hi]
  · unfold fileUploadedCallback; dsimp only; rw [if_pos hi]
  · unfold fileUploadedErrorCallback; dsimp only; rw [if_pos hi]

theorem deliver_ignored (env : Env) (s s' : SavesSyncRequest) (ev : Event) (accept : Bool)
    (hi : s.ignoreCallback = true) (h : deliver env s ev accept = some s') :
    s' = { s with workingRequest := none } := by
  obtain ⟨h1, h2, h3, h4, h5, h6, h7, h8⟩ := ignored_callbacks env s hi
  unfold deliver at h
  split at h <;> simp at h <;> subst h
  · exact h1 _ _
  · exact h2 _ _
  · exact h3 _ _
  · exact h4 _
  · exact h5 _ _
  · exact h6 _
  · exact h7 _ _
  · exact h8 _
  · exact h7 _ _
  · exact h8 _

theorem finishWorkingRequest_cases (env : Env) (s : SavesSyncRequest) (op : Operation)
    (fired : Option (Event × Bool)) :
    finishWorkingRequest env s op fired =
        { s with ignoreCallback := true, log := s.log ++ [Effect.finishWorking op] } ∨
      finishWorkingRequest env s op fired =
        { s with
          ignoreCallback := true
          log := s.log ++ [Effect.finishWorking op]
          workingRequest := none } := by
  unfold finishWorkingRequest
  cases fired with
  | none => exact Or.inl rfl
  | some e =>
    obtain ⟨ev, accept⟩ := e
    dsimp only
    cases hd : deliver env
        { s with ignoreCallback := true, log := s.log ++ [Effect.finishWorking op] }
        ev accept with
    | none => exact Or.inl rfl
    | some s1 =>
      right
      rw [deliver_ignored env _ s1 ev accept rfl hd]
      rfl

theorem startStepwise_eq (env : Env) (s : SavesSyncRequest) (loaded : HashMap Nat)
    (accept : Bool) (fired : Option (Event × Bool)) :
    startStepwise env s loaded accept fired = start env s loaded accept := by
  unfold startStepwise start
  cases hw : s.workingRequest with
  | none => rfl
  | some op =>
    dsimp only
    rcases finishWorkingRequest_cases env s op fired with h | h <;> rw [h]

theorem finishErrorStepwise_eq (env : Env) (s : SavesSyncRequest) (error : ErrorResponse)
    (fired : Option (Event × Bool)) :
    finishErrorStepwise env s error fired = finishError s error := by
  unfold finishErrorStepwise finishError
  cases hw : s.workingRequest with
  | none => rfl
  | some op =>
    dsimp only
    rcases finishWorkingRequest_cases env s op fired with h | h <;> rw [h]

theorem start_ignoreCallback (env : Env) (s : SavesSyncRequest) (loaded : HashMap Nat)
    (accept : Bool) : (start env s loaded accept).ignoreCallback = false := by
  cases accept
  · rw [start_refuse, finishError_eq _ _ rfl]
  · rw [start_accept]

theorem finishError_lowers (s : SavesSyncRequest) (error : ErrorResponse)
    (h : s.workingRequest ≠ none ∨ s.ignoreCallback = false) :
    (finishError s error).ignoreCallback = false := by
  unfold finishError requestFinishError
  cases hw : s.workingRequest with
  | none =>
    rcases h with h | h
    · exact absurd hw h
    · dsimp only
      split_ifs <;> exact h
  | some op =>
    dsimp only
    split_ifs <;> rfl

/-! ## The claims on restart, eligibility, progress, markers and cancellation -/

/-- C21, evaluated on the code: after a listing with two files to download and one
completed download (`bytesToDownload = 20`, `bytesDownloaded = 10`, the second download in
flight), `start` empties both queues and both markers, zeroes `totalFilesToHandle`, takes
the loaded index and requests one listing, but leaves `bytesToDownload = 20` and
`bytesDownloaded = 10`, which `getDownloadingInfo` then reports. -/
theorem restart_keeps_byte_counters :
    ∃ s : SavesSyncRequest,
      run exampleEnv (SavesSyncRequest.create exampleEnv [] true)
        [(Event.directoryListed
            { request := some "d", value := [exampleFile "a.sav" 1, exampleFile "b.sav" 2] },
            true),
         (Event.fileDownloaded { request := none, value := true }, true)] = some s ∧
      downloadInFlight s = true ∧ s.bytesToDownload = 20 ∧ s.bytesDownloaded = 10 ∧
      (start exampleEnv s [("b.sav", 2)] true).filesToDownload = [] ∧
      (start exampleEnv s [("b.sav", 2)] true).filesToUpload = [] ∧
      (start exampleEnv s [("b.sav", 2)] true).currentDownloadingFile = StorageFile.empty ∧
      (start exampleEnv s [("b.sav", 2)] true).currentUploadingFile = "" ∧
      (start exampleEnv s [("b.sav", 2)] true).totalFilesToHandle = 0 ∧
      (start exampleEnv s [("b.sav", 2)] true).localFilesTimestamps = [("b.sav", 2)] ∧
      (start exampleEnv s [("b.sav", 2)] true).log.filter Effect.isRequest
        = s.log.filter Effect.isRequest ++ [Effect.request (Operation.listDirectory "saves")] ∧
      (start exampleEnv s [("b.sav", 2)] true).bytesToDownload = 20 ∧
      (start exampleEnv s [("b.sav", 2)] true).bytesDownloaded = 10 ∧
      (getDownloadingInfo (start exampleEnv s [("b.sav", 2)] true) 0).bytesToDownload = 20 ∧
      (getDownloadingInfo (start exampleEnv s [("b.sav", 2)] true) 0).bytesDownloaded = 10 :=
  ⟨_, rfl, by decide, by decide, by decide, by decide, by decide, by decide, by decide,
    by decide, by decide, by decide, by decide, by decide, by decide,
    (getDownloadedBytes_idle _ 0 (by decide)).trans (by decide)⟩

/-- C22: for every index and listing, after the diff (started on the empty queues `start`
leaves) every descriptor of the download queue and every name of the upload queue is
other than the index file name and accepted by `canSyncFilename`, and the same holds in
every later state of the run. -/
theorem queues_hold_only_eligible_names (env : Env) (s s' : SavesSyncRequest)
    (response : ListDirectoryResponse) (accept : Bool) (evs : List (Event × Bool))
    (hi : s.ignoreCallback = false)
    (hd : s.filesToDownload = []) (hu : s.filesToUpload = [])
    (hrun : run env (directoryListedCallback env s response accept) evs = some s') :
    ((∀ d ∈ (diffPhase env s response).filesToDownload,
        d.name ≠ env.TIMESTAMPS_FILENAME ∧ env.canSyncFilename d.name = true) ∧
      (∀ n ∈ (diffPhase env s response).filesToUpload,
        n ≠ env.TIMESTAMPS_FILENAME ∧ env.canSyncFilename n = true)) ∧
    ((∀ d ∈ s'.filesToDownload,
        d.name ≠ env.TIMESTAMPS_FILENAME ∧ env.canSyncFilename d.name = true) ∧
      (∀ n ∈ s'.filesToUpload,
        n ≠ env.TIMESTAMPS_FILENAME ∧ env.canSyncFilename n = true)) := by
  obtain ⟨h1, h2⟩ := diffPhase_eligible env s response hd hu
  have h3 := directoryListedCallback_shrinks env s response accept hi
  have h4 := run_shrinks env evs _ s' (h3.phase (by simp [listingPhase])) hrun
  have h5 := Shrinks.trans h3 h4
  refine ⟨⟨fun d hdm => (syncable_iff env _).1 (h1 d hdm),
    fun n hn => (syncable_iff env _).1 (h2 n hn)⟩,
    fun d hdm => (syncable_iff env _).1 (h1 d (h5.download.subset hdm)),
    fun n hn => (syncable_iff env _).1 (h2 n (h5.upload.subset hn))⟩

/-- An instance of C22: the state after the diff and one completed download. -/
theorem queues_hold_only_eligible_names_witness :
    ∃ s' : SavesSyncRequest,
      run exampleEnv
          (directoryListedCallback exampleEnv
            (SavesSyncRequest.create exampleEnv [("a.sav", 100), ("c.sav", 7)] true)
            { request := some "d",
              value := [exampleFile "a.sav" 200, exampleFile "timestamps" 3,
                exampleFile "b.sav" 50] }
            true)
          [(Event.fileDownloaded { request := none, value := true }, true)] = some s' ∧
        (∀ d ∈ s'.filesToDownload,
          d.name ≠ exampleEnv.TIMESTAMPS_FILENAME ∧ exampleEnv.canSyncFilename d.name = true) ∧
        (∀ n ∈ s'.filesToUpload,
          n ≠ exampleEnv.TIMESTAMPS_FILENAME ∧ exampleEnv.canSyncFilename n = true) :=
  ⟨_, rfl,
    (queues_hold_only_eligible_names exampleEnv
      (SavesSyncRequest.create exampleEnv [("a.sav", 100), ("c.sav", 7)] true) _
      { request := some "d",
        value := [exampleFile "a.sav" 200, exampleFile "timestamps" 3,
          exampleFile "b.sav" 50] }
      true [(Event.fileDownloaded { request := none, value := true }, true)]
      (by decide) (by decide) (by decide) rfl).2⟩

/-- C23, as stated, fails: for the listing of the index file `timestamps` and `a.sav`, of
10 bytes each, the diff reports a used space of 20 bytes, while the eligible files other
than the index file have 10 bytes. -/
theorem used_space_counts_index_file :
    (diffPhase exampleEnv (SavesSyncRequest.create exampleEnv [] true)
        { request := some "d",
          value := [exampleFile "timestamps" 5, exampleFile "a.sav" 7] }).log
      = [Effect.request (Operation.listDirectory "saves"), Effect.setStorageUsedSpace 20] ∧
    eligibleSize exampleEnv [exampleFile "timestamps" 5, exampleFile "a.sav" 7] = 10 := by
  decide

/-- C23, amended: for every listing the diff reports as used space the sum of the sizes
of all its non-directory files, whatever their names (in 64-bit arithmetic); the only
effect of the diff is that report. -/
theorem used_space_is_listed_size (env : Env) (s : SavesSyncRequest)
    (response : ListDirectoryResponse) :
    (diffPhase env s response).log
        = s.log ++ [Effect.setStorageUsedSpace (listedSize response.value)] ∧
      listedSize response.value =
        ((response.value.filter (fun file => !file.isDirectory)).map StorageFile.size).sum
          % 2 ^ 64 :=
  ⟨diffPhase_log_listedSize env s response, listedSize_eq_sum response.value⟩

/-- C24: for every index and listing the diff of the listing is the diff of the listing
with its directory entries removed (same queues, `totalFilesToHandle`, `bytesToDownload`,
reported size and every other member), so is the whole listing callback; and a name of
the index, eligible and not the index file, that only directories of the listing carry
is queued for upload. -/
theorem diff_skips_directories (env : Env) (s : SavesSyncRequest)
    (response : ListDirectoryResponse) :
    diffPhase env s response = diffPhase env s (withoutDirectories response) ∧
    (∀ accept : Bool, directoryListedCallback env s response accept
      = directoryListedCallback env s (withoutDirectories response) accept) ∧
    (diffPhase env s response).log
      = s.log ++ [Effect.setStorageUsedSpace (listedSize (withoutDirectories response).value)] ∧
    (∀ name : String, HashMap.contains s.localFilesTimestamps name = true →
      name ≠ env.TIMESTAMPS_FILENAME → env.canSyncFilename name = true →
      (∀ f ∈ response.value, f.name = name → f.isDirectory = true) →
      name ∈ (diffPhase env s response).filesToUpload) := by
  refine ⟨diffPhase_withoutDirectories env s response, ?_, ?_, ?_⟩
  · intro accept
    unfold directoryListedCallback
    dsimp only
    rw [diffPhase_withoutDirectories env { s with workingRequest := none } response]
  · rw [diffPhase_withoutDirectories env s response]
    exact diffPhase_log_listedSize env s _
  · intro name hin hsent helig hdir
    rw [diffPhase_filesToUpload]
    apply List.mem_append_right
    refine (mem_localOnly _ _ _ _).2 ⟨(syncable_iff env name).2 ⟨hsent, helig⟩, hin, ?_⟩
    intro f hf hseen hname
    simp only [seenRemotely, Bool.and_eq_true, Bool.not_eq_true'] at hseen
    rw [hdir f hf hname] at hseen
    exact absurd hseen.1.1 (by simp)

/-- An instance of C24: `c.sav` is in the index and the listing has only a directory of
that name. -/
theorem diff_skips_directories_witness :
    "c.sav" ∈ (diffPhase exampleEnv (SavesSyncRequest.create exampleEnv [("c.sav", 7)] true)
      { request := some "d",
        value := [{ exampleFile "c.sav" 9 with isDirectory := true },
          exampleFile "b.sav" 50] }).filesToUpload :=
  (diff_skips_directories exampleEnv (SavesSyncRequest.create exampleEnv [("c.sav", 7)] true)
    { request := some "d",
      value := [{ exampleFile "c.sav" 9 with isDirectory := true },
        exampleFile "b.sav" 50] }).2.2.2 "c.sav" (by decide) (by decide) (by decide)
    (by decide)

/-- C25: in every state of a run the error callback and the completion callback have
been called at most once together, so never both. The failure of a download (its error
callback, or its completion with `ok = false`) or of an upload (its error callback) can be
delivered while that transfer is in flight, and it ends the run: the request deletes
local files at most and calls the error callback, requests nothing, keeps the upload
queue as it is (names still queued are not tried), and nothing can be delivered any more. -/
theorem single_terminal_callback (env : Env) (loaded : HashMap Nat) (accept : Bool)
    (evs : List (Event × Bool)) (s : SavesSyncRequest)
    (hrun : run env (SavesSyncRequest.create env loaded accept) evs = some s) :
    (s.log.filter Effect.isErrorCallback).length
        + (s.log.filter Effect.isBoolCallback).length ≤ 1 ∧
    (∀ (ev : Event) (a : Bool) (s' : SavesSyncRequest), ev.isTransferFailure = true →
      deliver env s ev a = some s' → Aborts env s s') ∧
    (downloadInFlight s = true → ∀ (a : Bool) (error : ErrorResponse) (response : BoolResponse),
      (deliver env s (Event.fileDownloadedError error) a).isSome = true ∧
        (deliver env s (Event.fileDownloaded response) a).isSome = true) ∧
    (uploadPhase s = true → ∀ (a : Bool) (error : ErrorResponse),
      (deliver env s (Event.fileUploadedError error) a).isSome = true) := by
  have hinv := run_inv env evs _ s (create_inv env loaded accept) hrun
  have hout := run_outcome env evs _ s (create_inv env loaded accept)
    (create_outcome env loaded accept) hrun
  refine ⟨?_, fun ev a s' hev h => deliver_transfer_failure env s s' ev a hinv.ignore hev h,
    fun h a error response => deliver_isSome_download env s a h error response,
    fun h a error => deliver_isSome_upload env s a h error⟩
  by_cases hwr : s.workingRequest = none
  · rcases hout.ended hwr with ⟨⟨error, h1⟩, _, h3⟩ | ⟨h1, _, h3, _⟩
    · rw [h1, h3]
      simp
    · rw [h1, h3]
      split_ifs <;> simp
  · obtain ⟨h1, _, h3⟩ := hout.running hwr
    rw [h1, h3]
    simp

/-- An instance of C25: the error callback of the download in flight, with `c.sav` still
queued for upload. -/
theorem single_terminal_callback_witness :
    ∃ s : SavesSyncRequest,
      run exampleEnv (SavesSyncRequest.create exampleEnv [("c.sav", 7)] true)
        [(Event.directoryListed
            { request := some "d", value := [exampleFile "b.sav" 50] }, true)] = some s ∧
      s.filesToUpload = ["c.sav"] ∧
      Aborts exampleEnv s
        (fileDownloadedErrorCallback s
          { interrupted := false, failed := true, response := "timeout",
            httpResponseCode := 500 }) :=
  ⟨_, rfl, by decide,
    (single_terminal_callback exampleEnv [("c.sav", 7)] true
      [(Event.directoryListed
          { request := some "d", value := [exampleFile "b.sav" 50] }, true)] _ rfl).2.1
      (Event.fileDownloadedError
        { interrupted := false, failed := true, response := "timeout",
          httpResponseCode := 500 }) true _ rfl rfl⟩

/-- C26: in every state of a run `getFilesToDownload` returns the names of the queued
descriptors in queue order, followed by the name of the marked file when that name is
not empty; while a download is in flight the marked file is the one being downloaded;
and with no download in flight the result is empty, so it is after a failure, while
an upload is in flight and after success. -/
theorem getFilesToDownload_snapshot (env : Env) (loaded : HashMap Nat) (accept : Bool)
    (evs : List (Event × Bool)) (s : SavesSyncRequest)
    (hrun : run env (SavesSyncRequest.create env loaded accept) evs = some s) :
    getFilesToDownload s =
        s.filesToDownload.map StorageFile.name
          ++ (if s.currentDownloadingFile.name ≠ "" then [s.currentDownloadingFile.name]
              else []) ∧
    (downloadInFlight s = true →
      s.workingRequest = some (downloadOperation env s.currentDownloadingFile) ∧
      (s.currentDownloadingFile.name ≠ "" →
        getFilesToDownload s =
          s.filesToDownload.map StorageFile.name ++ [s.currentDownloadingFile.name])) ∧
    (downloadInFlight s = false → getFilesToDownload s = []) ∧
    ((∃ error, Effect.errorCallback error ∈ s.log) → getFilesToDownload s = []) ∧
    (uploadPhase s = true → getFilesToDownload s = []) ∧
    ((∃ date, Effect.setStorageLastSync date ∈ s.log) → getFilesToDownload s = []) := by
  have hinv := run_inv env evs _ s (create_inv env loaded accept) hrun
  have hout := run_outcome env evs _ s (create_inv env loaded accept)
    (create_outcome env loaded accept) hrun
  have ht := run_tidy env evs _ s (create_inv env loaded accept)
    (create_tidy env loaded accept) hrun
  refine ⟨getFilesToDownload_eq s, ?_, getFilesToDownload_idle env s ht, ?_, ?_, ?_⟩
  · intro hf
    refine ⟨ht.flight hf, fun hname => ?_⟩
    rw [getFilesToDownload_eq, if_pos hname]
  · rintro ⟨error, herr⟩
    apply getFilesToDownload_idle env s ht
    apply downloadInFlight_of_idle
    by_contra hwr
    have hno : Effect.errorCallback error ∉ s.log :=
      not_mem_of_filter_eq_nil (hout.running hwr).1 rfl
    exact hno herr
  · intro hu
    exact getFilesToDownload_idle env s ht (downloadInFlight_of_uploadPhase s hu)
  · intro hs
    exact getFilesToDownload_idle env s ht (downloadInFlight_of_idle s (hinv.done hs).1)

/-- An instance of C26: `b.sav` is being downloaded and `a.sav` is queued. -/
theorem getFilesToDownload_snapshot_witness :
    ∃ s : SavesSyncRequest,
      run exampleEnv (SavesSyncRequest.create exampleEnv [] true)
        [(Event.directoryListed
            { request := some "d", value := [exampleFile "a.sav" 1, exampleFile "b.sav" 2] },
            true)] = some s ∧
      s.filesToDownload.map StorageFile.name = ["a.sav"] ∧
      s.currentDownloadingFile.name = "b.sav" ∧
      getFilesToDownload s =
        s.filesToDownload.map StorageFile.name ++ [s.currentDownloadingFile.name] :=
  ⟨_, rfl, by decide, by decide,
    ((getFilesToDownload_snapshot exampleEnv [] true
      [(Event.directoryListed
          { request := some "d", value := [exampleFile "a.sav" 1, exampleFile "b.sav" 2] },
          true)] _ rfl).2.1 (by decide)).2 (by decide)⟩

/-- C27: in every state of a run, `getDownloadingProgress` as an exact ratio: with
`totalFilesToHandle = 0` it is `1` when the request is finished and `0` otherwise; with
`totalFilesToHandle > 0`, `bytesToDownload > 0` and no download in flight it is
`bytesDownloaded / bytesToDownload`; with `totalFilesToHandle > 0` and `bytesToDownload = 0`
it is `1` when `D = totalFilesToHandle - |uploadQueue|` is `0` and `(D - left) / D`
otherwise, `left` being the smaller of `D` and `|downloadQueue|` plus one when the
download marker is set. -/
theorem getDownloadingProgress_cases (env : Env) (loaded : HashMap Nat) (accept : Bool)
    (evs : List (Event × Bool)) (s : SavesSyncRequest) (progress : ℚ)
    (hrun : run env (SavesSyncRequest.create env loaded accept) evs = some s) :
    (s.totalFilesToHandle = 0 →
      getDownloadingProgress s progress
        = if s.state = RequestState.FINISHED then 1 else 0) ∧
    (0 < s.totalFilesToHandle → 0 < s.bytesToDownload → downloadInFlight s = false →
      getDownloadingProgress s progress
        = (s.bytesDownloaded : ℚ) / (s.bytesToDownload : ℚ)) ∧
    (0 < s.totalFilesToHandle → s.bytesToDownload = 0 →
      getDownloadingProgress s progress =
        if s.totalFilesToHandle - s.filesToUpload.length = 0 then 1
        else
          ((s.totalFilesToHandle - s.filesToUpload.length
              - min (s.totalFilesToHandle - s.filesToUpload.length)
                  (s.filesToDownload.length
                    + (if s.currentDownloadingFile.name ≠ "" then 1 else 0)) : ℕ) : ℚ)
            / ((s.totalFilesToHandle - s.filesToUpload.length : ℕ) : ℚ)) := by
  have hinv := run_inv env evs _ s (create_inv env loaded accept) hrun
  have ht := run_tidy env evs _ s (create_inv env loaded accept)
    (create_tidy env loaded accept) hrun
  have hbound : s.filesToUpload.length ≤ s.totalFilesToHandle := by
    have := hinv.bound
    omega
  refine ⟨getDownloadingProgress_zero s progress, ?_, ?_⟩
  · intro h0 hb hf
    have hu : s.filesToUpload.length < s.totalFilesToHandle := by
      rcases ht.nothing with h | h
      · omega
      · exact h
    rw [getDownloadingProgress_bytes s progress h0 hu hb, getDownloadedBytes_idle s progress hf,
      Nat.mod_eq_of_lt ht.bytes]
  · intro h0 hb
    exact getDownloadingProgress_count s progress h0 hbound hb

/-- An instance of C27: the second of two downloads of 10 bytes each has failed. -/
theorem getDownloadingProgress_cases_witness :
    ∃ s : SavesSyncRequest,
      run exampleEnv (SavesSyncRequest.create exampleEnv [] true)
        [(Event.directoryListed
            { request := some "d", value := [exampleFile "a.sav" 1, exampleFile "b.sav" 2] },
            true),
         (Event.fileDownloaded { request := none, value := true }, true),
         (Event.fileDownloadedError
            { interrupted := false, failed := true, response := "timeout",
              httpResponseCode := 500 }, true)] = some s ∧
      s.bytesDownloaded = 10 ∧ s.bytesToDownload = 20 ∧
      getDownloadingProgress s 0 = (s.bytesDownloaded : ℚ) / (s.bytesToDownload : ℚ) :=
  ⟨_, rfl, by decide, by decide,
    (getDownloadingProgress_cases exampleEnv [] true
      [(Event.directoryListed
          { request := some "d", value := [exampleFile "a.sav" 1, exampleFile "b.sav" 2] },
          true),
       (Event.fileDownloaded { request := none, value := true }, true),
       (Event.fileDownloadedError
          { interrupted := false, failed := true, response := "timeout",
            httpResponseCode := 500 }, true)] _ 0 rfl).2.1
      (by decide) (by decide) (by decide)⟩

/-- C28: in every state of a run reached by `n` delivered completions at most `n + 1`
operations have been requested, so at most one is outstanding; when an operation is in
flight all `n + 1` were requested and it is the one requested last; no operation was
finished by force; a completion can only be delivered for the operation in flight,
and its handler requests at most one operation, which is then the one in flight; a
download and an upload are never in flight together; and `start` finishes the working
request by force before it requests the listing, its only request. -/
theorem one_operation_outstanding (env : Env) (loaded : HashMap Nat) (accept : Bool)
    (evs : List (Event × Bool)) (s : SavesSyncRequest)
    (hrun : run env (SavesSyncRequest.create env loaded accept) evs = some s) :
    s.log.countP Effect.isRequest ≤ evs.length + 1 ∧
    (∀ op, s.workingRequest = some op →
      s.log.countP Effect.isRequest = evs.length + 1 ∧
        (s.log.filter Effect.isRequest).getLast? = some (Effect.request op)) ∧
    s.log.countP Effect.isFinishWorking = 0 ∧
    (∀ (ev : Event) (a : Bool) (s' : SavesSyncRequest), deliver env s ev a = some s' →
      s.workingRequest ≠ none ∧ IssuesAtMostOne s.log s') ∧
    (downloadInFlight s && uploadPhase s) = false ∧
    (∀ (reloaded : HashMap Nat) (a : Bool), ∃ ext : List Effect,
      (start env s reloaded a).log =
        s.log
          ++ (match s.workingRequest with
              | some op => [Effect.finishWorking op]
              | none => [])
          ++ [Effect.request (Operation.listDirectory (savesDirectory env))] ++ ext ∧
      ext.countP Effect.isRequest = 0 ∧ ext.countP Effect.isFinishWorking = 0) := by
  have hinv := run_inv env evs _ s (create_inv env loaded accept) hrun
  have hc := run_counted env evs 0 _ s (create_inv env loaded accept)
    (create_counted env loaded accept) hrun
  rw [Nat.zero_add] at hc
  exact ⟨hc.issued, hc.flying, hc.unforced,
    fun ev a s' h => deliver_issues env s s' ev a hinv.ignore h,
    not_downloading_and_uploading s, fun reloaded a => start_log env s reloaded a⟩

/-- An instance of C28: after two completions three operations have been requested. -/
theorem one_operation_outstanding_witness :
    ∃ s : SavesSyncRequest,
      run exampleEnv (SavesSyncRequest.create exampleEnv [("c.sav", 7)] true)
        [(Event.directoryListed
            { request := some "d", value := [exampleFile "b.sav" 50] }, true),
         (Event.fileDownloaded { request := none, value := true }, true)] = some s ∧
      s.log.countP Effect.isRequest
        ≤ [(Event.directoryListed
              { request := some "d", value := [exampleFile "b.sav" 50] }, true),
           (Event.fileDownloaded { request := none, value := true }, true)].length + 1 :=
  ⟨_, rfl,
    (one_operation_outstanding exampleEnv [("c.sav", 7)] true
      [(Event.directoryListed
          { request := some "d", value := [exampleFile "b.sav" 50] }, true),
       (Event.fileDownloaded { request := none, value := true }, true)] _ rfl).1⟩

/-- C29: a completion callback delivered while the ignore flag is raised only forgets the
working operation: each of the eight callbacks returns the request with
`workingRequest` emptied and every other member, the log of effects included, as it was.
When `start` or `finishError` finishes the working request the flag is raised: whatever
completion the finishing request fires meanwhile changes nothing, and both functions, so
written statement by statement, are the functions `start` and `finishError`; `start`
always returns with the flag lowered, and `finishError` does whenever it had a working
request to finish or was entered with the flag lowered. -/
theorem ignore_flag_discipline (env : Env) (s : SavesSyncRequest)
    (fired : Option (Event × Bool)) :
    (s.ignoreCallback = true →
      (∀ (response : ListDirectoryResponse) (accept : Bool),
        directoryListedCallback env s response accept = { s with workingRequest := none }) ∧
      (∀ (error : ErrorResponse) (accept : Bool),
        directoryListedErrorCallback env s error accept = { s with workingRequest := none }) ∧
      (∀ (response : BoolResponse) (accept : Bool),
        directoryCreatedCallback env s response accept = { s with workingRequest := none }) ∧
      (∀ error : ErrorResponse,
        directoryCreatedErrorCallback s error = { s with workingRequest := none }) ∧
      (∀ (response : BoolResponse) (accept : Bool),
        fileDownloadedCallback env s response accept = { s with workingRequest := none }) ∧
      (∀ error : ErrorResponse,
        fileDownloadedErrorCallback s error = { s with workingRequest := none }) ∧
      (∀ (response : UploadResponse) (accept : Bool),
        fileUploadedCallback env s response accept = { s with workingRequest := none }) ∧
      (∀ error : ErrorResponse,
        fileUploadedErrorCallback s error = { s with workingRequest := none })) ∧
    (∀ op : Operation,
      (finishWorkingRequest env s op fired).ignoreCallback = true ∧
      { finishWorkingRequest env s op fired with workingRequest := none } =
        { s with
          ignoreCallback := true
          log := s.log ++ [Effect.finishWorking op]
          workingRequest := none }) ∧
    (∀ (loaded : HashMap Nat) (accept : Bool),
      startStepwise env s loaded accept fired = start env s loaded accept ∧
      (start env s loaded accept).ignoreCallback = false) ∧
    (∀ error : ErrorResponse,
      finishErrorStepwise env s error fired = finishError s error ∧
      (s.workingRequest ≠ none ∨ s.ignoreCallback = false →
        (finishError s error).ignoreCallback = false)) := by
  refine ⟨ignored_callbacks env s, ?_, ?_, ?_⟩
  · intro op
    rcases finishWorkingRequest_cases env s op fired with h | h <;> rw [h] <;> exact ⟨rfl, rfl⟩
  · intro loaded accept
    exact ⟨startStepwise_eq env s loaded accept fired, start_ignoreCallback env s loaded accept⟩
  · intro error
    exact ⟨finishErrorStepwise_eq env s error fired, finishError_lowers s error⟩

/-- An instance of C29: a listing delivered to a request whose flag the destructor raised. -/
theorem ignore_flag_discipline_witness :
    directoryListedCallback exampleEnv (destructor (SavesSyncRequest.create exampleEnv [] true))
        { request := some "d", value := [exampleFile "b.sav" 50] } true =
      { destructor (SavesSyncRequest.create exampleEnv [] true) with workingRequest := none } :=
  ((ignore_flag_discipline exampleEnv (destructor (SavesSyncRequest.create exampleEnv [] true))
    none).1 rfl).1 { request := some "d", value := [exampleFile "b.sav" 50] } true

/-- C30, as stated, fails: after the upload of `c.sav` has completed and the run has
succeeded, nothing is in flight and the upload marker still holds `c.sav`. -/
theorem upload_marker_outlives_upload :
    ∃ s : SavesSyncRequest,
      run exampleEnv (SavesSyncRequest.create exampleEnv [("c.sav", 7)] true)
        [(Event.directoryListed { request := some "d", value := [] }, true),
         (Event.fileUploaded { request := none, value := exampleFile "c.sav" 9 }, true)]
        = some s ∧
      s.workingRequest = none ∧ uploadPhase s = false ∧
      Effect.boolCallback true ∈ s.log ∧
      s.currentUploadingFile = "c.sav" :=
  ⟨_, rfl, by decide, by decide, by decide, by decide⟩

/-- C30, amended: in every state of a run, when no download is in flight the download
marker is the empty descriptor; the upload marker is the empty name as long as no upload
has been requested, and from then on it is the name of the upload requested last (it is
not emptied when that upload completes, on success or on failure); and while an upload
is in flight it is the upload of the marked name. -/
theorem markers_in_reachable_states (env : Env) (loaded : HashMap Nat) (accept : Bool)
    (evs : List (Event × Bool)) (s : SavesSyncRequest)
    (hrun : run env (SavesSyncRequest.create env loaded accept) evs = some s) :
    (downloadInFlight s = false → s.currentDownloadingFile = StorageFile.empty) ∧
    ((uploadRequests s.log = [] ∧ s.currentUploadingFile = "") ∨
      (uploadRequests s.log).getLast?
        = some (Effect.request (uploadOperation env s.currentUploadingFile))) ∧
    (uploadPhase s = true →
      s.workingRequest = some (uploadOperation env s.currentUploadingFile)) := by
  have ht := run_tidy env evs _ s (create_inv env loaded accept)
    (create_tidy env loaded accept) hrun
  exact ⟨fun h => (ht.idle h).1, ht.marker, ht.uploading⟩

/-- An instance of C30 (amended): after a failed upload the download marker is empty. -/
theorem markers_in_reachable_states_witness :
    ∃ s : SavesSyncRequest,
      run exampleEnv (SavesSyncRequest.create exampleEnv [("c.sav", 7)] true)
        [(Event.directoryListed { request := some "d", value := [] }, true),
         (Event.fileUploadedError
            { interrupted := false, failed := true, response := "timeout",
              httpResponseCode := 500 }, true)] = some s ∧
      s.currentDownloadingFile = StorageFile.empty :=
  ⟨_, rfl,
    (markers_in_reachable_states exampleEnv [("c.sav", 7)] true
      [(Event.directoryListed { request := some "d", value := [] }, true),
       (Event.fileUploadedError
          { interrupted := false, failed := true, response := "timeout",
            httpResponseCode := 500 }, true)] _ rfl).1 (by decide)⟩

/-! ## Lemmas on deletions, byte counters and the books of a run -/

theorem getProgress_le_one (s : SavesSyncRequest)
    (hb : s.filesToDownload.length + s.filesToUpload.length ≤ s.totalFilesToHandle) :
    getProgress s ≤ 1 := by
  by_cases h0 : s.totalFilesToHandle = 0
  · simp only [getProgress, h0, if_true]
    split_ifs
    · exact le_refl _
    · exact zero_le_one
  · rw [getProgress_of_bound s hb h0]
    have hpos : (0 : ℚ) < s.totalFilesToHandle := by
      exact_mod_cast Nat.pos_of_ne_zero h0
    rw [div_le_one hpos]
    have h1 : (0 : ℚ) ≤ s.filesToDownload.length := Nat.cast_nonneg _
    have h2 : (0 : ℚ) ≤ s.filesToUpload.length := Nat.cast_nonneg _
    linarith

theorem directoryListedErrorCallback_creates (env : Env) (s : SavesSyncRequest)
    (error : ErrorResponse) (accept : Bool) (hi : s.ignoreCallback = false)
    (hrec : listingErrorIrrecoverable env error = false) :
    ∃ ext : List Effect,
      (directoryListedErrorCallback env s error accept).log =
        s.log ++ [Effect.request (Operation.createDirectory (savesDirectory env))] ++ ext ∧
      (accept = true → ext = [] ∧
        (directoryListedErrorCallback env s error accept).workingRequest
          = some (Operation.createDirectory (savesDirectory env))) := by
  cases accept
  · rw [directoryListedErrorCallback_refuse env s error hi hrec, finishError_eq _ _ rfl]
    exact ⟨_, by simp only [List.append_assoc]; rfl, by simp⟩
  · rw [directoryListedErrorCallback_recoverable env s error hi hrec]
    exact ⟨[], by simp, fun _ => ⟨rfl, rfl⟩⟩

theorem listingErrorIrrecoverable_of_not_failed (env : Env) (error : ErrorResponse)
    (hf : error.failed = false) :
    listingErrorIrrecoverable env error = error.interrupted := by
  rw [listingErrorIrrecoverable_eq_reference]
  simp [referenceIrrecoverable, hf]

theorem listingErrorIrrecoverable_of_match (env : Env) (error : ErrorResponse)
    (hf : error.failed = true) (hm : matchesNotFound env error.response = true) :
    listingErrorIrrecoverable env error = false := by
  rw [listingErrorIrrecoverable_eq_reference]
  simp [referenceIrrecoverable, hf, hm]

theorem structuredParse_of_none (env : Env) (body : String) (h : env.parse body = none) :
    structuredParse env body = env.parse (fixedResponse body) := by
  simp [structuredParse, h]

theorem structuredParse_of_some (env : Env) (body : String) (v : JSONValue)
    (h : env.parse body = some v) : structuredParse env body = some v := by
  simp [structuredParse, h]

theorem referenceIrrecoverable_congr (env other : Env) (error : ErrorResponse)
    (h : structuredParse other error.response = structuredParse env error.response) :
    referenceIrrecoverable other error = referenceIrrecoverable env error := by
  unfold referenceIrrecoverable matchesNotFound
  rw [h]

theorem finishError_deletesNothing (t : SavesSyncRequest) (error : ErrorResponse)
    (hwr : t.workingRequest = none) (hm : t.currentDownloadingFile = StorageFile.empty) :
    (finishError t error).log = t.log ++ [Effect.errorCallback error] := by
  rw [finishError_eq t error hwr, hm]
  simp [StorageFile.empty]

theorem uploadNextFile_deletesNothing (env : Env) (t : SavesSyncRequest) (accept : Bool)
    (hm : t.currentDownloadingFile = StorageFile.empty) :
    ∃ ext : List Effect, (uploadNextFile env t accept).log = t.log ++ ext ∧
      DeletesNothing ext := by
  rcases List.eq_nil_or_concat t.filesToUpload with h | ⟨rest, name, h⟩
  · rw [uploadNextFile_nil env t accept h, finishSync_eq]
    refine ⟨_, by simp only [List.append_assoc]; rfl, ?_⟩
    intro e he
    rcases List.mem_append.1 he with h1 | h1
    · rw [List.mem_singleton.1 h1]; rfl
    · split_ifs at h1
      · rw [List.mem_singleton.1 h1]; rfl
      · simp at h1
  · rw [List.concat_eq_append] at h
    cases accept
    · rw [uploadNextFile_refuse env t rest name h, finishError_eq _ _ rfl]
      dsimp only
      rw [hm]
      refine ⟨[Effect.request (uploadOperation env name),
        Effect.errorCallback (ErrorResponse.ofMessage
          "SavesSyncRequest::uploadNextFile: Storage couldn't create Request to upload a file")],
        by simp [StorageFile.empty], ?_⟩
      intro e he
      simp only [List.mem_cons, List.mem_singleton, List.not_mem_nil, or_false] at he
      rcases he with rfl | rfl <;> rfl
    · rw [uploadNextFile_accept env t rest name h]
      refine ⟨_, rfl, ?_⟩
      intro e he
      rw [List.mem_singleton.1 he]; rfl

theorem downloadNextFile_refused_log (env : Env) (t : SavesSyncRequest)
    (rest : List StorageFile) (file : StorageFile) (h : t.filesToDownload = rest ++ [file])
    (hname : file.name ≠ "") :
    (downloadNextFile env t false).log =
        t.log ++ [Effect.request (downloadOperation env file),
          Effect.removeSavefile file.name, Effect.errorCallback downloadRefusedError] ∧
      (downloadNextFile env t false).workingRequest = none := by
  rw [downloadNextFile_refuse env t rest file h, finishError_eq _ _ rfl]
  exact ⟨by simp [hname, downloadRefusedError], rfl⟩

theorem deliver_upload_deletesNothing (env : Env) (s s' : SavesSyncRequest) (ev : Event)
    (accept : Bool) (hi : s.ignoreCallback = false)
    (hm : s.currentDownloadingFile = StorageFile.empty) (hu : uploadPhase s = true)
    (h : deliver env s ev accept = some s') :
    ∃ ext : List Effect, s'.log = s.log ++ ext ∧ DeletesNothing ext := by
  have key1 : ∀ (response : UploadResponse), ∃ ext : List Effect,
      (fileUploadedCallback env s response accept).log = s.log ++ ext ∧ DeletesNothing ext := by
    intro response
    rw [fileUploadedCallback_eq env s response accept hi]
    obtain ⟨ext, h1, h2⟩ := uploadNextFile_deletesNothing env
      { s with
        workingRequest := none
        localFilesTimestamps :=
          HashMap.assign s.localFilesTimestamps s.currentUploadingFile response.value.timestamp
        log := s.log ++ [Effect.saveTimestamps
          (HashMap.assign s.localFilesTimestamps s.currentUploadingFile
            response.value.timestamp)] }
      accept hm
    refine ⟨[Effect.saveTimestamps
      (HashMap.assign s.localFilesTimestamps s.currentUploadingFile
        response.value.timestamp)] ++ ext, by rw [h1]; exact List.append_assoc _ _ _, ?_⟩
    intro e he
    rcases List.mem_append.1 he with h3 | h3
    · rw [List.mem_singleton.1 h3]; rfl
    · exact h2 e h3
  have key2 : ∀ (error : ErrorResponse), ∃ ext : List Effect,
      (fileUploadedErrorCallback s error).log = s.log ++ ext ∧ DeletesNothing ext := by
    intro error
    rw [fileUploadedErrorCallback_eq s error hi,
      finishError_deletesNothing { s with workingRequest := none } error rfl hm]
    refine ⟨_, rfl, ?_⟩
    intro e he
    rw [List.mem_singleton.1 he]; rfl
  unfold deliver at h
  split at h <;> simp [uploadPhase, *] at hu h <;> subst h
  · exact key1 _
  · exact key2 _
  · exact key1 _
  · exact key2 _

theorem deliver_listing_failure_deletesNothing (env : Env) (s s' : SavesSyncRequest)
    (ev : Event) (accept : Bool) (hi : s.ignoreCallback = false)
    (hm : s.currentDownloadingFile = StorageFile.empty) (hev : ev.isListingFailure = true)
    (h : deliver env s ev accept = some s') :
    ∃ ext : List Effect, s'.log = s.log ++ ext ∧ DeletesNothing ext := by
  have key : ∀ (error : ErrorResponse), ∃ ext : List Effect,
      (finishError { s with workingRequest := none } error).log = s.log ++ ext ∧
        DeletesNothing ext := by
    intro error
    rw [finishError_deletesNothing { s with workingRequest := none } error rfl hm]
    refine ⟨_, rfl, ?_⟩
    intro e he
    rw [List.mem_singleton.1 he]; rfl
  unfold deliver at h
  split at h <;> simp [Event.isListingFailure] at hev h <;> subst h
  · cases hirr : listingErrorIrrecoverable env _
    · cases accept
      · rw [directoryListedErrorCallback_refuse env s _ hi hirr, finishError_eq _ _ rfl]
        dsimp only
        rw [hm]
        refine ⟨[Effect.request (Operation.createDirectory (savesDirectory env)),
          Effect.errorCallback (ErrorResponse.ofMessage
            "SavesSyncRequest::directoryListedErrorCallback: Storage couldn't create Request to create remote directory")],
          by simp [StorageFile.empty], ?_⟩
        intro e he
        simp only [List.mem_cons, List.mem_singleton, List.not_mem_nil, or_false] at he
        rcases he with rfl | rfl <;> rfl
      · rw [directoryListedErrorCallback_recoverable env s _ hi hirr]
        refine ⟨_, rfl, ?_⟩
        intro e he
        rw [List.mem_singleton.1 he]; rfl
    · rw [directoryListedErrorCallback_irrecoverable env s _ accept hi hirr]
      exact key _
  · rw [directoryCreatedCallback_fail env s _ accept hi hev]
    exact key _
  · rw [directoryCreatedErrorCallback_eq s _ hi]
    exact key _

theorem deliver_fileDownloaded (env : Env) (s s' : SavesSyncRequest)
    (response : BoolResponse) (accept : Bool)
    (h : deliver env s (Event.fileDownloaded response) accept = some s') :
    s' = fileDownloadedCallback env s response accept ∧ downloadInFlight s = true := by
  cases hw : s.workingRequest with
  | none =>
    rw [deliver_none_of_idle env s _ accept hw] at h
    simp at h
  | some op =>
    cases op <;> simp [deliver, hw] at h
    exact ⟨h.symm, by simp [downloadInFlight, hw]⟩

theorem create_refused_deletesNothing (env : Env) (loaded : HashMap Nat) :
    DeletesNothing (SavesSyncRequest.create env loaded false).log := by
  unfold SavesSyncRequest.create
  rw [start_refuse, finishError_deletesNothing _ _ rfl rfl]
  intro e he
  simp at he
  rcases he with rfl | rfl <;> rfl

theorem foldl_sumDownloadSizes (files : List StorageFile) (acc : Nat) :
    files.foldl (fun acc file => (acc + file.size) % 2 ^ 32) acc % 2 ^ 32
      = (acc + (files.map StorageFile.size).sum) % 2 ^ 32 := by
  induction files generalizing acc with
  | nil => simp
  | cons f fs ih =>
    simp only [List.foldl_cons, ih, List.map_cons, List.sum_cons]
    omega

theorem sumDownloadSizes_eq (files : List StorageFile) :
    sumDownloadSizes files = (files.map StorageFile.size).sum % 2 ^ 32 := by
  unfold sumDownloadSizes
  have h := foldl_sumDownloadSizes files 0
  rw [Nat.zero_add] at h
  rw [← h]
  cases files using List.reverseRecOn with
  | nil => rfl
  | append_singleton l a _ =>
    rw [List.foldl_append]
    simp only [List.foldl_cons, List.foldl_nil, Nat.mod_mod]

theorem filter_isErrorCallback_append_other (log tail : List Effect)
    (h : ∀ e ∈ tail, e.isErrorCallback = false) :
    (log ++ tail).filter Effect.isErrorCallback = log.filter Effect.isErrorCallback := by
  rw [List.filter_append]
  have : tail.filter Effect.isErrorCallback = [] := by
    rw [List.filter_eq_nil_iff]
    intro e he
    simp [h e he]
  rw [this, List.append_nil]

theorem finishError_accounted (t : SavesSyncRequest) (error : ErrorResponse)
    (hwr : t.workingRequest = none) : Accounted (finishError t error) := by
  rw [finishError_eq t error hwr]
  constructor
  · intro h
    exfalso
    have : Effect.errorCallback error ∈ List.filter Effect.isErrorCallback
        (t.log ++ (if t.currentDownloadingFile.name ≠ "" then
          [Effect.removeSavefile t.currentDownloadingFile.name] else [])
          ++ [Effect.errorCallback error]) :=
      List.mem_filter.2 ⟨by simp, rfl⟩
    rw [show (List.filter Effect.isErrorCallback
        (t.log ++ (if t.currentDownloadingFile.name ≠ "" then
          [Effect.removeSavefile t.currentDownloadingFile.name] else [])
          ++ [Effect.errorCallback error])) = [] from h] at this
    simp at this
  · intro h
    simp [uploadPhase, hwr] at h

theorem finishSync_accounted (env : Env) (t : SavesSyncRequest)
    (hwr : t.workingRequest = none)
    (hp : t.log.filter Effect.isErrorCallback = [] →
      (t.bytesDownloaded + pendingBytes t) % 2 ^ 32 = t.bytesToDownload) :
    Accounted (finishSync env t true) := by
  rw [finishSync_eq]
  constructor
  · intro h
    apply hp
    dsimp only at h
    rw [List.append_assoc, filter_isErrorCallback_append_other] at h
    · exact h
    · intro e he
      rcases List.mem_append.1 he with h1 | h1
      · rw [List.mem_singleton.1 h1]; rfl
      · split_ifs at h1
        · rw [List.mem_singleton.1 h1]; rfl
        · simp at h1
  · intro h
    simp [uploadPhase, hwr] at h

theorem uploadNextFile_accounted (env : Env) (t : SavesSyncRequest) (accept : Bool)
    (hwr : t.workingRequest = none)
    (hp : t.log.filter Effect.isErrorCallback = [] →
      (t.bytesDownloaded + pendingBytes t) % 2 ^ 32 = t.bytesToDownload)
    (hb : t.filesToUpload.length ≤ t.totalFilesToHandle) :
    Accounted (uploadNextFile env t accept) := by
  rcases List.eq_nil_or_concat t.filesToUpload with h | ⟨rest, name, h⟩
  · rw [uploadNextFile_nil env t accept h]
    exact finishSync_accounted env t hwr hp
  · rw [List.concat_eq_append] at h
    cases accept
    · rw [uploadNextFile_refuse env t rest name h]
      exact finishError_accounted _ _ rfl
    · rw [uploadNextFile_accept env t rest name h]
      constructor
      · intro h1
        apply hp
        dsimp only at h1
        rw [filter_isErrorCallback_append_other] at h1
        · exact h1
        · intro e he
          rw [List.mem_singleton.1 he]
          unfold uploadOperation
          split_ifs <;> rfl
      · intro _
        show rest.length < t.totalFilesToHandle
        rw [h, List.length_append] at hb
        simp at hb
        omega

theorem downloadNextFile_accounted (env : Env) (t : SavesSyncRequest) (accept : Bool)
    (hwr : t.workingRequest = none)
    (hp : t.log.filter Effect.isErrorCallback = [] →
      (t.bytesDownloaded + (t.filesToDownload.map StorageFile.size).sum) % 2 ^ 32
        = t.bytesToDownload)
    (hb : t.filesToUpload.length ≤ t.totalFilesToHandle) :
    Accounted (downloadNextFile env t accept) := by
  rcases List.eq_nil_or_concat t.filesToDownload with h | ⟨rest, file, h⟩
  · rw [downloadNextFile_nil env t accept h]
    refine uploadNextFile_accounted env _ accept (by exact hwr) ?_ (by exact hb)
    intro h1
    have := hp h1
    rw [h] at this
    simpa [pendingBytes, h, StorageFile.empty] using this
  · rw [List.concat_eq_append] at h
    cases accept
    · rw [downloadNextFile_refuse env t rest file h]
      exact finishError_accounted _ _ rfl
    · rw [downloadNextFile_accept env t rest file h]
      constructor
      · intro h1
        dsimp only at h1
        rw [filter_isErrorCallback_append_other] at h1
        · have := hp h1
          rw [h] at this
          simpa [pendingBytes, List.sum_append, Nat.add_assoc] using this
        · intro e he
          rw [List.mem_singleton.1 he]
          rfl
      · intro h1
        simp [uploadPhase, downloadOperation] at h1

theorem directoryListedCallback_accounted (env : Env) (s : SavesSyncRequest)
    (response : ListDirectoryResponse) (accept : Bool) (hi : s.ignoreCallback = false)
    (hm : s.currentDownloadingFile = StorageFile.empty) :
    Accounted (directoryListedCallback env s response accept) := by
  have hb : (diffPhase env s response).filesToUpload.length
      ≤ (diffPhase env s response).totalFilesToHandle := by
    rw [diffPhase_totalFilesToHandle]
    omega
  have hbytes : (0 + ((diffPhase env s response).filesToDownload.map StorageFile.size).sum)
      % 2 ^ 32 = sumDownloadSizes (diffPhase env s response).filesToDownload := by
    rw [sumDownloadSizes_eq, Nat.zero_add]
  rw [directoryListedCallback_eq env s response accept hi]
  split_ifs with h
  · refine uploadNextFile_accounted env _ accept (by rfl) ?_ (by exact hb)
    intro _
    show (0 + (((diffPhase env s response).filesToDownload.map StorageFile.size).sum
      + s.currentDownloadingFile.size)) % 2 ^ 32
      = sumDownloadSizes (diffPhase env s response).filesToDownload
    rw [hm, ← hbytes]
    rfl
  · exact downloadNextFile_accounted env _ accept (by rfl) (fun _ => by exact hbytes)
      (by exact hb)

theorem fileDownloadedCallback_accounted (env : Env) (s : SavesSyncRequest)
    (response : BoolResponse) (accept : Bool) (hi : s.ignoreCallback = false)
    (ha : Accounted s) (hb : s.filesToUpload.length ≤ s.totalFilesToHandle) :
    Accounted (fileDownloadedCallback env s response accept) := by
  cases hval : response.value
  · rw [fileDownloadedCallback_fail env s response accept hi hval]
    exact finishError_accounted _ _ rfl
  · rw [fileDownloadedCallback_ok env s response accept hi hval]
    refine downloadNextFile_accounted env _ accept (by rfl) ?_ (by exact hb)
    intro h1
    dsimp only at h1
    rw [filter_isErrorCallback_append_other] at h1
    · have := ha.pending h1
      unfold pendingBytes at this
      show ((s.bytesDownloaded + s.currentDownloadingFile.size) % 2 ^ 32
        + (s.filesToDownload.map StorageFile.size).sum) % 2 ^ 32 = s.bytesToDownload
      omega
    · intro e he
      rw [List.mem_singleton.1 he]
      rfl

theorem fileUploadedCallback_accounted (env : Env) (s : SavesSyncRequest)
    (response : UploadResponse) (accept : Bool) (hi : s.ignoreCallback = false)
    (ha : Accounted s) (hb : s.filesToUpload.length ≤ s.totalFilesToHandle) :
    Accounted (fileUploadedCallback env s response accept) := by
  rw [fileUploadedCallback_eq env s response accept hi]
  refine uploadNextFile_accounted env _ accept (by rfl) ?_ (by exact hb)
  intro h1
  dsimp only at h1
  rw [filter_isErrorCallback_append_other] at h1
  · exact ha.pending h1
  · intro e he
    rw [List.mem_singleton.1 he]
    rfl

theorem errorCallback_accounted (s : SavesSyncRequest) (error : ErrorResponse)
    (hi : s.ignoreCallback = false) : Accounted (fileDownloadedErrorCallback s error) := by
  rw [fileDownloadedErrorCallback_eq s error hi]
  exact finishError_accounted _ _ rfl

theorem directoryListedErrorCallback_accounted (env : Env) (s : SavesSyncRequest)
    (error : ErrorResponse) (accept : Bool) (hi : s.ignoreCallback = false)
    (ha : Accounted s) : Accounted (directoryListedErrorCallback env s error accept) := by
  cases hirr : listingErrorIrrecoverable env error
  · cases accept
    · rw [directoryListedErrorCallback_refuse env s error hi hirr]
      exact finishError_accounted _ _ rfl
    · rw [directoryListedErrorCallback_recoverable env s error hi hirr]
      constructor
      · intro h1
        dsimp only at h1
        rw [filter_isErrorCallback_append_other] at h1
        · exact ha.pending h1
        · intro e he
          rw [List.mem_singleton.1 he]
          rfl
      · intro h1
        simp [uploadPhase] at h1
  · rw [directoryListedErrorCallback_irrecoverable env s error accept hi hirr]
    exact finishError_accounted _ _ rfl

theorem directoryCreatedCallback_accounted (env : Env) (s : SavesSyncRequest)
    (response : BoolResponse) (accept : Bool) (hi : s.ignoreCallback = false)
    (hm : s.currentDownloadingFile = StorageFile.empty) :
    Accounted (directoryCreatedCallback env s response accept) := by
  cases hval : response.value
  · rw [directoryCreatedCallback_fail env s response accept hi hval]
    exact finishError_accounted _ _ rfl
  · rw [directoryCreatedCallback_ok env s response accept hi hval]
    exact directoryListedCallback_accounted env s _ accept hi hm

/-- Every delivered completion keeps the account of the bytes. -/
theorem deliver_accounted (env : Env) (s s' : SavesSyncRequest) (ev : Event) (accept : Bool)
    (hinv : Inv s) (ht : Tidy env s) (ha : Accounted s)
    (h : deliver env s ev accept = some s') : Accounted s' := by
  have hi := hinv.ignore
  have hb : s.filesToUpload.length ≤ s.totalFilesToHandle := by
    have := hinv.bound
    omega
  unfold deliver at h
  split at h <;> simp at h <;> subst h
  · exact directoryListedCallback_accounted _ _ _ _ hi
      (ht.idle (by simp [downloadInFlight, *])).1
  · exact directoryListedErrorCallback_accounted _ _ _ _ hi ha
  · exact directoryCreatedCallback_accounted _ _ _ _ hi
      (ht.idle (by simp [downloadInFlight, *])).1
  · exact errorCallback_accounted _ _ hi
  · exact fileDownloadedCallback_accounted _ _ _ _ hi ha hb
  · exact errorCallback_accounted _ _ hi
  · exact fileUploadedCallback_accounted _ _ _ _ hi ha hb
  · exact errorCallback_accounted _ _ hi
  · exact fileUploadedCallback_accounted _ _ _ _ hi ha hb
  · exact errorCallback_accounted _ _ hi

theorem create_accounted (env : Env) (loaded : HashMap Nat) (accept : Bool) :
    Accounted (SavesSyncRequest.create env loaded accept) := by
  unfold SavesSyncRequest.create
  cases accept
  · rw [start_refuse]
    exact finishError_accounted _ _ rfl
  · rw [start_accept]
    exact ⟨fun _ => rfl, fun h => by simp [uploadPhase] at h⟩

theorem run_accounted (env : Env) (evs : List (Event × Bool)) (s s' : SavesSyncRequest)
    (hinv : Inv s) (ht : Tidy env s) (ha : Accounted s) (h : run env s evs = some s') :
    Accounted s' := by
  induction evs generalizing s with
  | nil =>
    simp only [run, Option.some.injEq] at h
    subst h
    exact ha
  | cons e rest ih =>
    obtain ⟨ev, accept⟩ := e
    simp only [run] at h
    cases hd : deliver env s ev accept with
    | none => simp [hd] at h
    | some s1 =>
      simp only [hd] at h
      exact ih s1 (deliver_inv env s s1 ev accept hinv hd)
        (deliver_tidy env s s1 ev accept hinv ht hd)
        (deliver_accounted env s s1 ev accept hinv ht ha hd) h

theorem getDownloadingProgress_done (s : SavesSyncRequest) (progress : ℚ)
    (hf : downloadInFlight s = false) (hb : s.bytesDownloaded = s.bytesToDownload)
    (hlt : s.bytesDownloaded < 2 ^ 32)
    (hm : s.currentDownloadingFile = StorageFile.empty) (hq : s.filesToDownload = [])
    (h0 : s.totalFilesToHandle = 0 → s.state = RequestState.FINISHED)
    (hu : s.filesToUpload.length ≤ s.totalFilesToHandle) :
    getDownloadingProgress s progress = 1 := by
  unfold getDownloadingProgress
  by_cases ht : s.totalFilesToHandle = 0
  · rw [if_pos ht, if_pos (h0 ht)]
  · rw [if_neg ht]
    by_cases he : s.totalFilesToHandle = s.filesToUpload.length
    · rw [if_pos he]
    · rw [if_neg he]
      by_cases hbp : s.bytesToDownload > 0
      · rw [if_pos hbp, getDownloadedBytes_idle s progress hf, Nat.mod_eq_of_lt hlt, hb]
        apply div_self
        exact_mod_cast Nat.pos_iff_ne_zero.1 hbp
      · rw [if_neg hbp]
        dsimp only
        rw [hq, hm, sub32_of_le _ _ hu]
        have hpos : 0 < s.totalFilesToHandle - s.filesToUpload.length := by omega
        simp only [StorageFile.empty, List.length_nil, ne_eq, not_true_eq_false, if_false,
          Nat.add_zero, gt_iff_lt, Nat.not_lt_zero]
        rw [sub32_of_le _ _ (Nat.zero_le _), Nat.sub_zero]
        apply div_self
        exact_mod_cast Nat.pos_iff_ne_zero.1 hpos

theorem filter_append_of_all_false {p : Effect → Bool} (log tail : List Effect)
    (h : ∀ e ∈ tail, p e = false) : (log ++ tail).filter p = log.filter p := by
  rw [List.filter_append]
  have : tail.filter p = [] := by
    rw [List.filter_eq_nil_iff]
    intro e he
    simp [h e he]
  rw [this, List.append_nil]

theorem countP_append_of_all_false {p : Effect → Bool} (log tail : List Effect)
    (h : ∀ e ∈ tail, p e = false) : (log ++ tail).countP p = log.countP p := by
  rw [List.countP_eq_length_filter, List.countP_eq_length_filter,
    filter_append_of_all_false log tail h]

theorem isDownloadRequest_false_of_isRequest {e : Effect} (h : e.isRequest = false) :
    e.isDownloadRequest = false := by
  cases e <;> simp_all [Effect.isRequest, Effect.isDownloadRequest]

theorem isUploadRequest_false_of_isRequest {e : Effect} (h : e.isRequest = false) :
    e.isUploadRequest = false := by
  cases e <;> simp_all [Effect.isRequest, Effect.isUploadRequest]

theorem isUploadRequest_uploadRequest (env : Env) (name : String) :
    (uploadRequest env name).isUploadRequest = true ∧
      (uploadRequest env name).isDownloadRequest = false ∧
      (uploadRequest env name).isRequest = true ∧
      (uploadRequest env name).isErrorCallback = false := by
  unfold uploadRequest uploadOperation
  split_ifs <;> exact ⟨rfl, rfl, rfl, rfl⟩

theorem isDownloadRequest_downloadRequest (env : Env) (file : StorageFile) :
    (downloadRequest env file).isDownloadRequest = true ∧
      (downloadRequest env file).isUploadRequest = false ∧
      (downloadRequest env file).isRequest = true ∧
      (downloadRequest env file).isErrorCallback = false :=
  ⟨rfl, rfl, rfl, rfl⟩

/-- Effects that are neither requests nor the error callback leave the books as they
are. -/
theorem LedgerCore.append_effects {env : Env} {downloads : List StorageFile}
    {uploads : List String} {b : Books} {dq : List StorageFile} {uq : List String}
    (h : LedgerCore env downloads uploads b dq uq) (tail : List Effect)
    (ht : ∀ e ∈ tail, e.isRequest = false ∧ e.isErrorCallback = false) :
    LedgerCore env downloads uploads { b with requested := b.requested ++ tail } dq uq := by
  refine ⟨?_, ?_, ?_, h.queuedUploads, h.queuedDownloads, ?_⟩
  · show (b.requested ++ tail).filter Effect.isDownloadRequest = _
    rw [filter_append_of_all_false _ _
      (fun e he => isDownloadRequest_false_of_isRequest (ht e he).1)]
    exact h.downloadRequests
  · show (b.requested ++ tail).filter Effect.isUploadRequest = _
    rw [filter_append_of_all_false _ _
      (fun e he => isUploadRequest_false_of_isRequest (ht e he).1)]
    exact h.uploadRequests
  · show (b.requested ++ tail).countP Effect.isRequest = _
    rw [countP_append_of_all_false _ _ (fun e he => (ht e he).1)]
    exact h.requests
  · intro hu
    apply h.drained
    unfold Books.unfailed at hu ⊢
    rw [show ({ b with requested := b.requested ++ tail } : Books).requested
      = b.requested ++ tail from rfl,
      filter_append_of_all_false _ _ (fun e he => (ht e he).2)] at hu
    exact hu

/-- The books after a failure: the download queue is emptied. -/
theorem LedgerCore.failed {env : Env} {downloads : List StorageFile}
    {uploads : List String} {b : Books} {dq : List StorageFile} {uq : List String}
    (h : LedgerCore env downloads uploads b dq uq) (tail : List Effect)
    (error : ErrorResponse) (ht : ∀ e ∈ tail, e.isRequest = false) :
    LedgerCore env downloads uploads
      { b with requested := b.requested ++ tail ++ [Effect.errorCallback error] } [] uq := by
  have ht' : ∀ e ∈ tail ++ [Effect.errorCallback error], e.isRequest = false := by
    intro e he
    rcases List.mem_append.1 he with h1 | h1
    · exact ht e h1
    · rw [List.mem_singleton.1 h1]; rfl
  refine ⟨?_, ?_, ?_, h.queuedUploads, ?_, ?_⟩
  · show (b.requested ++ tail ++ [Effect.errorCallback error]).filter
      Effect.isDownloadRequest = _
    rw [List.append_assoc, filter_append_of_all_false _ _
      (fun e he => isDownloadRequest_false_of_isRequest (ht' e he))]
    exact h.downloadRequests
  · show (b.requested ++ tail ++ [Effect.errorCallback error]).filter
      Effect.isUploadRequest = _
    rw [List.append_assoc, filter_append_of_all_false _ _
      (fun e he => isUploadRequest_false_of_isRequest (ht' e he))]
    exact h.uploadRequests
  · show (b.requested ++ tail ++ [Effect.errorCallback error]).countP Effect.isRequest = _
    rw [List.append_assoc, countP_append_of_all_false _ _ ht']
    exact h.requests
  · exact (List.sublist_append_right _ _).trans h.queuedDownloads
  · intro hu
    exfalso
    unfold Books.unfailed at hu
    have : Effect.errorCallback error ∈
        (b.requested ++ tail ++ [Effect.errorCallback error]).filter Effect.isErrorCallback :=
      List.mem_filter.2 ⟨by simp, rfl⟩
    rw [show (b.requested ++ tail ++ [Effect.errorCallback error]).filter
      Effect.isErrorCallback = [] from hu] at this
    simp at this

/-- The books after the request of the download of the last queued descriptor. -/
theorem LedgerCore.download {env : Env} {downloads : List StorageFile}
    {uploads : List String} {b : Books} {rest : List StorageFile} {file : StorageFile}
    {uq : List String}
    (h : LedgerCore env downloads uploads b (rest ++ [file]) uq) :
    LedgerCore env downloads uploads
      { b with
        requested := b.requested ++ [downloadRequest env file]
        downloaded := b.downloaded ++ [file] } rest uq := by
  obtain ⟨h1, h2, h3, h4⟩ := isDownloadRequest_downloadRequest env file
  refine ⟨?_, ?_, ?_, h.queuedUploads, ?_, ?_⟩
  · show (b.requested ++ [downloadRequest env file]).filter Effect.isDownloadRequest
      = (b.downloaded ++ [file]).map (downloadRequest env)
    rw [List.filter_append, h.downloadRequests]
    simp [h1]
  · show (b.requested ++ [downloadRequest env file]).filter Effect.isUploadRequest = _
    rw [filter_append_of_all_false _ _ (by simp [h2])]
    exact h.uploadRequests
  · show (b.requested ++ [downloadRequest env file]).countP Effect.isRequest
      = (b.downloaded ++ [file]).length + b.uploaded.length
    rw [List.countP_append, h.requests]
    simp [h3]
    omega
  · show (rest ++ (b.downloaded ++ [file]).reverse).Sublist downloads
    have := h.queuedDownloads
    simpa using this
  · intro hu
    have hu' : b.unfailed := by
      unfold Books.unfailed at hu ⊢
      rw [show ({ b with
        requested := b.requested ++ [downloadRequest env file]
        downloaded := b.downloaded ++ [file] } : Books).requested
        = b.requested ++ [downloadRequest env file] from rfl,
        filter_append_of_all_false _ _ (by simp [h4])] at hu
      exact hu
    have := h.drained hu'
    show downloads = rest ++ (b.downloaded ++ [file]).reverse
    simpa using this

/-- The books after the request of the upload of the last queued name. -/
theorem LedgerCore.upload {env : Env} {downloads : List StorageFile}
    {uploads : List String} {b : Books} {dq : List StorageFile} {rest : List String}
    {name : String}
    (h : LedgerCore env downloads uploads b dq (rest ++ [name])) :
    LedgerCore env downloads uploads
      { b with
        requested := b.requested ++ [uploadRequest env name]
        uploaded := b.uploaded ++ [name] } dq rest := by
  obtain ⟨h1, h2, h3, h4⟩ := isUploadRequest_uploadRequest env name
  refine ⟨?_, ?_, ?_, ?_, h.queuedDownloads, ?_⟩
  · show (b.requested ++ [uploadRequest env name]).filter Effect.isDownloadRequest = _
    rw [filter_append_of_all_false _ _ (by simp [h2])]
    exact h.downloadRequests
  · show (b.requested ++ [uploadRequest env name]).filter Effect.isUploadRequest
      = (b.uploaded ++ [name]).map (uploadRequest env)
    rw [List.filter_append, h.uploadRequests]
    simp [h1]
  · show (b.requested ++ [uploadRequest env name]).countP Effect.isRequest
      = b.downloaded.length + (b.uploaded ++ [name]).length
    rw [List.countP_append, h.requests]
    simp [h3]
    omega
  · show uploads = rest ++ (b.uploaded ++ [name]).reverse
    have := h.queuedUploads
    simpa using this
  · intro hu
    apply h.drained
    unfold Books.unfailed at hu ⊢
    rw [show ({ b with
      requested := b.requested ++ [uploadRequest env name]
      uploaded := b.uploaded ++ [name] } : Books).requested
      = b.requested ++ [uploadRequest env name] from rfl,
      filter_append_of_all_false _ _ (by simp [h4])] at hu
    exact hu

theorem unfailed_of_append {b : Books} {tail : List Effect}
    {downloaded : List StorageFile} {uploaded : List String} {completed : List StorageFile}
    {results : List (String × Nat)}
    (h : Books.unfailed
      { requested := b.requested ++ tail, downloaded := downloaded, uploaded := uploaded,
        completed := completed, results := results }) : b.unfailed := by
  unfold Books.unfailed at h ⊢
  simp only [List.filter_append, List.append_eq_nil] at h
  exact h.1

theorem not_unfailed_of_error {log : List Effect} {error : ErrorResponse}
    {downloaded : List StorageFile} {uploaded : List String} {completed : List StorageFile}
    {results : List (String × Nat)} :
    ¬ Books.unfailed
      { requested := log ++ [Effect.errorCallback error], downloaded := downloaded,
        uploaded := uploaded, completed := completed, results := results } := by
  intro h
  unfold Books.unfailed at h
  have : Effect.errorCallback error ∈
      (log ++ [Effect.errorCallback error]).filter Effect.isErrorCallback :=
    List.mem_filter.2 ⟨by simp, rfl⟩
  rw [show (log ++ [Effect.errorCallback error]).filter Effect.isErrorCallback = [] from h]
    at this
  simp at this

theorem finishError_tail_no_request (name : String) :
    ∀ e ∈ (if name ≠ "" then [Effect.removeSavefile name] else []),
      e.isRequest = false := by
  intro e he
  split_ifs at he
  · rw [List.mem_singleton.1 he]; rfl
  · simp at he

theorem finishError_ledger (env : Env) (index : HashMap Nat) (downloads : List StorageFile)
    (uploads : List String) (base : List Effect) (b : Books) (t : SavesSyncRequest)
    (error : ErrorResponse) (hig : t.ignoreCallback = false) (hwr : t.workingRequest = none)
    (hlog : t.log = base ++ b.requested)
    (hc : LedgerCore env downloads uploads b t.filesToDownload t.filesToUpload) :
    ∃ b' : Books, (finishError t error).log = base ++ b'.requested ∧
      b'.results = b.results ∧
      Ledger env index downloads uploads b' (finishError t error) := by
  rw [finishError_eq t error hwr]
  refine ⟨{ b with requested := b.requested ++ (if t.currentDownloadingFile.name ≠ "" then
      [Effect.removeSavefile t.currentDownloadingFile.name] else [])
      ++ [Effect.errorCallback error] }, by simp [hlog], rfl, ?_⟩
  exact ⟨hig, by simp [listingPhase, hwr],
    hc.failed _ error (finishError_tail_no_request _),
    fun h => by simp [downloadInFlight, hwr] at h,
    fun h => by simp [uploadPhase, hwr] at h,
    fun h => absurd h not_unfailed_of_error,
    fun h => absurd h not_unfailed_of_error,
    fun h => absurd h not_unfailed_of_error,
    fun h => by simp [downloadInFlight, hwr] at h⟩

theorem finishSync_tail_other (date : String) (hasCallback : Bool) :
    ∀ e ∈ [Effect.setStorageLastSync date]
        ++ (if hasCallback then [Effect.boolCallback true] else []),
      e.isRequest = false ∧ e.isErrorCallback = false := by
  intro e he
  cases hasCallback
  · simp at he
    subst he
    exact ⟨rfl, rfl⟩
  · simp at he
    rcases he with rfl | rfl <;> exact ⟨rfl, rfl⟩

theorem finishSync_ledger (env : Env) (index : HashMap Nat) (downloads : List StorageFile)
    (uploads : List String) (base : List Effect) (b : Books) (t : SavesSyncRequest)
    (hwr : t.workingRequest = none) (hlog : t.log = base ++ b.requested)
    (hL : Ledger env index downloads uploads b t) :
    ∃ b' : Books, (finishSync env t true).log = base ++ b'.requested ∧
      b'.results = b.results ∧
      Ledger env index downloads uploads b' (finishSync env t true) := by
  rw [finishSync_eq]
  refine ⟨{ b with requested := b.requested ++ ([Effect.setStorageLastSync t.date]
      ++ (if env.hasBoolCallback then [Effect.boolCallback true] else [])) },
    by simp [hlog], rfl, ?_⟩
  have hf : downloadInFlight t = false := by simp [downloadInFlight, hwr]
  have hu : uploadPhase t = false := by simp [uploadPhase, hwr]
  exact ⟨hL.ignore, by simp [listingPhase, hwr],
    hL.core.append_effects _ (finishSync_tail_other _ _),
    fun h => by simp [downloadInFlight, hwr] at h,
    fun h => by simp [uploadPhase, hwr] at h,
    fun h => hL.written (unfailed_of_append h),
    fun h => hL.completedDownloads (unfailed_of_append h),
    fun h => hL.completedUploads (unfailed_of_append h),
    fun h => by simp [downloadInFlight, hwr] at h⟩

theorem uploadNextFile_ledger (env : Env) (index : HashMap Nat) (downloads : List StorageFile)
    (uploads : List String) (base : List Effect) (b : Books) (t : SavesSyncRequest)
    (accept : Bool) (hwr : t.workingRequest = none) (hlog : t.log = base ++ b.requested)
    (hL : Ledger env index downloads uploads b t) :
    ∃ b' : Books, (uploadNextFile env t accept).log = base ++ b'.requested ∧
      b'.results = b.results ∧
      Ledger env index downloads uploads b' (uploadNextFile env t accept) := by
  rcases List.eq_nil_or_concat t.filesToUpload with h | ⟨rest, name, h⟩
  · rw [uploadNextFile_nil env t accept h]
    exact finishSync_ledger env index downloads uploads base b t hwr hlog hL
  · rw [List.concat_eq_append] at h
    have hf : downloadInFlight t = false := by simp [downloadInFlight, hwr]
    have hu : uploadPhase t = false := by simp [uploadPhase, hwr]
    have hcore : LedgerCore env downloads uploads
        { b with
          requested := b.requested ++ [uploadRequest env name]
          uploaded := b.uploaded ++ [name] } t.filesToDownload rest := by
      have := hL.core
      rw [h] at this
      exact this.upload
    cases accept
    · rw [uploadNextFile_refuse env t rest name h]
      obtain ⟨b', h1, h2, h3⟩ := finishError_ledger env index downloads uploads base
        { b with
          requested := b.requested ++ [uploadRequest env name]
          uploaded := b.uploaded ++ [name] }
        { t with
          currentUploadingFile := name
          filesToUpload := rest
          log := t.log ++ [Effect.request (uploadOperation env name)]
          workingRequest := none }
        (ErrorResponse.ofMessage
          "SavesSyncRequest::uploadNextFile: Storage couldn't create Request to upload a file")
        hL.ignore rfl (by simp [hlog, uploadRequest]) hcore
      exact ⟨b', h1, h2, h3⟩
    · rw [uploadNextFile_accept env t rest name h]
      obtain ⟨h1, h2, h3⟩ := uploadPhase_uploadOperation env name
        { t with
          currentUploadingFile := name
          filesToUpload := rest
          log := t.log ++ [Effect.request (uploadOperation env name)]
          workingRequest := some (uploadOperation env name) } rfl
      refine ⟨{ b with
          requested := b.requested ++ [uploadRequest env name]
          uploaded := b.uploaded ++ [name] }, by simp [hlog, uploadRequest], rfl, ?_⟩
      refine ⟨hL.ignore, h3, hcore, fun hc => by rw [h2] at hc; exact absurd hc (by simp),
        fun _ => by simp, ?_, ?_, ?_, fun hc => by rw [h2] at hc; exact absurd hc (by simp)⟩
      · intro hun
        exact hL.written (unfailed_of_append hun)
      · intro hun
        have := hL.completedDownloads (unfailed_of_append hun)
        rw [hf] at this
        rw [h2]
        exact this
      · intro hun
        have := hL.completedUploads (unfailed_of_append hun)
        rw [hu] at this
        rw [h1]
        show b.uploaded ++ [name] = b.results.map Prod.fst ++ [name]
        rw [this]
        simp

theorem downloadNextFile_ledger (env : Env) (index : HashMap Nat)
    (downloads : List StorageFile) (uploads : List String) (base : List Effect) (b : Books)
    (t : SavesSyncRequest) (accept : Bool) (hwr : t.workingRequest = none)
    (hlog : t.log = base ++ b.requested)
    (hL : Ledger env index downloads uploads b t)
    (hfirst : b.results = [] ∧ b.uploaded = []) :
    ∃ b' : Books, (downloadNextFile env t accept).log = base ++ b'.requested ∧
      b'.results = b.results ∧
      Ledger env index downloads uploads b' (downloadNextFile env t accept) := by
  have hf : downloadInFlight t = false := by simp [downloadInFlight, hwr]
  have hu : uploadPhase t = false := by simp [uploadPhase, hwr]
  rcases List.eq_nil_or_concat t.filesToDownload with h | ⟨rest, file, h⟩
  · rw [downloadNextFile_nil env t accept h]
    apply uploadNextFile_ledger env index downloads uploads base b _ accept (by exact hwr)
      (by exact hlog)
    exact ⟨hL.ignore, hL.phase, hL.core,
      fun hc => by simp [downloadInFlight, hwr] at hc,
      fun hc => by simp [uploadPhase, hwr] at hc,
      hL.written,
      fun hun => by
        have := hL.completedDownloads hun
        rw [hf] at this
        simpa [downloadInFlight, hwr] using this,
      fun hun => by
        have := hL.completedUploads hun
        rw [hu] at this
        simpa [uploadPhase, hwr] using this,
      fun hc => by simp [downloadInFlight, hwr] at hc⟩
  · rw [List.concat_eq_append] at h
    have hcore : LedgerCore env downloads uploads
        { b with
          requested := b.requested ++ [downloadRequest env file]
          downloaded := b.downloaded ++ [file] } rest t.filesToUpload := by
      have := hL.core
      rw [h] at this
      exact this.download
    cases accept
    · rw [downloadNextFile_refuse env t rest file h]
      obtain ⟨b', h1, h2, h3⟩ := finishError_ledger env index downloads uploads base
        { b with
          requested := b.requested ++ [downloadRequest env file]
          downloaded := b.downloaded ++ [file] }
        { t with
          currentDownloadingFile := file
          filesToDownload := rest
          log := t.log ++ [Effect.request (downloadOperation env file)]
          workingRequest := none }
        (ErrorResponse.ofMessage
          "SavesSyncRequest::downloadNextFile: Storage couldn't create Request to download a file")
        hL.ignore rfl (by simp [hlog, downloadRequest]) hcore
      exact ⟨b', h1, h2, h3⟩
    · rw [downloadNextFile_accept env t rest file h]
      refine ⟨{ b with
          requested := b.requested ++ [downloadRequest env file]
          downloaded := b.downloaded ++ [file] }, by simp [hlog, downloadRequest], rfl, ?_⟩
      refine ⟨hL.ignore, by simp [listingPhase, downloadOperation], hcore, fun _ => by simp,
        fun hc => by simp [uploadPhase, downloadOperation] at hc, ?_, ?_, ?_, fun _ => hfirst⟩
      · intro hun
        exact hL.written (unfailed_of_append hun)
      · intro hun
        have := hL.completedDownloads (unfailed_of_append hun)
        rw [hf] at this
        show b.downloaded ++ [file] = b.completed ++ _
        rw [this]
        simp [downloadInFlight, downloadOperation]
      · intro hun
        have := hL.completedUploads (unfailed_of_append hun)
        rw [hu] at this
        show b.uploaded = b.results.map Prod.fst ++ _
        rw [this]
        simp [uploadPhase, downloadOperation]

theorem uploadPhase_of_downloadInFlight (s : SavesSyncRequest)
    (h : downloadInFlight s = true) : uploadPhase s = false := by
  unfold downloadInFlight at h
  unfold uploadPhase
  cases hw : s.workingRequest with
  | none => rfl
  | some op => cases op <;> simp [hw] at h ⊢

theorem LedgerCore.of_books {env : Env} {downloads : List StorageFile}
    {uploads : List String} {b b' : Books} {filesToDownload : List StorageFile}
    {filesToUpload : List String}
    (h : LedgerCore env downloads uploads b filesToDownload filesToUpload)
    (h1 : b'.requested = b.requested) (h2 : b'.downloaded = b.downloaded)
    (h3 : b'.uploaded = b.uploaded) :
    LedgerCore env downloads uploads b' filesToDownload filesToUpload := by
  refine ⟨?_, ?_, ?_, ?_, ?_, ?_⟩
  · rw [h1, h2]; exact h.downloadRequests
  · rw [h1, h3]; exact h.uploadRequests
  · rw [h1, h2, h3]; exact h.requests
  · rw [h3]; exact h.queuedUploads
  · rw [h2]; exact h.queuedDownloads
  · intro hun
    rw [h2]
    apply h.drained
    unfold Books.unfailed at hun ⊢
    rw [← h1]
    exact hun

theorem errorCallback_ledger (env : Env) (index : HashMap Nat) (downloads : List StorageFile)
    (uploads : List String) (base : List Effect) (b : Books) (s : SavesSyncRequest)
    (error : ErrorResponse) (hlog : s.log = base ++ b.requested)
    (hL : Ledger env index downloads uploads b s) :
    ∃ b' : Books, (finishError { s with workingRequest := none } error).log
        = base ++ b'.requested ∧
      b'.results = b.results ∧
      Ledger env index downloads uploads b'
        (finishError { s with workingRequest := none } error) :=
  finishError_ledger env index downloads uploads base b _ error hL.ignore rfl hlog hL.core

theorem fileDownloadedCallback_ledger (env : Env) (index : HashMap Nat)
    (downloads : List StorageFile) (uploads : List String) (base : List Effect) (b : Books)
    (s : SavesSyncRequest) (response : BoolResponse) (accept : Bool)
    (hlog : s.log = base ++ b.requested) (hfl : downloadInFlight s = true)
    (hL : Ledger env index downloads uploads b s) :
    ∃ b' : Books, (fileDownloadedCallback env s response accept).log = base ++ b'.requested ∧
      b'.results = b.results ∧
      Ledger env index downloads uploads b' (fileDownloadedCallback env s response accept) := by
  have hu := uploadPhase_of_downloadInFlight s hfl
  cases hval : response.value
  · rw [fileDownloadedCallback_fail env s response accept hL.ignore hval]
    obtain ⟨b', h1, h2, h3⟩ := finishError_ledger env index downloads uploads base
      { b with
        requested := b.requested ++ [Effect.removeSavefile s.currentDownloadingFile.name] }
      { s with
        workingRequest := none
        log := s.log ++ [Effect.removeSavefile s.currentDownloadingFile.name] }
      downloadFailedError hL.ignore rfl (by simp [hlog])
      (hL.core.append_effects [Effect.removeSavefile s.currentDownloadingFile.name] (by
        intro e he
        rw [List.mem_singleton.1 he]
        exact ⟨rfl, rfl⟩))
    exact ⟨b', h1, h2, h3⟩
  · rw [fileDownloadedCallback_ok env s response accept hL.ignore hval]
    obtain ⟨b', h1, h2, h3⟩ := downloadNextFile_ledger env index downloads uploads base
      { b with
        requested := b.requested ++ [Effect.saveTimestamps
          (HashMap.assign s.localFilesTimestamps s.currentDownloadingFile.name
            s.currentDownloadingFile.timestamp)]
        completed := b.completed ++ [s.currentDownloadingFile] }
      { s with
        workingRequest := none
        localFilesTimestamps :=
          HashMap.assign s.localFilesTimestamps s.currentDownloadingFile.name
            s.currentDownloadingFile.timestamp
        log := s.log ++ [Effect.saveTimestamps
          (HashMap.assign s.localFilesTimestamps s.currentDownloadingFile.name
            s.currentDownloadingFile.timestamp)]
        bytesDownloaded := (s.bytesDownloaded + s.currentDownloadingFile.size) % 2 ^ 32 }
      accept rfl (by simp [hlog])
      ⟨hL.ignore, rfl,
        (hL.core.append_effects [Effect.saveTimestamps
          (HashMap.assign s.localFilesTimestamps s.currentDownloadingFile.name
            s.currentDownloadingFile.timestamp)] (by
          intro e he
          rw [List.mem_singleton.1 he]
          exact ⟨rfl, rfl⟩)).of_books rfl rfl rfl,
        fun hc => by simp [downloadInFlight] at hc,
        fun hc => by simp [uploadPhase] at hc,
        fun hun => by
          have hw := hL.written (unfailed_of_append hun)
          have hr := (hL.downloadsFirst hfl).1
          show HashMap.assign s.localFilesTimestamps s.currentDownloadingFile.name
              s.currentDownloadingFile.timestamp
            = ((b.completed ++ [s.currentDownloadingFile]).map indexEntry
                ++ b.results).foldl writeIndex index
          rw [hw, hr]
          simp [List.foldl_append, writeIndex, indexEntry],
        fun hun => by
          have hc := hL.completedDownloads (unfailed_of_append hun)
          rw [hfl] at hc
          show b.downloaded = (b.completed ++ [s.currentDownloadingFile]) ++ _
          rw [hc]
          simp [downloadInFlight],
        fun hun => by
          have hc := hL.completedUploads (unfailed_of_append hun)
          rw [hu] at hc
          show b.uploaded = b.results.map Prod.fst ++ _
          rw [hc]
          simp [uploadPhase],
        fun hc => by simp [downloadInFlight] at hc⟩
      (hL.downloadsFirst hfl)
    exact ⟨b', h1, h2, h3⟩

theorem fileUploadedCallback_ledger (env : Env) (index : HashMap Nat)
    (downloads : List StorageFile) (uploads : List String) (base : List Effect) (b : Books)
    (s : SavesSyncRequest) (response : UploadResponse) (accept : Bool)
    (hlog : s.log = base ++ b.requested) (hup : uploadPhase s = true)
    (hL : Ledger env index downloads uploads b s) :
    ∃ b' : Books, (fileUploadedCallback env s response accept).log = base ++ b'.requested ∧
      b'.results = b.results ++ [(s.currentUploadingFile, response.value.timestamp)] ∧
      Ledger env index downloads uploads b' (fileUploadedCallback env s response accept) := by
  have hf := downloadInFlight_of_uploadPhase s hup
  rw [fileUploadedCallback_eq env s response accept hL.ignore]
  obtain ⟨b', h1, h2, h3⟩ := uploadNextFile_ledger env index downloads uploads base
    { b with
      requested := b.requested ++ [Effect.saveTimestamps
        (HashMap.assign s.localFilesTimestamps s.currentUploadingFile
          response.value.timestamp)]
      results := b.results ++ [(s.currentUploadingFile, response.value.timestamp)] }
    { s with
      workingRequest := none
      localFilesTimestamps :=
        HashMap.assign s.localFilesTimestamps s.currentUploadingFile response.value.timestamp
      log := s.log ++ [Effect.saveTimestamps
        (HashMap.assign s.localFilesTimestamps s.currentUploadingFile
          response.value.timestamp)] }
    accept rfl (by simp [hlog])
    ⟨hL.ignore, rfl,
      (hL.core.append_effects [Effect.saveTimestamps
        (HashMap.assign s.localFilesTimestamps s.currentUploadingFile
          response.value.timestamp)] (by
        intro e he
        rw [List.mem_singleton.1 he]
        exact ⟨rfl, rfl⟩)).of_books rfl rfl rfl,
      fun hc => by simp [downloadInFlight] at hc,
      fun hc => by simp [uploadPhase] at hc,
      fun hun => by
        have hw := hL.written (unfailed_of_append hun)
        show HashMap.assign s.localFilesTimestamps s.currentUploadingFile
            response.value.timestamp
          = (b.completed.map indexEntry
              ++ (b.results ++ [(s.currentUploadingFile, response.value.timestamp)])).foldl
                writeIndex index
        rw [hw]
        simp [List.foldl_append, writeIndex],
      fun hun => by
        have hc := hL.completedDownloads (unfailed_of_append hun)
        rw [hf] at hc
        show b.downloaded = b.completed ++ _
        rw [hc]
        simp [downloadInFlight],
      fun hun => by
        have hc := hL.completedUploads (unfailed_of_append hun)
        rw [hup] at hc
        show b.uploaded
          = (b.results ++ [(s.currentUploadingFile, response.value.timestamp)]).map Prod.fst ++ _
        rw [hc]
        simp [uploadPhase],
      fun hc => by simp [downloadInFlight] at hc⟩
  exact ⟨b', h1, h2, h3⟩

theorem deliver_ledger (env : Env) (index : HashMap Nat) (downloads : List StorageFile)
    (uploads : List String) (base : List Effect) (b : Books) (s s' : SavesSyncRequest)
    (ev : Event) (accept : Bool) (hlog : s.log = base ++ b.requested)
    (hL : Ledger env index downloads uploads b s)
    (h : deliver env s ev accept = some s') :
    ∃ b' : Books, s'.log = base ++ b'.requested ∧
      b'.results = b.results ++ completedUpload s ev ∧
      Ledger env index downloads uploads b' s' := by
  have hi := hL.ignore
  have hp := hL.phase
  unfold deliver at h
  split at h <;> simp at h <;> subst h
  · rename_i hw
    simp [listingPhase, hw] at hp
  · rename_i hw
    simp [listingPhase, hw] at hp
  · rename_i hw
    simp [listingPhase, hw] at hp
  · rename_i hw
    simp [listingPhase, hw] at hp
  · rename_i hw
    simp only [completedUpload, List.append_nil]
    exact fileDownloadedCallback_ledger env index downloads uploads base b s _ accept
      hlog (by simp [downloadInFlight, hw]) hL
  · rw [fileDownloadedErrorCallback_eq _ _ hi]
    simp only [completedUpload, List.append_nil]
    exact errorCallback_ledger env index downloads uploads base b s _ hlog hL
  · rename_i hw
    exact fileUploadedCallback_ledger env index downloads uploads base b s _ accept
      hlog (by simp [uploadPhase, hw]) hL
  · rw [fileUploadedErrorCallback_eq _ _ hi]
    simp only [completedUpload, List.append_nil]
    exact errorCallback_ledger env index downloads uploads base b s _ hlog hL
  · rename_i hw
    exact fileUploadedCallback_ledger env index downloads uploads base b s _ accept
      hlog (by simp [uploadPhase, hw]) hL
  · rw [fileUploadedErrorCallback_eq _ _ hi]
    simp only [completedUpload, List.append_nil]
    exact errorCallback_ledger env index downloads uploads base b s _ hlog hL

theorem uploadResults_cons (env : Env) (s s1 : SavesSyncRequest) (ev : Event) (accept : Bool)
    (rest : List (Event × Bool)) (h : deliver env s ev accept = some s1) :
    uploadResults env s ((ev, accept) :: rest)
      = completedUpload s ev ++ uploadResults env s1 rest := by
  simp [uploadResults, h]

theorem run_ledger (env : Env) (index : HashMap Nat) (downloads : List StorageFile)
    (uploads : List String) (base : List Effect) (evs : List (Event × Bool)) (b : Books)
    (s s' : SavesSyncRequest) (hlog : s.log = base ++ b.requested)
    (hL : Ledger env index downloads uploads b s) (h : run env s evs = some s') :
    ∃ b' : Books, s'.log = base ++ b'.requested ∧
      b'.results = b.results ++ uploadResults env s evs ∧
      Ledger env index downloads uploads b' s' := by
  induction evs generalizing s b with
  | nil =>
    simp only [run, Option.some.injEq] at h
    subst h
    exact ⟨b, hlog, by simp [uploadResults], hL⟩
  | cons e rest ih =>
    obtain ⟨ev, accept⟩ := e
    simp only [run] at h
    cases hd : deliver env s ev accept with
    | none => simp [hd] at h
    | some s1 =>
      simp only [hd] at h
      obtain ⟨b1, h1, h2, h3⟩ := deliver_ledger env index downloads uploads base b s s1 ev
        accept hlog hL hd
      obtain ⟨b2, h4, h5, h6⟩ := ih b1 s1 h1 h3 h
      refine ⟨b2, h4, ?_, h6⟩
      rw [h5, h2, uploadResults_cons env s s1 ev accept rest hd, List.append_assoc]

theorem directoryListedCallback_ledger (env : Env) (s : SavesSyncRequest)
    (response : ListDirectoryResponse) (accept : Bool) (hi : s.ignoreCallback = false) :
    ∃ b : Books,
      (directoryListedCallback env s response accept).log = s.log ++ b.requested ∧
      b.results = [] ∧
      Ledger env s.localFilesTimestamps (diffPhase env s response).filesToDownload
        (diffPhase env s response).filesToUpload b
        (directoryListedCallback env s response accept) := by
  obtain ⟨totalSize, hsize⟩ := diffPhase_log env s response
  have hL : Ledger env s.localFilesTimestamps (diffPhase env s response).filesToDownload
      (diffPhase env s response).filesToUpload
      { requested := [Effect.setStorageUsedSpace totalSize], downloaded := [], uploaded := [],
        completed := [], results := [] }
      { diffPhase env s response with workingRequest := none } :=
    ⟨hi, rfl,
      ⟨rfl, rfl, rfl, by simp, by simp, fun _ => by simp⟩,
      fun hc => by simp [downloadInFlight] at hc,
      fun hc => by simp [uploadPhase] at hc,
      fun _ => rfl,
      fun _ => by simp [downloadInFlight],
      fun _ => by simp [uploadPhase],
      fun hc => by simp [downloadInFlight] at hc⟩
  rw [directoryListedCallback_eq env s response accept hi]
  split_ifs
  · exact uploadNextFile_ledger env _ _ _ s.log _
      { diffPhase env s response with workingRequest := none } accept rfl hsize hL
  · exact downloadNextFile_ledger env _ _ _ s.log _
      { diffPhase env s response with workingRequest := none } accept rfl hsize hL ⟨rfl, rfl⟩

theorem ledger_after_listing (env : Env) (s s' : SavesSyncRequest)
    (response : ListDirectoryResponse) (accept : Bool) (post : List (Event × Bool))
    (hi : s.ignoreCallback = false)
    (hpost : run env (directoryListedCallback env s response accept) post = some s') :
    ∃ b : Books, s'.log = s.log ++ b.requested ∧
      b.results = uploadResults env (directoryListedCallback env s response accept) post ∧
      Ledger env s.localFilesTimestamps (diffPhase env s response).filesToDownload
        (diffPhase env s response).filesToUpload b s' := by
  obtain ⟨b0, h1, h2, h3⟩ := directoryListedCallback_ledger env s response accept hi
  obtain ⟨b, h4, h5, h6⟩ := run_ledger env _ _ _ s.log post b0 _ s' h1 h3 hpost
  refine ⟨b, h4, ?_, h6⟩
  rw [h5, h2, List.nil_append]

theorem ledger_of_success (env : Env) (s s' : SavesSyncRequest)
    (response : ListDirectoryResponse) (accept : Bool) (post : List (Event × Bool))
    (hinv : Inv s) (hq : Quiet s.log) (hl : listingPhase s = true)
    (hpost : run env (directoryListedCallback env s response accept) post = some s')
    (hsucc : succeeded s') :
    ∃ b : Books, s'.log = s.log ++ b.requested ∧
      b.results = uploadResults env (directoryListedCallback env s response accept) post ∧
      LedgerCore env (diffPhase env s response).filesToDownload
        (diffPhase env s response).filesToUpload b [] [] ∧
      b.downloaded = (diffPhase env s response).filesToDownload.reverse ∧
      b.uploaded = (diffPhase env s response).filesToUpload.reverse ∧
      b.completed = b.downloaded ∧
      b.results.map Prod.fst = b.uploaded ∧
      s'.localFilesTimestamps
        = (b.completed.map indexEntry ++ b.results).foldl writeIndex s.localFilesTimestamps := by
  obtain ⟨b, h1, h2, hL⟩ := ledger_after_listing env s s' response accept post hinv.ignore hpost
  have hinv' : Inv s' :=
    run_inv env post _ s' (directoryListedCallback_inv env s response accept hinv hl) hpost
  have hout' : Outcome env s' :=
    run_outcome env post _ s' (directoryListedCallback_inv env s response accept hinv hl)
      (directoryListedCallback_outcome env s response accept hinv.ignore hq) hpost
  obtain ⟨hwr, hdq, huq, _⟩ := hinv'.done hsucc
  have hun : b.unfailed := by
    rcases hout'.ended hwr with ⟨_, hno, _⟩ | ⟨hno, _⟩
    · obtain ⟨date, hdate⟩ := hsucc
      have : Effect.setStorageLastSync date ∈ s'.log.filter Effect.isSetStorageLastSync :=
        List.mem_filter.2 ⟨hdate, rfl⟩
      rw [hno] at this
      simp at this
    · unfold Books.unfailed
      rw [h1, List.filter_append] at hno
      exact (List.append_eq_nil.1 hno).2
  have hf : downloadInFlight s' = false := by simp [downloadInFlight, hwr]
  have hu : uploadPhase s' = false := by simp [uploadPhase, hwr]
  have hcore := hL.core
  rw [hdq, huq] at hcore
  have hd := hcore.drained hun
  have hup := hcore.queuedUploads
  rw [List.nil_append] at hd hup
  have hcd := hL.completedDownloads hun
  have hcu := hL.completedUploads hun
  rw [hf] at hcd
  rw [hu] at hcu
  simp only [Bool.false_eq_true, if_false, List.append_nil] at hcd hcu
  refine ⟨b, h1, h2, hcore, ?_, ?_, hcd.symm, hcu.symm, hL.written hun⟩
  · rw [hd, List.reverse_reverse]
  · rw [hup, List.reverse_reverse]

theorem listing_state_of_run (env : Env) (loaded : HashMap Nat) (accept0 : Bool)
    (pre : List (Event × Bool)) (s : SavesSyncRequest)
    (hpre : run env (SavesSyncRequest.create env loaded accept0) pre = some s)
    (hl : listingPhase s = true) : Inv s ∧ Quiet s.log := by
  have hinv : Inv s := run_inv env pre _ s (create_inv env loaded accept0) hpre
  have hout : Outcome env s :=
    run_outcome env pre _ s (create_inv env loaded accept0) (create_outcome env loaded accept0)
      hpre
  refine ⟨hinv, hout.running ?_⟩
  intro hwr
  simp [listingPhase, hwr] at hl

/-- Success after the diff: the download requests issued after the diff are those of the
download queue the diff computed, in the reverse order of the queue, the upload requests
those of the upload queue, and their number is `totalFilesToHandle`. -/
theorem transferred_once_after_diff (env : Env) (loaded : HashMap Nat) (accept0 : Bool)
    (pre : List (Event × Bool)) (s : SavesSyncRequest) (response : ListDirectoryResponse)
    (accept : Bool) (post : List (Event × Bool)) (s' : SavesSyncRequest)
    (hpre : run env (SavesSyncRequest.create env loaded accept0) pre = some s)
    (hl : listingPhase s = true)
    (hpost : run env (directoryListedCallback env s response accept) post = some s')
    (hsucc : succeeded s') :
    ∃ (ext : List Effect) (downloaded : List StorageFile) (uploaded : List String),
      s'.log = s.log ++ ext ∧
      ext.filter Effect.isDownloadRequest = downloaded.map (downloadRequest env) ∧
      ext.filter Effect.isUploadRequest = uploaded.map (uploadRequest env) ∧
      downloaded = (diffPhase env s response).filesToDownload.reverse ∧
      uploaded = (diffPhase env s response).filesToUpload.reverse ∧
      downloaded.Perm (diffPhase env s response).filesToDownload ∧
      uploaded.Perm (diffPhase env s response).filesToUpload ∧
      ext.countP Effect.isRequest = (diffPhase env s response).totalFilesToHandle ∧
      s'.totalFilesToHandle = (diffPhase env s response).totalFilesToHandle ∧
      s'.filesToDownload = [] ∧ s'.filesToUpload = [] := by
  obtain ⟨hinv, hq⟩ := listing_state_of_run env loaded accept0 pre s hpre hl
  obtain ⟨b, h1, _, hcore, hd, hu, _, _, _⟩ :=
    ledger_of_success env s s' response accept post hinv hq hl hpost hsucc
  have h3 := directoryListedCallback_shrinks env s response accept hinv.ignore
  have h4 := run_shrinks env post _ s' (h3.phase (by simp [listingPhase])) hpost
  have hinv' : Inv s' :=
    run_inv env post _ s' (directoryListedCallback_inv env s response accept hinv hl) hpost
  obtain ⟨_, hdq, huq, _⟩ := hinv'.done hsucc
  refine ⟨b.requested, b.downloaded, b.uploaded, h1, hcore.downloadRequests,
    hcore.uploadRequests, hd, hu, ?_, ?_, ?_, ?_, hdq, huq⟩
  · rw [hd]
    exact List.reverse_perm _
  · rw [hu]
    exact List.reverse_perm _
  · rw [hcore.requests, hd, hu, diffPhase_totalFilesToHandle]
    simp
  · rw [h4.total, h3.total]

/-- With pairwise distinct names of the non-directory files of the listing, the names of
the download queue followed by the upload queue the diff computes have no duplicate. -/
theorem diffPhase_queues_nodup (env : Env) (s : SavesSyncRequest)
    (response : ListDirectoryResponse)
    (hd : s.filesToDownload = []) (hu : s.filesToUpload = [])
    (hnodup : ((response.value.filter (fun f => !f.isDirectory)).map StorageFile.name).Nodup) :
    ((diffPhase env s response).filesToDownload.map StorageFile.name
      ++ (diffPhase env s response).filesToUpload).Nodup := by
  have hclash := diffPhase_noClash env s response hd hu hnodup
  rw [List.nodup_append]
  refine ⟨?_, ?_, ?_⟩
  · rw [diffPhase_filesToDownload, hd, List.nil_append]
    refine List.Nodup.sublist (List.Sublist.map _ ?_) hnodup
    apply List.monotone_filter_right
    intro f hf
    simp only [remoteDownload, Bool.and_eq_true] at hf
    exact hf.1.1
  · rw [diffPhase_filesToUpload, hu, List.nil_append, List.nodup_append]
    refine ⟨?_, nodup_localOnly env _ _, ?_⟩
    · refine List.Nodup.sublist (List.Sublist.map _ ?_) hnodup
      apply List.monotone_filter_right
      intro f hf
      simp only [remoteUpload, seenRemotely, Bool.and_eq_true] at hf
      exact hf.1.1.1.1
    · intro n hn hloc
      obtain ⟨f, hf, hname⟩ := List.mem_map.1 hn
      obtain ⟨hf1, hf2⟩ := List.mem_filter.1 hf
      simp only [remoteUpload, Bool.and_eq_true] at hf2
      exact ((mem_localOnly env _ _ n).1 hloc).2.2 f hf1 hf2.1.1 hname
  · intro n hn hup
    obtain ⟨d, hdm, hname⟩ := List.mem_map.1 hn
    rw [← hname] at hup
    exact hclash d hdm hup

/-- After the diff of a listing whose non-directory files have pairwise distinct names,
the requested descriptors and names and the queues are disjoint and without duplicates. -/
theorem exclusive_after_diff (env : Env) (loaded : HashMap Nat)
    (accept0 : Bool) (pre : List (Event × Bool)) (s : SavesSyncRequest)
    (response : ListDirectoryResponse) (accept : Bool) (post : List (Event × Bool))
    (s' : SavesSyncRequest)
    (hpre : run env (SavesSyncRequest.create env loaded accept0) pre = some s)
    (hl : listingPhase s = true)
    (hpost : run env (directoryListedCallback env s response accept) post = some s')
    (hnodup : ((response.value.filter (fun f => !f.isDirectory)).map StorageFile.name).Nodup) :
    ∃ (ext : List Effect) (downloaded : List StorageFile) (uploaded : List String),
      s'.log = s.log ++ ext ∧
      ext.filter Effect.isDownloadRequest = downloaded.map (downloadRequest env) ∧
      ext.filter Effect.isUploadRequest = uploaded.map (uploadRequest env) ∧
      (downloadInFlight s' = true →
        s'.currentDownloadingFile ∈ downloaded ∧
        s'.currentDownloadingFile.name ∉ s'.filesToDownload.map StorageFile.name) ∧
      (uploadPhase s' = true →
        s'.currentUploadingFile ∈ uploaded ∧ s'.currentUploadingFile ∉ s'.filesToUpload) ∧
      (∀ f ∈ downloaded,
        f.name ∉ s'.filesToDownload.map StorageFile.name ∧ f.name ∉ s'.filesToUpload) ∧
      (∀ n ∈ uploaded,
        n ∉ s'.filesToDownload.map StorageFile.name ∧ n ∉ s'.filesToUpload) ∧
      (downloaded.map StorageFile.name ++ uploaded).Nodup ∧
      (s'.filesToDownload.map StorageFile.name ++ s'.filesToUpload).Nodup := by
  obtain ⟨hinv, _⟩ := listing_state_of_run env loaded accept0 pre s hpre hl
  obtain ⟨hd, hu, _, _⟩ := hinv.fresh hl
  obtain ⟨b, h1, _, hL⟩ := ledger_after_listing env s s' response accept post hinv.ignore hpost
  have hN := diffPhase_queues_nodup env s response hd hu hnodup
  have hsub : ((s'.filesToDownload ++ b.downloaded.reverse).map StorageFile.name
      ++ (s'.filesToUpload ++ b.uploaded.reverse)).Sublist
      ((diffPhase env s response).filesToDownload.map StorageFile.name
        ++ (diffPhase env s response).filesToUpload) := by
    rw [← hL.core.queuedUploads]
    exact List.Sublist.append (List.Sublist.map _ hL.core.queuedDownloads)
      (List.Sublist.refl _)
  have hN' := List.Nodup.sublist hsub hN
  simp only [List.map_append, List.map_reverse, List.nodup_append, List.nodup_reverse,
    List.disjoint_left, List.mem_append, List.mem_reverse] at hN'
  obtain ⟨⟨hq1, hq2, hq3⟩, ⟨hq4, hq5, hq6⟩, hq7⟩ := hN'
  have hfd : ∀ f ∈ b.downloaded,
      f.name ∉ s'.filesToDownload.map StorageFile.name ∧ f.name ∉ s'.filesToUpload := by
    intro f hf
    have hfn : f.name ∈ b.downloaded.map StorageFile.name := List.mem_map_of_mem _ hf
    exact ⟨fun hc => hq3 hc hfn, fun hc => hq7 (Or.inr hfn) (Or.inl hc)⟩
  have hfu : ∀ n ∈ b.uploaded,
      n ∉ s'.filesToDownload.map StorageFile.name ∧ n ∉ s'.filesToUpload :=
    fun n hn => ⟨fun hc => hq7 (Or.inl hc) (Or.inr hn), fun hc => hq6 hc hn⟩
  refine ⟨b.requested, b.downloaded, b.uploaded, h1, hL.core.downloadRequests,
    hL.core.uploadRequests, ?_, ?_, hfd, hfu, ?_, ?_⟩
  · intro hfl
    have hm := List.mem_of_getLast?_eq_some (hL.downloading hfl)
    exact ⟨hm, (hfd _ hm).1⟩
  · intro hup
    have hm := List.mem_of_getLast?_eq_some (hL.uploading hup)
    exact ⟨hm, (hfu _ hm).2⟩
  · rw [List.nodup_append]
    exact ⟨hq2, hq5, fun n hn hn' => hq7 (Or.inr hn) (Or.inr hn')⟩
  · rw [List.nodup_append]
    exact ⟨hq1, hq4, fun n hn hn' => hq7 (Or.inl hn) (Or.inl hn')⟩

theorem find_foldl_writeIndex_of_not_mem (entries : List (String × Nat)) (m : HashMap Nat)
    (k : String) (h : k ∉ entries.map Prod.fst) :
    HashMap.find (entries.foldl writeIndex m) k = HashMap.find m k := by
  induction entries generalizing m with
  | nil => rfl
  | cons e rest ih =>
    simp only [List.map_cons, List.mem_cons, not_or] at h
    rw [List.foldl_cons, ih _ h.2, writeIndex, HashMap.find_assign, if_neg (fun hc => h.1 hc.symm)]

theorem find_foldl_writeIndex_of_mem (entries : List (String × Nat)) (m : HashMap Nat)
    (k : String) (v : Nat) (hn : (entries.map Prod.fst).Nodup) (h : (k, v) ∈ entries) :
    HashMap.find (entries.foldl writeIndex m) k = some v := by
  induction entries generalizing m with
  | nil => simp at h
  | cons e rest ih =>
    simp only [List.map_cons, List.nodup_cons] at hn
    rw [List.foldl_cons]
    rcases List.mem_cons.1 h with he | hr
    · subst he
      rw [find_foldl_writeIndex_of_not_mem _ _ _ hn.1, writeIndex, HashMap.find_assign,
        if_pos rfl]
    · exact ih _ hn.2 hr

theorem mem_keys_foldl_writeIndex (entries : List (String × Nat)) (m : HashMap Nat)
    (k : String) (h : k ∈ HashMap.keys (entries.foldl writeIndex m)) :
    k ∈ HashMap.keys m ∨ k ∈ entries.map Prod.fst := by
  induction entries generalizing m with
  | nil => exact Or.inl h
  | cons e rest ih =>
    rw [List.foldl_cons] at h
    rcases ih _ h with h1 | h1
    · rcases (HashMap.mem_keys_assign m e.1 k e.2).1 h1 with h2 | h2
      · exact Or.inr (by simp [h2])
      · exact Or.inl h2
    · exact Or.inr (by simp [h1])

theorem mem_of_find {V : Type} (m : HashMap V) (k : String) (v : V)
    (h : HashMap.find m k = some v) : (k, v) ∈ m := by
  induction m with
  | nil => simp [HashMap.find] at h
  | cons e rest ih =>
    obtain ⟨k0, v0⟩ := e
    by_cases h0 : k0 = k
    · simp only [HashMap.find, h0, if_true, Option.some.injEq] at h
      simp [h0, h]
    · simp only [HashMap.find, h0, if_false] at h
      exact List.mem_cons_of_mem _ (ih h)

theorem not_mem_keys_of_find {V : Type} (m : HashMap V) (k : String)
    (h : HashMap.find m k = none) : k ∉ m.map Prod.fst := by
  intro hc
  have := (HashMap.contains_iff_mem_keys m k).2 hc
  simp [HashMap.contains, h] at this

theorem updatedFile_name (results : HashMap Nat) (file : StorageFile) :
    (updatedFile results file).name = file.name := by
  unfold updatedFile
  split_ifs
  · rfl
  · cases HashMap.find results file.name <;> rfl

theorem updatedFile_isDirectory (results : HashMap Nat) (file : StorageFile) :
    (updatedFile results file).isDirectory = file.isDirectory := by
  unfold updatedFile
  split_ifs
  · rfl
  · cases HashMap.find results file.name <;> rfl

theorem mem_diffPhase_filesToDownload (env : Env) (s : SavesSyncRequest)
    (response : ListDirectoryResponse) (hd : s.filesToDownload = []) (f : StorageFile) :
    f ∈ (diffPhase env s response).filesToDownload ↔
      f ∈ response.value ∧ remoteDownload env s.localFilesTimestamps f = true := by
  rw [diffPhase_filesToDownload, hd, List.nil_append, List.mem_filter]

theorem mem_diffPhase_filesToUpload (env : Env) (s : SavesSyncRequest)
    (response : ListDirectoryResponse) (hu : s.filesToUpload = []) (n : String) :
    n ∈ (diffPhase env s response).filesToUpload ↔
      (∃ f ∈ response.value, remoteUpload env s.localFilesTimestamps f = true ∧ f.name = n) ∨
        n ∈ localOnly env s.localFilesTimestamps response.value := by
  rw [diffPhase_filesToUpload, hu, List.nil_append, List.mem_append, List.mem_map]
  simp only [List.mem_filter, and_assoc]

/-- After a successful run every syncable non-directory file of the updated listing has
its timestamp in the final index. -/
theorem updatedListing_indexed (env : Env) (s : SavesSyncRequest)
    (response : ListDirectoryResponse) (results : List (String × Nat))
    (hd : s.filesToDownload = []) (hu : s.filesToUpload = [])
    (hnodup : ((response.value.filter (fun f => !f.isDirectory)).map StorageFile.name).Nodup)
    (hres : results.map Prod.fst = (diffPhase env s response).filesToUpload.reverse)
    (f' : StorageFile) (hmem : f' ∈ updatedListing response.value results)
    (hdir : f'.isDirectory = false) (hsync : syncable env f'.name = true) :
    HashMap.find
        (((diffPhase env s response).filesToDownload.reverse.map indexEntry
          ++ results).foldl writeIndex s.localFilesTimestamps) f'.name
      = some f'.timestamp := by
  have hN := diffPhase_queues_nodup env s response hd hu hnodup
  rw [List.nodup_append] at hN
  obtain ⟨hND, hNU, _⟩ := hN
  have hrn : (results.map Prod.fst).Nodup := by
    rw [hres]
    exact List.nodup_reverse.2 hNU
  have hdn : (((diffPhase env s response).filesToDownload.reverse.map indexEntry).map
      Prod.fst).Nodup := by
    rw [List.map_map]
    have : (Prod.fst ∘ indexEntry) = StorageFile.name := rfl
    rw [this, List.map_reverse]
    exact List.nodup_reverse.2 hND
  rw [List.foldl_append]
  unfold updatedListing at hmem
  rcases List.mem_append.1 hmem with h | h
  · obtain ⟨f, hf, hff⟩ := List.mem_map.1 h
    have hname : f'.name = f.name := by rw [← hff, updatedFile_name]
    have hfdir : f.isDirectory = false := by rw [← hdir, ← hff, updatedFile_isDirectory]
    rw [hname] at hsync ⊢
    cases hfind : HashMap.find results f.name with
    | some ts =>
      have hts : f'.timestamp = ts := by
        rw [← hff]
        simp [updatedFile, hfdir, hfind]
      rw [hts]
      exact find_foldl_writeIndex_of_mem _ _ _ _ hrn (mem_of_find _ _ _ hfind)
    | none =>
      have hts : f' = f := by
        rw [← hff]
        simp [updatedFile, hfdir, hfind]
      rw [hts]
      have hnr := not_mem_keys_of_find _ _ hfind
      rw [find_foldl_writeIndex_of_not_mem _ _ _ hnr]
      by_cases hfD : f ∈ (diffPhase env s response).filesToDownload
      · exact find_foldl_writeIndex_of_mem _ _ _ _ hdn
          (List.mem_map.2 ⟨f, List.mem_reverse.2 hfD, rfl⟩)
      · have hnd : f.name ∉ ((diffPhase env s response).filesToDownload.reverse.map
            indexEntry).map Prod.fst := by
          intro hc
          obtain ⟨e, he, hen⟩ := List.mem_map.1 hc
          obtain ⟨g, hg, hge⟩ := List.mem_map.1 he
          have hgD := List.mem_reverse.1 hg
          have hg2 := (mem_diffPhase_filesToDownload env s response hd g).1 hgD
          have hgdir : g.isDirectory = false := by
            have := hg2.2
            simp only [remoteDownload, Bool.and_eq_true, Bool.not_eq_true'] at this
            exact this.1.1
          have hgf : g = f := by
            apply List.inj_on_of_nodup_map hnodup
            · exact List.mem_filter.2 ⟨hg2.1, by simp [hgdir]⟩
            · exact List.mem_filter.2 ⟨hf, by simp [hfdir]⟩
            · rw [← hen, ← hge]
              rfl
          rw [hgf] at hgD
          exact hfD hgD
        rw [find_foldl_writeIndex_of_not_mem _ _ _ hnd]
        have hnotD : remoteDownload env s.localFilesTimestamps f = false := by
          cases hrd : remoteDownload env s.localFilesTimestamps f
          · rfl
          · exact absurd ((mem_diffPhase_filesToDownload env s response hd f).2 ⟨hf, hrd⟩) hfD
        have hnotU : remoteUpload env s.localFilesTimestamps f = false := by
          cases hru : remoteUpload env s.localFilesTimestamps f
          · rfl
          · exfalso
            apply hnr
            rw [hres, List.mem_reverse]
            exact (mem_diffPhase_filesToUpload env s response hu f.name).2
              (Or.inl ⟨f, hf, hru, rfl⟩)
        simp only [remoteDownload, remoteUpload, seenRemotely, hfdir, hsync, Bool.not_false,
          Bool.true_and, Bool.and_true] at hnotD hnotU
        cases hfl : HashMap.find s.localFilesTimestamps f.name with
        | none =>
          simp [HashMap.contains, hfl] at hnotD
        | some v =>
          obtain ⟨hgv, hcv⟩ := getVal_of_find _ _ _ hfl
          rw [hgv, hcv] at hnotD hnotU
          simp only [localWins, hgv] at hnotD hnotU
          by_cases hvt : v = f.timestamp
          · rw [hvt]
          · exfalso
            cases hlw : (decide (v > f.timestamp) || decide (v = env.INVALID_TIMESTAMP))
            · rw [hlw] at hnotD
              simp [hvt] at hnotD
            · rw [hlw] at hnotU
              simp [hvt] at hnotU
  · obtain ⟨e, he, hef⟩ := List.mem_map.1 h
    have he2 := (List.mem_filter.1 he).1
    rw [← hef]
    exact find_foldl_writeIndex_of_mem _ _ _ _ hrn he2

/-- After a successful run every syncable name of the final index is the name of a
non-directory file of the updated listing. -/
theorem updatedListing_covers (env : Env) (s : SavesSyncRequest)
    (response : ListDirectoryResponse) (results : List (String × Nat))
    (hd : s.filesToDownload = []) (hu : s.filesToUpload = [])
    (hres : results.map Prod.fst = (diffPhase env s response).filesToUpload.reverse)
    (k : String) (hsync : syncable env k = true)
    (hk : HashMap.contains
        (((diffPhase env s response).filesToDownload.reverse.map indexEntry
          ++ results).foldl writeIndex s.localFilesTimestamps) k = true) :
    ∃ f' ∈ updatedListing response.value results, f'.isDirectory = false ∧ f'.name = k := by
  unfold updatedListing
  by_cases hex : ∃ f ∈ response.value, f.isDirectory = false ∧ f.name = k
  · obtain ⟨f, hf, hfdir, hfname⟩ := hex
    exact ⟨updatedFile results f, List.mem_append_left _ (List.mem_map_of_mem _ hf),
      by rw [updatedFile_isDirectory, hfdir], by rw [updatedFile_name, hfname]⟩
  · have hno : ∀ f ∈ response.value, f.isDirectory = false → f.name ≠ k :=
      fun f hf hfdir hfname => hex ⟨f, hf, hfdir, hfname⟩
    have hkr : k ∈ results.map Prod.fst := by
      rcases mem_keys_foldl_writeIndex _ _ _ ((HashMap.contains_iff_mem_keys _ _).1 hk)
        with h | h
      · rw [hres, List.mem_reverse]
        apply (mem_diffPhase_filesToUpload env s response hu k).2
        right
        apply (mem_localOnly env _ _ k).2
        refine ⟨hsync, (HashMap.contains_iff_mem_keys _ _).2 h, ?_⟩
        intro f hf hseen
        simp only [seenRemotely, Bool.and_eq_true, Bool.not_eq_true'] at hseen
        exact hno f hf hseen.1.1
      · rw [List.map_append, List.mem_append] at h
        rcases h with h | h
        · exfalso
          obtain ⟨e, he, hen⟩ := List.mem_map.1 h
          obtain ⟨g, hg, hge⟩ := List.mem_map.1 he
          have hg2 := (mem_diffPhase_filesToDownload env s response hd g).1
            (List.mem_reverse.1 hg)
          have hgdir : g.isDirectory = false := by
            have := hg2.2
            simp only [remoteDownload, Bool.and_eq_true, Bool.not_eq_true'] at this
            exact this.1.1
          apply hno g hg2.1 hgdir
          rw [← hen, ← hge]
          rfl
        · exact h
    obtain ⟨e, he, hek⟩ := List.mem_map.1 hkr
    refine ⟨uploadedFile e, List.mem_append_right _ (List.mem_map_of_mem _
      (List.mem_filter.2 ⟨he, ?_⟩)), rfl, hek⟩
    simp only [Bool.not_eq_true', List.any_eq_false, Bool.and_eq_true, Bool.not_eq_true',
      decide_eq_true_eq, not_and]
    intro f hf hfdir
    rw [hek]
    exact hno f hf hfdir

/-- The diff of the final index against the updated listing queues nothing. -/
theorem diffPhase_fixed_point (env : Env) (s t : SavesSyncRequest)
    (response : ListDirectoryResponse) (results : List (String × Nat))
    (request : Option String)
    (hd : s.filesToDownload = []) (hu : s.filesToUpload = [])
    (hnodup : ((response.value.filter (fun f => !f.isDirectory)).map StorageFile.name).Nodup)
    (hres : results.map Prod.fst = (diffPhase env s response).filesToUpload.reverse)
    (hidx : t.localFilesTimestamps =
      ((diffPhase env s response).filesToDownload.reverse.map indexEntry
        ++ results).foldl writeIndex s.localFilesTimestamps)
    (htd : t.filesToDownload = []) (htu : t.filesToUpload = []) :
    (diffPhase env t
        { request := request, value := updatedListing response.value results }).filesToDownload
      = [] ∧
    (diffPhase env t
        { request := request, value := updatedListing response.value results }).filesToUpload
      = [] := by
  have hA : ∀ f' ∈ updatedListing response.value results, f'.isDirectory = false →
      syncable env f'.name = true →
      HashMap.getVal t.localFilesTimestamps f'.name = f'.timestamp ∧
        HashMap.contains t.localFilesTimestamps f'.name = true := by
    intro f' hf' hdir hsync
    apply getVal_of_find
    rw [hidx]
    exact updatedListing_indexed env s response results hd hu hnodup hres f' hf' hdir hsync
  constructor
  · rw [diffPhase_filesToDownload, htd, List.nil_append, List.filter_eq_nil_iff]
    intro f' hf' hrd
    simp only [remoteDownload, Bool.and_eq_true, Bool.not_eq_true'] at hrd
    obtain ⟨hg, hc⟩ := hA f' hf' hrd.1.1 hrd.1.2
    have := hrd.2
    simp [hg, hc] at this
  · rw [diffPhase_filesToUpload, htu, List.nil_append, List.append_eq_nil, List.map_eq_nil_iff,
      List.filter_eq_nil_iff]
    constructor
    · intro f' hf' hru
      simp only [remoteUpload, seenRemotely, Bool.and_eq_true, Bool.not_eq_true'] at hru
      obtain ⟨hg, _⟩ := hA f' hf' hru.1.1.1.1 hru.1.1.1.2
      have := hru.1.2
      simp [hg] at this
    · rw [List.eq_nil_iff_forall_not_mem]
      intro k hk
      obtain ⟨hsync, hcont, hnone⟩ := (mem_localOnly env _ _ k).1 hk
      rw [hidx] at hcont
      obtain ⟨f', hf', hdir, hname⟩ :=
        updatedListing_covers env s response results hd hu hres k hsync hcont
      apply hnone f' hf' _ hname
      rw [← hidx] at hcont
      simp [seenRemotely, hdir, hname, hsync, hcont]

theorem run_of_idle (env : Env) (s s' : SavesSyncRequest) (evs : List (Event × Bool))
    (hwr : s.workingRequest = none) (h : run env s evs = some s') : s' = s := by
  cases evs with
  | nil =>
    simp only [run, Option.some.injEq] at h
    exact h.symm
  | cons e rest =>
    obtain ⟨ev, accept⟩ := e
    simp [run, deliver_none_of_idle env s ev accept hwr] at h

theorem beforeDiff_of_listingPhase (s : SavesSyncRequest) (hinv : Inv s)
    (hl : listingPhase s = true)
    (hreq : s.log.filter Effect.isDownloadRequest = [] ∧
      s.log.filter Effect.isUploadRequest = []) : BeforeDiff s := by
  obtain ⟨hd, hu, _, _⟩ := hinv.fresh hl
  refine ⟨⟨hd, hu⟩, ?_, hreq, ?_⟩
  · unfold listingPhase at hl
    unfold downloadInFlight uploadPhase
    cases hw : s.workingRequest with
    | none => simp
    | some op => cases op <;> simp [hw] at hl ⊢
  · intro hs
    have := (hinv.done hs).1
    simp [listingPhase, this] at hl

theorem finishError_beforeDiff (t : SavesSyncRequest) (error : ErrorResponse)
    (hwr : t.workingRequest = none) (hu : t.filesToUpload = [])
    (hreq : t.log.filter Effect.isDownloadRequest = [] ∧
      t.log.filter Effect.isUploadRequest = [])
    (hns : ¬ succeeded t) : BeforeDiff (finishError t error) := by
  have hw := finishError_workingRequest t error
  refine ⟨⟨finishError_filesToDownload t error, by rw [finishError_filesToUpload, hu]⟩,
    ⟨by simp [downloadInFlight, hw], by simp [uploadPhase, hw]⟩, ?_,
    finishError_not_succeeded t error hns⟩
  rw [finishError_eq t error hwr]
  dsimp only
  constructor
  · rw [List.filter_append, List.filter_append, hreq.1]
    split_ifs <;> simp [Effect.isDownloadRequest]
  · rw [List.filter_append, List.filter_append, hreq.2]
    split_ifs <;> simp [Effect.isUploadRequest]

/-- A run from a state in which the listing or the directory creation is in flight: either
no listing has been diffed when it ends, or it consists of a run to a state `s` in which
no listing has been diffed, the completion that makes `directoryListedCallback` run on
`s` (a listing, or a created directory, which stands for the empty listing), and a run
from the state that handler leaves. -/
theorem run_before_or_after_diff (env : Env) (evs : List (Event × Bool))
    (s0 s' : SavesSyncRequest) (hinv : Inv s0) (hl : listingPhase s0 = true)
    (hreq : s0.log.filter Effect.isDownloadRequest = [] ∧
      s0.log.filter Effect.isUploadRequest = [])
    (hrun : run env s0 evs = some s') :
    BeforeDiff s' ∨
    ∃ (pre : List (Event × Bool)) (ev : Event) (accept : Bool) (post : List (Event × Bool))
      (s : SavesSyncRequest) (response : ListDirectoryResponse),
      evs = pre ++ (ev, accept) :: post ∧
      run env s0 pre = some s ∧
      listingPhase s = true ∧
      BeforeDiff s ∧
      (ev = Event.directoryListed response ∨ response.value = []) ∧
      deliver env s ev accept = some (directoryListedCallback env s response accept) ∧
      run env (directoryListedCallback env s response accept) post = some s' := by
  induction evs generalizing s0 with
  | nil =>
    simp only [run, Option.some.injEq] at hrun
    subst hrun
    exact Or.inl (beforeDiff_of_listingPhase _ hinv hl hreq)
  | cons e rest ih =>
    obtain ⟨ev, accept⟩ := e
    simp only [run] at hrun
    have hb0 := beforeDiff_of_listingPhase _ hinv hl hreq
    have hi := hinv.ignore
    have hterminal : ∀ (t : SavesSyncRequest) (error : ErrorResponse),
        run env (finishError t error) rest = some s' →
        t.workingRequest = none → t.filesToUpload = [] →
        (t.log.filter Effect.isDownloadRequest = [] ∧
          t.log.filter Effect.isUploadRequest = []) → ¬ succeeded t → BeforeDiff s' := by
      intro t error hrest hwr hu hr hns
      rw [run_of_idle env _ s' rest (finishError_workingRequest t error) hrest]
      exact finishError_beforeDiff t error hwr hu hr hns
    cases hd : deliver env s0 ev accept with
    | none => simp [hd] at hrun
    | some s1 =>
      simp only [hd] at hrun
      cases hw : s0.workingRequest with
      | none => simp [deliver, hw] at hd
      | some op =>
        cases op with
        | listDirectory dir =>
          cases ev <;> simp [deliver, hw] at hd
          · rename_i response
            subst hd
            exact Or.inr ⟨[], Event.directoryListed response, accept, rest, s0, response, rfl,
              rfl, hl, hb0, Or.inl rfl, by simp [deliver, hw], hrun⟩
          · rename_i error
            subst hd
            by_cases hirr : listingErrorIrrecoverable env error = true
            · rw [directoryListedErrorCallback_irrecoverable env s0 error accept hi hirr]
                at hrun
              exact Or.inl (hterminal _ error hrun rfl hb0.queued.2 hb0.requested hb0.running)
            · have hrec : listingErrorIrrecoverable env error = false := by
                simpa using hirr
              cases accept
              · rw [directoryListedErrorCallback_refuse env s0 error hi hrec] at hrun
                refine Or.inl (hterminal _ _ hrun rfl hb0.queued.2 ?_ ?_)
                · constructor
                  · show (s0.log ++ [_]).filter _ = []
                    rw [List.filter_append, hb0.requested.1]
                    rfl
                  · show (s0.log ++ [_]).filter _ = []
                    rw [List.filter_append, hb0.requested.2]
                    rfl
                · intro hs
                  apply hb0.running
                  obtain ⟨date, hdate⟩ := hs
                  refine ⟨date, ?_⟩
                  have : Effect.setStorageLastSync date ∈ s0.log ++ [_] := hdate
                  simpa using this
              · have hd' : deliver env s0 (Event.directoryListedError error) true
                    = some (directoryListedErrorCallback env s0 error true) := by
                  simp [deliver, hw]
                have hinv1 := deliver_inv env s0 _ _ true hinv hd'
                rw [directoryListedErrorCallback_recoverable env s0 error hi hrec]
                  at hrun hinv1 hd'
                rcases ih _ hinv1 rfl (by
                    constructor
                    · show (s0.log ++ [_]).filter _ = []
                      rw [List.filter_append, hb0.requested.1]
                      rfl
                    · show (s0.log ++ [_]).filter _ = []
                      rw [List.filter_append, hb0.requested.2]
                      rfl) hrun with h | h
                · exact Or.inl h
                · obtain ⟨pre, ev, a, post, s, response, h1, h2, h3, h4, h5, h6, h7⟩ := h
                  refine Or.inr ⟨(Event.directoryListedError error, true) :: pre, ev, a, post,
                    s, response, by rw [h1]; rfl, ?_, h3, h4, h5, h6, h7⟩
                  simp only [run, hd']
                  exact h2
        | createDirectory dir =>
          cases ev <;> simp [deliver, hw] at hd
          · rename_i response
            subst hd
            cases hok : response.value
            · rw [directoryCreatedCallback_fail env s0 response accept hi hok] at hrun
              exact Or.inl (hterminal _ _ hrun rfl hb0.queued.2 hb0.requested hb0.running)
            · rw [directoryCreatedCallback_ok env s0 response accept hi hok] at hrun
              exact Or.inr ⟨[], Event.directoryCreated response, accept, rest, s0,
                { request := response.request, value := [] }, rfl, rfl, hl, hb0, Or.inr rfl,
                by simp [deliver, hw, directoryCreatedCallback_ok env s0 response accept hi hok],
                hrun⟩
          · rename_i error
            subst hd
            rw [directoryCreatedErrorCallback_eq s0 error hi] at hrun
            exact Or.inl (hterminal _ error hrun rfl hb0.queued.2 hb0.requested hb0.running)
        | downloadById id dest => simp [listingPhase, hw] at hl
        | uploadStream path name => simp [listingPhase, hw] at hl
        | uploadPath path localPath => simp [listingPhase, hw] at hl

/-- Every run from construction: either no listing has been diffed when it ends, or it
passes through `directoryListedCallback` as `run_before_or_after_diff` says. -/
theorem run_from_create_cases (env : Env) (loaded : HashMap Nat) (accept0 : Bool)
    (evs : List (Event × Bool)) (s' : SavesSyncRequest)
    (hrun : run env (SavesSyncRequest.create env loaded accept0) evs = some s') :
    BeforeDiff s' ∨
    ∃ (pre : List (Event × Bool)) (ev : Event) (accept : Bool) (post : List (Event × Bool))
      (s : SavesSyncRequest) (response : ListDirectoryResponse),
      evs = pre ++ (ev, accept) :: post ∧
      run env (SavesSyncRequest.create env loaded accept0) pre = some s ∧
      listingPhase s = true ∧
      BeforeDiff s ∧
      (ev = Event.directoryListed response ∨ response.value = []) ∧
      deliver env s ev accept = some (directoryListedCallback env s response accept) ∧
      run env (directoryListedCallback env s response accept) post = some s' := by
  cases accept0
  · left
    unfold SavesSyncRequest.create at hrun
    rw [start_refuse] at hrun
    rw [run_of_idle env _ s' evs (finishError_workingRequest _ _) hrun]
    apply finishError_beforeDiff _ _ rfl rfl
    · exact ⟨rfl, rfl⟩
    · intro hs
      obtain ⟨date, hdate⟩ := hs
      simp at hdate
  · apply run_before_or_after_diff env evs _ s' (create_inv env loaded true) _ _ hrun
    · unfold SavesSyncRequest.create
      rw [start_accept]
      rfl
    · unfold SavesSyncRequest.create
      rw [start_accept]
      exact ⟨rfl, rfl⟩

/-! ## The claims on exclusion, the classifier, draining, progress and the fixed point -/

/-- C31: in every state of a run from construction in which every delivered listing has
pairwise distinct names of its non-directory files, the download and upload requests of
the log are those of a list of descriptors and of a list of names (the files in flight or
already processed) such that: the descriptor of the download in flight is among them and its
name is not in the download queue, the name of the upload in flight is among them and is
not in the upload queue, no requested name is in either queue, no name has been requested
twice, and no name is queued twice. -/
theorem queued_in_flight_processed_exclusive (env : Env) (loaded : HashMap Nat)
    (accept0 : Bool) (evs : List (Event × Bool)) (s' : SavesSyncRequest)
    (hrun : run env (SavesSyncRequest.create env loaded accept0) evs = some s')
    (hnodup : ∀ response ∈ listedResponses evs,
      ((response.value.filter (fun f => !f.isDirectory)).map StorageFile.name).Nodup) :
    ∃ (downloaded : List StorageFile) (uploaded : List String),
      s'.log.filter Effect.isDownloadRequest = downloaded.map (downloadRequest env) ∧
      s'.log.filter Effect.isUploadRequest = uploaded.map (uploadRequest env) ∧
      (downloadInFlight s' = true →
        s'.currentDownloadingFile ∈ downloaded ∧
        s'.currentDownloadingFile.name ∉ s'.filesToDownload.map StorageFile.name) ∧
      (uploadPhase s' = true →
        s'.currentUploadingFile ∈ uploaded ∧ s'.currentUploadingFile ∉ s'.filesToUpload) ∧
      (∀ f ∈ downloaded,
        f.name ∉ s'.filesToDownload.map StorageFile.name ∧ f.name ∉ s'.filesToUpload) ∧
      (∀ n ∈ uploaded,
        n ∉ s'.filesToDownload.map StorageFile.name ∧ n ∉ s'.filesToUpload) ∧
      (downloaded.map StorageFile.name ++ uploaded).Nodup ∧
      (s'.filesToDownload.map StorageFile.name ++ s'.filesToUpload).Nodup := by
  rcases run_from_create_cases env loaded accept0 evs s' hrun with hb |
    ⟨pre, ev, accept, post, s, response, h1, h2, h3, h4, h5, _, h7⟩
  · refine ⟨[], [], hb.requested.1, hb.requested.2, ?_, ?_, ?_, ?_, by simp, ?_⟩
    · intro hc
      rw [hb.flight.1] at hc
      exact absurd hc (by simp)
    · intro hc
      rw [hb.flight.2] at hc
      exact absurd hc (by simp)
    · intro f hf
      simp at hf
    · intro n hn
      simp at hn
    · rw [hb.queued.1, hb.queued.2]
      simp
  · have hn : ((response.value.filter (fun f => !f.isDirectory)).map
        StorageFile.name).Nodup := by
      rcases h5 with h5 | h5
      · apply hnodup
        rw [h1, h5]
        simp [listedResponses]
      · rw [h5]
        simp
    obtain ⟨ext, downloaded, uploaded, e1, e2, e3, hres⟩ :=
      exclusive_after_diff env loaded accept0 pre s response accept post s' h2 h3 h7 hn
    refine ⟨downloaded, uploaded, ?_, ?_, hres⟩
    · rw [e1, List.filter_append, h4.requested.1, List.nil_append, e2]
    · rw [e1, List.filter_append, h4.requested.2, List.nil_append, e3]

/-- An instance of C31: after the diff and the completed download of `b.sav`, the download
of `a.sav` is in flight and `a.sav` is in neither queue. -/
theorem queued_in_flight_processed_exclusive_witness :
    ∃ s' : SavesSyncRequest,
      run exampleEnv
          (SavesSyncRequest.create exampleEnv [("a.sav", 100), ("c.sav", 7)] true)
          [(Event.directoryListed
              { request := some "d",
                value := [exampleFile "a.sav" 200, exampleFile "b.sav" 50] }, true),
           (Event.fileDownloaded { request := none, value := true }, true)] = some s' ∧
      s'.currentDownloadingFile = exampleFile "a.sav" 200 ∧
      s'.currentDownloadingFile.name ∉ s'.filesToDownload.map StorageFile.name ∧
      s'.currentDownloadingFile.name ∉ s'.filesToUpload :=
  ⟨_, rfl, by decide, by
    obtain ⟨downloaded, uploaded, _, _, h4, _, h6, _⟩ :=
      queued_in_flight_processed_exclusive exampleEnv [("a.sav", 100), ("c.sav", 7)] true
        [(Event.directoryListed
            { request := some "d",
              value := [exampleFile "a.sav" 200, exampleFile "b.sav" 50] }, true),
         (Event.fileDownloaded { request := none, value := true }, true)] _ rfl
        (by decide)
    exact ⟨(h4 (by decide)).2, (h6 _ (h4 (by decide)).1).2⟩⟩

/-- C32: for a failed error whose body does not parse, the structured step reads the
repaired body, which has the length of the body and its characters, every period
replaced by a space; so such an error whose repaired body parses to an object with
`error.code = "itemNotFound"` is recoverable. For a body that parses the structured step
reads that parse. The classification depends on the reader through these two readings
only: a reader that agrees on the body, and on the repaired body when the body does
not parse, gives the same classification. -/
theorem period_repair (env other : Env) (error : ErrorResponse)
    (hfailed : error.failed = true) :
    (fixedResponse error.response).data
        = error.response.data.map (fun c => if c = '.' then ' ' else c) ∧
    (fixedResponse error.response).length = error.response.length ∧
    (env.parse error.response = none →
      structuredParse env error.response = env.parse (fixedResponse error.response)) ∧
    (∀ v, env.parse error.response = some v → structuredParse env error.response = some v) ∧
    (env.parse error.response = none →
      ∀ fields, env.parse (fixedResponse error.response) = some (JSONValue.object fields) →
        hasItemNotFoundCode fields = true → listingErrorIrrecoverable env error = false) ∧
    (other.parse error.response = env.parse error.response →
      (env.parse error.response = none →
        other.parse (fixedResponse error.response)
          = env.parse (fixedResponse error.response)) →
      listingErrorIrrecoverable other error = listingErrorIrrecoverable env error) := by
  refine ⟨rfl, List.length_map _ _,
    structuredParse_of_none env error.response,
    fun v h => structuredParse_of_some env error.response v h, ?_, ?_⟩
  · intro hnone fields hfix hcode
    apply listingErrorIrrecoverable_of_match env error hfailed
    unfold matchesNotFound
    rw [structuredParse_of_none env _ hnone, hfix]
    simp [hcode]
  · intro h1 h2
    rw [listingErrorIrrecoverable_eq_reference, listingErrorIrrecoverable_eq_reference]
    apply referenceIrrecoverable_congr
    cases hp : env.parse error.response with
    | none =>
      rw [structuredParse_of_none env _ hp, structuredParse_of_none other _ (h1.trans hp),
        h2 hp]
    | some v =>
      rw [structuredParse_of_some env _ v hp, structuredParse_of_some other _ v (h1.trans hp)]

/-- An instance of C32: the body `{"error":.{"code":"itemNotFound"}}` does not parse, its
repaired form does, and the error is recoverable. -/
theorem period_repair_witness :
    repairedEnv.parse "\x7b\"error\":.\x7b\"code\":\"itemNotFound\"\x7d\x7d" = none ∧
    listingErrorIrrecoverable repairedEnv
        { interrupted := false, failed := true,
          response := "\x7b\"error\":.\x7b\"code\":\"itemNotFound\"\x7d\x7d",
          httpResponseCode := 404 } = false :=
  ⟨rfl,
    (period_repair repairedEnv repairedEnv
      { interrupted := false, failed := true,
        response := "\x7b\"error\":.\x7b\"code\":\"itemNotFound\"\x7d\x7d",
        httpResponseCode := 404 } rfl).2.2.2.2.1 rfl
      [("error", JSONValue.object [("code", JSONValue.string "itemNotFound")])]
      rfl (by decide)⟩

/-- C33: every run from construction that ends in success consists of a run to a state
`s` in which no transfer has been requested, the completion that makes
`directoryListedCallback` diff a listing on `s` (the listing, or the created directory,
which stands for the empty listing), and a run from there on. The download requests
issued after the diff are those of the download queue the diff computed, each descriptor
once, in the reverse order of the queue (a permutation of it); the upload requests are
those of the upload queue the diff computed, each name once, in the reverse order of the
queue; the number of requests issued after the diff is `totalFilesToHandle`; and both
queues are empty at the end. -/
theorem queued_files_transferred_once (env : Env) (loaded : HashMap Nat) (accept0 : Bool)
    (evs : List (Event × Bool)) (s' : SavesSyncRequest)
    (hrun : run env (SavesSyncRequest.create env loaded accept0) evs = some s')
    (hsucc : succeeded s') :
    ∃ (pre : List (Event × Bool)) (ev : Event) (accept : Bool) (post : List (Event × Bool))
      (s : SavesSyncRequest) (response : ListDirectoryResponse)
      (ext : List Effect) (downloaded : List StorageFile) (uploaded : List String),
      evs = pre ++ (ev, accept) :: post ∧
      run env (SavesSyncRequest.create env loaded accept0) pre = some s ∧
      deliver env s ev accept = some (directoryListedCallback env s response accept) ∧
      run env (directoryListedCallback env s response accept) post = some s' ∧
      (s.log.filter Effect.isDownloadRequest = [] ∧
        s.log.filter Effect.isUploadRequest = []) ∧
      s'.log = s.log ++ ext ∧
      ext.filter Effect.isDownloadRequest = downloaded.map (downloadRequest env) ∧
      ext.filter Effect.isUploadRequest = uploaded.map (uploadRequest env) ∧
      downloaded = (diffPhase env s response).filesToDownload.reverse ∧
      uploaded = (diffPhase env s response).filesToUpload.reverse ∧
      downloaded.Perm (diffPhase env s response).filesToDownload ∧
      uploaded.Perm (diffPhase env s response).filesToUpload ∧
      ext.countP Effect.isRequest = (diffPhase env s response).totalFilesToHandle ∧
      s'.totalFilesToHandle = (diffPhase env s response).totalFilesToHandle ∧
      s'.filesToDownload = [] ∧ s'.filesToUpload = [] := by
  rcases run_from_create_cases env loaded accept0 evs s' hrun with hb |
    ⟨pre, ev, accept, post, s, response, h1, h2, h3, h4, _, h6, h7⟩
  · exact absurd hsucc hb.running
  · obtain ⟨ext, downloaded, uploaded, hres⟩ :=
      transferred_once_after_diff env loaded accept0 pre s response accept post s' h2 h3 h7 hsucc
    exact ⟨pre, ev, accept, post, s, response, ext, downloaded, uploaded, h1, h2, h6, h7,
      h4.requested, hres⟩

/-- An instance of C33: `a.sav` and `b.sav` are downloaded and `c.sav` is uploaded; three
requests follow the diff, which is the total the final state reports. -/
theorem queued_files_transferred_once_witness :
    ∃ s' : SavesSyncRequest,
      run exampleEnv
          (SavesSyncRequest.create exampleEnv [("a.sav", 100), ("c.sav", 7)] true)
          [(Event.directoryListed
              { request := some "d",
                value := [exampleFile "a.sav" 200, exampleFile "b.sav" 50] }, true),
           (Event.fileDownloaded { request := none, value := true }, true),
           (Event.fileDownloaded { request := none, value := true }, true),
           (Event.fileUploaded { request := none, value := exampleFile "c.sav" 99 }, true)]
        = some s' ∧
      s'.totalFilesToHandle = 3 ∧
      ∃ (s : SavesSyncRequest) (ext : List Effect),
        s'.log = s.log ++ ext ∧ ext.countP Effect.isRequest = s'.totalFilesToHandle :=
  ⟨_, rfl, by decide, by
    obtain ⟨_, _, _, _, s, _, ext, _, _, _, _, _, _, _, h1, _, _, _, _, _, _, h8, h9, _⟩ :=
      queued_files_transferred_once exampleEnv [("a.sav", 100), ("c.sav", 7)] true
        [(Event.directoryListed
            { request := some "d",
              value := [exampleFile "a.sav" 200, exampleFile "b.sav" 50] }, true),
         (Event.fileDownloaded { request := none, value := true }, true),
         (Event.fileDownloaded { request := none, value := true }, true),
         (Event.fileUploaded { request := none, value := exampleFile "c.sav" 99 }, true)]
        _ rfl ⟨"d", by decide⟩
    exact ⟨s, ext, h1, h8.trans h9.symm⟩⟩

/-- C34: an error whose failed flag is clear is classified by its interrupted flag alone,
whatever its body: interrupted only, it is irrecoverable and the error callback gets it,
no create-directory operation being requested; with neither flag it is recoverable and
the create-directory operation is requested. An error whose failed flag is set and whose
body matches a not-found shape or phrase is recoverable, interrupted or not, and the
create-directory operation is requested. -/
theorem classifier_flag_edge_cases (env : Env) (s : SavesSyncRequest) (error : ErrorResponse)
    (accept : Bool) (hi : s.ignoreCallback = false) :
    (error.failed = false → listingErrorIrrecoverable env error = error.interrupted) ∧
    (error.failed = false → error.interrupted = true →
      listingErrorIrrecoverable env error = true ∧
      (directoryListedErrorCallback env s error accept).log =
        s.log
          ++ (if s.currentDownloadingFile.name ≠ "" then
                [Effect.removeSavefile s.currentDownloadingFile.name] else [])
          ++ [Effect.errorCallback error] ∧
      (directoryListedErrorCallback env s error accept).workingRequest = none) ∧
    (error.failed = false → error.interrupted = false →
      listingErrorIrrecoverable env error = false ∧
      ∃ ext : List Effect,
        (directoryListedErrorCallback env s error accept).log =
          s.log ++ [Effect.request (Operation.createDirectory (savesDirectory env))] ++ ext ∧
        (accept = true → ext = [] ∧
          (directoryListedErrorCallback env s error accept).workingRequest
            = some (Operation.createDirectory (savesDirectory env)))) ∧
    (error.failed = true → matchesNotFound env error.response = true →
      listingErrorIrrecoverable env error = false ∧
      ∃ ext : List Effect,
        (directoryListedErrorCallback env s error accept).log =
          s.log ++ [Effect.request (Operation.createDirectory (savesDirectory env))] ++ ext ∧
        (accept = true → ext = [] ∧
          (directoryListedErrorCallback env s error accept).workingRequest
            = some (Operation.createDirectory (savesDirectory env)))) := by
  refine ⟨listingErrorIrrecoverable_of_not_failed env error, ?_, ?_, ?_⟩
  · intro hf hint
    have hirr : listingErrorIrrecoverable env error = true := by
      rw [listingErrorIrrecoverable_of_not_failed env error hf, hint]
    rw [directoryListedErrorCallback_irrecoverable env s error accept hi hirr,
      finishError_eq _ _ rfl]
    exact ⟨hirr, rfl, rfl⟩
  · intro hf hint
    have hrec : listingErrorIrrecoverable env error = false := by
      rw [listingErrorIrrecoverable_of_not_failed env error hf, hint]
    exact ⟨hrec, directoryListedErrorCallback_creates env s error accept hi hrec⟩
  · intro hf hm
    have hrec := listingErrorIrrecoverable_of_match env error hf hm
    exact ⟨hrec, directoryListedErrorCallback_creates env s error accept hi hrec⟩

/-- An instance of C34: an interrupted, not failed error whose body has a not-found
phrase is irrecoverable, and a failed and interrupted error with that body is not. -/
theorem classifier_flag_edge_cases_witness :
    listingErrorIrrecoverable exampleEnv
        { interrupted := true, failed := false, response := "subdirectory not found",
          httpResponseCode := 404 } = true ∧
    listingErrorIrrecoverable exampleEnv
        { interrupted := true, failed := true, response := "subdirectory not found",
          httpResponseCode := 404 } = false :=
  ⟨((classifier_flag_edge_cases exampleEnv (SavesSyncRequest.create exampleEnv [] true)
      { interrupted := true, failed := false, response := "subdirectory not found",
        httpResponseCode := 404 } true (by decide)).2.1 rfl rfl).1,
    ((classifier_flag_edge_cases exampleEnv (SavesSyncRequest.create exampleEnv [] true)
      { interrupted := true, failed := true, response := "subdirectory not found",
        httpResponseCode := 404 } true (by decide)).2.2.2 rfl (by decide)).1⟩

/-- C35: in every state of a run `|downloadQueue| + |uploadQueue| ≤ totalFilesToHandle`,
so neither unsigned subtraction of `getProgress` wraps around (the numerator is
`totalFilesToHandle - |downloadQueue| - |uploadQueue|`), and the coarse progress lies
between `0` and `1`. -/
theorem getProgress_in_unit_interval (env : Env) (loaded : HashMap Nat) (accept : Bool)
    (evs : List (Event × Bool)) (s : SavesSyncRequest)
    (hrun : run env (SavesSyncRequest.create env loaded accept) evs = some s) :
    s.filesToDownload.length + s.filesToUpload.length ≤ s.totalFilesToHandle ∧
    sub32 s.totalFilesToHandle s.filesToDownload.length
      = s.totalFilesToHandle - s.filesToDownload.length ∧
    sub32 (sub32 s.totalFilesToHandle s.filesToDownload.length) s.filesToUpload.length
      = s.totalFilesToHandle - s.filesToDownload.length - s.filesToUpload.length ∧
    0 ≤ getProgress s ∧ getProgress s ≤ 1 := by
  have hinv := run_inv env evs _ s (create_inv env loaded accept) hrun
  have hb := hinv.bound
  refine ⟨hb, sub32_of_le _ _ (by omega), ?_, getProgress_nonneg s, getProgress_le_one s hb⟩
  rw [sub32_of_le s.totalFilesToHandle s.filesToDownload.length (by omega),
    sub32_of_le _ _ (by omega)]

/-- An instance of C35: one of three files is still queued. -/
theorem getProgress_in_unit_interval_witness :
    ∃ s : SavesSyncRequest,
      run exampleEnv (SavesSyncRequest.create exampleEnv [("a.sav", 100), ("c.sav", 7)] true)
          [(Event.directoryListed
              { request := some "d",
                value := [exampleFile "a.sav" 200, exampleFile "b.sav" 50] }, true),
           (Event.fileDownloaded { request := none, value := true }, true)] = some s ∧
        s.totalFilesToHandle = 3 ∧
        s.filesToDownload.length + s.filesToUpload.length ≤ s.totalFilesToHandle ∧
        0 ≤ getProgress s ∧ getProgress s ≤ 1 :=
  ⟨_, rfl, by decide,
    (getProgress_in_unit_interval exampleEnv [("a.sav", 100), ("c.sav", 7)] true
      [(Event.directoryListed
          { request := some "d",
            value := [exampleFile "a.sav" 200, exampleFile "b.sav" 50] }, true),
       (Event.fileDownloaded { request := none, value := true }, true)] _ rfl).1,
    (getProgress_in_unit_interval exampleEnv [("a.sav", 100), ("c.sav", 7)] true
      [(Event.directoryListed
          { request := some "d",
            value := [exampleFile "a.sav" 200, exampleFile "b.sav" 50] }, true),
       (Event.fileDownloaded { request := none, value := true }, true)] _ rfl).2.2.2⟩

/-- C36: take a run from construction whose listing has pairwise distinct names of
non-directory files and which ends in success with the index `L'`; update the listing
with every completed upload, at the timestamp its completion returned. The diff of `L'`
against the updated listing, run on the final state or on a request newly constructed on
`L'`, finds nothing to download and nothing to upload. -/
theorem successful_sync_is_fixed_point (env : Env) (loaded : HashMap Nat)
    (accept0 : Bool) (pre : List (Event × Bool)) (s : SavesSyncRequest)
    (response : ListDirectoryResponse) (accept : Bool) (post : List (Event × Bool))
    (s' : SavesSyncRequest) (request : Option String) (accept1 : Bool)
    (hpre : run env (SavesSyncRequest.create env loaded accept0) pre = some s)
    (hl : listingPhase s = true)
    (hpost : run env (directoryListedCallback env s response accept) post = some s')
    (hsucc : succeeded s')
    (hnodup : ((response.value.filter (fun f => !f.isDirectory)).map StorageFile.name).Nodup) :
    ((diffPhase env s'
        { request := request,
          value := updatedListing response.value
            (uploadResults env (directoryListedCallback env s response accept) post)
        }).filesToDownload = [] ∧
      (diffPhase env s'
        { request := request,
          value := updatedListing response.value
            (uploadResults env (directoryListedCallback env s response accept) post)
        }).filesToUpload = []) ∧
    ((diffPhase env (SavesSyncRequest.create env s'.localFilesTimestamps accept1)
        { request := request,
          value := updatedListing response.value
            (uploadResults env (directoryListedCallback env s response accept) post)
        }).filesToDownload = [] ∧
      (diffPhase env (SavesSyncRequest.create env s'.localFilesTimestamps accept1)
        { request := request,
          value := updatedListing response.value
            (uploadResults env (directoryListedCallback env s response accept) post)
        }).filesToUpload = []) := by
  obtain ⟨hinv, hq⟩ := listing_state_of_run env loaded accept0 pre s hpre hl
  obtain ⟨hd, hu, _, _⟩ := hinv.fresh hl
  obtain ⟨b, _, h2, _, hbd, hbu, hbc, hbr, hidx⟩ :=
    ledger_of_success env s s' response accept post hinv hq hl hpost hsucc
  have hinv' : Inv s' :=
    run_inv env post _ s' (directoryListedCallback_inv env s response accept hinv hl) hpost
  obtain ⟨_, hdq, huq, _⟩ := hinv'.done hsucc
  rw [hbc, hbd, h2] at hidx
  rw [hbu, h2] at hbr
  refine ⟨diffPhase_fixed_point env s s' response _ request hd hu hnodup hbr hidx hdq huq,
    diffPhase_fixed_point env s _ response _ request hd hu hnodup hbr ?_ ?_ ?_⟩
  · rw [← hidx]
    unfold SavesSyncRequest.create
    cases accept1
    · rw [start_refuse]
      rw [finishError_eq _ _ rfl]
    · rw [start_accept]
  · unfold SavesSyncRequest.create
    cases accept1
    · rw [start_refuse]
      rw [finishError_eq _ _ rfl]
    · rw [start_accept]
  · unfold SavesSyncRequest.create
    cases accept1
    · rw [start_refuse]
      rw [finishError_eq _ _ rfl]
    · rw [start_accept]

/-- An instance of C36: after `a.sav` and `b.sav` have been downloaded and `c.sav`
uploaded with the returned timestamp 99, the diff of the final index against the listing
extended by `c.sav` at 99 queues nothing. -/
theorem successful_sync_is_fixed_point_witness :
    ∃ s' : SavesSyncRequest,
      run exampleEnv
          (directoryListedCallback exampleEnv
            (SavesSyncRequest.create exampleEnv [("a.sav", 100), ("c.sav", 7)] true)
            { request := some "d", value := [exampleFile "a.sav" 200, exampleFile "b.sav" 50] }
            true)
          [(Event.fileDownloaded { request := none, value := true }, true),
           (Event.fileDownloaded { request := none, value := true }, true),
           (Event.fileUploaded { request := none, value := exampleFile "c.sav" 99 }, true)]
        = some s' ∧
      (diffPhase exampleEnv s'
        { request := some "e",
          value := updatedListing [exampleFile "a.sav" 200, exampleFile "b.sav" 50]
            [("c.sav", 99)] }).filesToDownload = [] ∧
      (diffPhase exampleEnv s'
        { request := some "e",
          value := updatedListing [exampleFile "a.sav" 200, exampleFile "b.sav" 50]
            [("c.sav", 99)] }).filesToUpload = [] :=
  ⟨_, rfl,
    (successful_sync_is_fixed_point exampleEnv [("a.sav", 100), ("c.sav", 7)] true [] _
      { request := some "d", value := [exampleFile "a.sav" 200, exampleFile "b.sav" 50] }
      true
      [(Event.fileDownloaded { request := none, value := true }, true),
       (Event.fileDownloaded { request := none, value := true }, true),
       (Event.fileUploaded { request := none, value := exampleFile "c.sav" 99 }, true)]
      _ (some "e") true rfl rfl rfl ⟨"d", by decide⟩ (by decide)).1⟩

/-- C37: in every state of a run, when the storage refuses the download of the descriptor
`f` popped from the download queue (after a completed download, or as the first download
after the listing), the request asks for the download, deletes the local file named `f`
and calls the error callback, no download being in flight; whereas a completion
delivered while an upload is in flight, a failure of the listing or of the directory
creation, the completion of the last download (whether or not the first upload is then
refused), and a refused listing delete no file. -/
theorem refused_download_deletes_local_file (env : Env) (loaded : HashMap Nat) (accept : Bool)
    (evs : List (Event × Bool)) (s : SavesSyncRequest)
    (hrun : run env (SavesSyncRequest.create env loaded accept) evs = some s) :
    (∀ (rest : List StorageFile) (file : StorageFile) (response : BoolResponse),
      downloadInFlight s = true → response.value = true →
      s.filesToDownload = rest ++ [file] → file.name ≠ "" →
      ∃ s' : SavesSyncRequest,
        deliver env s (Event.fileDownloaded response) false = some s' ∧
        s'.log = s.log ++ [Effect.saveTimestamps s'.localFilesTimestamps,
          Effect.request (downloadOperation env file), Effect.removeSavefile file.name,
          Effect.errorCallback downloadRefusedError] ∧
        s'.workingRequest = none) ∧
    (∀ (rest : List StorageFile) (file : StorageFile) (response : ListDirectoryResponse)
      (dir : String), s.workingRequest = some (Operation.listDirectory dir) →
      (diffPhase env s response).filesToDownload = rest ++ [file] → file.name ≠ "" →
      ∃ s' : SavesSyncRequest,
        deliver env s (Event.directoryListed response) false = some s' ∧
        s'.log = s.log ++ [Effect.setStorageUsedSpace (listedSize response.value),
          Effect.request (downloadOperation env file), Effect.removeSavefile file.name,
          Effect.errorCallback downloadRefusedError] ∧
        s'.workingRequest = none) ∧
    (uploadPhase s = true → ∀ (ev : Event) (a : Bool) (s' : SavesSyncRequest),
      deliver env s ev a = some s' →
      ∃ ext : List Effect, s'.log = s.log ++ ext ∧ DeletesNothing ext) ∧
    (∀ (response : BoolResponse) (a : Bool) (s' : SavesSyncRequest),
      response.value = true → s.filesToDownload = [] →
      deliver env s (Event.fileDownloaded response) a = some s' →
      ∃ ext : List Effect, s'.log = s.log ++ ext ∧ DeletesNothing ext) ∧
    (∀ (ev : Event) (a : Bool) (s' : SavesSyncRequest), ev.isListingFailure = true →
      deliver env s ev a = some s' →
      ∃ ext : List Effect, s'.log = s.log ++ ext ∧ DeletesNothing ext) ∧
    DeletesNothing (SavesSyncRequest.create env loaded false).log := by
  have hinv := run_inv env evs _ s (create_inv env loaded accept) hrun
  have ht := run_tidy env evs _ s (create_inv env loaded accept)
    (create_tidy env loaded accept) hrun
  have hi := hinv.ignore
  refine ⟨?_, ?_, ?_, ?_, ?_, create_refused_deletesNothing env loaded⟩
  · intro rest file response hf hok hq hname
    refine ⟨fileDownloadedCallback env s response false, ?_, ?_⟩
    · unfold downloadInFlight at hf
      unfold deliver
      split at hf <;> simp_all
    · rw [fileDownloadedCallback_ok env s response false hi hok]
      obtain ⟨h1, h2⟩ := downloadNextFile_refused_log env
        { s with
          workingRequest := none
          localFilesTimestamps :=
            HashMap.assign s.localFilesTimestamps s.currentDownloadingFile.name
              s.currentDownloadingFile.timestamp
          log := s.log ++ [Effect.saveTimestamps
            (HashMap.assign s.localFilesTimestamps s.currentDownloadingFile.name
              s.currentDownloadingFile.timestamp)]
          bytesDownloaded := (s.bytesDownloaded + s.currentDownloadingFile.size) % 2 ^ 32 }
        rest file hq hname
      obtain ⟨h3, _⟩ := downloadNextFile_frame env
        { s with
          workingRequest := none
          localFilesTimestamps :=
            HashMap.assign s.localFilesTimestamps s.currentDownloadingFile.name
              s.currentDownloadingFile.timestamp
          log := s.log ++ [Effect.saveTimestamps
            (HashMap.assign s.localFilesTimestamps s.currentDownloadingFile.name
              s.currentDownloadingFile.timestamp)]
          bytesDownloaded := (s.bytesDownloaded + s.currentDownloadingFile.size) % 2 ^ 32 }
        false
      refine ⟨?_, h2⟩
      rw [h1, h3]
      simp
  · intro rest file response dir hwr hq hname
    refine ⟨directoryListedCallback env s response false, ?_, ?_⟩
    · unfold deliver
      rw [hwr]
    · rw [directoryListedCallback_eq env s response false hi,
        if_neg (by rw [hq]; simp)]
      obtain ⟨h1, h2⟩ := downloadNextFile_refused_log env
        { diffPhase env s response with workingRequest := none } rest file hq hname
      refine ⟨?_, h2⟩
      rw [h1]
      show (diffPhase env s response).log ++ _ = _
      rw [diffPhase_log_listedSize]
      simp
  · intro hu ev a s' h
    exact deliver_upload_deletesNothing env s s' ev a hi
      (ht.idle (downloadInFlight_of_uploadPhase s hu)).1 hu h
  · intro response a s' hok hq h
    have h' := (deliver_fileDownloaded env s s' response a h).1
    rw [h', fileDownloadedCallback_ok env s response a hi hok,
      downloadNextFile_nil env _ a (by exact hq)]
    obtain ⟨ext, h1, h2⟩ := uploadNextFile_deletesNothing env
      { s with
        workingRequest := none
        localFilesTimestamps :=
          HashMap.assign s.localFilesTimestamps s.currentDownloadingFile.name
            s.currentDownloadingFile.timestamp
        log := s.log ++ [Effect.saveTimestamps
          (HashMap.assign s.localFilesTimestamps s.currentDownloadingFile.name
            s.currentDownloadingFile.timestamp)]
        bytesDownloaded := (s.bytesDownloaded + s.currentDownloadingFile.size) % 2 ^ 32
        currentDownloadingFile := StorageFile.empty }
      a rfl
    refine ⟨[Effect.saveTimestamps
      (HashMap.assign s.localFilesTimestamps s.currentDownloadingFile.name
        s.currentDownloadingFile.timestamp)] ++ ext, by rw [h1]; exact List.append_assoc _ _ _,
      ?_⟩
    intro e he
    rcases List.mem_append.1 he with h3 | h3
    · rw [List.mem_singleton.1 h3]; rfl
    · exact h2 e h3
  · intro ev a s' hev h
    have hf : downloadInFlight s = false := by
      unfold deliver at h
      unfold downloadInFlight
      split at h <;> simp_all [Event.isListingFailure]
    exact deliver_listing_failure_deletesNothing env s s' ev a hi (ht.idle hf).1 hev h

/-- An instance of C37: the storage refuses the download of `b.sav`, the only file to
download. -/
theorem refused_download_deletes_local_file_witness :
    ∃ s' : SavesSyncRequest,
      deliver exampleEnv (SavesSyncRequest.create exampleEnv [] true)
        (Event.directoryListed { request := some "d", value := [exampleFile "b.sav" 50] })
        false = some s' ∧
      s'.log = (SavesSyncRequest.create exampleEnv [] true).log
        ++ [Effect.setStorageUsedSpace (listedSize [exampleFile "b.sav" 50]),
          Effect.request (downloadOperation exampleEnv (exampleFile "b.sav" 50)),
          Effect.removeSavefile (exampleFile "b.sav" 50).name,
          Effect.errorCallback downloadRefusedError] ∧
      s'.workingRequest = none :=
  (refused_download_deletes_local_file exampleEnv [] true [] _ rfl).2.1 []
    (exampleFile "b.sav" 50) { request := some "d", value := [exampleFile "b.sav" 50] }
    "saves" rfl (by decide) (by decide)

/-- C38: the diff sets `bytesToDownload` to the sum of the sizes of the queued descriptors
(in 32-bit arithmetic) and `bytesDownloaded` to `0`; in every state of a run in which
the error callback has not been called, `bytesDownloaded` plus the sizes still to download
is `bytesToDownload` (in 32-bit arithmetic); so while an upload is in flight and after
success `bytesDownloaded = bytesToDownload` and `getDownloadingProgress` is exactly `1`. -/
theorem bytes_downloaded_reach_total (env : Env) (loaded : HashMap Nat) (accept : Bool)
    (evs : List (Event × Bool)) (s : SavesSyncRequest) (progress : ℚ)
    (hrun : run env (SavesSyncRequest.create env loaded accept) evs = some s) :
    (∀ (t : SavesSyncRequest) (response : ListDirectoryResponse),
      (diffPhase env t response).bytesToDownload
        = ((diffPhase env t response).filesToDownload.map StorageFile.size).sum % 2 ^ 32 ∧
      (diffPhase env t response).bytesDownloaded = 0) ∧
    ((∀ error, Effect.errorCallback error ∉ s.log) →
      (s.bytesDownloaded + pendingBytes s) % 2 ^ 32 = s.bytesToDownload) ∧
    (uploadPhase s = true ∨ (∃ date, Effect.setStorageLastSync date ∈ s.log) →
      s.bytesDownloaded = s.bytesToDownload ∧ getDownloadingProgress s progress = 1) := by
  have hinv := run_inv env evs _ s (create_inv env loaded accept) hrun
  have hout := run_outcome env evs _ s (create_inv env loaded accept)
    (create_outcome env loaded accept) hrun
  have ht := run_tidy env evs _ s (create_inv env loaded accept)
    (create_tidy env loaded accept) hrun
  have ha := run_accounted env evs _ s (create_inv env loaded accept)
    (create_tidy env loaded accept) (create_accounted env loaded accept) hrun
  have hbound : s.filesToUpload.length ≤ s.totalFilesToHandle := by
    have := hinv.bound
    omega
  refine ⟨fun t response => ⟨sumDownloadSizes_eq _, rfl⟩, ?_, ?_⟩
  · intro hno
    apply ha.pending
    rw [List.filter_eq_nil_iff]
    intro e he
    cases e <;> simp [Effect.isErrorCallback]
    exact hno _ he
  · intro hcase
    have key : downloadInFlight s = false ∧ s.log.filter Effect.isErrorCallback = [] ∧
        s.filesToDownload = [] ∧
        (s.totalFilesToHandle = 0 → s.state = RequestState.FINISHED) := by
      rcases hcase with hu | hs
      · have hwr : s.workingRequest ≠ none := by
          intro h
          simp [uploadPhase, h] at hu
        refine ⟨downloadInFlight_of_uploadPhase s hu, (hout.running hwr).1,
          hinv.uploading hu, ?_⟩
        intro h0
        have := ha.popped hu
        omega
      · obtain ⟨hwr, hd, _, hfin⟩ := hinv.done hs
        refine ⟨downloadInFlight_of_idle s hwr, ?_, hd, fun _ => hfin⟩
        rcases hout.ended hwr with ⟨_, h2, _⟩ | ⟨h1, _⟩
        · obtain ⟨date, hdate⟩ := hs
          exact absurd hdate (not_mem_of_filter_eq_nil h2 rfl)
        · exact h1
    obtain ⟨hf, hne, hq, h0⟩ := key
    obtain ⟨hm, _⟩ := ht.idle hf
    have hp := ha.pending hne
    have hb : s.bytesDownloaded = s.bytesToDownload := by
      rw [← hp]
      unfold pendingBytes
      rw [hq, hm]
      show s.bytesDownloaded = (s.bytesDownloaded + (0 + 0)) % 2 ^ 32
      rw [Nat.add_zero, Nat.mod_eq_of_lt ht.bytes]
    exact ⟨hb, getDownloadingProgress_done s progress hf hb ht.bytes hm hq h0 hbound⟩

/-- An instance of C38: both downloads of 10 bytes have completed and the upload of
`c.sav` is in flight. -/
theorem bytes_downloaded_reach_total_witness :
    ∃ s : SavesSyncRequest,
      run exampleEnv (SavesSyncRequest.create exampleEnv [("c.sav", 7)] true)
        [(Event.directoryListed
            { request := some "d", value := [exampleFile "a.sav" 1, exampleFile "b.sav" 2] },
            true),
         (Event.fileDownloaded { request := none, value := true }, true),
         (Event.fileDownloaded { request := none, value := true }, true)] = some s ∧
      s.bytesToDownload = 20 ∧
      s.bytesDownloaded = s.bytesToDownload ∧ getDownloadingProgress s 0 = 1 :=
  ⟨_, rfl, by decide,
    (bytes_downloaded_reach_total exampleEnv [("c.sav", 7)] true
      [(Event.directoryListed
          { request := some "d", value := [exampleFile "a.sav" 1, exampleFile "b.sav" 2] },
          true),
       (Event.fileDownloaded { request := none, value := true }, true),
       (Event.fileDownloaded { request := none, value := true }, true)] _ 0 rfl).2.2
      (Or.inl (by decide))⟩

/-- C39: `jsonContainsString` is `true` exactly when the key is present with a string
value, or absent with `isOptional` set; with `isOptional = false` a `true` result means
that the value read at the key is a string, the one `asString` returns; and
`jsonContainsStringOrIntegerNumber` is the disjunction of `jsonContainsString` and
`jsonContainsIntegerNumber` on the same arguments. -/
theorem jsonContainsString_characterised (item : HashMap JSONValue) (key : String)
    (isOptional : Bool) :
    (jsonContainsString item key isOptional = true ↔
      ((∃ str, HashMap.find item key = some (JSONValue.string str)) ∨
        (HashMap.find item key = none ∧ isOptional = true))) ∧
    (jsonContainsString item key false = true →
      ∃ str, HashMap.find item key = some (JSONValue.string str) ∧
        getVal item key = JSONValue.string str ∧ (getVal item key).asString = str) ∧
    jsonContainsStringOrIntegerNumber item key isOptional =
      (jsonContainsString item key isOptional
        || jsonContainsIntegerNumber item key isOptional) := by
  refine ⟨?_, ?_, ?_⟩
  · unfold jsonContainsString HashMap.contains
    cases h : HashMap.find item key with
    | none => cases isOptional <;> simp
    | some v => cases v <;> simp [JSONValue.isString]
  · unfold jsonContainsString HashMap.contains getVal
    cases h : HashMap.find item key with
    | none => simp
    | some v => cases v <;> simp [JSONValue.isString, JSONValue.asString]
  · unfold jsonContainsStringOrIntegerNumber jsonContainsString jsonContainsIntegerNumber
      HashMap.contains
    cases h : HashMap.find item key with
    | none => cases isOptional <;> simp
    | some v => cases v <;> simp [JSONValue.isString, JSONValue.isIntegerNumber]

/-- An instance of C39: the node `{"code": "itemNotFound"}` of the classifier. -/
theorem jsonContainsString_characterised_witness :
    ∃ str, HashMap.find [("code", JSONValue.string "itemNotFound")] "code"
        = some (JSONValue.string str) ∧
      getVal [("code", JSONValue.string "itemNotFound")] "code" = JSONValue.string str ∧
      (getVal [("code", JSONValue.string "itemNotFound")] "code").asString = str :=
  (jsonContainsString_characterised [("code", JSONValue.string "itemNotFound")] "code"
    false).2.1 rfl

end Cloud

/-! ## The item IDs of the AGOS savegames -/

namespace AGOS

theorem readUint32BE_writeUint32BE (value : Nat) (rest : List Nat) :
    readUint32BE (writeUint32BE [] value ++ rest) = some (value % 2 ^ 32, rest) := by
  simp only [writeUint32BE, List.nil_append, List.cons_append, readUint32BE, Option.some.injEq,
    Prod.mk.injEq, and_true]
  omega

theorem writeUint32BE_append (f : List Nat) (value : Nat) :
    writeUint32BE f value = f ++ writeUint32BE [] value := by
  simp [writeUint32BE]

/-- C40: for every 16-bit item ID `v`, `writeItemID` appends one 32-bit big-endian word
to the stream, `0xFFFFFFFF` for `v = 0` and `v - 1` otherwise, and `readItemID` at that
word returns `v` and leaves the rest of the stream. -/
theorem itemID_round_trip (v : Nat) (f rest : List Nat) (hv : v < 2 ^ 16) :
    writeItemID f v = f ++ writeItemID [] v ∧
    readUint32BE (writeItemID [] v ++ rest)
      = some (if v = 0 then 0xFFFFFFFF else v - 1, rest) ∧
    readItemID (writeItemID [] v ++ rest) = some (v, rest) := by
  by_cases h0 : v = 0
  · subst h0
    refine ⟨?_, ?_, ?_⟩
    · simp only [writeItemID, if_true]
      exact writeUint32BE_append f _
    · simp only [writeItemID, if_true]
      rw [readUint32BE_writeUint32BE]
      rfl
    · simp only [readItemID, writeItemID, if_true]
      rw [readUint32BE_writeUint32BE]
      rfl
  · refine ⟨?_, ?_, ?_⟩
    · simp only [writeItemID, if_neg h0]
      exact writeUint32BE_append f _
    · simp only [writeItemID, if_neg h0]
      rw [readUint32BE_writeUint32BE, Nat.mod_mod]
      congr 2
      omega
    · simp only [readItemID, writeItemID, if_neg h0]
      rw [readUint32BE_writeUint32BE, Nat.mod_mod]
      have h1 : (v - 1) % 2 ^ 32 = v - 1 := Nat.mod_eq_of_lt (by omega)
      rw [h1]
      dsimp only
      rw [if_neg (show ¬ v - 1 = 4294967295 by omega)]
      congr 2
      omega

/-- An instance of C40: the item ID `513`, written before the two bytes `7, 9`. -/
theorem itemID_round_trip_witness :
    writeItemID [1] 513 = [1] ++ writeItemID [] 513 ∧
    readUint32BE (writeItemID [] 513 ++ [7, 9])
      = some (if 513 = 0 then 0xFFFFFFFF else 513 - 1, [7, 9]) ∧
    readItemID (writeItemID [] 513 ++ [7, 9]) = some (513, [7, 9]) :=
  itemID_round_trip 513 [1] [7, 9] (by decide)

end AGOS
